import Mathlib

/-!
# sync-github-jira: a verification development

A shallow embedding of the synchronisation engine of `sync-github-jira`
(`jira.go`, `util.go`, `github.go`, `issues_events.go`, `issues_comments.go`,
`presync.go`, `config.go`) and theorems about it.

Conventions of the embedding

* A Go `string` is a sequence of bytes: `GoString := List Nat`, each element a
  byte value.  `len(s)` is `List.length`, `s[:n]` is `List.take n`, `a + b` is
  `++`.  String constants of the source are written with `lit`; all of them
  are ASCII, so the code points of the literal are its bytes.
* `int64` values are integers (`Int`); `strconv.ParseInt` saturates as Go does.
* A Go `error` is observed by the program only through `Error()` (a regular
  expression match in the create retry, a string comparison in the
  reconciliation pass) and through `!= nil`; it is embedded as its message.
* `fmt.Sprintf` with `%s` verbs is concatenation.
* Logging (`logrus`) has no effect on the results and is left out; so is
  `time.Sleep`.
-/

namespace SyncGithubJira

/-! ## Strings -/

/-- A Go string: a sequence of bytes. -/
abbrev GoString := List Nat

/-- The bytes of an ASCII string constant of the source. -/
def lit (s : String) : GoString := s.toList.map Char.toNat

/-- A Go `error` value, as far as the program can observe it: its `Error()` text. -/
structure GoError where
  msg : GoString
  deriving DecidableEq, Repr

/-- Go's `errors.New`. -/
def errorsNew (s : String) : GoError := ⟨lit s⟩

/-! ## util.go -/

/-- The notice appended by `shrinkString`. -/
def shrinkNotice : GoString :=
  lit "\n\nNotice: The entered text is too long. It exceeds the allowed limit of 30,000 characters."

/-- Source `shrinkString` (util.go): `if len(str) > maxLength { return str[:maxLength] + notice }; return str`.
The Go parameter is an `int`; the slice expression panics for a negative `maxLength`, so the
embedding is over the non-negative maxima (the only caller passes `30000`). -/
def shrinkString (str : GoString) (maxLength : Nat) : GoString :=
  if str.length > maxLength then
    str.take maxLength ++ shrinkNotice
  else
    str

/-! ## strconv -/

/-- ASCII decimal digit test (the class `\d` of Go's `regexp`). -/
def isDigit (b : Nat) : Bool := decide (48 ≤ b) && decide (b ≤ 57)

/-- The digit loop of `strconv.FormatInt`: writes the decimal digits of `n` in front of
`acc`, least significant first; `fuel` bounds the number of digits. -/
def formatNatAux : Nat → Nat → GoString → GoString
  | 0, _, acc => acc
  | fuel + 1, n, acc =>
    if n < 10 then (48 + n) :: acc
    else formatNatAux fuel (n / 10) ((48 + n % 10) :: acc)

/-- Decimal text of a natural number, most significant digit first. -/
def formatNat (n : Nat) : GoString := formatNatAux (n + 1) n []

/-- Go `strconv.FormatInt(i, 10)` (also `strconv.Itoa`). -/
def FormatInt (i : Int) : GoString :=
  if i < 0 then 45 :: formatNat i.natAbs else formatNat i.natAbs

/-- Value of a string of decimal digits (most significant first). -/
def digitsValue (ds : GoString) : Nat :=
  ds.foldl (fun acc b => 10 * acc + (b - 48)) 0

/-- The optional sign that `strconv.ParseInt` reads first: `(negative, remainder)`. -/
def splitSign : GoString → Bool × GoString
  | 45 :: r => (true, r)
  | 43 :: r => (false, r)
  | r => (false, r)

/-- Go `strconv.ParseInt(s, 10, 64)`: the value and whether an error was returned.
A syntax error gives `0`; a value out of range gives the nearest bound of `int64`
together with a range error. -/
def ParseInt (s : GoString) : Int × Bool :=
  let neg := (splitSign s).1
  let body := (splitSign s).2
  if body.isEmpty || !body.all isDigit then (0, true)
  else
    let un := digitsValue body
    if !neg && decide (un ≥ 2 ^ 63) then ((2 : Int) ^ 63 - 1, true)
    else if neg && decide (un > 2 ^ 63) then (-(2 : Int) ^ 63, true)
    else if neg then (-(un : Int), false)
    else ((un : Int), false)

/-! ## The comment back-reference token (jira.go) -/

/-- Removes the constant `p` from the front of `s`, when `s` starts with it. -/
def dropLit : GoString → GoString → Option GoString
  | [], s => some s
  | _ :: _, [] => none
  | a :: p, b :: s => if a = b then dropLit p s else none

/-- Source `jCommentIDRegex.FindStringSubmatch(body)[1]` for
`jCommentIDRegex = ^Comment \[\(ID (\d+)\)\|`: the text of the capture group when the
expression matches, `none` when it does not.  The expression is anchored at the start of
the text; after the constant `Comment [(ID ` the group takes one or more digits and must be
followed by `)|`.  As `)` is not a digit, the group of any match is the maximal run of
digits, so the leftmost-first match is the one computed here. -/
def jCommentIDRegex_FindStringSubmatch (body : GoString) : Option GoString :=
  match dropLit (lit "Comment [(ID ") body with
  | none => none
  | some rest =>
    let ds := rest.takeWhile isDigit
    let tl := rest.dropWhile isDigit
    if ds.isEmpty then none
    else
      match dropLit (lit ")|") tl with
      | none => none
      | some _ => some ds

/-- Source `jCommentIDRegex.MatchString(body)`. -/
def jCommentIDRegex_MatchString (body : GoString) : Bool :=
  (jCommentIDRegex_FindStringSubmatch body).isSome

/-! ## Regular expressions of the source -/

/-- The pieces `reAssigneeError` is made of: a literal byte, `.` and `.*`. -/
inductive RegexItem where
  | byte (b : Nat)
  | any
  | anyStar
  deriving DecidableEq, Repr

/-- The texts that can remain after `.*` has consumed a prefix: `.` matches any byte but
a newline. -/
def dotSuffixes : GoString → List GoString
  | [] => [[]]
  | b :: s => (b :: s) :: (if b = 10 then [] else dotSuffixes s)

/-- Whether the item sequence matches a prefix of the text. -/
def matchHere : List RegexItem → GoString → Bool
  | [], _ => true
  | .byte b :: r, s =>
    match s with
    | x :: t => decide (x = b) && matchHere r t
    | [] => false
  | .any :: r, s =>
    match s with
    | x :: t => decide (x ≠ 10) && matchHere r t
    | [] => false
  | .anyStar :: r, s => (dotSuffixes s).any (fun t => matchHere r t)

/-- Go `(*Regexp).MatchString` for an unanchored item sequence: a match may start at any
position of the text. -/
def matchAnywhere (re : List RegexItem) (s : GoString) : Bool :=
  s.tails.any (fun t => matchHere re t)

/-- Source `reAssigneeError = regexp.MustCompile("assignee.*User.*does not exist.")` (jira.go). -/
def reAssigneeError : List RegexItem :=
  (lit "assignee").map .byte ++ [.anyStar] ++ (lit "User").map .byte ++ [.anyStar] ++
    (lit "does not exist").map .byte ++ [.any]

/-- Source `reAssigneeError.MatchString(err.Error())`. -/
def reAssigneeError_MatchString (msg : GoString) : Bool := matchAnywhere reAssigneeError msg

/-! ## Target-tracker data (go-jira) -/

/-- Type `jira.User`, the field the program uses. -/
structure JiraUser where
  Name : GoString
  deriving DecidableEq, Repr

/-- Type `jira.Component`, the field the program uses. -/
structure JiraComponent where
  Name : GoString
  deriving DecidableEq, Repr

/-- A value stored in `IssueFields.Unknowns` (`map[string]interface{}`): the program stores
the source issue identifier (`int64`) and the source issue link (`string`). -/
inductive FieldValue where
  | int (v : Int)
  | str (s : GoString)
  deriving DecidableEq, Repr

/-- Type `jira.IssueFields`, the fields the program reads or writes.  `TypeName` is
`Type.Name`, `ProjectKey` is `Project.Key`, `StatusCategoryName` is
`Status.StatusCategory.Name`; versions are given by their `Name`.  `Assignee` is a
pointer in the source and may be nil; `Unknowns` is a map, here a list of bindings. -/
structure IssueFields where
  TypeName : GoString
  ProjectKey : GoString
  Components : List JiraComponent
  FixVersions : List GoString
  AffectsVersions : List GoString
  Labels : List GoString
  Assignee : Option JiraUser
  Summary : GoString
  Description : GoString
  StatusCategoryName : GoString
  Unknowns : List (GoString × FieldValue)
  deriving DecidableEq, Repr

/-- The zero value `jira.IssueFields{}`. -/
def IssueFields.zero : IssueFields := ⟨[], [], [], [], [], [], none, [], [], [], []⟩

/-- Type `jira.Issue`.  `Fields` is a pointer in the source; the issues the program
handles (built by it, or decoded from a tracker response) always carry it. -/
structure JiraIssue where
  ID : GoString
  Key : GoString
  Fields : IssueFields
  deriving DecidableEq, Repr

/-- The zero value `jira.Issue{}`. -/
def JiraIssue.zero : JiraIssue := ⟨[], [], IssueFields.zero⟩


/-! ## Source-tracker data (go-github)

The getters of go-github (`GetID`, `GetLogin`, ...) return the zero value for an absent
field or a nil receiver; the structures below hold what the getters return. -/

/-- Type `github.User`. -/
structure GithubUser where
  Login : GoString
  HTMLURL : GoString
  Name : GoString
  deriving DecidableEq, Repr

/-- Type `github.Label`. -/
structure GithubLabel where
  Name : GoString
  deriving DecidableEq, Repr

/-- Type `github.Issue`.  `CreatedAt` is a point in time; `Comments` is the comment
count reported with the issue; `IsPullRequest` is the result of `IsPullRequest()`. -/
structure GithubIssue where
  ID : Int
  Number : Int
  Title : GoString
  Body : GoString
  State : GoString
  HTMLURL : GoString
  User : GithubUser
  Assignee : GithubUser
  CreatedAt : Int
  Labels : List GithubLabel
  Comments : Int
  IsPullRequest : Bool := false
  deriving DecidableEq, Repr

/-- Type `github.IssueComment`. -/
structure GithubIssueComment where
  ID : Int
  Body : GoString
  HTMLURL : GoString
  User : GithubUser
  CreatedAt : Int
  deriving DecidableEq, Repr

/-- Type `github.IssuesEvent`: `RepoName` is `GetRepo().GetName()`, `Assignee` and
`Label` are the event's own assignee and label. -/
structure IssuesEvent where
  Action : GoString
  Issue : GithubIssue
  RepoName : GoString
  Assignee : GithubUser
  Label : GithubLabel
  deriving DecidableEq, Repr

/-- Type `github.IssueCommentEvent`. -/
structure IssueCommentEvent where
  Action : GoString
  Issue : GithubIssue
  Comment : GithubIssueComment
  RepoName : GoString
  deriving DecidableEq, Repr

/-! ## config.go -/

/-- A Go map read by key: the list of its bindings.  `m[k]` is `mapGet`, which yields the
binding and whether the key is present. -/
abbrev GoMap (κ : Type) (α : Type) := List (κ × α)

/-- The comma-ok map read `v, ok := m[k]`. -/
def mapGet {κ α : Type} [DecidableEq κ] (m : GoMap κ α) (k : κ) : Option α :=
  match m with
  | [] => none
  | (k1, v) :: rest => if k1 = k then some v else mapGet rest k

/-- The map write `m[k] = v`. -/
def mapSet {κ α : Type} [DecidableEq κ] (m : GoMap κ α) (k : κ) (v : α) : GoMap κ α :=
  match m with
  | [] => [(k, v)]
  | (k1, v1) :: rest => if k1 = k then (k, v) :: rest else (k1, v1) :: mapSet rest k v

/-- Type `RepoConfig` (config.go). -/
structure RepoConfig where
  GithubOwner : GoString
  JiraProjectKey : GoString
  JiraComponents : List GoString
  JiraIssueType : GoString
  IssueTypeLabelMap : GoMap GoString GoString
  ComponentLabelMap : GoMap GoString GoString
  TransitionMap : GoMap GoString (List GoString)
  deriving DecidableEq, Repr

/-- The zero value `RepoConfig{}`, which a read of `RepoConfigMap` gives for a repository
that is not configured. -/
def RepoConfig.zero : RepoConfig := ⟨[], [], [], [], [], [], []⟩

/-- Type `fieldKey` (config.go). -/
inductive fieldKey where
  | gitHubID
  | gitHubURL
  | gitHubNumber
  | gitHubLabels
  | gitHubStatus
  | gitHubReporter
  | lastISUpdate
  deriving DecidableEq, Repr

/-- Type `Config` (config.go), the part the synchronisation engine reads.
`GithubIssueSince` is a point in time. -/
structure Config where
  RepoConfigMap : GoMap GoString RepoConfig
  FixVersions : GoMap GoString (List GoString)
  AffectsVersions : GoMap GoString (List GoString)
  AssigneeMap : GoMap GoString GoString
  FieldIDs : GoMap fieldKey GoString
  GithubIssueSince : Int := 0
  UseLastSyncTimeFile : Bool := false
  deriving DecidableEq, Repr

/-- The read `s.Config.RepoConfigMap[repoName]`. -/
def Config.repo (config : Config) (repoName : GoString) : RepoConfig :=
  (mapGet config.RepoConfigMap repoName).getD RepoConfig.zero

/-- The read `repoConfig.TransitionMap[name]` (nil slice when absent). -/
def RepoConfig.transitions (repoConfig : RepoConfig) (name : GoString) : List GoString :=
  (mapGet repoConfig.TransitionMap name).getD []

/-- Source `getFieldID` (config.go): the identifier with the `customfield_` prefix. -/
def Config.getFieldID (config : Config) (key : fieldKey) : GoString × Option GoError :=
  match mapGet config.FieldIDs key with
  | none => ([], some (errorsNew "fieldKey not exists"))
  | some val => (lit "customfield_" ++ val, none)

/-- Source `getFieldKey` (config.go): the bare identifier. -/
def Config.getFieldKey (config : Config) (key : fieldKey) : GoString × Option GoError :=
  match mapGet config.FieldIDs key with
  | none => ([], some (errorsNew "fieldKey not exists"))
  | some val => (val, none)

/-- Source constant `JiraStatusDoneName`. -/
def JiraStatusDoneName : GoString := lit "Done"

/-- Source constant `JiraTransitionDoneName`. -/
def JiraTransitionDoneName : GoString := lit "Done"

/-- Source constant `JiraTransitionTodoName`. -/
def JiraTransitionTodoName : GoString := lit "To Do"

/-- Type `Server` (server.go) without its two API clients, which are passed to each
operation: the configuration, the external converter `./markdown.rb`, and the rendering
`t.In(s.Config.Loc).Format(commentDateFormat)` of a point in time. -/
structure Server where
  Config : Config
  markdown : GoString → Except GoError GoString
  formatTime : Int → GoString

/-- Type `jira.Comment`: the fields the program reads or writes, and the author as the
part it carries along unchanged. -/
structure JiraComment where
  ID : GoString
  Body : GoString
  Author : GoString
  deriving DecidableEq, Repr

/-- The zero value `jira.Comment{}`. -/
def JiraComment.zero : JiraComment := ⟨[], [], []⟩

/-- Source `doFindComment` (jira.go): scans the comments in order; on a body matching
`jCommentIDRegex` it parses the captured digits with `strconv.ParseInt` (the error is
discarded) and stops at the first comment whose parsed identifier equals
`githubCommentID`.  Returns `(result, found)`. -/
def doFindComment : List JiraComment → Int → JiraComment × Bool
  | [], _ => (JiraComment.zero, false)
  | jiraComment :: rest, githubCommentID =>
    match jCommentIDRegex_FindStringSubmatch jiraComment.Body with
    | some m =>
      if githubCommentID = (ParseInt m).1 then (jiraComment, true)
      else doFindComment rest githubCommentID
    | none => doFindComment rest githubCommentID

/-! ## Formatting (jira.go) -/

/-- The external converter `./markdown.rb`, as the program sees it: a text, or a failure
(of the pipe or of the process). -/
abbrev Converter := GoString → Except GoError GoString

/-- Source `jiraMarkdownTransform` (jira.go): the converted body, truncated to `30000`,
and no error; on a converter failure the raw body, truncated, and the error. -/
def jiraMarkdownTransform (markdown : Converter) (githubIssueBodyOld : GoString) :
    GoString × Option GoError :=
  let maxLength := 30000
  match markdown githubIssueBodyOld with
  | .error err => (shrinkString githubIssueBodyOld maxLength, some err)
  | .ok githubIssueBodyNewByte => (shrinkString githubIssueBodyNewByte maxLength, none)

/-- Type `githubIssueOptions` (github.go). -/
structure githubIssueOptions where
  githubIssueNumber : GoString
  githubIssueLink : GoString
  githubIssueUserLogin : GoString
  githubIssueUserLink : GoString
  githubIssueUserName : GoString
  githubIssueTime : GoString
  githubIssueAssigneeLogin : GoString
  githubLabels : List GithubLabel
  deriving DecidableEq, Repr

/-- Source `extractGithubIssueOptions` (github.go). -/
def extractGithubIssueOptions (s : Server) (githubIssue : GithubIssue) : githubIssueOptions :=
  { githubIssueNumber := FormatInt githubIssue.Number
    githubIssueLink := githubIssue.HTMLURL
    githubIssueUserLogin := githubIssue.User.Login
    githubIssueUserLink := githubIssue.User.HTMLURL
    githubIssueUserName := githubIssue.User.Name
    githubIssueTime := s.formatTime githubIssue.CreatedAt
    githubIssueAssigneeLogin := githubIssue.Assignee.Login
    githubLabels := githubIssue.Labels }

/-- Source `jiraIssueBodyFormat` (jira.go). -/
def jiraIssueBodyFormat (s : Server) (githubIssueBody : GoString) (options : githubIssueOptions) :
    GoString :=
  let footnotes :=
    lit "Create issue [(#" ++ options.githubIssueNumber ++ lit ")|" ++ options.githubIssueLink ++
      lit "] from GitHub user [" ++ options.githubIssueUserLogin ++ lit "|" ++
      options.githubIssueUserLink ++ lit "]"
  let footnotes :=
    if options.githubIssueUserName.length > 0 then
      footnotes ++ lit " (" ++ options.githubIssueUserName ++ lit ")"
    else footnotes
  let jiraIssueBody := (jiraMarkdownTransform s.markdown githubIssueBody).1
  jiraIssueBody ++ lit "\n" ++ lit "\n----\n" ++ lit "\n" ++ footnotes ++ lit " at " ++
    options.githubIssueTime

/-- Source `jiraIssueOpenFormat` (jira.go). -/
def jiraIssueOpenFormat (s : Server) (githubIssueID : Int) (repoName githubIssueTitle
    githubIssueBody : GoString) (options : githubIssueOptions) : JiraIssue :=
  let components := (s.Config.repo repoName).JiraComponents.map (fun v => JiraComponent.mk v)
  let fixVersions := (mapGet s.Config.FixVersions (s.Config.repo repoName).JiraProjectKey).getD []
  let affectsVersions :=
    (mapGet s.Config.AffectsVersions (s.Config.repo repoName).JiraProjectKey).getD []
  let assignee : Option JiraUser :=
    match mapGet s.Config.AssigneeMap options.githubIssueAssigneeLogin with
    | some name => some ⟨name⟩
    | none => none
  let labels := [lit "github"]
  let fields : IssueFields :=
    { TypeName := (s.Config.repo repoName).JiraIssueType
      ProjectKey := (s.Config.repo repoName).JiraProjectKey
      Components := components
      FixVersions := fixVersions
      AffectsVersions := affectsVersions
      Labels := labels
      Assignee := assignee
      Summary := githubIssueTitle
      Description := jiraIssueBodyFormat s githubIssueBody options
      StatusCategoryName := []
      Unknowns := [] }
  -- set JIRA custom field "GitHub ID" = issue.id
  let fields : IssueFields :=
    match s.Config.getFieldID .gitHubID with
    | (githubIssueFieldID, none) =>
      { fields with Unknowns := mapSet fields.Unknowns githubIssueFieldID (.int githubIssueID) }
    | (_, some _) => fields
  -- issue custom field githubURL only appears in JIRA project TIKV
  let fields : IssueFields :=
    if (s.Config.repo repoName).JiraProjectKey = lit "TIKV" then
      match s.Config.getFieldID .gitHubURL with
      | (githubURLFieldID, none) =>
        { fields with
          Unknowns := mapSet fields.Unknowns githubURLFieldID (.str options.githubIssueLink) }
      | (_, some _) => fields
    else fields
  { ID := [], Key := [], Fields := fields }

/-- Source `jiraIssueUpdateFormat` (jira.go). -/
def jiraIssueUpdateFormat (s : Server) (jiraIssueID jiraIssueKey githubIssueTitle
    githubIssueBody : GoString) (options : githubIssueOptions) : JiraIssue :=
  let fields : IssueFields :=
    { IssueFields.zero with
      Summary := githubIssueTitle
      Description := jiraIssueBodyFormat s githubIssueBody options }
  { Fields := fields, Key := jiraIssueKey, ID := jiraIssueID }

/-- Type `githubIssueCommentOptions` (github.go). -/
structure githubIssueCommentOptions where
  githubIssueCommentID : GoString
  githubIssueCommentLink : GoString
  githubIssueCommentUserLogin : GoString
  githubIssueCommentUserLink : GoString
  githubIssueCommentUserName : GoString
  githubIssueCommentTime : GoString
  deriving DecidableEq, Repr

/-- Source `jiraIssueCommentFormat` (jira.go). -/
def jiraIssueCommentFormat (markdown : Converter) (githubIssueCommentBody : GoString)
    (options : githubIssueCommentOptions) : GoString :=
  let footnotes :=
    lit "Comment [(ID " ++ options.githubIssueCommentID ++ lit ")|" ++
      options.githubIssueCommentLink ++ lit "] from GitHub user [" ++
      options.githubIssueCommentUserLogin ++ lit "|" ++
      options.githubIssueCommentUserLink ++ lit "]"
  let footnotes :=
    if options.githubIssueCommentUserName.length > 0 then
      footnotes ++ lit " (" ++ options.githubIssueCommentUserName ++ lit ")"
    else footnotes
  let jiraIssueCommentBody := (jiraMarkdownTransform markdown githubIssueCommentBody).1
  footnotes ++ lit " at " ++ options.githubIssueCommentTime ++ lit "\n" ++ lit "\n----\n" ++
    lit "\n" ++ jiraIssueCommentBody ++ lit "\n"

/-- Source `extractGithubIssueCommentOptions` (github.go). -/
def extractGithubIssueCommentOptions (s : Server) (githubIssueComment : GithubIssueComment) :
    githubIssueCommentOptions :=
  { githubIssueCommentID := FormatInt githubIssueComment.ID
    githubIssueCommentLink := githubIssueComment.HTMLURL
    githubIssueCommentUserLogin := githubIssueComment.User.Login
    githubIssueCommentUserLink := githubIssueComment.User.HTMLURL
    githubIssueCommentUserName := githubIssueComment.User.Name
    githubIssueCommentTime := s.formatTime githubIssueComment.CreatedAt }

/-! ## The source-tracker client (github.go)

The go-github client is read-only for this program.  It is embedded as a function from a
listing request to its response: a page of items with `resp.NextPage`, or an error. -/

/-- Type `github.ListOptions`. -/
structure ListOptions where
  Page : Int
  PerPage : Int
  deriving DecidableEq, Repr

/-- Type `github.IssueListByRepoOptions`, the fields the program sets (`SortKey` is the
field `Sort`). -/
structure IssueListByRepoOptions where
  Since : Int
  State : GoString
  SortKey : GoString
  Direction : GoString
  ListOptions : ListOptions
  deriving DecidableEq, Repr

/-- Type `github.IssueListCommentsOptions`, the fields the program sets (`SortKey` is the
field `Sort`). -/
structure IssueListCommentsOptions where
  Since : Int
  SortKey : GoString
  Direction : GoString
  ListOptions : ListOptions
  deriving DecidableEq, Repr

/-- A successful response of a listing: the items and `resp.NextPage`. -/
structure GithubPage (α : Type) where
  items : List α
  NextPage : Int

/-- The go-github client: `Issues.ListByRepo(ctx, owner, repo, opts)` and
`Issues.ListComments(ctx, owner, repo, number, opts)`. -/
structure GithubClient where
  ListByRepo : GoString → GoString → IssueListByRepoOptions →
    Except GoError (GithubPage GithubIssue)
  ListComments : GoString → GoString → Int → IssueListCommentsOptions →
    Except GoError (GithubPage GithubIssueComment)

/-- The loop `for { ... }` of `getGithubIssuesByRepo`: one request per iteration, until a
response has `NextPage == 0`.  The source does not bound the number of pages; `fuel` bounds
the iterations here, and `none` is the result when it runs out. -/
def getGithubIssuesByRepo_loop (g : GithubClient) (owner repoName : GoString) :
    Nat → IssueListByRepoOptions → List GithubIssue → Option (Except GoError (List GithubIssue))
  | 0, _, _ => none
  | fuel + 1, githubIssueListByRepoOptions, allIssues =>
    match g.ListByRepo owner repoName githubIssueListByRepoOptions with
    | .error err => some (.error err)
    | .ok resp =>
      -- only consider issue which is not pullrequest
      let allIssues := allIssues ++ resp.items.filter (fun i => !i.IsPullRequest)
      if resp.NextPage = 0 then some (.ok allIssues)
      else
        getGithubIssuesByRepo_loop g owner repoName fuel
          { githubIssueListByRepoOptions with
            ListOptions := { githubIssueListByRepoOptions.ListOptions with Page := resp.NextPage } }
          allIssues

/-- Source `getGithubIssuesByRepo` (github.go). -/
def getGithubIssuesByRepo (g : GithubClient) (s : Server) (fuel : Nat) (owner repoName : GoString) :
    Option (Except GoError (List GithubIssue)) :=
  let githubIssueListByRepoOptions : IssueListByRepoOptions :=
    { Since := s.Config.GithubIssueSince
      State := lit "all"
      SortKey := lit "created"
      Direction := lit "asc"
      ListOptions := { Page := 1, PerPage := 100 } }
  getGithubIssuesByRepo_loop g owner repoName fuel githubIssueListByRepoOptions []

/-- The loop `for { ... }` of `getGithubIssueComments`; `fuel` as in
`getGithubIssuesByRepo_loop`. -/
def getGithubIssueComments_loop (g : GithubClient) (owner repoName : GoString) (number : Int) :
    Nat → IssueListCommentsOptions → List GithubIssueComment →
      Option (Except GoError (List GithubIssueComment))
  | 0, _, _ => none
  | fuel + 1, githubIssueListCommentsOptions, allComments =>
    match g.ListComments owner repoName number githubIssueListCommentsOptions with
    | .error err => some (.error err)
    | .ok resp =>
      let allComments := allComments ++ resp.items
      if resp.NextPage = 0 then some (.ok allComments)
      else
        getGithubIssueComments_loop g owner repoName number fuel
          { githubIssueListCommentsOptions with
            ListOptions :=
              { githubIssueListCommentsOptions.ListOptions with Page := resp.NextPage } }
          allComments

/-- Source `getGithubIssueComments` (github.go). -/
def getGithubIssueComments (g : GithubClient) (s : Server) (fuel : Nat) (owner repoName : GoString)
    (number : Int) : Option (Except GoError (List GithubIssueComment)) :=
  let githubIssueListCommentsOptions : IssueListCommentsOptions :=
    { Since := s.Config.GithubIssueSince
      SortKey := lit "created"
      Direction := lit "asc"
      ListOptions := { Page := 1, PerPage := 100 } }
  getGithubIssueComments_loop g owner repoName number fuel githubIssueListCommentsOptions []

/-! ## The target-tracker client

The go-jira client is the program's interface to the target tracker.  It is embedded as
a record of operations over an arbitrary tracker state `σ`: each operation takes its
arguments and the current state and gives its response and the next state.  A `World`
pairs the tracker state with the log of the calls made so far, in order, each with the
error it returned (if any). -/

/-- A call on the target tracker. -/
inductive JiraCall where
  | Search (jql : GoString)
  | Create (issue : JiraIssue)
  | Update (issue : JiraIssue)
  | DoTransition (ticketID transitionID : GoString)
  | UpdateAssignee (issueID : GoString) (assignee : Option JiraUser)
  | GetComments (issueID : GoString)
  | AddComment (issueID : GoString) (comment : JiraComment)
  | UpdateComment (issueID : GoString) (comment : JiraComment)
  | DeleteComment (issueID commentID : GoString)
  deriving DecidableEq, Repr

/-- The calls that change the target tracker (all but the two reads). -/
def JiraCall.isMutating : JiraCall → Bool
  | .Search _ => false
  | .GetComments _ => false
  | _ => true

/-- The go-jira client over a tracker state `σ`. `GetComments` is the request
`GET rest/api/2/issue/<id>/comment` (`NewRequest` followed by `Do`). -/
structure JiraClient (σ : Type) where
  Search : GoString → σ → Except GoError (List JiraIssue) × σ
  Create : JiraIssue → σ → Except GoError JiraIssue × σ
  Update : JiraIssue → σ → Except GoError JiraIssue × σ
  DoTransition : GoString → GoString → σ → Option GoError × σ
  UpdateAssignee : GoString → Option JiraUser → σ → Option GoError × σ
  GetComments : GoString → σ → Except GoError (List JiraComment) × σ
  AddComment : GoString → JiraComment → σ → Option GoError × σ
  UpdateComment : GoString → JiraComment → σ → Option GoError × σ
  DeleteComment : GoString → GoString → σ → Option GoError × σ

/-- The tracker state and the log of the calls made on it. -/
structure World (σ : Type) where
  tracker : σ
  log : List (JiraCall × Option GoError)

/-- The error of a response, if any. -/
def errOf {α : Type} : Except GoError α → Option GoError
  | .ok _ => none
  | .error e => some e

/-- Call `s.jiraClient.Issue.Search(jql, nil)`. -/
def IssueSearch {σ : Type} (c : JiraClient σ) (jql : GoString) (w : World σ) :
    Except GoError (List JiraIssue) × World σ :=
  ((c.Search jql w.tracker).1,
    ⟨(c.Search jql w.tracker).2, w.log ++ [(.Search jql, errOf (c.Search jql w.tracker).1)]⟩)

/-- Call `s.jiraClient.Issue.Create(&issue)`. -/
def IssueCreate {σ : Type} (c : JiraClient σ) (issue : JiraIssue) (w : World σ) :
    Except GoError JiraIssue × World σ :=
  ((c.Create issue w.tracker).1,
    ⟨(c.Create issue w.tracker).2, w.log ++ [(.Create issue, errOf (c.Create issue w.tracker).1)]⟩)

/-- Call `s.jiraClient.Issue.Update(&issue)`. -/
def IssueUpdate {σ : Type} (c : JiraClient σ) (issue : JiraIssue) (w : World σ) :
    Except GoError JiraIssue × World σ :=
  ((c.Update issue w.tracker).1,
    ⟨(c.Update issue w.tracker).2, w.log ++ [(.Update issue, errOf (c.Update issue w.tracker).1)]⟩)

/-- Call `s.jiraClient.Issue.DoTransition(ticketID, transitionID)`. -/
def IssueDoTransition {σ : Type} (c : JiraClient σ) (ticketID transitionID : GoString)
    (w : World σ) : Option GoError × World σ :=
  ((c.DoTransition ticketID transitionID w.tracker).1,
    ⟨(c.DoTransition ticketID transitionID w.tracker).2,
      w.log ++ [(.DoTransition ticketID transitionID,
        (c.DoTransition ticketID transitionID w.tracker).1)]⟩)

/-- Call `s.jiraClient.Issue.UpdateAssignee(issueID, assignee)`. -/
def IssueUpdateAssignee {σ : Type} (c : JiraClient σ) (issueID : GoString)
    (assignee : Option JiraUser) (w : World σ) : Option GoError × World σ :=
  ((c.UpdateAssignee issueID assignee w.tracker).1,
    ⟨(c.UpdateAssignee issueID assignee w.tracker).2,
      w.log ++ [(.UpdateAssignee issueID assignee,
        (c.UpdateAssignee issueID assignee w.tracker).1)]⟩)

/-- The request `GET rest/api/2/issue/<id>/comment`. -/
def GetComments {σ : Type} (c : JiraClient σ) (issueID : GoString) (w : World σ) :
    Except GoError (List JiraComment) × World σ :=
  ((c.GetComments issueID w.tracker).1,
    ⟨(c.GetComments issueID w.tracker).2,
      w.log ++ [(.GetComments issueID, errOf (c.GetComments issueID w.tracker).1)]⟩)

/-- Call `s.jiraClient.Issue.AddComment(issueID, comment)`. -/
def IssueAddComment {σ : Type} (c : JiraClient σ) (issueID : GoString) (comment : JiraComment)
    (w : World σ) : Option GoError × World σ :=
  ((c.AddComment issueID comment w.tracker).1,
    ⟨(c.AddComment issueID comment w.tracker).2,
      w.log ++ [(.AddComment issueID comment, (c.AddComment issueID comment w.tracker).1)]⟩)

/-- Call `s.jiraClient.Issue.UpdateComment(issueID, comment)`. -/
def IssueUpdateComment {σ : Type} (c : JiraClient σ) (issueID : GoString)
    (comment : JiraComment) (w : World σ) : Option GoError × World σ :=
  ((c.UpdateComment issueID comment w.tracker).1,
    ⟨(c.UpdateComment issueID comment w.tracker).2,
      w.log ++ [(.UpdateComment issueID comment,
        (c.UpdateComment issueID comment w.tracker).1)]⟩)

/-- Call `s.jiraClient.Issue.DeleteComment(issueID, commentID)`. -/
def IssueDeleteComment {σ : Type} (c : JiraClient σ) (issueID commentID : GoString)
    (w : World σ) : Option GoError × World σ :=
  ((c.DeleteComment issueID commentID w.tracker).1,
    ⟨(c.DeleteComment issueID commentID w.tracker).2,
      w.log ++ [(.DeleteComment issueID commentID,
        (c.DeleteComment issueID commentID w.tracker).1)]⟩)

/-- How a Go function ends: it returns a value, or the goroutine panics (here: a nil
pointer dereference). -/
inductive Outcome (α : Type) where
  | ret (v : α)
  | panic
  deriving DecidableEq, Repr

/-! ## The correlation index (jira.go) -/

/-- The query text built by `findIssue`. -/
def findIssueJQL (s : Server) (projectKey : GoString) (issueID : Int) : GoString :=
  lit "project='" ++ projectKey ++ lit "' AND cf[" ++ (s.Config.getFieldKey .gitHubID).1 ++
    lit "] = " ++ FormatInt issueID

/-- Source `findIssue` (jira.go). -/
def findIssue {σ : Type} (c : JiraClient σ) (s : Server) (projectKey : GoString) (issueID : Int)
    (w : World σ) : Except GoError JiraIssue × World σ :=
  let jql := findIssueJQL s projectKey issueID
  match IssueSearch c jql w with
  | (.error err, w1) => (.error err, w1)
  | (.ok jiraIssue, w1) =>
    match jiraIssue with
    | [] => (.error (errorsNew "Issue not exists"), w1)
    | first :: _ => (.ok first, w1)

/-- Source `findComment` (jira.go). -/
def findComment {σ : Type} (c : JiraClient σ) (jiraIssueID : GoString) (githubCommentID : Int)
    (w : World σ) : Except GoError JiraComment × World σ :=
  match GetComments c jiraIssueID w with
  | (.error err, w1) => (.error err, w1)
  | (.ok jiraComments, w1) =>
    match doFindComment jiraComments githubCommentID with
    | (_, false) => (.error (errorsNew "Corresponded JIRA comment not exists"), w1)
    | (result, true) => (.ok result, w1)

/-! ## Incremental handlers (issues_events.go) -/

/-- The create-and-retry loop of `handleIssueEventOpen`, from label `CreateIssueLabel` on:
`Create`; on an error matching `reAssigneeError`, `goto retryCreateLabel` (the assignee is
set to nil and `Create` is called again); on any other error, return it.  The source loop
has no bound; `fuel` bounds the number of `Create` calls the embedding follows, and the
result is `none` when the loop is still running after that many. -/
def handleIssueEventOpen_loop {σ : Type} (c : JiraClient σ) :
    Nat → JiraIssue → World σ → Option (Option GoError) × World σ
  | 0, _, w => (none, w)
  | fuel + 1, jiraIssue, w =>
    match IssueCreate c jiraIssue w with
    | (.ok _, w1) => (some none, w1)
    | (.error err, w1) =>
      if reAssigneeError_MatchString err.msg then
        handleIssueEventOpen_loop c fuel
          { jiraIssue with Fields := { jiraIssue.Fields with Assignee := none } } w1
      else (some (some err), w1)

/-- Source `handleIssueEventOpen` (issues_events.go). -/
def handleIssueEventOpen {σ : Type} (c : JiraClient σ) (s : Server) (fuel : Nat)
    (i : IssuesEvent) (w : World σ) : Option (Option GoError) × World σ :=
  let options := extractGithubIssueOptions s i.Issue
  let jiraIssue := jiraIssueOpenFormat s i.Issue.ID i.RepoName i.Issue.Title i.Issue.Body options
  handleIssueEventOpen_loop c fuel jiraIssue w

/-- The loop `for _, transitionID := range ids { DoTransition(ticketID, transitionID) }`
that stops at the first failure; the result is that failure's error. -/
def transitionLoop {σ : Type} (c : JiraClient σ) (ticketID : GoString) :
    List GoString → World σ → Option GoError × World σ
  | [], w => (none, w)
  | transitionID :: rest, w =>
    match IssueDoTransition c ticketID transitionID w with
    | (some err, w1) => (some err, w1)
    | (none, w1) => transitionLoop c ticketID rest w1

/-- Source `handleIssueEventClosed` (issues_events.go). -/
def handleIssueEventClosed {σ : Type} (c : JiraClient σ) (s : Server) (i : IssuesEvent)
    (w : World σ) : Option GoError × World σ :=
  let issueID := i.Issue.ID
  let repoConfig := s.Config.repo i.RepoName
  let projectKey := repoConfig.JiraProjectKey
  match findIssue c s projectKey issueID w with
  | (.error err, w1) => (some err, w1)
  | (.ok jiraIssue, w1) =>
    transitionLoop c jiraIssue.ID (repoConfig.transitions JiraTransitionDoneName) w1

/-- Source `handleIssueEventReopen` (issues_events.go). -/
def handleIssueEventReopen {σ : Type} (c : JiraClient σ) (s : Server) (i : IssuesEvent)
    (w : World σ) : Option GoError × World σ :=
  let issueID := i.Issue.ID
  let repoConfig := s.Config.repo i.RepoName
  let projectKey := repoConfig.JiraProjectKey
  match findIssue c s projectKey issueID w with
  | (.error err, w1) => (some err, w1)
  | (.ok jiraIssue, w1) =>
    transitionLoop c jiraIssue.ID (repoConfig.transitions JiraTransitionTodoName) w1

/-- Source `handleIssueEventEdit` (issues_events.go). -/
def handleIssueEventEdit {σ : Type} (c : JiraClient σ) (s : Server) (i : IssuesEvent)
    (w : World σ) : Except GoError JiraIssue × World σ :=
  let issueID := i.Issue.ID
  let projectKey := (s.Config.repo i.RepoName).JiraProjectKey
  match findIssue c s projectKey issueID w with
  | (.error err, w1) => (.error err, w1)
  | (.ok jiraIssue, w1) =>
    let options := extractGithubIssueOptions s i.Issue
    let updateJiraIssue :=
      jiraIssueUpdateFormat s jiraIssue.ID jiraIssue.Key i.Issue.Title i.Issue.Body options
    match IssueUpdate c updateJiraIssue w1 with
    | (.error err, w2) => (.error err, w2)
    | (.ok respJiraIssue, w2) => (.ok respJiraIssue, w2)

/-- Source `handleIssueEventAssign` (issues_events.go). -/
def handleIssueEventAssign {σ : Type} (c : JiraClient σ) (s : Server) (i : IssuesEvent)
    (w : World σ) : Option GoError × World σ :=
  let issueID := i.Issue.ID
  let projectKey := (s.Config.repo i.RepoName).JiraProjectKey
  match findIssue c s projectKey issueID w with
  | (.error err, w1) => (some err, w1)
  | (.ok jiraIssue, w1) =>
    match mapGet s.Config.AssigneeMap i.Assignee.Login with
    | none => (none, w1)
    | some name =>
      let assignee : Option JiraUser := some ⟨name⟩
      match IssueUpdateAssignee c jiraIssue.ID assignee w1 with
      | (some err, w2) => (some err, w2)
      | (none, w2) => (none, w2)

/-- Source `handleIssueEventUnassign` (issues_events.go).  The comparison
`intendUnassignee != jiraIssue.Fields.Assignee.Name` dereferences the assignee pointer of
the target issue. -/
def handleIssueEventUnassign {σ : Type} (c : JiraClient σ) (s : Server) (i : IssuesEvent)
    (w : World σ) : Outcome (Option GoError) × World σ :=
  let issueID := i.Issue.ID
  let projectKey := (s.Config.repo i.RepoName).JiraProjectKey
  match findIssue c s projectKey issueID w with
  | (.error err, w1) => (.ret (some err), w1)
  | (.ok jiraIssue, w1) =>
    match mapGet s.Config.AssigneeMap i.Assignee.Login with
    | none => (.ret none, w1)
    | some intendUnassignee =>
      match jiraIssue.Fields.Assignee with
      | none => (.panic, w1)
      | some current =>
        if intendUnassignee ≠ current.Name then (.ret none, w1)
        else
          -- assignee := &jira.User{}
          let assignee : Option JiraUser := some ⟨[]⟩
          match IssueUpdateAssignee c jiraIssue.ID assignee w1 with
          | (some err, w2) => (.ret (some err), w2)
          | (none, w2) => (.ret none, w2)

/-- Source `updateIssuetypeByLabel` (issues_events.go). -/
def updateIssuetypeByLabel {σ : Type} (c : JiraClient σ) (s : Server) (i : IssuesEvent)
    (jiraIssue : JiraIssue) (w : World σ) : Option GoError × World σ :=
  let githubRepoName := i.RepoName
  let githubLabelName := i.Label.Name
  match mapGet (s.Config.repo githubRepoName).IssueTypeLabelMap githubLabelName with
  | none => (none, w)
  | some intendIssuetypeName =>
    if jiraIssue.Fields.TypeName = intendIssuetypeName then (none, w)
    else
      let updateJiraIssue : JiraIssue :=
        { JiraIssue.zero with
          Key := jiraIssue.Key
          Fields := { IssueFields.zero with TypeName := intendIssuetypeName } }
      match IssueUpdate c updateJiraIssue w with
      | (.error err, w1) => (some err, w1)
      | (.ok _, w1) => (none, w1)

/-- Source `updateComponentByLabel` (issues_events.go). -/
def updateComponentByLabel {σ : Type} (c : JiraClient σ) (s : Server) (i : IssuesEvent)
    (jiraIssue : JiraIssue) (w : World σ) : Option GoError × World σ :=
  let githubRepoName := i.RepoName
  let githubLabelName := i.Label.Name
  match mapGet (s.Config.repo githubRepoName).ComponentLabelMap githubLabelName with
  | none => (none, w)
  | some intendComponentName =>
    if jiraIssue.Fields.Components.any (fun v => decide (v.Name = intendComponentName)) then
      (none, w)
    else
      let updateJiraIssue : JiraIssue :=
        { JiraIssue.zero with
          Key := jiraIssue.Key
          Fields := { IssueFields.zero with Components := [⟨intendComponentName⟩] } }
      match IssueUpdate c updateJiraIssue w with
      | (.error err, w1) => (some err, w1)
      | (.ok _, w1) => (none, w1)

/-- Source `resetIssuetypeByUnlabel` (issues_events.go). -/
def resetIssuetypeByUnlabel {σ : Type} (c : JiraClient σ) (s : Server) (i : IssuesEvent)
    (jiraIssue : JiraIssue) (w : World σ) : Option GoError × World σ :=
  let githubRepoName := i.RepoName
  let githubLabelName := i.Label.Name
  match mapGet (s.Config.repo githubRepoName).IssueTypeLabelMap githubLabelName with
  | none => (none, w)
  | some intendIssuetypeName =>
    if jiraIssue.Fields.TypeName ≠ intendIssuetypeName then (none, w)
    else
      let updateJiraIssue : JiraIssue :=
        { JiraIssue.zero with
          Key := jiraIssue.Key
          Fields := { IssueFields.zero with TypeName := (s.Config.repo githubRepoName).JiraIssueType } }
      match IssueUpdate c updateJiraIssue w with
      | (.error err, w1) => (some err, w1)
      | (.ok _, w1) => (none, w1)

/-- Source `resetComponentByUnlabel` (issues_events.go). -/
def resetComponentByUnlabel {σ : Type} (c : JiraClient σ) (s : Server) (i : IssuesEvent)
    (jiraIssue : JiraIssue) (w : World σ) : Option GoError × World σ :=
  let githubRepoName := i.RepoName
  let githubLabelName := i.Label.Name
  match mapGet (s.Config.repo githubRepoName).ComponentLabelMap githubLabelName with
  | none => (none, w)
  | some intendComponentName =>
    let found := jiraIssue.Fields.Components.any (fun v => decide (v.Name = intendComponentName))
    let components :=
      jiraIssue.Fields.Components.filter (fun v => !decide (v.Name = intendComponentName))
    if !found then (none, w)
    else
      let components := if components.length = 0 then components ++ [⟨lit "general"⟩] else components
      let updateJiraIssue : JiraIssue :=
        { JiraIssue.zero with
          Key := jiraIssue.Key
          Fields := { IssueFields.zero with Components := components } }
      match IssueUpdate c updateJiraIssue w with
      | (.error err, w1) => (some err, w1)
      | (.ok _, w1) => (none, w1)

/-- Type `eventFunc` (issues_events.go). -/
abbrev eventFunc (σ : Type) :=
  JiraClient σ → Server → IssuesEvent → JiraIssue → World σ → Option GoError × World σ

/-- The loop `for name, f := range labelEventFunc { if err := f(...); err != nil { errReturn = err } }`
over the rules in the order the map iteration yields them. -/
def runEventFuncs {σ : Type} (c : JiraClient σ) (s : Server) (i : IssuesEvent)
    (jiraIssue : JiraIssue) : List (eventFunc σ) → Option GoError → World σ →
    Option GoError × World σ
  | [], errReturn, w => (errReturn, w)
  | f :: rest, errReturn, w =>
    match f c s i jiraIssue w with
    | (some err, w1) => runEventFuncs c s i jiraIssue rest (some err) w1
    | (none, w1) => runEventFuncs c s i jiraIssue rest errReturn w1

/-- Source `handleIssueEventLabel` (issues_events.go).  The two rules are the values of a
Go map, whose iteration order is not fixed: `issuetypeFirst` is the order of this run. -/
def handleIssueEventLabel {σ : Type} (c : JiraClient σ) (s : Server) (issuetypeFirst : Bool)
    (i : IssuesEvent) (w : World σ) : Option GoError × World σ :=
  let issueID := i.Issue.ID
  let projectKey := (s.Config.repo i.RepoName).JiraProjectKey
  match findIssue c s projectKey issueID w with
  | (.error err, w1) => (some err, w1)
  | (.ok jiraIssue, w1) =>
    let labelEventFunc : List (eventFunc σ) :=
      if issuetypeFirst then [updateIssuetypeByLabel, updateComponentByLabel]
      else [updateComponentByLabel, updateIssuetypeByLabel]
    runEventFuncs c s i jiraIssue labelEventFunc none w1

/-- Source `handleIssueEventUnlabel` (issues_events.go); `issuetypeFirst` as in
`handleIssueEventLabel`. -/
def handleIssueEventUnlabel {σ : Type} (c : JiraClient σ) (s : Server) (issuetypeFirst : Bool)
    (i : IssuesEvent) (w : World σ) : Option GoError × World σ :=
  let issueID := i.Issue.ID
  let projectKey := (s.Config.repo i.RepoName).JiraProjectKey
  match findIssue c s projectKey issueID w with
  | (.error err, w1) => (some err, w1)
  | (.ok jiraIssue, w1) =>
    let labelEventFunc : List (eventFunc σ) :=
      if issuetypeFirst then [resetIssuetypeByUnlabel, resetComponentByUnlabel]
      else [resetComponentByUnlabel, resetIssuetypeByUnlabel]
    runEventFuncs c s i jiraIssue labelEventFunc none w1

/-! ## Incremental handlers (issues_comments.go) -/

/-- Source `handleIssueCommentCreate` (issues_comments.go). -/
def handleIssueCommentCreate {σ : Type} (c : JiraClient σ) (s : Server) (ic : IssueCommentEvent)
    (w : World σ) : Option GoError × World σ :=
  let issueID := ic.Issue.ID
  let projectKey := (s.Config.repo ic.RepoName).JiraProjectKey
  match findIssue c s projectKey issueID w with
  | (.error err, w1) => (some err, w1)
  | (.ok jiraIssue, w1) =>
    let options := extractGithubIssueCommentOptions s ic.Comment
    let jiraComment : JiraComment :=
      { JiraComment.zero with Body := jiraIssueCommentFormat s.markdown ic.Comment.Body options }
    match IssueAddComment c jiraIssue.ID jiraComment w1 with
    | (some err, w2) => (some err, w2)
    | (none, w2) => (none, w2)

/-- Source `handleIssueCommentEdit` (issues_comments.go). -/
def handleIssueCommentEdit {σ : Type} (c : JiraClient σ) (s : Server) (ic : IssueCommentEvent)
    (w : World σ) : Option GoError × World σ :=
  let issueID := ic.Issue.ID
  let projectKey := (s.Config.repo ic.RepoName).JiraProjectKey
  match findIssue c s projectKey issueID w with
  | (.error err, w1) => (some err, w1)
  | (.ok jiraIssue, w1) =>
    match findComment c jiraIssue.ID ic.Comment.ID w1 with
    | (.error err, w2) => (some err, w2)
    | (.ok result, w2) =>
      let options := extractGithubIssueCommentOptions s ic.Comment
      let result := { result with Body := jiraIssueCommentFormat s.markdown ic.Comment.Body options }
      match IssueUpdateComment c jiraIssue.ID result w2 with
      | (some err, w3) => (some err, w3)
      | (none, w3) => (none, w3)

/-- Source `handleIssueCommentDelete` (issues_comments.go). -/
def handleIssueCommentDelete {σ : Type} (c : JiraClient σ) (s : Server) (ic : IssueCommentEvent)
    (w : World σ) : Option GoError × World σ :=
  let issueID := ic.Issue.ID
  let projectKey := (s.Config.repo ic.RepoName).JiraProjectKey
  match findIssue c s projectKey issueID w with
  | (.error err, w1) => (some err, w1)
  | (.ok jiraIssue, w1) =>
    match findComment c jiraIssue.ID ic.Comment.ID w1 with
    | (.error err, w2) => (some err, w2)
    | (.ok result, w2) =>
      match IssueDeleteComment c jiraIssue.ID result.ID w2 with
      | (some err, w3) => (some err, w3)
      | (none, w3) => (none, w3)

/-! ## Reconciliation (presync.go) -/

/-- The create-and-retry loop of `compareSyncIssuesCreate`, from label `CreateIssueLabel`
on.  It differs from the loop of `handleIssueEventOpen` in the warning written before
`goto retryCreateLabel`, whose argument `jiraIssue.Fields.Assignee.Name` dereferences the
assignee pointer.  `fuel` as in `handleIssueEventOpen_loop`. -/
def compareSyncIssuesCreate_loop {σ : Type} (c : JiraClient σ) :
    Nat → JiraIssue → World σ → Option (Outcome (Except GoError JiraIssue)) × World σ
  | 0, _, w => (none, w)
  | fuel + 1, jiraIssue, w =>
    match IssueCreate c jiraIssue w with
    | (.ok respJiraIssue, w1) => (some (.ret (.ok respJiraIssue)), w1)
    | (.error err, w1) =>
      if reAssigneeError_MatchString err.msg then
        match jiraIssue.Fields.Assignee with
        | none => (some .panic, w1)
        | some _ =>
          compareSyncIssuesCreate_loop c fuel
            { jiraIssue with Fields := { jiraIssue.Fields with Assignee := none } } w1
      else (some (.ret (.error err)), w1)

/-- The issue types the labels of a source issue map to, in label order. -/
def labelIssueTypes (s : Server) (repoName : GoString) (labels : List GithubLabel) :
    List GoString :=
  labels.filterMap (fun label => mapGet (s.Config.repo repoName).IssueTypeLabelMap label.Name)

/-- The components the labels of a source issue map to, in label order. -/
def labelComponents (s : Server) (repoName : GoString) (labels : List GithubLabel) :
    List JiraComponent :=
  labels.filterMap (fun label =>
    (mapGet (s.Config.repo repoName).ComponentLabelMap label.Name).map JiraComponent.mk)

/-- Source `compareSyncIssuesCreate` (presync.go), after a successful `Create`: the
best-effort status transition, issue type and component updates, whose errors are only
logged. -/
def compareSyncIssuesCreate_after {σ : Type} (c : JiraClient σ) (s : Server)
    (githubIssue : GithubIssue) (repoName : GoString) (respJiraIssue : JiraIssue)
    (w : World σ) : World σ :=
  let repoConfig := s.Config.repo repoName
  let w1 :=
    if githubIssue.State = lit "closed" then
      (transitionLoop c respJiraIssue.ID (repoConfig.transitions JiraTransitionDoneName) w).2
    else w
  let w2 :=
    match labelIssueTypes s repoName githubIssue.Labels with
    | [] => w1
    | first :: _ =>
      let updateJiraIssue : JiraIssue :=
        { JiraIssue.zero with
          Key := respJiraIssue.Key
          Fields := { IssueFields.zero with TypeName := first } }
      (IssueUpdate c updateJiraIssue w1).2
  let components := labelComponents s repoName githubIssue.Labels
  if components.length ≠ 0 then
    let updateJiraIssue : JiraIssue :=
      { JiraIssue.zero with
        Key := respJiraIssue.Key
        Fields := { IssueFields.zero with Components := components } }
    (IssueUpdate c updateJiraIssue w2).2
  else w2

/-- Source `compareSyncIssuesCreate` (presync.go). -/
def compareSyncIssuesCreate {σ : Type} (c : JiraClient σ) (s : Server) (fuel : Nat)
    (githubIssue : GithubIssue) (repoName : GoString) (w : World σ) :
    Option (Outcome (Except GoError JiraIssue)) × World σ :=
  let githubIssueID := githubIssue.ID
  let githubIssueTitle := githubIssue.Title
  let githubIssueBody := githubIssue.Body
  let options := extractGithubIssueOptions s githubIssue
  let jiraIssue := jiraIssueOpenFormat s githubIssueID repoName githubIssueTitle githubIssueBody options
  match compareSyncIssuesCreate_loop c fuel jiraIssue w with
  | (some (.ret (.ok respJiraIssue)), w1) =>
    (some (.ret (.ok respJiraIssue)),
      compareSyncIssuesCreate_after c s githubIssue repoName respJiraIssue w1)
  | (r, w1) => (r, w1)

/-- One iteration of the creation loop of `compareSyncIssues` (presync.go, the body of
`for _, githubIssue := range allGithubIssues` in the sequential part): look the target
issue up; create it when the lookup's error reads `Issue not exists`; errors are logged
and the loop goes on.  The result is `none` when the create loop ran out of `fuel`,
`panic` when it panicked, `ret ()` when the iteration ended. -/
def compareSyncIssues_createStep {σ : Type} (c : JiraClient σ) (s : Server) (fuel : Nat)
    (repoName : GoString) (githubIssue : GithubIssue) (w : World σ) :
    Option (Outcome Unit) × World σ :=
  match findIssue c s (s.Config.repo repoName).JiraProjectKey githubIssue.ID w with
  | (.error err, w1) =>
    if err.msg = lit "Issue not exists" then
      match compareSyncIssuesCreate c s fuel githubIssue repoName w1 with
      | (none, w2) => (none, w2)
      | (some .panic, w2) => (some .panic, w2)
      | (some (.ret _), w2) => (some (.ret ()), w2)
    else (some (.ret ()), w1)
  | (.ok _, w1) => (some (.ret ()), w1)

/-- Source `compareSyncIssuesUpdate` (presync.go).  Only the error of the first update is
returned; the errors of the later calls are logged. -/
def compareSyncIssuesUpdate {σ : Type} (c : JiraClient σ) (s : Server) (jiraIssue : JiraIssue)
    (githubIssue : GithubIssue) (repoName : GoString) (w : World σ) : Option GoError × World σ :=
  let githubIssueTitle := githubIssue.Title
  let githubIssueBody := githubIssue.Body
  let options := extractGithubIssueOptions s githubIssue
  let updateJiraIssue :=
    jiraIssueUpdateFormat s jiraIssue.ID jiraIssue.Key githubIssueTitle githubIssueBody options
  match IssueUpdate c updateJiraIssue w with
  | (.error err, w1) => (some err, w1)
  | (.ok _, w1) =>
    -- sync JIRA issue assignee
    let assignee : Option JiraUser :=
      match mapGet s.Config.AssigneeMap options.githubIssueAssigneeLogin with
      | some name => some ⟨name⟩
      | none => none
    let w2 := (IssueUpdateAssignee c jiraIssue.ID assignee w1).2
    -- sync issue transition status
    let repoConfig := s.Config.repo repoName
    let w3 :=
      if githubIssue.State = lit "closed" then
        if jiraIssue.Fields.StatusCategoryName ≠ JiraStatusDoneName then
          (transitionLoop c jiraIssue.ID (repoConfig.transitions JiraTransitionDoneName) w2).2
        else w2
      else if githubIssue.State = lit "open" then
        if jiraIssue.Fields.StatusCategoryName = JiraStatusDoneName then
          (transitionLoop c jiraIssue.ID (repoConfig.transitions JiraTransitionTodoName) w2).2
        else w2
      else w2
    -- sync jiraIssue issue type according to github label
    let issueTypes := labelIssueTypes s repoName githubIssue.Labels
    let toUpdateIssueTypeName : GoString :=
      match issueTypes with
      | first :: _ =>
        if issueTypes.any (fun name => decide (name = jiraIssue.Fields.TypeName)) then []
        else first
      | [] => (s.Config.repo repoName).JiraIssueType
    let w4 :=
      if toUpdateIssueTypeName ≠ [] then
        let updateIssueTypeJiraIssue : JiraIssue :=
          { JiraIssue.zero with
            Key := jiraIssue.Key
            Fields := { IssueFields.zero with TypeName := toUpdateIssueTypeName } }
        (IssueUpdate c updateIssueTypeJiraIssue w3).2
      else w3
    -- sync jiraIssue component according to github label
    let components := labelComponents s repoName githubIssue.Labels
    let components :=
      if components.length = 0 then
        (s.Config.repo repoName).JiraComponents.map (fun v => JiraComponent.mk v)
      else components
    let updateComponentsJiraIssue : JiraIssue :=
      { JiraIssue.zero with
        Key := jiraIssue.Key
        Fields := { IssueFields.zero with Components := components } }
    let w5 := (IssueUpdate c updateComponentsJiraIssue w4).2
    (none, w5)

/-- Source `compareSyncCommentsCreate` (presync.go). -/
def compareSyncCommentsCreate {σ : Type} (c : JiraClient σ) (s : Server) (jiraIssue : JiraIssue)
    (githubComment : GithubIssueComment) (w : World σ) : Option GoError × World σ :=
  let githubCommentBody := githubComment.Body
  let options := extractGithubIssueCommentOptions s githubComment
  let jiraComment : JiraComment :=
    { JiraComment.zero with Body := jiraIssueCommentFormat s.markdown githubCommentBody options }
  match IssueAddComment c jiraIssue.ID jiraComment w with
  | (some err, w1) => (some err, w1)
  | (none, w1) => (none, w1)

/-- Source `compareSyncCommentsUpdate` (presync.go). -/
def compareSyncCommentsUpdate {σ : Type} (c : JiraClient σ) (s : Server) (jiraIssue : JiraIssue)
    (jiraComment : JiraComment) (githubComment : GithubIssueComment) (w : World σ) :
    Option GoError × World σ :=
  let result := jiraComment
  let githubCommentBody := githubComment.Body
  let options := extractGithubIssueCommentOptions s githubComment
  let result := { result with Body := jiraIssueCommentFormat s.markdown githubCommentBody options }
  match IssueUpdateComment c jiraIssue.ID result w with
  | (some err, w1) => (some err, w1)
  | (none, w1) => (none, w1)

/-- The loop of `compareSyncComments` for a source issue without comments: every target
comment whose body matches `jCommentIDRegex` is deleted.  `err` is the variable `err` of
the function, assigned by every delete call. -/
def compareSyncComments_delete {σ : Type} (c : JiraClient σ) (jiraIssue : JiraIssue) :
    List JiraComment → Option GoError → World σ → Option GoError × World σ
  | [], err, w => (err, w)
  | jiraComment :: rest, err, w =>
    if !jCommentIDRegex_MatchString jiraComment.Body then
      compareSyncComments_delete c jiraIssue rest err w
    else
      match IssueDeleteComment c jiraIssue.ID jiraComment.ID w with
      | (err, w1) => compareSyncComments_delete c jiraIssue rest err w1

/-- The loop of `compareSyncComments` over the source comments: each one is looked up with
`doFindComment` in the target comments fetched before the loop, then updated or created.
`err` is the variable `err` of the function, assigned by every iteration. -/
def compareSyncComments_sync {σ : Type} (c : JiraClient σ) (s : Server) (jiraIssue : JiraIssue)
    (jiraComments : List JiraComment) :
    List GithubIssueComment → Option GoError → World σ → Option GoError × World σ
  | [], err, w => (err, w)
  | githubComment :: rest, _, w =>
    match doFindComment jiraComments githubComment.ID with
    | (result, true) =>
      match compareSyncCommentsUpdate c s jiraIssue result githubComment w with
      | (err, w1) => compareSyncComments_sync c s jiraIssue jiraComments rest err w1
    | (_, false) =>
      match compareSyncCommentsCreate c s jiraIssue githubComment w with
      | (err, w1) => compareSyncComments_sync c s jiraIssue jiraComments rest err w1

/-- Source `compareSyncComments` (presync.go).  The result is `none` when the listing of
the source comments ran out of `fuel`. -/
def compareSyncComments {σ : Type} (c : JiraClient σ) (g : GithubClient) (s : Server) (fuel : Nat)
    (jiraIssue : JiraIssue) (githubIssue : GithubIssue) (repoName : GoString) (w : World σ) :
    Option (Option GoError) × World σ :=
  match GetComments c jiraIssue.ID w with
  | (.error err, w1) => (some (some err), w1)
  | (.ok jiraComments, w1) =>
    -- github comments number equals zero, still need to compare comments and delete
    if githubIssue.Comments = 0 then
      match compareSyncComments_delete c jiraIssue jiraComments none w1 with
      | (err, w2) => (some err, w2)
    else
      match getGithubIssueComments g s fuel (s.Config.repo repoName).GithubOwner repoName
          githubIssue.Number with
      | none => (none, w1)
      | some (.error err) => (some (some err), w1)
      | some (.ok githubComments) =>
        match compareSyncComments_sync c s jiraIssue jiraComments githubComments none w1 with
        | (err, w2) => (some err, w2)

/-- The sequential part of a repository's goroutine in `compareSyncIssues`: the loop
`for _, githubIssue := range allGithubIssues` over `compareSyncIssues_createStep`.  A panic
ends the program; running out of `fuel` ends the run. -/
def compareSyncIssues_createPass {σ : Type} (c : JiraClient σ) (s : Server) (fuel : Nat)
    (repoName : GoString) : List GithubIssue → World σ → Option (Outcome Unit) × World σ
  | [], w => (some (.ret ()), w)
  | githubIssue :: rest, w =>
    match compareSyncIssues_createStep c s fuel repoName githubIssue w with
    | (some (.ret _), w1) => compareSyncIssues_createPass c s fuel repoName rest w1
    | (r, w1) => (r, w1)

/-- The goroutine of one source issue in `compareSyncIssues`: look the target issue up,
update it, then synchronise the comments; every error is logged and ends the goroutine.
The result is `none` when the listing of the source comments ran out of `fuel`. -/
def compareSyncIssues_issue {σ : Type} (c : JiraClient σ) (g : GithubClient) (s : Server)
    (fuel : Nat) (repoName : GoString) (githubIssue : GithubIssue) (w : World σ) :
    Option Unit × World σ :=
  match findIssue c s (s.Config.repo repoName).JiraProjectKey githubIssue.ID w with
  | (.error _, w1) => (some (), w1)
  | (.ok jiraIssue, w1) =>
    match compareSyncIssuesUpdate c s jiraIssue githubIssue repoName w1 with
    | (some _, w2) => (some (), w2)
    | (none, w2) =>
      match compareSyncComments c g s fuel jiraIssue githubIssue repoName w2 with
      | (none, w3) => (none, w3)
      | (some _, w3) => (some (), w3)

/-- The second part of a repository's goroutine: one goroutine per source issue, then
`wgIssue.Wait()`.  The goroutines are run here one after the other in the order in which
they are started, which is one of the schedules of the source. -/
def compareSyncIssues_updatePass {σ : Type} (c : JiraClient σ) (g : GithubClient) (s : Server)
    (fuel : Nat) (repoName : GoString) : List GithubIssue → World σ → Option Unit × World σ
  | [], w => (some (), w)
  | githubIssue :: rest, w =>
    match compareSyncIssues_issue c g s fuel repoName githubIssue w with
    | (none, w1) => (none, w1)
    | (some _, w1) => compareSyncIssues_updatePass c g s fuel repoName rest w1

/-- The goroutine of one repository in `compareSyncIssues`: the creation pass, then the
update of all issues and comments. -/
def compareSyncIssues_repo {σ : Type} (c : JiraClient σ) (g : GithubClient) (s : Server)
    (fuel : Nat) (repoName : GoString) (allGithubIssues : List GithubIssue) (w : World σ) :
    Option (Outcome Unit) × World σ :=
  match compareSyncIssues_createPass c s fuel repoName allGithubIssues w with
  | (some (.ret _), w1) =>
    match compareSyncIssues_updatePass c g s fuel repoName allGithubIssues w1 with
    | (none, w2) => (none, w2)
    | (some _, w2) => (some (.ret ()), w2)
  | (r, w1) => (r, w1)

/-- The loop `for repoName := range s.Config.RepoConfigMap` of `compareSyncIssues`, followed
by `wgRepo.Wait()`.  The list is the keys of the map in the order in which the `range`
statement yields them; `errReturn` is the variable of that name, assigned where the source
assigns it.  The goroutine of a repository is run when it is started, to its end: one of
the schedules of the source. -/
def compareSyncIssues_repos {σ : Type} (c : JiraClient σ) (g : GithubClient) (s : Server)
    (fuel : Nat) : List GoString → Option GoError → World σ →
      Option (Outcome (Option GoError)) × World σ
  | [], errReturn, w => (some (.ret errReturn), w)
  | repoName :: rest, errReturn, w =>
    -- find all github issues in repo
    match getGithubIssuesByRepo g s fuel (s.Config.repo repoName).GithubOwner repoName with
    | none => (none, w)
    | some (.error err) =>
      -- error only affects this repo, just pass
      compareSyncIssues_repos c g s fuel rest (some err) w
    | some (.ok allGithubIssues) =>
      match compareSyncIssues_repo c g s fuel repoName allGithubIssues w with
      | (some (.ret _), w1) => compareSyncIssues_repos c g s fuel rest errReturn w1
      | (some .panic, w1) => (some .panic, w1)
      | (none, w1) => (none, w1)

/-- The clock of the host and the functions of package `time` the program uses on the
watermark: `time.Now()`, `time.Parse(time.RFC3339, ·)`, `t.Format(time.RFC3339)` and
`t.AddDate(years, months, days)`. -/
structure Clock where
  Now : Int
  Parse : GoString → Except GoError Int
  Format : Int → GoString
  AddDate : Int → Int → Int → Int → Int

/-- The file `last_sync_time.txt`: what `ioutil.ReadFile` returns for it, and the error of
`ioutil.WriteFile`, if writing it fails. -/
structure SyncFile where
  content : Except GoError GoString
  writeError : Option GoError

/-- Call `ioutil.ReadFile(lastSyncTimeFileName)`. -/
def ReadFile (f : SyncFile) : Except GoError GoString := f.content

/-- Call `ioutil.WriteFile(lastSyncTimeFileName, b, 0644)`.  A write that fails is taken to
leave the file as it was. -/
def WriteFile (b : GoString) (f : SyncFile) : Option GoError × SyncFile :=
  match f.writeError with
  | some err => (some err, f)
  | none => (none, { f with content := .ok b })

/-- Source `NewConfig` (config.go), the fields the synchronisation engine reads: the
configuration before the flags and the configuration file are read.  The maps are nil,
`use-lastsynctimefile` is `false` and `GithubIssueSince` is `time.Now().AddDate(0, -3, 0)`. -/
def NewConfig (k : Clock) : Config :=
  { RepoConfigMap := []
    FixVersions := []
    AffectsVersions := []
    AssigneeMap := []
    FieldIDs := []
    GithubIssueSince := k.AddDate k.Now 0 (-3) 0
    UseLastSyncTimeFile := false }

/-- Source `readLastSyncTime` (util.go): the server with `s.Config.GithubIssueSince` set
from the file. -/
def readLastSyncTime (s : Server) (k : Clock) (f : SyncFile) : Server :=
  if s.Config.UseLastSyncTimeFile then
    match ReadFile f with
    | .error _ => s
    | .ok b =>
      match k.Parse b with
      | .error _ => s
      | .ok lastSyncTime =>
        { s with Config := { s.Config with GithubIssueSince := k.AddDate lastSyncTime 0 0 (-1) } }
  else s

/-- Source `writeLastSyncTime` (util.go); the error of the write is only logged. -/
def writeLastSyncTime (k : Clock) (f : SyncFile) : SyncFile :=
  (WriteFile (k.Format k.Now) f).2

/-- Source `compareSyncIssues` (presync.go).  `repoNames` is the keys of
`s.Config.RepoConfigMap` in the order in which the `range` statement yields them.  The
result is the returned `errReturn`, `panic` when a goroutine panicked, `none` when a loop
ran out of `fuel`; in the last two cases the function does not reach
`writeLastSyncTime`. -/
def compareSyncIssues {σ : Type} (c : JiraClient σ) (g : GithubClient) (k : Clock) (s : Server)
    (fuel : Nat) (repoNames : List GoString) (w : World σ) (f : SyncFile) :
    Option (Outcome (Option GoError)) × World σ × SyncFile :=
  let s := readLastSyncTime s k f
  match compareSyncIssues_repos c g s fuel repoNames none w with
  | (some (.ret errReturn), w1) => (some (.ret errReturn), w1, writeLastSyncTime k f)
  | (r, w1) => (r, w1, f)

/-! ## The target tracker as a collection of issues

The tracker itself is not part of the program.  For the statements about its content the
tracker is taken to hold a collection of issues, each with a project key and the custom
field that stores the source issue identifier; `IssueCollection` lists what is assumed of
its operations, and `memTracker` is a tracker that meets the assumptions. -/

/-- The name of the custom field with identifier `K` in `IssueFields.Unknowns`. -/
def correlationField (K : GoString) : GoString := lit "customfield_" ++ K

/-- The query text of `findIssue` for project `p` and source identifier `n`, when the
field `GitHub ID` has identifier `K`. -/
def correlationJQL (K p : GoString) (n : Int) : GoString :=
  lit "project='" ++ p ++ lit "' AND cf[" ++ K ++ lit "] = " ++ FormatInt n

/-- Whether target issue `i` belongs to project `p` and stores source identifier `n`. -/
def correlated (K p : GoString) (n : Int) (i : JiraIssue) : Bool :=
  decide (i.Fields.ProjectKey = p) &&
    decide (mapGet i.Fields.Unknowns (correlationField K) = some (.int n))

/-- The invariant: at most one target issue per (project key, source issue identifier). -/
def AtMostOnePerKey (K : GoString) (issues : List JiraIssue) : Prop :=
  ∀ p n, (issues.filter (correlated K p n)).length ≤ 1

/-- What identifies a target issue and correlates it: identifier, key, project key and
the stored source identifier. -/
def ident (K : GoString) (i : JiraIssue) : GoString × GoString × GoString × Option FieldValue :=
  (i.ID, i.Key, i.Fields.ProjectKey, mapGet i.Fields.Unknowns (correlationField K))

/-- The assumptions on a tracker `c` that holds the issues `issuesOf t` in state `t`:
a search for the query of `findIssue` answers with exactly the issues of that project
and source identifier, in the order of the collection; a successful create adds one
issue, with the project key and custom fields of the request and the identifier and key
of the response; a failed create adds none; no other call adds, removes or re-correlates
an issue (an update being a request that carries neither a project nor custom fields). -/
structure IssueCollection {σ : Type} (c : JiraClient σ) (K : GoString)
    (issuesOf : σ → List JiraIssue) : Prop where
  search_result : ∀ p n t,
    (c.Search (correlationJQL K p n) t).1 = .ok ((issuesOf t).filter (correlated K p n))
  search_state : ∀ jql t, issuesOf (c.Search jql t).2 = issuesOf t
  create_ok : ∀ payload t resp, (c.Create payload t).1 = .ok resp →
    ∃ stored, issuesOf (c.Create payload t).2 = issuesOf t ++ [stored] ∧
      stored.ID = resp.ID ∧ stored.Key = resp.Key ∧
      stored.Fields.ProjectKey = payload.Fields.ProjectKey ∧
      stored.Fields.Unknowns = payload.Fields.Unknowns
  create_error : ∀ payload t e, (c.Create payload t).1 = .error e →
    issuesOf (c.Create payload t).2 = issuesOf t
  update : ∀ payload t, payload.Fields.ProjectKey = [] → payload.Fields.Unknowns = [] →
    (issuesOf (c.Update payload t).2).map (ident K) = (issuesOf t).map (ident K)
  doTransition : ∀ a b t,
    (issuesOf (c.DoTransition a b t).2).map (ident K) = (issuesOf t).map (ident K)
  updateAssignee : ∀ a b t,
    (issuesOf (c.UpdateAssignee a b t).2).map (ident K) = (issuesOf t).map (ident K)
  getComments : ∀ a t,
    (issuesOf (c.GetComments a t).2).map (ident K) = (issuesOf t).map (ident K)
  addComment : ∀ a b t,
    (issuesOf (c.AddComment a b t).2).map (ident K) = (issuesOf t).map (ident K)
  updateComment : ∀ a b t,
    (issuesOf (c.UpdateComment a b t).2).map (ident K) = (issuesOf t).map (ident K)
  deleteComment : ∀ a b t,
    (issuesOf (c.DeleteComment a b t).2).map (ident K) = (issuesOf t).map (ident K)

/-- The state of `memTracker`: the issues in creation order, the comments with the
identifier of their issue, the names of the users, and the next free number. -/
structure Tracker where
  issues : List JiraIssue
  comments : List (GoString × JiraComment)
  users : List GoString
  next : Nat
  deriving DecidableEq, Repr

/-- The query that finds issue `i`, if it stores a source identifier. -/
def issueJQL (K : GoString) (i : JiraIssue) : Option GoString :=
  match mapGet i.Fields.Unknowns (correlationField K) with
  | some (.int n) => some (correlationJQL K i.Fields.ProjectKey n)
  | _ => none

/-- The fields of a stored issue after an update request: the request's non-empty
summary, description, issue type and components replace the stored ones, and so do a
project key and custom fields if the request carries any. -/
def applyUpdate (payload : IssueFields) (stored : IssueFields) : IssueFields :=
  { stored with
    Summary := if payload.Summary = [] then stored.Summary else payload.Summary
    Description := if payload.Description = [] then stored.Description else payload.Description
    TypeName := if payload.TypeName = [] then stored.TypeName else payload.TypeName
    Components := if payload.Components = [] then stored.Components else payload.Components
    ProjectKey := if payload.ProjectKey = [] then stored.ProjectKey else payload.ProjectKey
    Unknowns := if payload.Unknowns = [] then stored.Unknowns else payload.Unknowns }

/-- The error of `memTracker` for a request on an issue or comment it does not hold. -/
def notExistError : GoError := errorsNew "Issue Does Not Exist"

/-- The error of `memTracker` for an assignee it does not know. -/
def assigneeError (name : GoString) : GoError :=
  ⟨lit "assignee: User '" ++ name ++ lit "' does not exist.: Request failed. Status code: 400"⟩

/-- A tracker held in memory.  `K` is the identifier of its `GitHub ID` field and
`workflow` gives the status category a transition leads to.  It answers the queries of
the form `findIssue` sends; it rejects an assignee whose name it does not know; an update
addresses the issue by key, a transition, an assignment and the comment calls address it
by identifier. -/
def memTracker (K : GoString) (workflow : GoString → Option GoString) : JiraClient Tracker where
  Search := fun jql t => (.ok (t.issues.filter (fun i => decide (issueJQL K i = some jql))), t)
  Create := fun payload t =>
    match payload.Fields.Assignee with
    | some u =>
      if u.Name ∈ t.users then
        (.ok ⟨formatNat t.next, payload.Fields.ProjectKey ++ lit "-" ++ formatNat t.next,
            IssueFields.zero⟩,
          { t with
            issues := t.issues ++
              [⟨formatNat t.next, payload.Fields.ProjectKey ++ lit "-" ++ formatNat t.next,
                { payload.Fields with StatusCategoryName := lit "To Do" }⟩]
            next := t.next + 1 })
      else (.error (assigneeError u.Name), t)
    | none =>
      (.ok ⟨formatNat t.next, payload.Fields.ProjectKey ++ lit "-" ++ formatNat t.next,
          IssueFields.zero⟩,
        { t with
          issues := t.issues ++
            [⟨formatNat t.next, payload.Fields.ProjectKey ++ lit "-" ++ formatNat t.next,
              { payload.Fields with StatusCategoryName := lit "To Do" }⟩]
          next := t.next + 1 })
  Update := fun payload t =>
    if t.issues.any (fun i => decide (i.Key = payload.Key)) then
      (.ok payload,
        { t with
          issues := t.issues.map (fun i =>
            if i.Key = payload.Key then { i with Fields := applyUpdate payload.Fields i.Fields }
            else i) })
    else (.error notExistError, t)
  DoTransition := fun ticketID transitionID t =>
    match workflow transitionID with
    | none => (some (errorsNew "transition is not valid"), t)
    | some category =>
      if t.issues.any (fun i => decide (i.ID = ticketID)) then
        (none,
          { t with
            issues := t.issues.map (fun i =>
              if i.ID = ticketID then
                { i with Fields := { i.Fields with StatusCategoryName := category } }
              else i) })
      else (some notExistError, t)
  UpdateAssignee := fun issueID assignee t =>
    if t.issues.any (fun i => decide (i.ID = issueID)) then
      match assignee with
      | some u =>
        if u.Name = [] then
          (none,
            { t with
              issues := t.issues.map (fun i =>
                if i.ID = issueID then { i with Fields := { i.Fields with Assignee := none } }
                else i) })
        else if u.Name ∈ t.users then
          (none,
            { t with
              issues := t.issues.map (fun i =>
                if i.ID = issueID then { i with Fields := { i.Fields with Assignee := some u } }
                else i) })
        else (some (assigneeError u.Name), t)
      | none =>
        (none,
          { t with
            issues := t.issues.map (fun i =>
              if i.ID = issueID then { i with Fields := { i.Fields with Assignee := none } }
              else i) })
    else (some notExistError, t)
  GetComments := fun issueID t =>
    (.ok ((t.comments.filter (fun x => decide (x.1 = issueID))).map Prod.snd), t)
  AddComment := fun issueID comment t =>
    if t.issues.any (fun i => decide (i.ID = issueID)) then
      (none,
        { t with
          comments := t.comments ++ [(issueID, { comment with ID := formatNat t.next })]
          next := t.next + 1 })
    else (some notExistError, t)
  UpdateComment := fun issueID comment t =>
    if t.comments.any (fun x => decide (x.1 = issueID ∧ x.2.ID = comment.ID)) then
      (none,
        { t with
          comments := t.comments.map (fun x =>
            if x.1 = issueID ∧ x.2.ID = comment.ID then (x.1, { x.2 with Body := comment.Body })
            else x) })
    else (some notExistError, t)
  DeleteComment := fun issueID commentID t =>
    if t.comments.any (fun x => decide (x.1 = issueID ∧ x.2.ID = commentID)) then
      (none,
        { t with
          comments := t.comments.filter (fun x => !decide (x.1 = issueID ∧ x.2.ID = commentID)) })
    else (some notExistError, t)

/-- A workflow with the transitions of `sampleRepo`. -/
def sampleWorkflow (transitionID : GoString) : Option GoString :=
  if transitionID = lit "11" then some (lit "To Do")
  else if transitionID = lit "21" then some (lit "In Progress")
  else if transitionID = lit "31" then some (lit "Done")
  else none

/-- An empty tracker that knows the user `alice.j`. -/
def emptyTracker : Tracker := ⟨[], [], [lit "alice.j"], 10001⟩

/-- A tracker that already holds the target issue of `sampleIssue`. -/
def syncedTracker : Tracker :=
  ⟨[⟨lit "10001", lit "TIDB-10001",
      { IssueFields.zero with
        TypeName := lit "Task"
        ProjectKey := lit "TIDB"
        Components := [⟨lit "general"⟩]
        Summary := lit "T"
        StatusCategoryName := lit "To Do"
        Unknowns := [(lit "customfield_10109", .int 42)] }⟩],
    [], [lit "alice.j"], 10002⟩

/-! ## A scripted tracker

A tracker that answers the calls from a fixed list of responses, one per call in order,
whatever the call.  It serves to run the handlers on concrete response sequences. -/

/-- A response of the scripted tracker. -/
inductive JiraResp where
  | issues (l : List JiraIssue)
  | issue (i : JiraIssue)
  | comments (l : List JiraComment)
  | done
  | fail (e : GoError)
  deriving DecidableEq, Repr

/-- The error of the scripted tracker when the script has no fitting response. -/
def scriptError : GoError := errorsNew "no response"

/-- The next response read as the result of a search. -/
def JiraResp.asIssues : Option JiraResp → Except GoError (List JiraIssue)
  | some (.issues l) => .ok l
  | some (.fail e) => .error e
  | _ => .error scriptError

/-- The next response read as the result of a create or an update. -/
def JiraResp.asIssue : Option JiraResp → Except GoError JiraIssue
  | some (.issue i) => .ok i
  | some (.fail e) => .error e
  | _ => .error scriptError

/-- The next response read as the result of a comment listing. -/
def JiraResp.asComments : Option JiraResp → Except GoError (List JiraComment)
  | some (.comments l) => .ok l
  | some (.fail e) => .error e
  | _ => .error scriptError

/-- The next response read as the error of a call without a payload. -/
def JiraResp.asError : Option JiraResp → Option GoError
  | some (.fail e) => some e
  | some _ => none
  | none => some scriptError

/-- The scripted tracker: its state is the list of the responses still to give. -/
def scripted : JiraClient (List JiraResp) where
  Search := fun _ rs => (JiraResp.asIssues rs.head?, rs.tail)
  Create := fun _ rs => (JiraResp.asIssue rs.head?, rs.tail)
  Update := fun _ rs => (JiraResp.asIssue rs.head?, rs.tail)
  DoTransition := fun _ _ rs => (JiraResp.asError rs.head?, rs.tail)
  UpdateAssignee := fun _ _ rs => (JiraResp.asError rs.head?, rs.tail)
  GetComments := fun _ rs => (JiraResp.asComments rs.head?, rs.tail)
  AddComment := fun _ _ rs => (JiraResp.asError rs.head?, rs.tail)
  UpdateComment := fun _ _ rs => (JiraResp.asError rs.head?, rs.tail)
  DeleteComment := fun _ _ rs => (JiraResp.asError rs.head?, rs.tail)

/-- The world of a scripted tracker before any call. -/
def scriptWorld (rs : List JiraResp) : World (List JiraResp) := ⟨rs, []⟩

/-! ## Sample data

A configuration and events on which the handlers are run in the closed statements below. -/

/-- A repository configuration. -/
def sampleRepo : RepoConfig :=
  { GithubOwner := lit "pingcap"
    JiraProjectKey := lit "TIDB"
    JiraComponents := [lit "general"]
    JiraIssueType := lit "Task"
    IssueTypeLabelMap := [(lit "bug", lit "Bug")]
    ComponentLabelMap := [(lit "docs", lit "documentation")]
    TransitionMap := [(lit "Done", [lit "21", lit "31"]), (lit "To Do", [lit "11"])] }

/-- A server: one repository, one mapped user, the converter and the clock are trivial. -/
def sampleServer : Server :=
  { Config :=
      { RepoConfigMap := [(lit "tidb", sampleRepo)]
        FixVersions := []
        AffectsVersions := []
        AssigneeMap := [(lit "alice", lit "alice.j")]
        FieldIDs := [(.gitHubID, lit "10109")] }
    markdown := fun b => .ok b
    formatTime := fun _ => lit "10:00 AM, January 2 2020" }

/-- A source issue, assigned to the mapped user. -/
def sampleIssue : GithubIssue :=
  { ID := 42
    Number := 7
    Title := lit "T"
    Body := lit "B"
    State := lit "open"
    HTMLURL := lit "https://github.com/pingcap/tidb/issues/7"
    User := ⟨lit "bob", lit "https://github.com/bob", lit ""⟩
    Assignee := ⟨lit "alice", lit "https://github.com/alice", lit ""⟩
    CreatedAt := 0
    Labels := [⟨lit "bug"⟩]
    Comments := 0 }

/-- An issue event on `sampleIssue`, with the mapped user as the event's assignee. -/
def sampleEvent : IssuesEvent :=
  { Action := lit "opened"
    Issue := sampleIssue
    RepoName := lit "tidb"
    Assignee := ⟨lit "alice", lit "https://github.com/alice", lit ""⟩
    Label := ⟨lit "bug"⟩ }

/-- A comment event on `sampleIssue`. -/
def sampleCommentEvent : IssueCommentEvent :=
  { Action := lit "created"
    Issue := sampleIssue
    Comment := ⟨7, lit "hello", lit "https://github.com/pingcap/tidb/issues/7#issuecomment-7",
      ⟨lit "bob", lit "https://github.com/bob", lit ""⟩, 0⟩
    RepoName := lit "tidb" }

/-- A target issue as a search returns it: the correlate of `sampleIssue`, unassigned. -/
def sampleJiraIssue : JiraIssue :=
  { ID := lit "10001"
    Key := lit "TIDB-1"
    Fields :=
      { IssueFields.zero with
        TypeName := lit "Task"
        ProjectKey := lit "TIDB"
        Components := [⟨lit "general"⟩]
        Summary := lit "T"
        StatusCategoryName := lit "To Do"
        Unknowns := [(lit "customfield_10109", .int 42)] } }

/-- The tracker's rejection of an assignee it does not know. -/
def sampleAssigneeError : GoError :=
  ⟨lit "assignee: User 'alice.j' does not exist.: Request failed. Status code: 400"⟩

/-- A server for project `TIKV`, with the fields `GitHub ID` and `GitHub URL` resolved. -/
def sampleTikvServer : Server :=
  { Config :=
      { RepoConfigMap := [(lit "tikv", { sampleRepo with JiraProjectKey := lit "TIKV" })]
        FixVersions := [(lit "TIKV", [lit "4.0"])]
        AffectsVersions := [(lit "TIKV", [lit "3.0"])]
        AssigneeMap := [(lit "alice", lit "alice.j")]
        FieldIDs := [(.gitHubID, lit "10109"), (.gitHubURL, lit "10110")] }
    markdown := fun b => .ok b
    formatTime := fun _ => lit "10:00 AM, January 2 2020" }

/-- A target issue of category `Bug` with the components `documentation` and `general`. -/
def sampleLabeledIssue : JiraIssue :=
  { sampleJiraIssue with
    Fields :=
      { sampleJiraIssue.Fields with
        TypeName := lit "Bug"
        Components := [⟨lit "documentation"⟩, ⟨lit "general"⟩] } }

/-- An issue event on `sampleIssue` for the label `docs`. -/
def sampleDocsEvent : IssuesEvent := { sampleEvent with Label := ⟨lit "docs"⟩ }

/-- A target issue of category `Story` with the components `documentation` and `general`. -/
def sampleStoryIssue : JiraIssue :=
  { sampleJiraIssue with
    Fields :=
      { sampleJiraIssue.Fields with
        TypeName := lit "Story"
        Components := [⟨lit "documentation"⟩, ⟨lit "general"⟩] } }

/-- The source comment of `sampleCommentEvent`, identifier `7`. -/
def sampleComment : GithubIssueComment := sampleCommentEvent.Comment

/-- A second source comment, identifier `8`. -/
def sampleSecondComment : GithubIssueComment :=
  ⟨8, lit "again", lit "https://github.com/pingcap/tidb/issues/7#issuecomment-8",
    ⟨lit "bob", lit "https://github.com/bob", lit ""⟩, 0⟩

/-- The target comment that mirrors `sampleComment`. -/
def sampleSyncedComment : JiraComment :=
  ⟨lit "20001",
    jiraIssueCommentFormat sampleServer.markdown sampleComment.Body
      (extractGithubIssueCommentOptions sampleServer sampleComment),
    lit "sync"⟩

/-- A target comment written in the target tracker: no token. -/
def sampleManualComment : JiraComment := ⟨lit "20002", lit "seen in production", lit "carol"⟩

/-- A target comment with the token of a source comment `9`. -/
def sampleOrphanComment : JiraComment :=
  ⟨lit "20003", lit "Comment [(ID 9)|u] from GitHub user [bob|b] at t\n\n----\n\nold\n",
    lit "sync"⟩

/-- A source tracker: repository `tidb` has the one issue `sampleIssue`, every other
listing of issues fails; every issue has the two comments `sampleComment` and
`sampleSecondComment`. -/
def sampleGithub : GithubClient :=
  { ListByRepo := fun _ repoName _ =>
      if repoName = lit "tidb" then .ok ⟨[sampleIssue], 0⟩ else .error ⟨lit "404 Not Found"⟩
    ListComments := fun _ _ _ _ => .ok ⟨[sampleComment, sampleSecondComment], 0⟩ }

/-- The sample server with a second repository, `tikv`, whose issues `sampleGithub` cannot
list. -/
def sampleTwoRepoServer : Server :=
  { sampleServer with
    Config :=
      { sampleServer.Config with
        RepoConfigMap :=
          [(lit "tidb", sampleRepo), (lit "tikv", { sampleRepo with JiraProjectKey := lit "TIKV" })] } }

/-- A clock whose texts are decimal numbers of seconds, for the sample runs. -/
def sampleClock : Clock :=
  { Now := 1577959200
    Parse := fun b =>
      if b ≠ [] ∧ b.all isDigit = true then .ok (digitsValue b) else .error ⟨lit "parsing time"⟩
    Format := fun t => FormatInt t
    AddDate := fun t years months days => t + 86400 * (365 * years + 30 * months + days) }

/-- A watermark file that does not exist yet and can be written. -/
def sampleFile : SyncFile :=
  { content := .error ⟨lit "open last_sync_time.txt: no such file or directory"⟩
    writeError := none }

/-- The tracker's rejection of a creation for which its default assignee is not valid. -/
def sampleDefaultAssigneeError : GoError :=
  ⟨lit "assignee: User 'lead' does not exist.: Request failed. Status code: 400"⟩

/-- A source issue whose assignee has no entry in `AssigneeMap`. -/
def sampleUnmappedIssue : GithubIssue :=
  { sampleIssue with Assignee := ⟨lit "carol", lit "https://github.com/carol", lit ""⟩ }

/-- The source issue `sampleIssue`, closed. -/
def sampleClosedIssue : GithubIssue := { sampleIssue with State := lit "closed" }

/-- A watermark file that holds the time `1577000000` and can be written. -/
def sampleStoredFile : SyncFile :=
  { content := .ok (lit "1577000000")
    writeError := none }

/-- A source tracker whose repository `tidb` has two issues: `sampleUnmappedIssue`, then
an issue with the identifier `43`. -/
def sampleTwoIssueGithub : GithubClient :=
  { ListByRepo := fun _ repoName _ =>
      if repoName = lit "tidb" then
        .ok ⟨[sampleUnmappedIssue, { sampleIssue with ID := 43, Number := 8 }], 0⟩
      else .error ⟨lit "404 Not Found"⟩
    ListComments := fun _ _ _ _ => .ok ⟨[], 0⟩ }

/-- A tracker that holds the target issue of `sampleIssue` with three comments: a stale
mirror of the source comment `7`, a comment written in the tracker, and a mirror of a
source comment `9`. -/
def commentedTracker : Tracker :=
  { syncedTracker with
    comments :=
      [(lit "10001",
          ⟨lit "20001", lit "Comment [(ID 7)|u] from GitHub user [bob|b] at t\n\n----\n\nold\n",
            lit "sync"⟩),
        (lit "10001", sampleManualComment), (lit "10001", sampleOrphanComment)]
    next := 20004 }

/-- The source issue `sampleIssue` with its count of comments at two. -/
def sampleCommentedIssue : GithubIssue := { sampleIssue with Comments := 2 }

/-- A source tracker: repository `tidb` has the one issue `sampleCommentedIssue`, every
other listing of issues fails; every issue has the two comments `sampleComment` and
`sampleSecondComment`. -/
def sampleCommentedGithub : GithubClient :=
  { ListByRepo := fun _ repoName _ =>
      if repoName = lit "tidb" then .ok ⟨[sampleCommentedIssue], 0⟩
      else .error ⟨lit "404 Not Found"⟩
    ListComments := fun _ _ _ _ => .ok ⟨[sampleComment, sampleSecondComment], 0⟩ }

/-- The sample server, reading the start of its query window from the watermark file. -/
def sampleStoreServer : Server :=
  { sampleServer with Config := { sampleServer.Config with UseLastSyncTimeFile := true } }

/-- The sample clock one hour later. -/
def sampleLaterClock : Clock := { sampleClock with Now := 1577962800 }

/-- The sample server with the mapped user's target name holding a line break. -/
def sampleLineBreakServer : Server :=
  { sampleServer with
    Config := { sampleServer.Config with AssigneeMap := [(lit "alice", lit "alice\nj")] } }

/-! ## Vocabulary of the statements -/

/-- Whether a target comment carries a token that `doFindComment` reads as `n`. -/
def carriesID (n : Int) (c : JiraComment) : Bool :=
  match jCommentIDRegex_FindStringSubmatch c.Body with
  | some m => decide (n = (ParseInt m).1)
  | none => false

/-- The calls of a transition loop over `ids` on ticket `ticketID`, started in world `w`
and ended in world `w1` with result `r`: either every transition of the list was called,
in order, all succeeded and `r` is no error; or the list splits at its first failing
transition, the calls are those up to and including it, and `r` is its error.  No other
call is logged and the log before the loop is kept. -/
def TransitionsUpToFirstFailure {σ : Type} (ticketID : GoString) (ids : List GoString)
    (w : World σ) (r : Option GoError) (w1 : World σ) : Prop :=
  (r = none ∧
      w1.log = w.log ++ ids.map (fun t => (JiraCall.DoTransition ticketID t, none))) ∨
    (∃ pre t post e, ids = pre ++ t :: post ∧ r = some e ∧
      w1.log = w.log ++ pre.map (fun t => (JiraCall.DoTransition ticketID t, none)) ++
        [(JiraCall.DoTransition ticketID t, some e)])

/-- The identifying data of the issues a world's tracker holds. -/
def keysOf {σ : Type} (K : GoString) (issuesOf : σ → List JiraIssue) (w : World σ) :
    List (GoString × GoString × GoString × Option FieldValue) :=
  (issuesOf w.tracker).map (ident K)

/-- `correlated` read off the identifying data of an issue. -/
def correlatedKey (p : GoString) (n : Int)
    (x : GoString × GoString × GoString × Option FieldValue) : Bool :=
  decide (x.2.2.1 = p) && decide (x.2.2.2 = some (.int n))

/-- The bytes of a decimal text: digits and the minus sign. -/
def isSignOrDigit (b : Nat) : Bool := isDigit b || decide (b = 45)

/-- The outcome of a step that issues exactly one update call, with request `payload`, in
world `w`: the call is logged with the error it returned, which is the step's result. -/
def oneUpdate {σ : Type} (c : JiraClient σ) (payload : JiraIssue) (w : World σ) :
    Option GoError × World σ :=
  (errOf (c.Update payload w.tracker).1,
    ⟨(c.Update payload w.tracker).2,
      w.log ++ [(.Update payload, errOf (c.Update payload w.tracker).1)]⟩)

/-- The request of a label rule: the key of the resolved issue and the fields to set. -/
def rulePayload (jiraIssue : JiraIssue) (fields : IssueFields) : JiraIssue :=
  { ID := [], Key := jiraIssue.Key, Fields := fields }

/-- The result of two rules run one after the other, each whatever the outcome of the
other: the error of the second if it failed, else the error of the first. -/
def lastError (first second : Option GoError) : Option GoError :=
  match second with
  | some e => some e
  | none => first

/-- The fields `updateIssuetypeByLabel` pushes for the resolved issue `snap`, if any. -/
def issuetypeByLabelFields (s : Server) (i : IssuesEvent) (snap : JiraIssue) : Option IssueFields :=
  match mapGet (s.Config.repo i.RepoName).IssueTypeLabelMap i.Label.Name with
  | none => none
  | some category =>
    if snap.Fields.TypeName = category then none
    else some { IssueFields.zero with TypeName := category }

/-- The fields `updateComponentByLabel` pushes for the resolved issue `snap`, if any. -/
def componentByLabelFields (s : Server) (i : IssuesEvent) (snap : JiraIssue) : Option IssueFields :=
  match mapGet (s.Config.repo i.RepoName).ComponentLabelMap i.Label.Name with
  | none => none
  | some name =>
    if snap.Fields.Components.any (fun v => decide (v.Name = name)) then none
    else some { IssueFields.zero with Components := [⟨name⟩] }

/-- The fields `resetIssuetypeByUnlabel` pushes for the resolved issue `snap`, if any. -/
def issuetypeByUnlabelFields (s : Server) (i : IssuesEvent) (snap : JiraIssue) :
    Option IssueFields :=
  match mapGet (s.Config.repo i.RepoName).IssueTypeLabelMap i.Label.Name with
  | none => none
  | some category =>
    if snap.Fields.TypeName = category then
      some { IssueFields.zero with TypeName := (s.Config.repo i.RepoName).JiraIssueType }
    else none

/-- The fields `resetComponentByUnlabel` pushes for the resolved issue `snap`, if any. -/
def componentByUnlabelFields (s : Server) (i : IssuesEvent) (snap : JiraIssue) :
    Option IssueFields :=
  match mapGet (s.Config.repo i.RepoName).ComponentLabelMap i.Label.Name with
  | none => none
  | some name =>
    if snap.Fields.Components.any (fun v => decide (v.Name = name)) then
      some { IssueFields.zero with
        Components :=
          if snap.Fields.Components.filter (fun v => decide (v.Name ≠ name)) = [] then
            [⟨lit "general"⟩]
          else snap.Fields.Components.filter (fun v => decide (v.Name ≠ name)) }
    else none

/-- A rule's step: the update of `fields` on the resolved issue `snap`, or no call. -/
def ruleStep {σ : Type} (c : JiraClient σ) (snap : JiraIssue) (fields : Option IssueFields)
    (w : World σ) : Option GoError × World σ :=
  match fields with
  | none => (none, w)
  | some f => oneUpdate c (rulePayload snap f) w

/-- A stored issue after a rule's update has taken effect on it. -/
def ruleEffect (fields : Option IssueFields) (stored : JiraIssue) : JiraIssue :=
  match fields with
  | none => stored
  | some f => { stored with Fields := applyUpdate f stored.Fields }

/-- The target issue after the updates of `handleIssueEventLabel` have taken effect. -/
def labelEffect (s : Server) (issuetypeFirst : Bool) (i : IssuesEvent) (X : JiraIssue) : JiraIssue :=
  if issuetypeFirst then
    ruleEffect (componentByLabelFields s i X) (ruleEffect (issuetypeByLabelFields s i X) X)
  else ruleEffect (issuetypeByLabelFields s i X) (ruleEffect (componentByLabelFields s i X) X)

/-- The target issue after the updates of `handleIssueEventUnlabel` have taken effect. -/
def unlabelEffect (s : Server) (issuetypeFirst : Bool) (i : IssuesEvent) (X : JiraIssue) :
    JiraIssue :=
  if issuetypeFirst then
    ruleEffect (componentByUnlabelFields s i X) (ruleEffect (issuetypeByUnlabelFields s i X) X)
  else ruleEffect (issuetypeByUnlabelFields s i X) (ruleEffect (componentByUnlabelFields s i X) X)

/-- The issue `jiraIssue` after `jiraIssue.Fields.Assignee = nil`. -/
def withoutAssignee (jiraIssue : JiraIssue) : JiraIssue :=
  { jiraIssue with Fields := { jiraIssue.Fields with Assignee := none } }

/-- The call `compareSyncComments` makes for a source comment, given the target comments
fetched at its start: the update of the comment `doFindComment` returns, with the body
recomputed, or the addition of a new comment. -/
def commentSyncCall (s : Server) (jiraIssue : JiraIssue) (jiraComments : List JiraComment)
    (githubComment : GithubIssueComment) : JiraCall :=
  match doFindComment jiraComments githubComment.ID with
  | (result, true) =>
    .UpdateComment jiraIssue.ID
      { result with
        Body := jiraIssueCommentFormat s.markdown githubComment.Body
          (extractGithubIssueCommentOptions s githubComment) }
  | (_, false) =>
    .AddComment jiraIssue.ID
      { JiraComment.zero with
        Body := jiraIssueCommentFormat s.markdown githubComment.Body
          (extractGithubIssueCommentOptions s githubComment) }

/-- The query of a search call; `none` for every other call. -/
def searchOf : JiraCall → Option GoString
  | .Search jql => some jql
  | _ => none

/-- The value of `errReturn` after the loop of `compareSyncIssues` over the repositories:
the error of the last repository, in the order of the loop, whose issues could not be
listed. -/
def lastListingError (g : GithubClient) (s : Server) (fuel : Nat) :
    List GoString → Option GoError → Option GoError
  | [], errReturn => errReturn
  | repoName :: rest, errReturn =>
    match getGithubIssuesByRepo g s fuel (s.Config.repo repoName).GithubOwner repoName with
    | some (.error err) => lastListingError g s fuel rest (some err)
    | _ => lastListingError g s fuel rest errReturn

/-- The tracker answers a creation with an error about the assignee only when the issue
to create has an assignee. -/
def RejectsAssigneeOnlyWhenSet {σ : Type} (c : JiraClient σ) : Prop :=
  ∀ (jiraIssue : JiraIssue) (t : σ) (err : GoError), jiraIssue.Fields.Assignee = none →
    (c.Create jiraIssue t).1 = .error err → reAssigneeError_MatchString err.msg = false

/-- The queries of the search calls of a log, in order. -/
def searchesOf (l : List (JiraCall × Option GoError)) : List GoString :=
  l.filterMap (fun e => searchOf e.1)

/-- From `w` to `w2` the log grew by calls whose searches are `jqls`, in this order. -/
def SearchesBetween {σ : Type} (w w2 : World σ) (jqls : List GoString) : Prop :=
  ∃ l, w2.log = w.log ++ l ∧ searchesOf l = jqls

/-- The assignee `compareSyncIssuesUpdate` pushes: the `AssigneeMap` entry of the source
assignee's login, none when there is no entry. -/
def bulkAssignee (s : Server) (githubIssue : GithubIssue) : Option JiraUser :=
  match mapGet s.Config.AssigneeMap githubIssue.Assignee.Login with
  | some name => some ⟨name⟩
  | none => none

/-- The transitions of the status sync of `compareSyncIssuesUpdate`. -/
def statusTransitions (s : Server) (repoName : GoString) (jiraIssue : JiraIssue)
    (githubIssue : GithubIssue) : List GoString :=
  if githubIssue.State = lit "closed" then
    if jiraIssue.Fields.StatusCategoryName ≠ JiraStatusDoneName then
      (s.Config.repo repoName).transitions JiraTransitionDoneName
    else []
  else if githubIssue.State = lit "open" then
    if jiraIssue.Fields.StatusCategoryName = JiraStatusDoneName then
      (s.Config.repo repoName).transitions JiraTransitionTodoName
    else []
  else []

/-- The variable `toUpdateIssueTypeName` of `compareSyncIssuesUpdate`. -/
def toUpdateIssueTypeName (s : Server) (repoName : GoString) (jiraIssue : JiraIssue)
    (githubIssue : GithubIssue) : GoString :=
  match labelIssueTypes s repoName githubIssue.Labels with
  | first :: rest =>
    if (first :: rest).any (fun name => decide (name = jiraIssue.Fields.TypeName)) then []
    else first
  | [] => (s.Config.repo repoName).JiraIssueType

/-- The components `compareSyncIssuesUpdate` pushes: those the labels map to, or the
repository's default components when the labels map to none. -/
def bulkComponents (s : Server) (repoName : GoString) (githubIssue : GithubIssue) :
    List JiraComponent :=
  if (labelComponents s repoName githubIssue.Labels).length = 0 then
    (s.Config.repo repoName).JiraComponents.map (fun v => JiraComponent.mk v)
  else labelComponents s repoName githubIssue.Labels

/-- The request that sets the category `name` on the issue of key `jiraIssue.Key`. -/
def categoryUpdate (jiraIssue : JiraIssue) (name : GoString) : JiraIssue :=
  { JiraIssue.zero with
    Key := jiraIssue.Key
    Fields := { IssueFields.zero with TypeName := name } }

/-- The request that sets the components on the issue of key `jiraIssue.Key`. -/
def componentsUpdate (jiraIssue : JiraIssue) (components : List JiraComponent) : JiraIssue :=
  { JiraIssue.zero with
    Key := jiraIssue.Key
    Fields := { IssueFields.zero with Components := components } }

/-- The category step of `compareSyncIssuesUpdate`: one update when the name is not empty. -/
def categoryStep {σ : Type} (c : JiraClient σ) (jiraIssue : JiraIssue) (name : GoString)
    (w : World σ) : World σ :=
  if name ≠ [] then (IssueUpdate c (categoryUpdate jiraIssue name) w).2 else w

/-- The call `call` made on the tracker in state `t`: the error the tracker answers, if
any, and the state it leaves. -/
def performCall {σ : Type} (c : JiraClient σ) : JiraCall → σ → Option GoError × σ
  | .Search jql, t => (errOf (c.Search jql t).1, (c.Search jql t).2)
  | .Create issue, t => (errOf (c.Create issue t).1, (c.Create issue t).2)
  | .Update issue, t => (errOf (c.Update issue t).1, (c.Update issue t).2)
  | .DoTransition ticketID transitionID, t => c.DoTransition ticketID transitionID t
  | .UpdateAssignee issueID assignee, t => c.UpdateAssignee issueID assignee t
  | .GetComments issueID, t => (errOf (c.GetComments issueID t).1, (c.GetComments issueID t).2)
  | .AddComment issueID comment, t => c.AddComment issueID comment t
  | .UpdateComment issueID comment, t => c.UpdateComment issueID comment t
  | .DeleteComment issueID commentID, t => c.DeleteComment issueID commentID t

/-- The calls of a list made on the tracker one after the other, each on the state the one
before it left and whatever its outcome: the outcome of the last call (`err` when the
list is empty), the state of the tracker after the last call, and the log extended by
every call with its outcome. -/
def performCalls {σ : Type} (c : JiraClient σ) :
    List JiraCall → Option GoError → World σ → Option GoError × World σ
  | [], err, w => (err, w)
  | call :: rest, _, w =>
    performCalls c rest (performCall c call w.tracker).1
      ⟨(performCall c call w.tracker).2, w.log ++ [(call, (performCall c call w.tracker).1)]⟩

/-- The comments of issue `id` held by the tracker, in order: what `memTracker` answers to
a listing of the comments. -/
def Tracker.commentsOf (T : Tracker) (id : GoString) : List JiraComment :=
  (T.comments.filter (fun x => decide (x.1 = id))).map Prod.snd

/-- The tracker with the fields of the issue of identifier `id` rewritten by `f`. -/
def Tracker.modify (T : Tracker) (id : GoString) (f : IssueFields → IssueFields) : Tracker :=
  { T with
    issues := T.issues.map (fun i => if i.ID = id then { i with Fields := f i.Fields } else i) }

/-- A state of the tracker held in memory is well formed when no two issues share an
identifier or a key, no two comments of one issue share an identifier, and the
identifiers and keys the tracker will give out next are not in use. -/
structure WellFormed (T : Tracker) : Prop where
  ids : (T.issues.map (fun i => i.ID)).Nodup
  keys : (T.issues.map (fun i => i.Key)).Nodup
  commentIDs : (T.comments.map (fun x => (x.1, x.2.ID))).Nodup
  freshID : ∀ i ∈ T.issues, ∀ n, T.next ≤ n → i.ID ≠ formatNat n
  freshKey : ∀ i ∈ T.issues, ∀ p n, T.next ≤ n → i.Key ≠ p ++ lit "-" ++ formatNat n
  freshComment : ∀ x ∈ T.comments, ∀ n, T.next ≤ n → x.2.ID ≠ formatNat n

/-- The tracker holds an issue of identifier `id`, and its issues of key `key` are those of
identifier `id`. -/
def Holds (T : Tracker) (id key : GoString) : Prop :=
  (∃ x ∈ T.issues, x.ID = id) ∧ ∀ x ∈ T.issues, (x.Key = key ↔ x.ID = id)

/-- The fields of an issue after `memTracker` has handled an assignment. -/
def assigneeEffect (users : List GoString) (assignee : Option JiraUser) (F : IssueFields) :
    IssueFields :=
  match assignee with
  | some u =>
    if u.Name = [] then { F with Assignee := none }
    else if u.Name ∈ users then { F with Assignee := some u }
    else F
  | none => { F with Assignee := none }

/-- The fields of an issue after `memTracker` has handled the transitions of a list, up to
the first one that is not valid. -/
def statusAfter (workflow : GoString → Option GoString) : List GoString → IssueFields → IssueFields
  | [], F => F
  | t :: rest, F =>
    match workflow t with
    | none => F
    | some category => statusAfter workflow rest { F with StatusCategoryName := category }

/-- The fields of an issue after the category step of `compareSyncIssuesUpdate`. -/
def categoryEffect (name : GoString) (F : IssueFields) : IssueFields :=
  if name ≠ [] then applyUpdate { IssueFields.zero with TypeName := name } F else F

/-- The fields of the target issue `J` after `compareSyncIssuesUpdate` on `memTracker`, from
its fields `F` before. -/
def bulkFields (s : Server) (repoName : GoString) (users : List GoString)
    (workflow : GoString → Option GoString) (J : JiraIssue) (githubIssue : GithubIssue)
    (F : IssueFields) : IssueFields :=
  applyUpdate { IssueFields.zero with Components := bulkComponents s repoName githubIssue }
    (categoryEffect (toUpdateIssueTypeName s repoName J githubIssue)
      (statusAfter workflow (statusTransitions s repoName J githubIssue)
        (assigneeEffect users (bulkAssignee s githubIssue)
          (applyUpdate
            (jiraIssueUpdateFormat s J.ID J.Key githubIssue.Title githubIssue.Body
              (extractGithubIssueOptions s githubIssue)).Fields F))))

/-- The status category after the transitions of a list, up to the first one that is not
valid. -/
def statusName (workflow : GoString → Option GoString) : List GoString → GoString → GoString
  | [], st => st
  | t :: rest, st =>
    match workflow t with
    | none => st
    | some category => statusName workflow rest category

/-- The body `compareSyncComments` gives the mirror of a source comment. -/
def mirrorBody (s : Server) (githubComment : GithubIssueComment) : GoString :=
  jiraIssueCommentFormat s.markdown githubComment.Body
    (extractGithubIssueCommentOptions s githubComment)

/-- The comment `c` with its body replaced by `B` when its identifier is `cid`. -/
def setBody (cid B : GoString) (c : JiraComment) : JiraComment :=
  if c.ID = cid then { c with Body := B } else c

/-- The source comment has its mirror among the comments `C`, and the mirror is up to
date: `doFindComment` finds a comment for its identifier, and every comment with that
comment's identifier has the recomputed body. -/
def SyncedC (s : Server) (githubComment : GithubIssueComment) (C : List JiraComment) : Prop :=
  ∃ M, C.find? (carriesID githubComment.ID) = some M ∧
    ∀ x ∈ C, x.ID = M.ID → x.Body = mirrorBody s githubComment

/-- The tracker after an update of the body of the comment `cid` of issue `id`. -/
def Tracker.updComment (T : Tracker) (id cid B : GoString) : Tracker :=
  { T with
    comments := T.comments.map (fun x =>
      if x.1 = id ∧ x.2.ID = cid then (x.1, { x.2 with Body := B }) else x) }

/-- The tracker after the comment `comment` was added to issue `id`. -/
def Tracker.addComment (T : Tracker) (id : GoString) (comment : JiraComment) : Tracker :=
  { T with
    comments := T.comments ++ [(id, { comment with ID := formatNat T.next })]
    next := T.next + 1 }

/-- The tracker without the comments of issue `id` whose identifier is in `cids`. -/
def Tracker.delComments (T : Tracker) (id : GoString) (cids : List GoString) : Tracker :=
  { T with
    comments := T.comments.filter (fun x => !(decide (x.1 = id) && decide (x.2.ID ∈ cids))) }

/-- No call of the log created anything: every creation of an issue was rejected, and no
comment was added. -/
def NothingCreated (l : List (JiraCall × Option GoError)) : Prop :=
  ∀ x ∈ l, (∀ issue, x.1 = .Create issue → x.2 ≠ none) ∧ ∀ id comment, x.1 ≠ .AddComment id comment

/-- The comments `C` of the target issue need no change for the source issue: when the
source issue has no comments, none of them carries a token; when its comments are listed,
each of them has its mirror, up to date. -/
def CommentsSettled (s : Server) (g : GithubClient) (fuel : Nat) (repoName : GoString)
    (githubIssue : GithubIssue) (C : List JiraComment) : Prop :=
  if githubIssue.Comments = 0 then
    C.filter (fun t => jCommentIDRegex_MatchString t.Body) = []
  else
    match getGithubIssueComments g s fuel (s.Config.repo repoName).GithubOwner repoName
        githubIssue.Number with
    | some (.ok githubComments) => ∀ gc ∈ githubComments, SyncedC s gc C
    | _ => True

/-- The comments the source lists are well formed: no two of a list share an identifier,
and the identifiers are those of an `int64` that is not negative. -/
def SourceComments (s : Server) (g : GithubClient) (fuel : Nat) : Prop :=
  ∀ owner repoName number githubComments,
    getGithubIssueComments g s fuel owner repoName number = some (.ok githubComments) →
    (githubComments.map (fun gc => gc.ID)).Nodup ∧
      ∀ gc ∈ githubComments, 0 ≤ gc.ID ∧ gc.ID < 2 ^ 63

/-- A rewriting of the fields of an issue that keeps its project key and custom fields. -/
def KeepsIdent (f : IssueFields → IssueFields) : Prop :=
  ∀ F, (f F).ProjectKey = F.ProjectKey ∧ (f F).Unknowns = F.Unknowns

/-- From `w` to `w2` the log grew by calls that are neither the creation of an issue nor
the addition of a comment. -/
def Quiet {σ : Type} (w w2 : World σ) : Prop :=
  ∃ l, w2.log = w.log ++ l ∧
    ∀ x ∈ l, (∀ issue, x.1 ≠ JiraCall.Create issue) ∧ ∀ id comment, x.1 ≠ .AddComment id comment

/-- The tracker rejects the creation of the target issue of the source issue, with an error
the retry does not recognise: the projected assignee is not a user of the tracker and the
error is not matched by `reAssigneeError`. -/
def CreateRejected (s : Server) (users : List GoString) (repoName : GoString)
    (githubIssue : GithubIssue) : Prop :=
  ∃ u, (jiraIssueOpenFormat s githubIssue.ID repoName githubIssue.Title githubIssue.Body
      (extractGithubIssueOptions s githubIssue)).Fields.Assignee = some u ∧
    u.Name ∉ users ∧ reAssigneeError_MatchString (assigneeError u.Name).msg = false

/-- The tracker needs no change for the source issue: the lookup finds a target issue whose
fields the bulk update leaves as they are and whose comments are settled; or it finds none
and the creation is rejected. -/
def Settled (K : GoString) (workflow : GoString → Option GoString) (s : Server)
    (g : GithubClient) (fuel : Nat) (repoName : GoString) (githubIssue : GithubIssue)
    (T : Tracker) : Prop :=
  match T.issues.find? (correlated K (s.Config.repo repoName).JiraProjectKey githubIssue.ID) with
  | some J =>
    bulkFields s repoName T.users workflow J githubIssue J.Fields = J.Fields ∧
      CommentsSettled s g fuel repoName githubIssue (T.commentsOf J.ID)
  | none => CreateRejected s T.users repoName githubIssue

/-- The creation pass is over for the source issue: its target issue exists, or its
creation is rejected. -/
def Ready (K : GoString) (s : Server) (repoName : GoString) (githubIssue : GithubIssue)
    (T : Tracker) : Prop :=
  (T.issues.find? (correlated K (s.Config.repo repoName).JiraProjectKey githubIssue.ID)).isSome =
      true ∨
    CreateRejected s T.users repoName githubIssue

/-- From `T` to `T2` nothing changed for the source issues other than the one of project
`p` and identifier `n`: the users, the target issue a lookup finds, and its comments. -/
def OthersKept (K p : GoString) (n : Int) (T T2 : Tracker) : Prop :=
  T2.users = T.users ∧
    ∀ q m, ¬ (q = p ∧ m = n) →
      T2.issues.find? (correlated K q m) = T.issues.find? (correlated K q m) ∧
        ∀ J, T.issues.find? (correlated K q m) = some J → T2.commentsOf J.ID = T.commentsOf J.ID

/-- The issue `memTracker` stores for a creation request. -/
def Tracker.newIssue (T : Tracker) (payload : JiraIssue) : JiraIssue :=
  ⟨formatNat T.next, payload.Fields.ProjectKey ++ lit "-" ++ formatNat T.next,
    { payload.Fields with StatusCategoryName := lit "To Do" }⟩

/-- The tracker after the creation of an issue. -/
def Tracker.created (T : Tracker) (payload : JiraIssue) : Tracker :=
  { T with issues := T.issues ++ [T.newIssue payload], next := T.next + 1 }

/-- The project key and the source identifier under which a source issue of a repository
is looked up. -/
def jobKey (s : Server) (job : GoString × GithubIssue) : GoString × Int :=
  ((s.Config.repo job.1).JiraProjectKey, job.2.ID)

/-- The source issues a pass handles, each with its repository: for every repository whose
issues are listed, in the order of the loop, the listed issues. -/
def passJobs (g : GithubClient) (s : Server) (fuel : Nat) :
    List GoString → List (GoString × GithubIssue)
  | [] => []
  | repoName :: rest =>
    (match getGithubIssuesByRepo g s fuel (s.Config.repo repoName).GithubOwner repoName with
      | some (.ok allGithubIssues) => allGithubIssues.map (fun githubIssue => (repoName, githubIssue))
      | _ => []) ++ passJobs g s fuel rest

/-- What a pass with server `s` needs of the source, for the repositories `repoNames`:
every listing of issues and of comments ends within the `fuel`; no two listed issues are
looked up under the same project key and source identifier; the comments of a listing
have pairwise distinct identifiers, none of them negative or beyond an `int64`. -/
structure SourceWellFormed (g : GithubClient) (s : Server) (fuel : Nat)
    (repoNames : List GoString) : Prop where
  issuesEnd : ∀ repoName ∈ repoNames,
    (getGithubIssuesByRepo g s fuel (s.Config.repo repoName).GithubOwner repoName).isSome = true
  commentsEnd : ∀ owner repo number,
    (getGithubIssueComments g s fuel owner repo number).isSome = true
  distinct : ((passJobs g s fuel repoNames).map (jobKey s)).Nodup
  comments : SourceComments s g fuel

/-- The source has not changed between a pass with server `s1` and a later pass with
server `s2`: the listings of the later pass end within the `fuel`, and they hold no issue
and no comment that the listings of the earlier pass did not hold. -/
structure SourceUnchanged (g : GithubClient) (s1 s2 : Server) (fuel : Nat)
    (repoNames : List GoString) : Prop where
  issuesEnd : ∀ repoName ∈ repoNames,
    (getGithubIssuesByRepo g s2 fuel (s2.Config.repo repoName).GithubOwner repoName).isSome =
      true
  commentsEnd : ∀ owner repo number,
    (getGithubIssueComments g s2 fuel owner repo number).isSome = true
  issues : ∀ repoName ∈ repoNames, ∀ L2,
    getGithubIssuesByRepo g s2 fuel (s2.Config.repo repoName).GithubOwner repoName =
      some (.ok L2) →
    ∃ L1, getGithubIssuesByRepo g s1 fuel (s1.Config.repo repoName).GithubOwner repoName =
      some (.ok L1) ∧ ∀ gi ∈ L2, gi ∈ L1
  comments : ∀ owner repo number L2,
    getGithubIssueComments g s2 fuel owner repo number = some (.ok L2) →
    ∃ L1, getGithubIssueComments g s1 fuel owner repo number = some (.ok L1) ∧
      ∀ gc ∈ L2, gc ∈ L1

/-! ## Lemmas on strings and numbers -/

theorem dropLit_append (p s : GoString) : dropLit p (p ++ s) = some s := by
  induction p with
  | nil => cases s <;> rfl
  | cons a p ih => simp [dropLit, ih]

theorem dropLit_eq_some (p s t : GoString) (h : dropLit p s = some t) : s = p ++ t := by
  induction p generalizing s with
  | nil =>
    cases s <;> simp [dropLit] at h <;> simp [h]
  | cons a p ih =>
    cases s with
    | nil => simp [dropLit] at h
    | cons b s =>
      by_cases hab : a = b
      · subst hab
        simp only [dropLit, if_true] at h
        simp [ih s h]
      · simp [dropLit, hab] at h

theorem formatNatAux_eq (fuel n : Nat) (acc : GoString) (h : n < fuel) :
    formatNatAux fuel n acc =
      (if n = 0 then [48] else ((Nat.digits 10 n).reverse).map (fun d => 48 + d)) ++ acc := by
  induction fuel generalizing n acc with
  | zero => omega
  | succ fuel ih =>
    unfold formatNatAux
    by_cases h10 : n < 10
    · rw [if_pos h10]
      by_cases h0 : n = 0
      · subst h0
        rfl
      · rw [if_neg h0, Nat.digits_of_lt 10 n h0 h10]
        rfl
    · rw [if_neg h10]
      have hpos : 0 < n := by omega
      have hdiv : n / 10 < fuel := by omega
      have hdiv0 : n / 10 ≠ 0 := by omega
      have hn0 : n ≠ 0 := by omega
      rw [ih (n / 10) _ hdiv, if_neg hdiv0, if_neg hn0,
        Nat.digits_def' (by norm_num : 1 < 10) hpos]
      simp [List.map_append]

theorem formatNat_eq_digits (n : Nat) :
    formatNat n = if n = 0 then [48] else ((Nat.digits 10 n).reverse).map (fun d => 48 + d) := by
  unfold formatNat
  rw [formatNatAux_eq _ _ _ (Nat.lt_succ_self n)]
  simp

theorem formatNat_ne_nil (n : Nat) : formatNat n ≠ [] := by
  rw [formatNat_eq_digits]
  split
  · simp
  · rename_i h
    simp [Nat.digits_ne_nil_iff_ne_zero, h]

theorem formatNat_all_isDigit (n : Nat) : (formatNat n).all isDigit = true := by
  rw [formatNat_eq_digits]
  split
  · decide
  · simp only [List.all_eq_true, List.mem_map, List.mem_reverse]
    rintro b ⟨d, hd, rfl⟩
    have := Nat.digits_lt_base (by norm_num : 1 < 10) hd
    simp [isDigit]
    omega

theorem foldr_digits (L : List Nat) :
    L.foldr (fun d acc => 10 * acc + (48 + d - 48)) 0 = Nat.ofDigits 10 L := by
  induction L with
  | nil => rfl
  | cons a L ih =>
    simp only [List.foldr_cons, ih, Nat.ofDigits_cons]
    omega

theorem digitsValue_formatNat (n : Nat) : digitsValue (formatNat n) = n := by
  rw [formatNat_eq_digits]
  split
  · rename_i h
    subst h
    rfl
  · unfold digitsValue
    rw [List.foldl_map, List.foldl_reverse, foldr_digits, Nat.ofDigits_digits]

theorem ParseInt_digits (ds : GoString) (hne : ds ≠ []) (hall : ds.all isDigit = true) :
    ParseInt ds =
      if digitsValue ds ≥ 2 ^ 63 then ((2 : Int) ^ 63 - 1, true) else ((digitsValue ds : Int), false) := by
  cases ds with
  | nil => exact absurd rfl hne
  | cons a r =>
    have ha : isDigit a = true := by
      simp only [List.all_cons, Bool.and_eq_true] at hall
      exact hall.1
    have h45 : a ≠ 45 := by
      intro h
      subst h
      simp [isDigit] at ha
    have h43 : a ≠ 43 := by
      intro h
      subst h
      simp [isDigit] at ha
    have hsplit : splitSign (a :: r) = (false, a :: r) := by
      unfold splitSign
      split
      · rename_i heq
        simp only [List.cons.injEq] at heq
        exact absurd heq.1 h45
      · rename_i heq
        simp only [List.cons.injEq] at heq
        exact absurd heq.1 h43
      · rfl
    unfold ParseInt
    rw [hsplit]
    simp only [hall, List.isEmpty_cons, Bool.not_true, Bool.or_self, Bool.false_eq_true,
      if_false, Bool.not_false, Bool.true_and, Bool.false_and, decide_eq_true_eq]

theorem ParseInt_formatNat (n : Nat) (h : n < 2 ^ 63) : ParseInt (formatNat n) = ((n : Int), false) := by
  rw [ParseInt_digits _ (formatNat_ne_nil n) (formatNat_all_isDigit n), digitsValue_formatNat]
  exact if_neg (Nat.not_le.mpr h)

theorem takeWhile_digits_append (ds rest : GoString) (hall : ds.all isDigit = true) :
    (ds ++ 41 :: rest).takeWhile isDigit = ds ∧ (ds ++ 41 :: rest).dropWhile isDigit = 41 :: rest := by
  induction ds with
  | nil =>
    constructor
    · simp [List.takeWhile, isDigit]
    · simp [List.dropWhile, isDigit]
  | cons a ds ih =>
    simp only [List.all_cons, Bool.and_eq_true] at hall
    obtain ⟨h1, h2⟩ := ih hall.2
    constructor
    · simp [List.takeWhile, hall.1, h1]
    · simp [List.dropWhile, hall.1, h2]

/-- The token pattern reads back the identifier text from a body that starts with the token. -/
theorem FindStringSubmatch_token (ds rest : GoString) (hne : ds ≠ [])
    (hall : ds.all isDigit = true) :
    jCommentIDRegex_FindStringSubmatch (lit "Comment [(ID " ++ (ds ++ (lit ")|" ++ rest))) = some ds := by
  unfold jCommentIDRegex_FindStringSubmatch
  rw [dropLit_append]
  have hlit : lit ")|" ++ rest = 41 :: 124 :: rest := rfl
  rw [hlit]
  obtain ⟨h1, h2⟩ := takeWhile_digits_append ds (124 :: rest) hall
  simp only [h1, h2]
  cases ds with
  | nil => exact absurd rfl hne
  | cons a ds =>
    have : dropLit (lit ")|") (41 :: 124 :: rest) = some rest := dropLit_append (lit ")|") rest
    simp [this]

/-- A body matches the token pattern exactly when it is the token constant, a non-empty
run of digits, `)|` and any remainder; the capture group is that run. -/
theorem FindStringSubmatch_eq_some (body ds : GoString)
    (h : jCommentIDRegex_FindStringSubmatch body = some ds) :
    ds ≠ [] ∧ ds.all isDigit = true ∧
      ∃ rest, body = lit "Comment [(ID " ++ (ds ++ (lit ")|" ++ rest)) := by
  unfold jCommentIDRegex_FindStringSubmatch at h
  split at h
  · exact absurd h (by simp)
  · rename_i r hr
    have hbody := dropLit_eq_some _ _ _ hr
    simp only at h
    split at h
    · exact absurd h (by simp)
    · rename_i hne
      split at h
      · exact absurd h (by simp)
      · rename_i t ht
        have htl := dropLit_eq_some _ _ _ ht
        simp only [Option.some.injEq] at h
        refine ⟨?_, ?_, t, ?_⟩
        · intro h0
          rw [← h] at h0
          simp [h0] at hne
        · rw [← h]
          simp only [List.all_eq_true]
          intro x hx
          exact (List.mem_takeWhile_imp hx)
        · rw [hbody, ← h, ← htl, List.takeWhile_append_dropWhile]

theorem doFindComment_eq_find (cs : List JiraComment) (n : Int) :
    doFindComment cs n =
      match cs.find? (carriesID n) with
      | some c => (c, true)
      | none => (JiraComment.zero, false) := by
  induction cs with
  | nil => rfl
  | cons c cs ih =>
    unfold doFindComment
    cases hm : jCommentIDRegex_FindStringSubmatch c.Body with
    | none =>
      have hc : carriesID n c = false := by simp [carriesID, hm]
      simp only [List.find?_cons, hc]
      exact ih
    | some m =>
      by_cases hn : n = (ParseInt m).1
      · have hc : carriesID n c = true := by simp [carriesID, hm, hn]
        simp only [List.find?_cons, hc]
        simp [← hn]
      · have hc : carriesID n c = false := by simp [carriesID, hm, hn]
        simp only [List.find?_cons, hc, if_neg hn]
        exact ih

theorem jiraIssueCommentFormat_token (markdown : Converter) (body : GoString)
    (options : githubIssueCommentOptions) :
    ∃ rest, jiraIssueCommentFormat markdown body options =
      lit "Comment [(ID " ++ (options.githubIssueCommentID ++ (lit ")|" ++ rest)) := by
  unfold jiraIssueCommentFormat
  by_cases h : options.githubIssueCommentUserName.length > 0
  · simp only [h, if_true, List.append_assoc]
    exact ⟨_, rfl⟩
  · simp only [h, if_false, List.append_assoc]
    exact ⟨_, rfl⟩

theorem FormatInt_nonneg (n : Int) (h : 0 ≤ n) : FormatInt n = formatNat n.toNat := by
  unfold FormatInt
  rw [if_neg (not_lt.mpr h)]
  congr 1
  omega

/-- A comment formatted for source identifier `n` carries `n` and no other identifier. -/
theorem carriesID_format (markdown : Converter) (body : GoString)
    (options : githubIssueCommentOptions) (n : Int) (h0 : 0 ≤ n) (h63 : n < 2 ^ 63)
    (hid : options.githubIssueCommentID = FormatInt n) (c : JiraComment)
    (hc : c.Body = jiraIssueCommentFormat markdown body options) (m : Int) :
    carriesID m c = decide (m = n) := by
  obtain ⟨rest, hrest⟩ := jiraIssueCommentFormat_token markdown body options
  have hfmt := FormatInt_nonneg n h0
  have hlt : n.toNat < 2 ^ 63 := by omega
  unfold carriesID
  rw [hc, hrest, hid, hfmt,
    FindStringSubmatch_token _ rest (formatNat_ne_nil _) (formatNat_all_isDigit _)]
  simp only [ParseInt_formatNat _ hlt]
  congr 1
  rw [Int.toNat_of_nonneg h0]

theorem transitionLoop_spec {σ : Type} (c : JiraClient σ) (ticketID : GoString)
    (ids : List GoString) (w : World σ) :
    TransitionsUpToFirstFailure ticketID ids w (transitionLoop c ticketID ids w).1
      (transitionLoop c ticketID ids w).2 := by
  induction ids generalizing w with
  | nil =>
    left
    simp [transitionLoop]
  | cons t ids ih =>
    unfold transitionLoop
    cases hr : (c.DoTransition ticketID t w.tracker).1 with
    | some e =>
      right
      refine ⟨[], t, ids, e, rfl, ?_, ?_⟩
      · simp [IssueDoTransition, hr]
      · simp [IssueDoTransition, hr]
    | none =>
      have hstep : IssueDoTransition c ticketID t w =
          (none, ⟨(c.DoTransition ticketID t w.tracker).2,
            w.log ++ [(.DoTransition ticketID t, none)]⟩) := by
        simp [IssueDoTransition, hr]
      rw [hstep]
      simp only
      rcases ih ⟨(c.DoTransition ticketID t w.tracker).2,
          w.log ++ [(.DoTransition ticketID t, none)]⟩ with h | ⟨pre, t1, post, e, h1, h2, h3⟩
      · left
        refine ⟨h.1, ?_⟩
        rw [h.2]
        simp
      · right
        refine ⟨t :: pre, t1, post, e, ?_, h2, ?_⟩
        · simp [h1]
        · rw [h3]
          simp

theorem findIssue_result {σ : Type} (c : JiraClient σ) (s : Server) (projectKey : GoString)
    (issueID : Int) (w : World σ) :
    (findIssue c s projectKey issueID w).1 =
      match (c.Search (findIssueJQL s projectKey issueID) w.tracker).1 with
      | .error e => .error e
      | .ok [] => .error (errorsNew "Issue not exists")
      | .ok (first :: _) => .ok first := by
  unfold findIssue IssueSearch
  cases h : (c.Search (findIssueJQL s projectKey issueID) w.tracker).1 with
  | error e => simp [h]
  | ok l =>
    cases l with
    | nil => simp [h]
    | cons a l => simp [h]

theorem findIssue_log {σ : Type} (c : JiraClient σ) (s : Server) (projectKey : GoString)
    (issueID : Int) (w : World σ) :
    (findIssue c s projectKey issueID w).2.log =
        w.log ++ [(.Search (findIssueJQL s projectKey issueID),
          errOf (c.Search (findIssueJQL s projectKey issueID) w.tracker).1)] ∧
      (findIssue c s projectKey issueID w).2.tracker =
        (c.Search (findIssueJQL s projectKey issueID) w.tracker).2 := by
  unfold findIssue IssueSearch
  cases h : (c.Search (findIssueJQL s projectKey issueID) w.tracker).1 with
  | error e => simp [h]
  | ok l =>
    cases l with
    | nil => simp [h]
    | cons a l => simp [h]

theorem findIssue_eq_of_error {σ : Type} (c : JiraClient σ) (s : Server) (projectKey : GoString)
    (issueID : Int) (w : World σ) (e : GoError)
    (h : (findIssue c s projectKey issueID w).1 = .error e) :
    findIssue c s projectKey issueID w = (.error e, (findIssue c s projectKey issueID w).2) := by
  rw [← h]

/-! ## Lemmas on the issue collection -/

theorem findIssue_issues {σ : Type} {c : JiraClient σ} {K : GoString}
    {issuesOf : σ → List JiraIssue} (h : IssueCollection c K issuesOf) (s : Server)
    (projectKey : GoString) (issueID : Int) (w : World σ) :
    issuesOf (findIssue c s projectKey issueID w).2.tracker = issuesOf w.tracker := by
  rw [(findIssue_log c s projectKey issueID w).2]
  exact h.search_state _ _

theorem findIssue_keys {σ : Type} {c : JiraClient σ} {K : GoString}
    {issuesOf : σ → List JiraIssue} (h : IssueCollection c K issuesOf) (s : Server)
    (projectKey : GoString) (issueID : Int) (w : World σ) :
    keysOf K issuesOf (findIssue c s projectKey issueID w).2 = keysOf K issuesOf w := by
  unfold keysOf
  rw [findIssue_issues h]

theorem transitionLoop_keys {σ : Type} {c : JiraClient σ} {K : GoString}
    {issuesOf : σ → List JiraIssue} (h : IssueCollection c K issuesOf) (ticketID : GoString)
    (ids : List GoString) (w : World σ) :
    keysOf K issuesOf (transitionLoop c ticketID ids w).2 = keysOf K issuesOf w := by
  induction ids generalizing w with
  | nil => rfl
  | cons t ids ih =>
    unfold transitionLoop
    have hstep : keysOf K issuesOf (IssueDoTransition c ticketID t w).2 = keysOf K issuesOf w :=
      h.doTransition ticketID t w.tracker
    cases hr : (IssueDoTransition c ticketID t w) with
    | mk r w1 =>
      rw [hr] at hstep
      cases r with
      | some e => exact hstep
      | none =>
        simp only
        rw [ih w1]
        exact hstep

theorem IssueUpdate_keys {σ : Type} {c : JiraClient σ} {K : GoString}
    {issuesOf : σ → List JiraIssue} (h : IssueCollection c K issuesOf) (payload : JiraIssue)
    (hp : payload.Fields.ProjectKey = []) (hu : payload.Fields.Unknowns = []) (w : World σ) :
    keysOf K issuesOf (IssueUpdate c payload w).2 = keysOf K issuesOf w :=
  h.update payload w.tracker hp hu

theorem findComment_keys {σ : Type} {c : JiraClient σ} {K : GoString}
    {issuesOf : σ → List JiraIssue} (h : IssueCollection c K issuesOf) (jiraIssueID : GoString)
    (githubCommentID : Int) (w : World σ) :
    keysOf K issuesOf (findComment c jiraIssueID githubCommentID w).2 = keysOf K issuesOf w := by
  have hstep : keysOf K issuesOf (GetComments c jiraIssueID w).2 = keysOf K issuesOf w :=
    h.getComments jiraIssueID w.tracker
  unfold findComment
  cases hr : GetComments c jiraIssueID w with
  | mk r w1 =>
    rw [hr] at hstep
    cases r with
    | error e => exact hstep
    | ok l =>
      simp only
      cases hd : doFindComment l githubCommentID with
      | mk res found =>
        cases found <;> exact hstep

theorem updateIssuetypeByLabel_keys {σ : Type} {c : JiraClient σ} {K : GoString}
    {issuesOf : σ → List JiraIssue} (h : IssueCollection c K issuesOf) (s : Server)
    (i : IssuesEvent) (jiraIssue : JiraIssue) (w : World σ) :
    keysOf K issuesOf (updateIssuetypeByLabel c s i jiraIssue w).2 = keysOf K issuesOf w := by
  unfold updateIssuetypeByLabel
  simp only
  split
  · rfl
  · split
    · rfl
    · rename_i name _ _
      have hstep := IssueUpdate_keys h
        { JiraIssue.zero with
          Key := jiraIssue.Key
          Fields := { IssueFields.zero with TypeName := name } } rfl rfl w
      split <;> rename_i heq <;> rw [heq] at hstep <;> exact hstep

theorem updateComponentByLabel_keys {σ : Type} {c : JiraClient σ} {K : GoString}
    {issuesOf : σ → List JiraIssue} (h : IssueCollection c K issuesOf) (s : Server)
    (i : IssuesEvent) (jiraIssue : JiraIssue) (w : World σ) :
    keysOf K issuesOf (updateComponentByLabel c s i jiraIssue w).2 = keysOf K issuesOf w := by
  unfold updateComponentByLabel
  simp only
  split
  · rfl
  · split
    · rfl
    · rename_i name _ _
      have hstep := IssueUpdate_keys h
        { JiraIssue.zero with
          Key := jiraIssue.Key
          Fields := { IssueFields.zero with Components := [⟨name⟩] } } rfl rfl w
      split <;> rename_i heq <;> rw [heq] at hstep <;> exact hstep

theorem resetIssuetypeByUnlabel_keys {σ : Type} {c : JiraClient σ} {K : GoString}
    {issuesOf : σ → List JiraIssue} (h : IssueCollection c K issuesOf) (s : Server)
    (i : IssuesEvent) (jiraIssue : JiraIssue) (w : World σ) :
    keysOf K issuesOf (resetIssuetypeByUnlabel c s i jiraIssue w).2 = keysOf K issuesOf w := by
  unfold resetIssuetypeByUnlabel
  simp only
  split
  · rfl
  · split
    · rfl
    · have hstep := IssueUpdate_keys h
        { JiraIssue.zero with
          Key := jiraIssue.Key
          Fields := { IssueFields.zero with TypeName := (s.Config.repo i.RepoName).JiraIssueType } }
        rfl rfl w
      split <;> rename_i heq <;> rw [heq] at hstep <;> exact hstep

theorem resetComponentByUnlabel_keys {σ : Type} {c : JiraClient σ} {K : GoString}
    {issuesOf : σ → List JiraIssue} (h : IssueCollection c K issuesOf) (s : Server)
    (i : IssuesEvent) (jiraIssue : JiraIssue) (w : World σ) :
    keysOf K issuesOf (resetComponentByUnlabel c s i jiraIssue w).2 = keysOf K issuesOf w := by
  unfold resetComponentByUnlabel
  simp only
  split
  · rfl
  · split
    · rfl
    · rename_i name _ _
      have hstep := fun comps => IssueUpdate_keys h
        { JiraIssue.zero with
          Key := jiraIssue.Key
          Fields := { IssueFields.zero with Components := comps } } rfl rfl w
      split <;> rename_i heq <;>
        have hs := hstep
          (if (List.filter (fun v => !decide (v.Name = name)) jiraIssue.Fields.Components).length = 0
            then List.filter (fun v => !decide (v.Name = name)) jiraIssue.Fields.Components ++
              [{ Name := lit "general" }]
            else List.filter (fun v => !decide (v.Name = name)) jiraIssue.Fields.Components) <;>
        rw [heq] at hs <;> exact hs

theorem runEventFuncs_keys {σ : Type} {c : JiraClient σ} {K : GoString}
    {issuesOf : σ → List JiraIssue} (s : Server) (i : IssuesEvent) (jiraIssue : JiraIssue)
    (fs : List (eventFunc σ))
    (hfs : ∀ f ∈ fs, ∀ w, keysOf K issuesOf (f c s i jiraIssue w).2 = keysOf K issuesOf w)
    (errReturn : Option GoError) (w : World σ) :
    keysOf K issuesOf (runEventFuncs c s i jiraIssue fs errReturn w).2 = keysOf K issuesOf w := by
  induction fs generalizing errReturn w with
  | nil => rfl
  | cons f fs ih =>
    have hf := hfs f (List.mem_cons_self _ _) w
    have ih2 := ih (fun g hg => hfs g (List.mem_cons_of_mem _ hg))
    unfold runEventFuncs
    cases hr : f c s i jiraIssue w with
    | mk r w1 =>
      rw [hr] at hf
      cases r with
      | some e =>
        simp only
        rw [ih2, hf]
      | none =>
        simp only
        rw [ih2, hf]

theorem handleIssueEventClosed_keys {σ : Type} {c : JiraClient σ} {K : GoString}
    {issuesOf : σ → List JiraIssue} (h : IssueCollection c K issuesOf) (s : Server)
    (i : IssuesEvent) (w : World σ) :
    keysOf K issuesOf (handleIssueEventClosed c s i w).2 = keysOf K issuesOf w := by
  have hf := findIssue_keys h s (s.Config.repo i.RepoName).JiraProjectKey i.Issue.ID w
  unfold handleIssueEventClosed
  simp only
  cases hr : findIssue c s (s.Config.repo i.RepoName).JiraProjectKey i.Issue.ID w with
  | mk r w1 =>
    rw [hr] at hf
    cases r with
    | error e => exact hf
    | ok jiraIssue =>
      simp only
      rw [transitionLoop_keys h, hf]

theorem handleIssueEventReopen_keys {σ : Type} {c : JiraClient σ} {K : GoString}
    {issuesOf : σ → List JiraIssue} (h : IssueCollection c K issuesOf) (s : Server)
    (i : IssuesEvent) (w : World σ) :
    keysOf K issuesOf (handleIssueEventReopen c s i w).2 = keysOf K issuesOf w := by
  have hf := findIssue_keys h s (s.Config.repo i.RepoName).JiraProjectKey i.Issue.ID w
  unfold handleIssueEventReopen
  simp only
  cases hr : findIssue c s (s.Config.repo i.RepoName).JiraProjectKey i.Issue.ID w with
  | mk r w1 =>
    rw [hr] at hf
    cases r with
    | error e => exact hf
    | ok jiraIssue =>
      simp only
      rw [transitionLoop_keys h, hf]

theorem handleIssueEventEdit_keys {σ : Type} {c : JiraClient σ} {K : GoString}
    {issuesOf : σ → List JiraIssue} (h : IssueCollection c K issuesOf) (s : Server)
    (i : IssuesEvent) (w : World σ) :
    keysOf K issuesOf (handleIssueEventEdit c s i w).2 = keysOf K issuesOf w := by
  have hf := findIssue_keys h s (s.Config.repo i.RepoName).JiraProjectKey i.Issue.ID w
  unfold handleIssueEventEdit
  simp only
  cases hr : findIssue c s (s.Config.repo i.RepoName).JiraProjectKey i.Issue.ID w with
  | mk r w1 =>
    rw [hr] at hf
    cases r with
    | error e => exact hf
    | ok jiraIssue =>
      simp only
      have hu := IssueUpdate_keys h
        (jiraIssueUpdateFormat s jiraIssue.ID jiraIssue.Key i.Issue.Title i.Issue.Body
          (extractGithubIssueOptions s i.Issue)) rfl rfl w1
      cases hr2 : IssueUpdate c
          (jiraIssueUpdateFormat s jiraIssue.ID jiraIssue.Key i.Issue.Title i.Issue.Body
            (extractGithubIssueOptions s i.Issue)) w1 with
      | mk r2 w2 =>
        rw [hr2] at hu
        cases r2 <;> simp only <;> rw [hu, hf]

theorem handleIssueEventAssign_keys {σ : Type} {c : JiraClient σ} {K : GoString}
    {issuesOf : σ → List JiraIssue} (h : IssueCollection c K issuesOf) (s : Server)
    (i : IssuesEvent) (w : World σ) :
    keysOf K issuesOf (handleIssueEventAssign c s i w).2 = keysOf K issuesOf w := by
  have hf := findIssue_keys h s (s.Config.repo i.RepoName).JiraProjectKey i.Issue.ID w
  unfold handleIssueEventAssign
  simp only
  cases hr : findIssue c s (s.Config.repo i.RepoName).JiraProjectKey i.Issue.ID w with
  | mk r w1 =>
    rw [hr] at hf
    cases r with
    | error e => exact hf
    | ok jiraIssue =>
      simp only
      cases hm : mapGet s.Config.AssigneeMap i.Assignee.Login with
      | none => exact hf
      | some name =>
        simp only
        have hu : keysOf K issuesOf (IssueUpdateAssignee c jiraIssue.ID (some ⟨name⟩) w1).2 =
            keysOf K issuesOf w1 := h.updateAssignee _ _ w1.tracker
        cases hr2 : IssueUpdateAssignee c jiraIssue.ID (some ⟨name⟩) w1 with
        | mk r2 w2 =>
          rw [hr2] at hu
          cases r2 <;> simp only <;> rw [hu, hf]

theorem handleIssueEventUnassign_keys {σ : Type} {c : JiraClient σ} {K : GoString}
    {issuesOf : σ → List JiraIssue} (h : IssueCollection c K issuesOf) (s : Server)
    (i : IssuesEvent) (w : World σ) :
    keysOf K issuesOf (handleIssueEventUnassign c s i w).2 = keysOf K issuesOf w := by
  have hf := findIssue_keys h s (s.Config.repo i.RepoName).JiraProjectKey i.Issue.ID w
  unfold handleIssueEventUnassign
  simp only
  cases hr : findIssue c s (s.Config.repo i.RepoName).JiraProjectKey i.Issue.ID w with
  | mk r w1 =>
    rw [hr] at hf
    cases r with
    | error e => exact hf
    | ok jiraIssue =>
      simp only
      cases hm : mapGet s.Config.AssigneeMap i.Assignee.Login with
      | none => exact hf
      | some name =>
        simp only
        cases ha : jiraIssue.Fields.Assignee with
        | none => exact hf
        | some current =>
          simp only
          split
          · exact hf
          · have hu : keysOf K issuesOf (IssueUpdateAssignee c jiraIssue.ID (some ⟨[]⟩) w1).2 =
                keysOf K issuesOf w1 := h.updateAssignee _ _ w1.tracker
            cases hr2 : IssueUpdateAssignee c jiraIssue.ID (some ⟨[]⟩) w1 with
            | mk r2 w2 =>
              rw [hr2] at hu
              cases r2 <;> simp only <;> rw [hu, hf]

theorem handleIssueEventLabel_keys {σ : Type} {c : JiraClient σ} {K : GoString}
    {issuesOf : σ → List JiraIssue} (h : IssueCollection c K issuesOf) (s : Server)
    (issuetypeFirst : Bool) (i : IssuesEvent) (w : World σ) :
    keysOf K issuesOf (handleIssueEventLabel c s issuetypeFirst i w).2 = keysOf K issuesOf w := by
  have hf := findIssue_keys h s (s.Config.repo i.RepoName).JiraProjectKey i.Issue.ID w
  unfold handleIssueEventLabel
  simp only
  cases hr : findIssue c s (s.Config.repo i.RepoName).JiraProjectKey i.Issue.ID w with
  | mk r w1 =>
    rw [hr] at hf
    cases r with
    | error e => exact hf
    | ok jiraIssue =>
      simp only
      rw [runEventFuncs_keys, hf]
      intro f hfm w2
      cases issuetypeFirst <;> simp at hfm <;> rcases hfm with rfl | rfl
      · exact updateComponentByLabel_keys h s i jiraIssue w2
      · exact updateIssuetypeByLabel_keys h s i jiraIssue w2
      · exact updateIssuetypeByLabel_keys h s i jiraIssue w2
      · exact updateComponentByLabel_keys h s i jiraIssue w2

theorem handleIssueEventUnlabel_keys {σ : Type} {c : JiraClient σ} {K : GoString}
    {issuesOf : σ → List JiraIssue} (h : IssueCollection c K issuesOf) (s : Server)
    (issuetypeFirst : Bool) (i : IssuesEvent) (w : World σ) :
    keysOf K issuesOf (handleIssueEventUnlabel c s issuetypeFirst i w).2 = keysOf K issuesOf w := by
  have hf := findIssue_keys h s (s.Config.repo i.RepoName).JiraProjectKey i.Issue.ID w
  unfold handleIssueEventUnlabel
  simp only
  cases hr : findIssue c s (s.Config.repo i.RepoName).JiraProjectKey i.Issue.ID w with
  | mk r w1 =>
    rw [hr] at hf
    cases r with
    | error e => exact hf
    | ok jiraIssue =>
      simp only
      rw [runEventFuncs_keys, hf]
      intro f hfm w2
      cases issuetypeFirst <;> simp at hfm <;> rcases hfm with rfl | rfl
      · exact resetComponentByUnlabel_keys h s i jiraIssue w2
      · exact resetIssuetypeByUnlabel_keys h s i jiraIssue w2
      · exact resetIssuetypeByUnlabel_keys h s i jiraIssue w2
      · exact resetComponentByUnlabel_keys h s i jiraIssue w2

theorem handleIssueCommentCreate_keys {σ : Type} {c : JiraClient σ} {K : GoString}
    {issuesOf : σ → List JiraIssue} (h : IssueCollection c K issuesOf) (s : Server)
    (ic : IssueCommentEvent) (w : World σ) :
    keysOf K issuesOf (handleIssueCommentCreate c s ic w).2 = keysOf K issuesOf w := by
  have hf := findIssue_keys h s (s.Config.repo ic.RepoName).JiraProjectKey ic.Issue.ID w
  unfold handleIssueCommentCreate
  simp only
  cases hr : findIssue c s (s.Config.repo ic.RepoName).JiraProjectKey ic.Issue.ID w with
  | mk r w1 =>
    rw [hr] at hf
    cases r with
    | error e => exact hf
    | ok jiraIssue =>
      simp only
      have hu := fun cm => (h.addComment jiraIssue.ID cm w1.tracker)
      cases hr2 : IssueAddComment c jiraIssue.ID
          { JiraComment.zero with
            Body := jiraIssueCommentFormat s.markdown ic.Comment.Body
              (extractGithubIssueCommentOptions s ic.Comment) } w1 with
      | mk r2 w2 =>
        have hu2 : keysOf K issuesOf w2 = keysOf K issuesOf w1 := by
          have := congrArg Prod.snd hr2
          simp only at this
          rw [← this]
          exact hu _
        cases r2 <;> simp only <;> rw [hu2, hf]

theorem handleIssueCommentEdit_keys {σ : Type} {c : JiraClient σ} {K : GoString}
    {issuesOf : σ → List JiraIssue} (h : IssueCollection c K issuesOf) (s : Server)
    (ic : IssueCommentEvent) (w : World σ) :
    keysOf K issuesOf (handleIssueCommentEdit c s ic w).2 = keysOf K issuesOf w := by
  have hf := findIssue_keys h s (s.Config.repo ic.RepoName).JiraProjectKey ic.Issue.ID w
  unfold handleIssueCommentEdit
  simp only
  cases hr : findIssue c s (s.Config.repo ic.RepoName).JiraProjectKey ic.Issue.ID w with
  | mk r w1 =>
    rw [hr] at hf
    cases r with
    | error e => exact hf
    | ok jiraIssue =>
      simp only
      have hc := findComment_keys h jiraIssue.ID ic.Comment.ID w1
      cases hr1 : findComment c jiraIssue.ID ic.Comment.ID w1 with
      | mk r1 w2 =>
        rw [hr1] at hc
        cases r1 with
        | error e =>
          simp only
          rw [hc, hf]
        | ok result =>
          simp only
          cases hr2 : IssueUpdateComment c jiraIssue.ID
              { result with
                Body := jiraIssueCommentFormat s.markdown ic.Comment.Body
                  (extractGithubIssueCommentOptions s ic.Comment) } w2 with
          | mk r2 w3 =>
            have hu2 : keysOf K issuesOf w3 = keysOf K issuesOf w2 := by
              have := congrArg Prod.snd hr2
              simp only at this
              rw [← this]
              exact h.updateComment _ _ w2.tracker
            cases r2 <;> simp only <;> rw [hu2, hc, hf]

theorem handleIssueCommentDelete_keys {σ : Type} {c : JiraClient σ} {K : GoString}
    {issuesOf : σ → List JiraIssue} (h : IssueCollection c K issuesOf) (s : Server)
    (ic : IssueCommentEvent) (w : World σ) :
    keysOf K issuesOf (handleIssueCommentDelete c s ic w).2 = keysOf K issuesOf w := by
  have hf := findIssue_keys h s (s.Config.repo ic.RepoName).JiraProjectKey ic.Issue.ID w
  unfold handleIssueCommentDelete
  simp only
  cases hr : findIssue c s (s.Config.repo ic.RepoName).JiraProjectKey ic.Issue.ID w with
  | mk r w1 =>
    rw [hr] at hf
    cases r with
    | error e => exact hf
    | ok jiraIssue =>
      simp only
      have hc := findComment_keys h jiraIssue.ID ic.Comment.ID w1
      cases hr1 : findComment c jiraIssue.ID ic.Comment.ID w1 with
      | mk r1 w2 =>
        rw [hr1] at hc
        cases r1 with
        | error e =>
          simp only
          rw [hc, hf]
        | ok result =>
          simp only
          cases hr2 : IssueDeleteComment c jiraIssue.ID result.ID w2 with
          | mk r2 w3 =>
            have hu2 : keysOf K issuesOf w3 = keysOf K issuesOf w2 := by
              have := congrArg Prod.snd hr2
              simp only at this
              rw [← this]
              exact h.deleteComment _ _ w2.tracker
            cases r2 <;> simp only <;> rw [hu2, hc, hf]

/-! ## Lemmas on created issues -/

theorem mapGet_mapSet_self {κ α : Type} [DecidableEq κ] (m : GoMap κ α) (k : κ) (v : α) :
    mapGet (mapSet m k v) k = some v := by
  induction m with
  | nil => simp [mapSet, mapGet]
  | cons x m ih =>
    obtain ⟨k1, v1⟩ := x
    by_cases hk : k1 = k
    · simp [mapSet, mapGet, hk]
    · simp [mapSet, mapGet, hk, ih]

theorem mapGet_mapSet_of_ne {κ α : Type} [DecidableEq κ] (m : GoMap κ α) (k k2 : κ) (v : α)
    (hne : k ≠ k2) : mapGet (mapSet m k v) k2 = mapGet m k2 := by
  induction m with
  | nil => simp [mapSet, mapGet, hne]
  | cons x m ih =>
    obtain ⟨k1, v1⟩ := x
    by_cases hk : k1 = k
    · subst hk
      simp [mapSet, mapGet, hne]
    · by_cases hk2 : k1 = k2
      · subst hk2
        simp [mapSet, mapGet, hk]
      · simp [mapSet, mapGet, hk, hk2, ih]

theorem findIssueJQL_eq (s : Server) (K : GoString)
    (hK : mapGet s.Config.FieldIDs .gitHubID = some K) (p : GoString) (n : Int) :
    findIssueJQL s p n = correlationJQL K p n := by
  simp [findIssueJQL, correlationJQL, Config.getFieldKey, hK]

theorem jiraIssueOpenFormat_project (s : Server) (githubIssueID : Int)
    (repoName title body : GoString) (options : githubIssueOptions) :
    (jiraIssueOpenFormat s githubIssueID repoName title body options).Fields.ProjectKey =
      (s.Config.repo repoName).JiraProjectKey := by
  unfold jiraIssueOpenFormat
  simp only
  split <;> split <;> (try split) <;> rfl

/-- The custom field `GitHub ID` of a projected issue holds the source identifier, or (in
project `TIKV`, should the `GitHub URL` field have the same identifier) the issue link. -/
theorem jiraIssueOpenFormat_correlation (s : Server) (K : GoString)
    (hK : mapGet s.Config.FieldIDs .gitHubID = some K) (githubIssueID : Int)
    (repoName title body : GoString) (options : githubIssueOptions) :
    mapGet (jiraIssueOpenFormat s githubIssueID repoName title body options).Fields.Unknowns
        (correlationField K) = some (.int githubIssueID) ∨
      mapGet (jiraIssueOpenFormat s githubIssueID repoName title body options).Fields.Unknowns
        (correlationField K) = some (.str options.githubIssueLink) := by
  have hID : s.Config.getFieldID .gitHubID = (correlationField K, none) := by
    simp [Config.getFieldID, hK, correlationField]
  unfold jiraIssueOpenFormat
  simp only [hID]
  split
  · cases hU : s.Config.getFieldID .gitHubURL with
    | mk f e =>
      cases e with
      | some e => exact Or.inl (mapGet_mapSet_self _ _ _)
      | none =>
        by_cases hf : f = correlationField K
        · right
          simp only [hf]
          exact mapGet_mapSet_self _ _ _
        · left
          simp only
          rw [mapGet_mapSet_of_ne _ _ _ _ hf]
          exact mapGet_mapSet_self _ _ _
  · exact Or.inl (mapGet_mapSet_self _ _ _)

theorem jiraIssueOpenFormat_correlation_int (s : Server) (K : GoString)
    (hK : mapGet s.Config.FieldIDs .gitHubID = some K)
    (hURL : mapGet s.Config.FieldIDs .gitHubURL ≠ some K) (githubIssueID : Int)
    (repoName title body : GoString) (options : githubIssueOptions) :
    mapGet (jiraIssueOpenFormat s githubIssueID repoName title body options).Fields.Unknowns
      (correlationField K) = some (.int githubIssueID) := by
  have hID : s.Config.getFieldID .gitHubID = (correlationField K, none) := by
    simp [Config.getFieldID, hK, correlationField]
  unfold jiraIssueOpenFormat
  simp only [hID]
  split
  · cases hU : s.Config.getFieldID .gitHubURL with
    | mk f e =>
      cases e with
      | some e => exact mapGet_mapSet_self _ _ _
      | none =>
        have hf : f ≠ correlationField K := by
          intro hf
          unfold Config.getFieldID at hU
          cases hm : mapGet s.Config.FieldIDs .gitHubURL with
          | none => simp [hm] at hU
          | some v =>
            simp only [hm, Prod.mk.injEq, and_true] at hU
            rw [← hU, correlationField] at hf
            have := List.append_cancel_left hf
            exact hURL (by rw [hm, this])
        simp only
        rw [mapGet_mapSet_of_ne _ _ _ _ hf]
        exact mapGet_mapSet_self _ _ _
  · exact mapGet_mapSet_self _ _ _

theorem correlated_eq (K p : GoString) (n : Int) (i : JiraIssue) :
    correlated K p n i = correlatedKey p n (ident K i) := rfl

theorem filter_map_ident (K p : GoString) (n : Int) (l1 l2 : List JiraIssue)
    (hl : l2.map (ident K) = l1.map (ident K)) :
    (l2.filter (correlated K p n)).map (ident K) = (l1.filter (correlated K p n)).map (ident K) := by
  induction l1 generalizing l2 with
  | nil =>
    simp only [List.map_nil, List.map_eq_nil_iff] at hl
    subst hl
    rfl
  | cons a l1 ih =>
    cases l2 with
    | nil => simp at hl
    | cons b l2 =>
      simp only [List.map_cons, List.cons.injEq] at hl
      have hab : correlated K p n b = correlated K p n a := by
        rw [correlated_eq, correlated_eq, hl.1]
      simp only [List.filter_cons, hab]
      split
      · simp only [List.map_cons, hl.1, ih l2 hl.2]
      · exact ih l2 hl.2

theorem AtMostOnePerKey_of_keys (K : GoString) (l1 l2 : List JiraIssue)
    (hl : l2.map (ident K) = l1.map (ident K)) (h1 : AtMostOnePerKey K l1) :
    AtMostOnePerKey K l2 := by
  intro p n
  have := congrArg List.length (filter_map_ident K p n l1 l2 hl)
  simp only [List.length_map] at this
  rw [this]
  exact h1 p n

theorem AtMostOnePerKey_of_keysOf {σ : Type} (K : GoString) (issuesOf : σ → List JiraIssue)
    (w1 w2 : World σ) (hl : keysOf K issuesOf w2 = keysOf K issuesOf w1)
    (h1 : AtMostOnePerKey K (issuesOf w1.tracker)) : AtMostOnePerKey K (issuesOf w2.tracker) :=
  AtMostOnePerKey_of_keys K _ _ hl h1

/-- Adding an issue keeps the invariant when the issue has no correlate yet. -/
theorem AtMostOnePerKey_append (K : GoString) (l : List JiraIssue) (stored : JiraIssue)
    (h1 : AtMostOnePerKey K l)
    (hnew : ∀ p n, correlated K p n stored = true → l.filter (correlated K p n) = []) :
    AtMostOnePerKey K (l ++ [stored]) := by
  intro p n
  rw [List.filter_append, List.length_append]
  by_cases hc : correlated K p n stored = true
  · rw [hnew p n hc]
    simp only [List.length_nil, Nat.zero_add]
    exact List.length_filter_le _ _
  · have : [stored].filter (correlated K p n) = [] := by
      simp [List.filter_cons, hc]
    rw [this]
    simpa using h1 p n

theorem handleIssueEventOpen_loop_collection {σ : Type} {c : JiraClient σ} {K : GoString}
    {issuesOf : σ → List JiraIssue} (h : IssueCollection c K issuesOf) (fuel : Nat)
    (payload : JiraIssue) (w : World σ) :
    ((handleIssueEventOpen_loop c fuel payload w).1 = some none ∧
        ∃ stored, issuesOf (handleIssueEventOpen_loop c fuel payload w).2.tracker =
            issuesOf w.tracker ++ [stored] ∧
          stored.Fields.ProjectKey = payload.Fields.ProjectKey ∧
          stored.Fields.Unknowns = payload.Fields.Unknowns) ∨
      ((handleIssueEventOpen_loop c fuel payload w).1 ≠ some none ∧
        issuesOf (handleIssueEventOpen_loop c fuel payload w).2.tracker = issuesOf w.tracker) := by
  induction fuel generalizing payload w with
  | zero =>
    right
    simp [handleIssueEventOpen_loop]
  | succ fuel ih =>
    unfold handleIssueEventOpen_loop
    have hC : IssueCreate c payload w =
        ((c.Create payload w.tracker).1,
          ⟨(c.Create payload w.tracker).2,
            w.log ++ [(.Create payload, errOf (c.Create payload w.tracker).1)]⟩) := rfl
    rw [hC]
    cases hr : (c.Create payload w.tracker).1 with
    | ok resp =>
      left
      obtain ⟨stored, h1, _, _, h4, h5⟩ := h.create_ok payload w.tracker resp hr
      exact ⟨rfl, stored, h1, h4, h5⟩
    | error e =>
      have hsame := h.create_error payload w.tracker e hr
      simp only
      split
      · rcases ih { payload with Fields := { payload.Fields with Assignee := none } }
            ⟨(c.Create payload w.tracker).2, w.log ++ [(.Create payload, errOf (.error e))]⟩ with
          ⟨h1, stored, h2, h3, h4⟩ | ⟨h1, h2⟩
        · left
          refine ⟨h1, stored, ?_, h3, h4⟩
          rw [h2]
          simp only
          rw [hsame]
        · right
          refine ⟨h1, ?_⟩
          rw [h2]
          exact hsame
      · right
        exact ⟨by simp, hsame⟩

theorem compareSyncIssuesCreate_loop_collection {σ : Type} {c : JiraClient σ} {K : GoString}
    {issuesOf : σ → List JiraIssue} (h : IssueCollection c K issuesOf) (fuel : Nat)
    (payload : JiraIssue) (w : World σ) :
    (∃ resp stored, (compareSyncIssuesCreate_loop c fuel payload w).1 = some (.ret (.ok resp)) ∧
        issuesOf (compareSyncIssuesCreate_loop c fuel payload w).2.tracker =
          issuesOf w.tracker ++ [stored] ∧
        stored.ID = resp.ID ∧ stored.Key = resp.Key ∧
        stored.Fields.ProjectKey = payload.Fields.ProjectKey ∧
        stored.Fields.Unknowns = payload.Fields.Unknowns) ∨
      ((∀ resp, (compareSyncIssuesCreate_loop c fuel payload w).1 ≠ some (.ret (.ok resp))) ∧
        issuesOf (compareSyncIssuesCreate_loop c fuel payload w).2.tracker =
          issuesOf w.tracker) := by
  induction fuel generalizing payload w with
  | zero =>
    right
    simp [compareSyncIssuesCreate_loop]
  | succ fuel ih =>
    unfold compareSyncIssuesCreate_loop
    have hC : IssueCreate c payload w =
        ((c.Create payload w.tracker).1,
          ⟨(c.Create payload w.tracker).2,
            w.log ++ [(.Create payload, errOf (c.Create payload w.tracker).1)]⟩) := rfl
    rw [hC]
    cases hr : (c.Create payload w.tracker).1 with
    | ok resp =>
      left
      obtain ⟨stored, h1, h2, h3, h4, h5⟩ := h.create_ok payload w.tracker resp hr
      exact ⟨resp, stored, rfl, h1, h2, h3, h4, h5⟩
    | error e =>
      have hsame := h.create_error payload w.tracker e hr
      simp only
      split
      · cases ha : payload.Fields.Assignee with
        | none =>
          right
          exact ⟨by simp, hsame⟩
        | some u =>
          simp only
          rcases ih { payload with Fields := { payload.Fields with Assignee := none } }
              ⟨(c.Create payload w.tracker).2, w.log ++ [(.Create payload, errOf (.error e))]⟩ with
            ⟨resp, stored, h1, h2, h3, h4, h5, h6⟩ | ⟨h1, h2⟩
          · left
            refine ⟨resp, stored, h1, ?_, h3, h4, h5, h6⟩
            rw [h2]
            simp only
            rw [hsame]
          · right
            refine ⟨h1, ?_⟩
            rw [h2]
            exact hsame
      · right
        exact ⟨by simp, hsame⟩

theorem compareSyncIssuesCreate_after_keys {σ : Type} {c : JiraClient σ} {K : GoString}
    {issuesOf : σ → List JiraIssue} (h : IssueCollection c K issuesOf) (s : Server)
    (githubIssue : GithubIssue) (repoName : GoString) (respJiraIssue : JiraIssue)
    (w : World σ) :
    keysOf K issuesOf (compareSyncIssuesCreate_after c s githubIssue repoName respJiraIssue w) =
      keysOf K issuesOf w := by
  unfold compareSyncIssuesCreate_after
  simp only
  have h1 : keysOf K issuesOf
      (if githubIssue.State = lit "closed" then
        (transitionLoop c respJiraIssue.ID
          ((s.Config.repo repoName).transitions JiraTransitionDoneName) w).2
      else w) = keysOf K issuesOf w := by
    split
    · exact transitionLoop_keys h _ _ _
    · rfl
  generalize (if githubIssue.State = lit "closed" then
        (transitionLoop c respJiraIssue.ID
          ((s.Config.repo repoName).transitions JiraTransitionDoneName) w).2
      else w) = w1 at h1
  have h2 : keysOf K issuesOf
      (match labelIssueTypes s repoName githubIssue.Labels with
      | [] => w1
      | first :: _ =>
        (IssueUpdate c
          { JiraIssue.zero with
            Key := respJiraIssue.Key
            Fields := { IssueFields.zero with TypeName := first } } w1).2) =
      keysOf K issuesOf w1 := by
    split
    · rfl
    · exact IssueUpdate_keys h _ rfl rfl _
  generalize (match labelIssueTypes s repoName githubIssue.Labels with
      | [] => w1
      | first :: _ =>
        (IssueUpdate c
          { JiraIssue.zero with
            Key := respJiraIssue.Key
            Fields := { IssueFields.zero with TypeName := first } } w1).2) = w2 at h2
  split
  · rw [IssueUpdate_keys h _ rfl rfl, h2, h1]
  · rw [h2, h1]

/-- What `compareSyncIssuesCreate` does to the collection: either it returns the created
issue, and the collection has gained one issue with the identifier and key of the
response and the project key and custom fields of the projection; or it returns no
issue and the collection holds the same issues as before. -/
theorem compareSyncIssuesCreate_collection {σ : Type} {c : JiraClient σ} {K : GoString}
    {issuesOf : σ → List JiraIssue} (h : IssueCollection c K issuesOf) (s : Server) (fuel : Nat)
    (g : GithubIssue) (repoName : GoString) (w : World σ) :
    (∃ resp stored, (compareSyncIssuesCreate c s fuel g repoName w).1 = some (.ret (.ok resp)) ∧
        keysOf K issuesOf (compareSyncIssuesCreate c s fuel g repoName w).2 =
          (issuesOf w.tracker ++ [stored]).map (ident K) ∧
        stored.ID = resp.ID ∧ stored.Key = resp.Key ∧
        stored.Fields.ProjectKey =
          (jiraIssueOpenFormat s g.ID repoName g.Title g.Body
            (extractGithubIssueOptions s g)).Fields.ProjectKey ∧
        stored.Fields.Unknowns =
          (jiraIssueOpenFormat s g.ID repoName g.Title g.Body
            (extractGithubIssueOptions s g)).Fields.Unknowns) ∨
      ((∀ resp, (compareSyncIssuesCreate c s fuel g repoName w).1 ≠ some (.ret (.ok resp))) ∧
        keysOf K issuesOf (compareSyncIssuesCreate c s fuel g repoName w).2 =
          keysOf K issuesOf w) := by
  unfold compareSyncIssuesCreate
  simp only
  rcases compareSyncIssuesCreate_loop_collection h fuel
      (jiraIssueOpenFormat s g.ID repoName g.Title g.Body (extractGithubIssueOptions s g)) w with
    ⟨resp, stored, h1, h2, h3, h4, h5, h6⟩ | ⟨h1, h2⟩
  · left
    refine ⟨resp, stored, ?_, ?_, h3, h4, h5, h6⟩
    · cases hr : compareSyncIssuesCreate_loop c fuel
          (jiraIssueOpenFormat s g.ID repoName g.Title g.Body (extractGithubIssueOptions s g)) w with
      | mk r w1 =>
        rw [hr] at h1
        simp only at h1
        subst h1
        rfl
    · cases hr : compareSyncIssuesCreate_loop c fuel
          (jiraIssueOpenFormat s g.ID repoName g.Title g.Body (extractGithubIssueOptions s g)) w with
      | mk r w1 =>
        rw [hr] at h1 h2
        simp only at h1 h2
        subst h1
        simp only
        rw [compareSyncIssuesCreate_after_keys h]
        unfold keysOf
        rw [h2]
  · right
    cases hr : compareSyncIssuesCreate_loop c fuel
        (jiraIssueOpenFormat s g.ID repoName g.Title g.Body (extractGithubIssueOptions s g)) w with
    | mk r w1 =>
      rw [hr] at h1 h2
      simp only at h1 h2
      have hk : keysOf K issuesOf w1 = keysOf K issuesOf w := by
        unfold keysOf
        rw [h2]
      cases r with
      | none => exact ⟨by simp, hk⟩
      | some o =>
        cases o with
        | panic => exact ⟨by simp, hk⟩
        | ret x =>
          cases x with
          | error e => exact ⟨by simp, hk⟩
          | ok resp => exact absurd rfl (h1 resp)

/-! ## The tracker held in memory meets the assumptions -/

theorem takeWhile_append_sep (P : Nat → Bool) (l r : GoString) (a : Nat)
    (hl : ∀ b ∈ l, P b = true) (ha : P a = false) :
    (l ++ a :: r).takeWhile P = l ∧ (l ++ a :: r).dropWhile P = a :: r := by
  induction l with
  | nil => simp [List.takeWhile, List.dropWhile, ha]
  | cons b l ih =>
    have hb := hl b (List.mem_cons_self _ _)
    obtain ⟨h1, h2⟩ := ih (fun x hx => hl x (List.mem_cons_of_mem _ hx))
    simp [List.takeWhile, List.dropWhile, hb, h1, h2]

theorem append_sep_inj (P : Nat → Bool) (x y f g : GoString) (a : Nat) (ha : P a = false)
    (hf : ∀ b ∈ f, P b = true) (hg : ∀ b ∈ g, P b = true)
    (h : x ++ a :: f = y ++ a :: g) : x = y ∧ f = g := by
  have hr := congrArg List.reverse h
  simp only [List.reverse_append, List.reverse_cons, List.append_assoc, List.singleton_append]
    at hr
  have h1 := takeWhile_append_sep P f.reverse x.reverse a
    (fun b hb => hf b (List.mem_reverse.mp hb)) ha
  have h2 := takeWhile_append_sep P g.reverse y.reverse a
    (fun b hb => hg b (List.mem_reverse.mp hb)) ha
  have hfg : f.reverse = g.reverse := by
    rw [← h1.1, ← h2.1, hr]
  have hxy : a :: x.reverse = a :: y.reverse := by
    rw [← h1.2, ← h2.2, hr]
  exact ⟨List.reverse_injective (List.cons.inj hxy).2, List.reverse_injective hfg⟩

theorem formatNat_injective (n m : Nat) (h : formatNat n = formatNat m) : n = m := by
  rw [← digitsValue_formatNat n, ← digitsValue_formatNat m, h]

theorem formatNat_head_ne_minus (n : Nat) (r : GoString) : formatNat n ≠ 45 :: r := by
  intro h
  have := formatNat_all_isDigit n
  rw [h] at this
  simp [isDigit] at this

theorem FormatInt_injective (n m : Int) (h : FormatInt n = FormatInt m) : n = m := by
  unfold FormatInt at h
  by_cases hn : n < 0 <;> by_cases hm : m < 0
  · simp only [hn, hm, if_true, List.cons.injEq, true_and] at h
    have := formatNat_injective _ _ h
    omega
  · simp only [hn, hm, if_true, if_false] at h
    exact absurd h.symm (formatNat_head_ne_minus _ _)
  · simp only [hn, hm, if_true, if_false] at h
    exact absurd h (formatNat_head_ne_minus _ _)
  · simp only [hn, hm, if_false] at h
    have := formatNat_injective _ _ h
    omega

theorem FormatInt_all (n : Int) : ∀ b ∈ FormatInt n, isSignOrDigit b = true := by
  intro b hb
  have hall := formatNat_all_isDigit n.natAbs
  rw [List.all_eq_true] at hall
  unfold FormatInt at hb
  split at hb
  · rcases List.mem_cons.mp hb with rfl | hb
    · rfl
    · simp [isSignOrDigit, hall b hb]
  · simp [isSignOrDigit, hall b hb]

theorem correlationJQL_shape (K p : GoString) (n : Int) :
    correlationJQL K p n =
      (lit "project='" ++ (p ++ (lit "' AND cf[" ++ K ++ lit "] ="))) ++ 32 :: FormatInt n := by
  have : lit "] = " = lit "] =" ++ [32] := by decide
  simp [correlationJQL, this, List.append_assoc]

theorem correlationJQL_injective (K p q : GoString) (n m : Int)
    (h : correlationJQL K p n = correlationJQL K q m) : p = q ∧ n = m := by
  rw [correlationJQL_shape, correlationJQL_shape] at h
  obtain ⟨h1, h2⟩ := append_sep_inj isSignOrDigit _ _ _ _ 32 (by decide)
    (FormatInt_all n) (FormatInt_all m) h
  exact ⟨List.append_cancel_right (List.append_cancel_left h1), FormatInt_injective _ _ h2⟩

theorem issueJQL_eq_iff (K p : GoString) (n : Int) (i : JiraIssue) :
    decide (issueJQL K i = some (correlationJQL K p n)) = correlated K p n i := by
  unfold issueJQL correlated
  cases hm : mapGet i.Fields.Unknowns (correlationField K) with
  | none => simp
  | some v =>
    cases v with
    | str x => simp
    | int k =>
      simp only [Option.some.injEq, FieldValue.int.injEq]
      by_cases hp : i.Fields.ProjectKey = p
      · by_cases hk : k = n
        · simp [hp, hk]
        · have : correlationJQL K p k ≠ correlationJQL K p n :=
            fun hh => hk (correlationJQL_injective _ _ _ _ _ hh).2
          simp [hp, hk, this]
      · have : correlationJQL K i.Fields.ProjectKey k ≠ correlationJQL K p n :=
          fun hh => hp (correlationJQL_injective _ _ _ _ _ hh).1
        simp [hp, this]

theorem map_ident_of_pointwise (K : GoString) (l : List JiraIssue) (f : JiraIssue → JiraIssue)
    (hf : ∀ i, ident K (f i) = ident K i) : (l.map f).map (ident K) = l.map (ident K) := by
  rw [List.map_map]
  apply List.map_congr_left
  intro i _
  exact hf i

theorem ident_applyUpdate (K : GoString) (payload : IssueFields) (i : JiraIssue)
    (hp : payload.ProjectKey = []) (hu : payload.Unknowns = []) :
    ident K { i with Fields := applyUpdate payload i.Fields } = ident K i := by
  simp [ident, applyUpdate, hp, hu]

theorem memTracker_collection (K : GoString) (workflow : GoString → Option GoString) :
    IssueCollection (memTracker K workflow) K Tracker.issues where
  search_result := by
    intro p n t
    show Except.ok (t.issues.filter _) = Except.ok (t.issues.filter _)
    congr 1
    apply List.filter_congr
    intro i _
    exact issueJQL_eq_iff K p n i
  search_state := by
    intro jql t
    rfl
  create_ok := by
    intro payload t resp h
    simp only [memTracker] at h ⊢
    cases ha : payload.Fields.Assignee with
    | none =>
      simp only [ha] at h ⊢
      simp only [Except.ok.injEq] at h
      subst h
      exact ⟨_, rfl, rfl, rfl, rfl, rfl⟩
    | some u =>
      simp only [ha] at h ⊢
      by_cases hu : u.Name ∈ t.users
      · simp only [hu, if_true] at h ⊢
        simp only [Except.ok.injEq] at h
        subst h
        exact ⟨_, rfl, rfl, rfl, rfl, rfl⟩
      · simp [hu] at h
  create_error := by
    intro payload t e h
    simp only [memTracker] at h ⊢
    cases ha : payload.Fields.Assignee with
    | none => simp [ha] at h
    | some u =>
      simp only [ha] at h ⊢
      by_cases hu : u.Name ∈ t.users
      · simp [hu] at h
      · simp [hu]
  update := by
    intro payload t hp hu
    simp only [memTracker]
    split
    · simp only
      apply map_ident_of_pointwise
      intro i
      split
      · exact ident_applyUpdate K _ i hp hu
      · rfl
    · rfl
  doTransition := by
    intro a b t
    simp only [memTracker]
    split
    · rfl
    · split
      · simp only
        apply map_ident_of_pointwise
        intro i
        split <;> rfl
      · rfl
  updateAssignee := by
    intro a b t
    simp only [memTracker]
    split
    · split
      · split
        · simp only
          apply map_ident_of_pointwise
          intro i
          split <;> rfl
        · split
          · simp only
            apply map_ident_of_pointwise
            intro i
            split <;> rfl
          · rfl
      · simp only
        apply map_ident_of_pointwise
        intro i
        split <;> rfl
    · rfl
  getComments := by
    intro a t
    rfl
  addComment := by
    intro a b t
    simp only [memTracker]
    split <;> rfl
  updateComment := by
    intro a b t
    simp only [memTracker]
    split <;> rfl
  deleteComment := by
    intro a b t
    simp only [memTracker]
    split <;> rfl

/-! ## Lemmas on creation and the invariant -/

theorem findIssue_of_filter {σ : Type} {c : JiraClient σ} {K : GoString}
    {issuesOf : σ → List JiraIssue} (h : IssueCollection c K issuesOf) (s : Server)
    (hK : mapGet s.Config.FieldIDs .gitHubID = some K) (p : GoString) (n : Int) (w : World σ) :
    (findIssue c s p n w).1 =
      match (issuesOf w.tracker).filter (correlated K p n) with
      | [] => .error (errorsNew "Issue not exists")
      | first :: _ => .ok first := by
  rw [findIssue_result, findIssueJQL_eq s K hK, h.search_result]
  cases (issuesOf w.tracker).filter (correlated K p n) <;> rfl

theorem correlated_stored (K P : GoString) (id : Int) (link : GoString) (stored : JiraIssue)
    (hproj : stored.Fields.ProjectKey = P)
    (hunk : mapGet stored.Fields.Unknowns (correlationField K) = some (.int id) ∨
      mapGet stored.Fields.Unknowns (correlationField K) = some (.str link))
    (p : GoString) (n : Int) (hc : correlated K p n stored = true) : p = P ∧ n = id := by
  unfold correlated at hc
  simp only [Bool.and_eq_true, decide_eq_true_eq] at hc
  rcases hunk with hu | hu
  · rw [hu] at hc
    simp only [Option.some.injEq, FieldValue.int.injEq] at hc
    exact ⟨by rw [← hc.1, hproj], hc.2.symm⟩
  · rw [hu] at hc
    simp at hc

theorem createStep_snd {σ : Type} (c : JiraClient σ) (s : Server) (fuel : Nat)
    (repoName : GoString) (g : GithubIssue) (w : World σ) :
    (compareSyncIssues_createStep c s fuel repoName g w).2 =
      match (findIssue c s (s.Config.repo repoName).JiraProjectKey g.ID w).1 with
      | .error err =>
        if err.msg = lit "Issue not exists" then
          (compareSyncIssuesCreate c s fuel g repoName
            (findIssue c s (s.Config.repo repoName).JiraProjectKey g.ID w).2).2
        else (findIssue c s (s.Config.repo repoName).JiraProjectKey g.ID w).2
      | .ok _ => (findIssue c s (s.Config.repo repoName).JiraProjectKey g.ID w).2 := by
  unfold compareSyncIssues_createStep
  cases hf : findIssue c s (s.Config.repo repoName).JiraProjectKey g.ID w with
  | mk r w1 =>
    cases r with
    | ok x => rfl
    | error err =>
      simp only
      split
      · cases hc : compareSyncIssuesCreate c s fuel g repoName w1 with
        | mk r2 w2 =>
          cases r2 with
          | none => rfl
          | some o =>
            cases o <;> rfl
      · rfl

/-! ## Lemmas on the label rules -/

theorem IssueUpdate_oneUpdate {σ : Type} (c : JiraClient σ) (payload : JiraIssue) (w : World σ) :
    (match IssueUpdate c payload w with
      | (.error err, w1) => (some err, w1)
      | (.ok _, w1) => (none, w1)) = oneUpdate c payload w := by
  unfold IssueUpdate oneUpdate
  cases h : (c.Update payload w.tracker).1 <;> simp [errOf]

theorem runEventFuncs_two {σ : Type} (c : JiraClient σ) (s : Server) (i : IssuesEvent)
    (jiraIssue : JiraIssue) (f g : eventFunc σ) (w : World σ) :
    runEventFuncs c s i jiraIssue [f, g] none w =
      (lastError (f c s i jiraIssue w).1 (g c s i jiraIssue (f c s i jiraIssue w).2).1,
        (g c s i jiraIssue (f c s i jiraIssue w).2).2) := by
  unfold runEventFuncs
  cases hf : f c s i jiraIssue w with
  | mk r1 w1 =>
    cases r1 with
    | some e1 =>
      simp only
      unfold runEventFuncs
      cases hg : g c s i jiraIssue w1 with
      | mk r2 w2 =>
        cases r2 <;> simp [runEventFuncs, lastError]
    | none =>
      simp only
      unfold runEventFuncs
      cases hg : g c s i jiraIssue w1 with
      | mk r2 w2 =>
        cases r2 <;> simp [runEventFuncs, lastError]

theorem lastError_ne_none (a b : Option GoError) :
    lastError a b ≠ none ↔ (a ≠ none ∨ b ≠ none) := by
  cases a <;> cases b <;> simp [lastError]

theorem updateIssuetypeByLabel_eq {σ : Type} (c : JiraClient σ) (s : Server) (i : IssuesEvent)
    (snap : JiraIssue) (w : World σ) :
    updateIssuetypeByLabel c s i snap w = ruleStep c snap (issuetypeByLabelFields s i snap) w := by
  unfold updateIssuetypeByLabel issuetypeByLabelFields ruleStep
  cases hm : mapGet (s.Config.repo i.RepoName).IssueTypeLabelMap i.Label.Name with
  | none => simp [hm]
  | some category =>
    by_cases ht : snap.Fields.TypeName = category
    · simp [hm, ht]
    · simp only [hm, ht, if_false]
      exact IssueUpdate_oneUpdate c _ w

theorem updateComponentByLabel_eq {σ : Type} (c : JiraClient σ) (s : Server) (i : IssuesEvent)
    (snap : JiraIssue) (w : World σ) :
    updateComponentByLabel c s i snap w = ruleStep c snap (componentByLabelFields s i snap) w := by
  unfold updateComponentByLabel componentByLabelFields ruleStep
  cases hm : mapGet (s.Config.repo i.RepoName).ComponentLabelMap i.Label.Name with
  | none => simp [hm]
  | some name =>
    cases ha : snap.Fields.Components.any (fun v => decide (v.Name = name)) with
    | true => simp [hm, ha]
    | false =>
      simp only [hm, ha, Bool.false_eq_true, if_false]
      exact IssueUpdate_oneUpdate c _ w

theorem resetIssuetypeByUnlabel_eq {σ : Type} (c : JiraClient σ) (s : Server) (i : IssuesEvent)
    (snap : JiraIssue) (w : World σ) :
    resetIssuetypeByUnlabel c s i snap w =
      ruleStep c snap (issuetypeByUnlabelFields s i snap) w := by
  unfold resetIssuetypeByUnlabel issuetypeByUnlabelFields ruleStep
  cases hm : mapGet (s.Config.repo i.RepoName).IssueTypeLabelMap i.Label.Name with
  | none => simp [hm]
  | some category =>
    by_cases ht : snap.Fields.TypeName = category
    · simp only [hm, ht, ne_eq, not_true_eq_false, if_false, if_true]
      exact IssueUpdate_oneUpdate c _ w
    · simp [hm, ht]

theorem resetComponentByUnlabel_eq {σ : Type} (c : JiraClient σ) (s : Server) (i : IssuesEvent)
    (snap : JiraIssue) (w : World σ) :
    resetComponentByUnlabel c s i snap w =
      ruleStep c snap (componentByUnlabelFields s i snap) w := by
  unfold resetComponentByUnlabel componentByUnlabelFields ruleStep
  cases hm : mapGet (s.Config.repo i.RepoName).ComponentLabelMap i.Label.Name with
  | none => simp [hm]
  | some name =>
    cases ha : snap.Fields.Components.any (fun v => decide (v.Name = name)) with
    | false => simp [hm, ha]
    | true =>
      have hfilter : snap.Fields.Components.filter (fun v => !decide (v.Name = name)) =
          snap.Fields.Components.filter (fun v => decide (v.Name ≠ name)) := by
        apply List.filter_congr
        intro x _
        simp
      have hcomp :
          (if (snap.Fields.Components.filter (fun v => !decide (v.Name = name))).length = 0 then
            snap.Fields.Components.filter (fun v => !decide (v.Name = name)) ++
              [(⟨lit "general"⟩ : JiraComponent)]
          else snap.Fields.Components.filter (fun v => !decide (v.Name = name))) =
          (if snap.Fields.Components.filter (fun v => decide (v.Name ≠ name)) = [] then
            [(⟨lit "general"⟩ : JiraComponent)]
          else snap.Fields.Components.filter (fun v => decide (v.Name ≠ name))) := by
        rw [hfilter]
        by_cases he : snap.Fields.Components.filter (fun v => decide (v.Name ≠ name)) = []
        · rw [he]
          rfl
        · have hl : (snap.Fields.Components.filter
              (fun v => decide (v.Name ≠ name))).length ≠ 0 :=
            fun hh => he (List.length_eq_zero.mp hh)
          rw [if_neg hl, if_neg he]
      simp only [hm, ha, Bool.not_true, Bool.false_eq_true, if_false, if_true]
      rw [hcomp]
      exact IssueUpdate_oneUpdate c _ w

/-! ## Lemmas on a tracker that holds one issue -/

theorem findIssue_single (K : GoString) (workflow : GoString → Option GoString) (s : Server)
    (hK : mapGet s.Config.FieldIDs .gitHubID = some K) (p : GoString) (n : Int) (X : JiraIssue)
    (hX : correlated K p n X = true) (cm : List (GoString × JiraComment)) (us : List GoString)
    (nx : Nat) (log : List (JiraCall × Option GoError)) :
    (findIssue (memTracker K workflow) s p n ⟨⟨[X], cm, us, nx⟩, log⟩).1 = .ok X ∧
      (findIssue (memTracker K workflow) s p n ⟨⟨[X], cm, us, nx⟩, log⟩).2.tracker =
        ⟨[X], cm, us, nx⟩ := by
  constructor
  · rw [findIssue_of_filter (memTracker_collection K workflow) s hK]
    simp [List.filter_cons, hX]
  · rw [(findIssue_log _ s p n _).2]
    rfl

theorem ruleStep_single (K : GoString) (workflow : GoString → Option GoString)
    (snap X : JiraIssue) (hkey : snap.Key = X.Key) (fields : Option IssueFields)
    (cm : List (GoString × JiraComment)) (us : List GoString) (nx : Nat)
    (log : List (JiraCall × Option GoError)) :
    (ruleStep (memTracker K workflow) snap fields ⟨⟨[X], cm, us, nx⟩, log⟩).2.tracker =
      ⟨[ruleEffect fields X], cm, us, nx⟩ := by
  cases fields with
  | none => rfl
  | some f =>
    simp [ruleStep, oneUpdate, rulePayload, memTracker, ruleEffect, hkey]

theorem ruleEffect_key (fields : Option IssueFields) (X : JiraIssue) :
    (ruleEffect fields X).Key = X.Key := by
  cases fields <;> rfl

theorem runRules_single (K : GoString) (workflow : GoString → Option GoString) (s : Server)
    (i : IssuesEvent) (snap X : JiraIssue) (hkey : snap.Key = X.Key) (f g : eventFunc Tracker)
    (ff gf : Option IssueFields)
    (hf : ∀ w, f (memTracker K workflow) s i snap w = ruleStep (memTracker K workflow) snap ff w)
    (hg : ∀ w, g (memTracker K workflow) s i snap w = ruleStep (memTracker K workflow) snap gf w)
    (cm : List (GoString × JiraComment)) (us : List GoString) (nx : Nat)
    (log : List (JiraCall × Option GoError)) :
    (runEventFuncs (memTracker K workflow) s i snap [f, g] none ⟨⟨[X], cm, us, nx⟩, log⟩).2.tracker =
      ⟨[ruleEffect gf (ruleEffect ff X)], cm, us, nx⟩ := by
  rw [runEventFuncs_two, hf, hg]
  simp only
  have h1 := ruleStep_single K workflow snap X hkey ff cm us nx log
  cases hw : (ruleStep (memTracker K workflow) snap ff ⟨⟨[X], cm, us, nx⟩, log⟩).2 with
  | mk t1 log1 =>
    rw [hw] at h1
    simp only at h1
    subst h1
    exact ruleStep_single K workflow snap _ (by rw [ruleEffect_key]; exact hkey) gf cm us nx log1

theorem handleIssueEventLabel_single (K : GoString) (workflow : GoString → Option GoString)
    (s : Server) (hK : mapGet s.Config.FieldIDs .gitHubID = some K) (o : Bool) (i : IssuesEvent)
    (X : JiraIssue)
    (hX : correlated K (s.Config.repo i.RepoName).JiraProjectKey i.Issue.ID X = true)
    (cm : List (GoString × JiraComment)) (us : List GoString) (nx : Nat)
    (log : List (JiraCall × Option GoError)) :
    (handleIssueEventLabel (memTracker K workflow) s o i ⟨⟨[X], cm, us, nx⟩, log⟩).2.tracker =
      ⟨[labelEffect s o i X], cm, us, nx⟩ := by
  obtain ⟨h1, h2⟩ := findIssue_single K workflow s hK _ _ X hX cm us nx log
  unfold handleIssueEventLabel
  simp only
  cases hf : findIssue (memTracker K workflow) s (s.Config.repo i.RepoName).JiraProjectKey
      i.Issue.ID ⟨⟨[X], cm, us, nx⟩, log⟩ with
  | mk r w1 =>
    rw [hf] at h1 h2
    simp only at h1 h2
    subst h1
    cases w1 with
    | mk t1 log1 =>
      simp only at h2
      subst h2
      cases o
      · simp only [labelEffect, Bool.false_eq_true, if_false]
        exact runRules_single K workflow s i X X rfl _ _ _ _
          (updateComponentByLabel_eq _ s i X) (updateIssuetypeByLabel_eq _ s i X) cm us nx log1
      · simp only [labelEffect, if_true]
        exact runRules_single K workflow s i X X rfl _ _ _ _
          (updateIssuetypeByLabel_eq _ s i X) (updateComponentByLabel_eq _ s i X) cm us nx log1

theorem handleIssueEventUnlabel_single (K : GoString) (workflow : GoString → Option GoString)
    (s : Server) (hK : mapGet s.Config.FieldIDs .gitHubID = some K) (o : Bool) (i : IssuesEvent)
    (X : JiraIssue)
    (hX : correlated K (s.Config.repo i.RepoName).JiraProjectKey i.Issue.ID X = true)
    (cm : List (GoString × JiraComment)) (us : List GoString) (nx : Nat)
    (log : List (JiraCall × Option GoError)) :
    (handleIssueEventUnlabel (memTracker K workflow) s o i ⟨⟨[X], cm, us, nx⟩, log⟩).2.tracker =
      ⟨[unlabelEffect s o i X], cm, us, nx⟩ := by
  obtain ⟨h1, h2⟩ := findIssue_single K workflow s hK _ _ X hX cm us nx log
  unfold handleIssueEventUnlabel
  simp only
  cases hf : findIssue (memTracker K workflow) s (s.Config.repo i.RepoName).JiraProjectKey
      i.Issue.ID ⟨⟨[X], cm, us, nx⟩, log⟩ with
  | mk r w1 =>
    rw [hf] at h1 h2
    simp only at h1 h2
    subst h1
    cases w1 with
    | mk t1 log1 =>
      simp only at h2
      subst h2
      cases o
      · simp only [unlabelEffect, Bool.false_eq_true, if_false]
        exact runRules_single K workflow s i X X rfl _ _ _ _
          (resetComponentByUnlabel_eq _ s i X) (resetIssuetypeByUnlabel_eq _ s i X) cm us nx log1
      · simp only [unlabelEffect, if_true]
        exact runRules_single K workflow s i X X rfl _ _ _ _
          (resetIssuetypeByUnlabel_eq _ s i X) (resetComponentByUnlabel_eq _ s i X) cm us nx log1

theorem labelEffect_fields (s : Server) (o : Bool) (i : IssuesEvent) (X : JiraIssue) :
    (labelEffect s o i X).ID = X.ID ∧ (labelEffect s o i X).Key = X.Key ∧
      (labelEffect s o i X).Fields.ProjectKey = X.Fields.ProjectKey ∧
      (labelEffect s o i X).Fields.Unknowns = X.Fields.Unknowns ∧
      (labelEffect s o i X).Fields.TypeName =
        (match mapGet (s.Config.repo i.RepoName).IssueTypeLabelMap i.Label.Name with
        | none => X.Fields.TypeName
        | some category => if category = [] then X.Fields.TypeName else category) ∧
      (labelEffect s o i X).Fields.Components =
        (match mapGet (s.Config.repo i.RepoName).ComponentLabelMap i.Label.Name with
        | none => X.Fields.Components
        | some name =>
          if X.Fields.Components.any (fun v => decide (v.Name = name)) then X.Fields.Components
          else [⟨name⟩]) := by
  cases o <;>
    simp only [labelEffect, issuetypeByLabelFields, componentByLabelFields,
      Bool.false_eq_true, if_false, if_true] <;>
    cases mapGet (s.Config.repo i.RepoName).IssueTypeLabelMap i.Label.Name <;>
    cases mapGet (s.Config.repo i.RepoName).ComponentLabelMap i.Label.Name <;>
    simp only [] <;>
    (try split_ifs) <;>
    simp_all [ruleEffect, applyUpdate, IssueFields.zero]

theorem unlabelEffect_fields (s : Server) (o : Bool) (i : IssuesEvent) (X : JiraIssue) :
    (unlabelEffect s o i X).ID = X.ID ∧ (unlabelEffect s o i X).Key = X.Key ∧
      (unlabelEffect s o i X).Fields.ProjectKey = X.Fields.ProjectKey ∧
      (unlabelEffect s o i X).Fields.Unknowns = X.Fields.Unknowns ∧
      (unlabelEffect s o i X).Fields.TypeName =
        (match mapGet (s.Config.repo i.RepoName).IssueTypeLabelMap i.Label.Name with
        | none => X.Fields.TypeName
        | some category =>
          if X.Fields.TypeName = category then
            (if (s.Config.repo i.RepoName).JiraIssueType = [] then X.Fields.TypeName
              else (s.Config.repo i.RepoName).JiraIssueType)
          else X.Fields.TypeName) ∧
      (unlabelEffect s o i X).Fields.Components =
        (match mapGet (s.Config.repo i.RepoName).ComponentLabelMap i.Label.Name with
        | none => X.Fields.Components
        | some name =>
          if X.Fields.Components.any (fun v => decide (v.Name = name)) then
            (if X.Fields.Components.filter (fun v => decide (v.Name ≠ name)) = [] then
              [⟨lit "general"⟩]
            else X.Fields.Components.filter (fun v => decide (v.Name ≠ name)))
          else X.Fields.Components) := by
  cases o <;>
    simp only [unlabelEffect, issuetypeByUnlabelFields, componentByUnlabelFields,
      Bool.false_eq_true, if_false, if_true] <;>
    cases mapGet (s.Config.repo i.RepoName).IssueTypeLabelMap i.Label.Name <;>
    cases mapGet (s.Config.repo i.RepoName).ComponentLabelMap i.Label.Name <;>
    simp only [] <;>
    (try split_ifs) <;>
    simp_all [ruleEffect, applyUpdate, IssueFields.zero]

theorem correlated_of_fields (K p : GoString) (n : Int) (X Y : JiraIssue)
    (hp : Y.Fields.ProjectKey = X.Fields.ProjectKey) (hu : Y.Fields.Unknowns = X.Fields.Unknowns) :
    correlated K p n Y = correlated K p n X := by
  unfold correlated
  rw [hp, hu]

/-! ## Lemmas on the calls of the issue-opened handler -/

theorem jiraIssueOpenFormat_type (s : Server) (githubIssueID : Int)
    (repoName title body : GoString) (options : githubIssueOptions) :
    (jiraIssueOpenFormat s githubIssueID repoName title body options).Fields.TypeName =
      (s.Config.repo repoName).JiraIssueType := by
  unfold jiraIssueOpenFormat
  simp only
  split <;> split <;> (try split) <;> rfl

theorem jiraIssueOpenFormat_description (s : Server) (githubIssueID : Int)
    (repoName title body : GoString) (options : githubIssueOptions) :
    (jiraIssueOpenFormat s githubIssueID repoName title body options).Fields.Description =
      jiraIssueBodyFormat s body options := by
  unfold jiraIssueOpenFormat
  simp only
  split <;> split <;> (try split) <;> rfl

theorem handleIssueEventOpen_loop_calls {σ : Type} (c : JiraClient σ) (fuel : Nat) :
    ∀ (J : JiraIssue) (w : World σ),
      ∃ l, (handleIssueEventOpen_loop c fuel J w).2.log = w.log ++ l ∧
        (∀ e ∈ l, e.1 = .Create J ∨ e.1 = .Create (withoutAssignee J)) ∧
        ((handleIssueEventOpen_loop c fuel J w).1 = some none →
          ∃ l0 J2, l = l0 ++ [(JiraCall.Create J2, none)]) := by
  induction fuel with
  | zero =>
    intro J w
    exact ⟨[], by simp [handleIssueEventOpen_loop], by simp, by simp [handleIssueEventOpen_loop]⟩
  | succ n ih =>
    intro J w
    unfold handleIssueEventOpen_loop
    cases hc : c.Create J w.tracker with
    | mk r t =>
      cases r with
      | ok stored =>
        refine ⟨[(.Create J, none)], ?_, ?_, ?_⟩
        · simp [IssueCreate, hc, errOf]
        · intro e he
          simp only [List.mem_singleton] at he
          subst he
          exact Or.inl rfl
        · intro _
          exact ⟨[], J, rfl⟩
      | error err =>
        by_cases hm : reAssigneeError_MatchString err.msg = true
        · obtain ⟨l, h1, h2, h3⟩ := ih (withoutAssignee J)
            ⟨t, w.log ++ [(.Create J, some err)]⟩
          refine ⟨(.Create J, some err) :: l, ?_, ?_, ?_⟩
          · simp only [IssueCreate, hc, errOf, hm, if_true]
            rw [show ({ J with Fields := { J.Fields with Assignee := none } } : JiraIssue) =
              withoutAssignee J from rfl, h1]
            simp
          · intro e he
            rcases List.mem_cons.mp he with he | he
            · subst he
              exact Or.inl rfl
            · rcases h2 e he with h | h
              · exact Or.inr h
              · exact Or.inr h
          · simp only [IssueCreate, hc, errOf, hm, if_true]
            rw [show ({ J with Fields := { J.Fields with Assignee := none } } : JiraIssue) =
              withoutAssignee J from rfl]
            intro hs
            obtain ⟨l0, J2, hl⟩ := h3 hs
            exact ⟨(.Create J, some err) :: l0, J2, by rw [hl]; rfl⟩
        · refine ⟨[(.Create J, some err)], ?_, ?_, ?_⟩
          · simp [IssueCreate, hc, errOf, hm]
          · intro e he
            simp only [List.mem_singleton] at he
            subst he
            exact Or.inl rfl
          · simp [IssueCreate, hc, errOf, hm]

theorem handleIssueEventOpen_loop_accept {σ : Type} (c : JiraClient σ) (fuel : Nat)
    (J : JiraIssue) (w : World σ) (stored : JiraIssue)
    (h : (c.Create J w.tracker).1 = .ok stored) :
    handleIssueEventOpen_loop c (fuel + 1) J w =
      (some none, ⟨(c.Create J w.tracker).2, w.log ++ [(.Create J, none)]⟩) := by
  unfold handleIssueEventOpen_loop
  simp [IssueCreate, h, errOf]

/-! ## Lemmas on the comment synchronisation -/

theorem compareSyncComments_delete_log {σ : Type} (c : JiraClient σ) (jiraIssue : JiraIssue) :
    ∀ (L : List JiraComment) (err : Option GoError) (w : World σ),
      (compareSyncComments_delete c jiraIssue L err w).2.log.map Prod.fst =
        w.log.map Prod.fst ++
          (L.filter (fun t => jCommentIDRegex_MatchString t.Body)).map
            (fun t => JiraCall.DeleteComment jiraIssue.ID t.ID) := by
  intro L
  induction L with
  | nil =>
    intro err w
    simp [compareSyncComments_delete]
  | cons t rest ih =>
    intro err w
    unfold compareSyncComments_delete
    by_cases hm : jCommentIDRegex_MatchString t.Body = true
    · simp only [hm, Bool.not_true, Bool.false_eq_true, if_false]
      rw [ih]
      simp [IssueDeleteComment, List.filter_cons, hm]
    · simp only [Bool.not_eq_true] at hm
      simp only [hm, Bool.not_false, if_true]
      rw [ih]
      simp [List.filter_cons, hm]

theorem compareSyncCommentsUpdate_eq {σ : Type} (c : JiraClient σ) (s : Server)
    (jiraIssue : JiraIssue) (jiraComment : JiraComment) (githubComment : GithubIssueComment)
    (w : World σ) :
    compareSyncCommentsUpdate c s jiraIssue jiraComment githubComment w =
      IssueUpdateComment c jiraIssue.ID
        { jiraComment with
          Body := jiraIssueCommentFormat s.markdown githubComment.Body
            (extractGithubIssueCommentOptions s githubComment) } w := by
  unfold compareSyncCommentsUpdate
  simp only
  generalize IssueUpdateComment c jiraIssue.ID _ w = r
  rcases r with ⟨_ | e, w1⟩ <;> rfl

theorem compareSyncCommentsCreate_eq {σ : Type} (c : JiraClient σ) (s : Server)
    (jiraIssue : JiraIssue) (githubComment : GithubIssueComment) (w : World σ) :
    compareSyncCommentsCreate c s jiraIssue githubComment w =
      IssueAddComment c jiraIssue.ID
        { JiraComment.zero with
          Body := jiraIssueCommentFormat s.markdown githubComment.Body
            (extractGithubIssueCommentOptions s githubComment) } w := by
  unfold compareSyncCommentsCreate
  simp only
  generalize IssueAddComment c jiraIssue.ID _ w = r
  rcases r with ⟨_ | e, w1⟩ <;> rfl

theorem compareSyncComments_sync_log {σ : Type} (c : JiraClient σ) (s : Server)
    (jiraIssue : JiraIssue) (jiraComments : List JiraComment) :
    ∀ (L : List GithubIssueComment) (err : Option GoError) (w : World σ),
      (compareSyncComments_sync c s jiraIssue jiraComments L err w).2.log.map Prod.fst =
        w.log.map Prod.fst ++ L.map (commentSyncCall s jiraIssue jiraComments) := by
  intro L
  induction L with
  | nil =>
    intro err w
    simp [compareSyncComments_sync]
  | cons gc rest ih =>
    intro err w
    unfold compareSyncComments_sync
    cases hd : doFindComment jiraComments gc.ID with
    | mk result found =>
      cases found with
      | true =>
        simp only
        rw [ih, compareSyncCommentsUpdate_eq]
        simp [IssueUpdateComment, commentSyncCall, hd]
      | false =>
        simp only
        rw [ih, compareSyncCommentsCreate_eq]
        simp [IssueAddComment, commentSyncCall, hd]

theorem compareSyncComments_delete_run {σ : Type} (c : JiraClient σ) (jiraIssue : JiraIssue) :
    ∀ (L : List JiraComment) (err : Option GoError) (w : World σ),
      compareSyncComments_delete c jiraIssue L err w =
        performCalls c ((L.filter (fun t => jCommentIDRegex_MatchString t.Body)).map
          (fun t => JiraCall.DeleteComment jiraIssue.ID t.ID)) err w := by
  intro L
  induction L with
  | nil =>
    intro err w
    rfl
  | cons t rest ih =>
    intro err w
    unfold compareSyncComments_delete
    by_cases hm : jCommentIDRegex_MatchString t.Body = true
    · simp only [hm, Bool.not_true, Bool.false_eq_true, if_false, List.filter_cons, if_true,
        List.map_cons]
      rw [ih]
      rfl
    · simp only [Bool.not_eq_true] at hm
      simp only [hm, Bool.not_false, if_true, List.filter_cons, Bool.false_eq_true, if_false]
      exact ih err w

theorem compareSyncComments_sync_run {σ : Type} (c : JiraClient σ) (s : Server)
    (jiraIssue : JiraIssue) (jiraComments : List JiraComment) :
    ∀ (L : List GithubIssueComment) (err : Option GoError) (w : World σ),
      compareSyncComments_sync c s jiraIssue jiraComments L err w =
        performCalls c (L.map (commentSyncCall s jiraIssue jiraComments)) err w := by
  intro L
  induction L with
  | nil =>
    intro err w
    rfl
  | cons gc rest ih =>
    intro err w
    unfold compareSyncComments_sync
    cases hd : doFindComment jiraComments gc.ID with
    | mk result found =>
      cases found with
      | true =>
        simp only [List.map_cons]
        rw [ih, compareSyncCommentsUpdate_eq]
        simp only [commentSyncCall, hd]
        rfl
      | false =>
        simp only [List.map_cons]
        rw [ih, compareSyncCommentsCreate_eq]
        simp only [commentSyncCall, hd]
        rfl

/-! ## Lemmas on the passes of the reconciliation -/

theorem compareSyncIssuesCreate_loop_unassigned {σ : Type} (c : JiraClient σ) (n : Nat)
    (J : JiraIssue) (w : World σ) (hJ : J.Fields.Assignee = none) :
    (compareSyncIssuesCreate_loop c (n + 1) J w).1 ≠ none ∧
      (RejectsAssigneeOnlyWhenSet c →
        ∃ r, (compareSyncIssuesCreate_loop c (n + 1) J w).1 = some (.ret r)) := by
  unfold compareSyncIssuesCreate_loop
  cases hc : c.Create J w.tracker with
  | mk r t =>
    cases r with
    | ok resp =>
      simp only [IssueCreate, hc]
      exact ⟨by simp, fun _ => ⟨_, rfl⟩⟩
    | error err =>
      simp only [IssueCreate, hc, hJ]
      by_cases hm : reAssigneeError_MatchString err.msg = true
      · simp only [hm, if_true]
        refine ⟨by simp, fun h => ?_⟩
        have := h J w.tracker err hJ (by rw [hc])
        rw [hm] at this
        cases this
      · simp only [hm]
        exact ⟨by simp, fun _ => ⟨_, rfl⟩⟩

theorem compareSyncIssuesCreate_loop_total {σ : Type} (c : JiraClient σ) (n : Nat)
    (J : JiraIssue) (w : World σ) :
    (compareSyncIssuesCreate_loop c (n + 2) J w).1 ≠ none ∧
      (RejectsAssigneeOnlyWhenSet c →
        ∃ r, (compareSyncIssuesCreate_loop c (n + 2) J w).1 = some (.ret r)) := by
  cases ha : J.Fields.Assignee with
  | none => exact compareSyncIssuesCreate_loop_unassigned c (n + 1) J w ha
  | some u =>
    rw [show n + 2 = (n + 1) + 1 from rfl]
    unfold compareSyncIssuesCreate_loop
    cases hc : c.Create J w.tracker with
    | mk r t =>
      cases r with
      | ok resp =>
        simp only [IssueCreate, hc]
        exact ⟨by simp, fun _ => ⟨_, rfl⟩⟩
      | error err =>
        simp only [IssueCreate, hc, ha]
        by_cases hm : reAssigneeError_MatchString err.msg = true
        · simp only [hm, if_true]
          exact compareSyncIssuesCreate_loop_unassigned c n _ _ rfl
        · simp only [hm]
          exact ⟨by simp, fun _ => ⟨_, rfl⟩⟩

theorem compareSyncIssuesCreate_fst {σ : Type} (c : JiraClient σ) (s : Server) (fuel : Nat)
    (githubIssue : GithubIssue) (repoName : GoString) (w : World σ) :
    (compareSyncIssuesCreate c s fuel githubIssue repoName w).1 =
      (compareSyncIssuesCreate_loop c fuel
        (jiraIssueOpenFormat s githubIssue.ID repoName githubIssue.Title githubIssue.Body
          (extractGithubIssueOptions s githubIssue)) w).1 := by
  unfold compareSyncIssuesCreate
  simp only
  split
  · rename_i h
    rw [h]
  · rename_i h
    rw [h]

theorem compareSyncIssues_createStep_total {σ : Type} (c : JiraClient σ) (s : Server) (n : Nat)
    (repoName : GoString) (githubIssue : GithubIssue) (w : World σ) :
    (compareSyncIssues_createStep c s (n + 2) repoName githubIssue w).1 ≠ none ∧
      (RejectsAssigneeOnlyWhenSet c →
        (compareSyncIssues_createStep c s (n + 2) repoName githubIssue w).1 = some (.ret ())) := by
  unfold compareSyncIssues_createStep
  cases hf : findIssue c s (s.Config.repo repoName).JiraProjectKey githubIssue.ID w with
  | mk r w1 =>
    cases r with
    | ok jiraIssue => exact ⟨by simp, fun _ => rfl⟩
    | error err =>
      simp only
      by_cases hm : err.msg = lit "Issue not exists"
      · simp only [hm, if_true]
        have h1 := compareSyncIssuesCreate_fst c s (n + 2) githubIssue repoName w1
        obtain ⟨h2, h3⟩ := compareSyncIssuesCreate_loop_total c n
          (jiraIssueOpenFormat s githubIssue.ID repoName githubIssue.Title githubIssue.Body
            (extractGithubIssueOptions s githubIssue)) w1
        rw [← h1] at h2 h3
        cases hcr : compareSyncIssuesCreate c s (n + 2) githubIssue repoName w1 with
        | mk r2 w2 =>
          rw [hcr] at h2 h3
          simp only at h2 h3
          cases r2 with
          | none => exact absurd rfl h2
          | some o =>
            cases o with
            | panic =>
              refine ⟨by simp, fun h => ?_⟩
              obtain ⟨r, hr⟩ := h3 h
              cases hr
            | ret v => exact ⟨by simp, fun _ => by simp⟩
      · simp [hm]

theorem compareSyncIssues_createPass_total {σ : Type} (c : JiraClient σ) (s : Server) (n : Nat)
    (repoName : GoString) (issues : List GithubIssue) :
    ∀ w : World σ,
      (compareSyncIssues_createPass c s (n + 2) repoName issues w).1 ≠ none ∧
        (RejectsAssigneeOnlyWhenSet c →
          (compareSyncIssues_createPass c s (n + 2) repoName issues w).1 = some (.ret ())) := by
  induction issues with
  | nil =>
    intro w
    exact ⟨by simp [compareSyncIssues_createPass], fun _ => rfl⟩
  | cons gi rest ih =>
    intro w
    unfold compareSyncIssues_createPass
    obtain ⟨h1, h2⟩ := compareSyncIssues_createStep_total c s n repoName gi w
    cases hs : compareSyncIssues_createStep c s (n + 2) repoName gi w with
    | mk r w1 =>
      rw [hs] at h1 h2
      simp only at h1 h2
      cases r with
      | none => exact absurd rfl h1
      | some o =>
        cases o with
        | panic =>
          refine ⟨by simp, fun h => ?_⟩
          cases h2 h
        | ret v => exact ih w1

theorem SearchesBetween.refl {σ : Type} (w : World σ) : SearchesBetween w w [] :=
  ⟨[], by simp, rfl⟩

theorem SearchesBetween.trans {σ : Type} {w w1 w2 : World σ} {a b : List GoString}
    (h1 : SearchesBetween w w1 a) (h2 : SearchesBetween w1 w2 b) :
    SearchesBetween w w2 (a ++ b) := by
  obtain ⟨l1, e1, s1⟩ := h1
  obtain ⟨l2, e2, s2⟩ := h2
  refine ⟨l1 ++ l2, by rw [e2, e1, List.append_assoc], ?_⟩
  unfold searchesOf at *
  rw [List.filterMap_append, s1, s2]

theorem SearchesBetween.of_log {σ : Type} {w w2 : World σ} (call : JiraCall)
    (err : Option GoError) (h : w2.log = w.log ++ [(call, err)]) :
    SearchesBetween w w2 (searchesOf [(call, err)]) :=
  ⟨[(call, err)], h, rfl⟩

theorem transitionLoop_searches {σ : Type} (c : JiraClient σ) (ticketID : GoString)
    (ids : List GoString) :
    ∀ w : World σ, SearchesBetween w (transitionLoop c ticketID ids w).2 [] := by
  induction ids with
  | nil =>
    intro w
    exact SearchesBetween.refl w
  | cons t ids ih =>
    intro w
    unfold transitionLoop
    have h1 : SearchesBetween w (IssueDoTransition c ticketID t w).2 [] :=
      SearchesBetween.of_log (.DoTransition ticketID t) _ rfl
    cases hr : IssueDoTransition c ticketID t w with
    | mk r w1 =>
      rw [hr] at h1
      cases r with
      | some e => exact h1
      | none => exact SearchesBetween.trans h1 (ih w1)

theorem IssueUpdate_searches {σ : Type} (c : JiraClient σ) (issue : JiraIssue) (w : World σ) :
    SearchesBetween w (IssueUpdate c issue w).2 [] :=
  SearchesBetween.of_log (.Update issue) _ rfl

theorem compareSyncIssuesCreate_loop_searches {σ : Type} (c : JiraClient σ) (fuel : Nat) :
    ∀ (J : JiraIssue) (w : World σ),
      SearchesBetween w (compareSyncIssuesCreate_loop c fuel J w).2 [] := by
  induction fuel with
  | zero =>
    intro J w
    exact SearchesBetween.refl w
  | succ n ih =>
    intro J w
    unfold compareSyncIssuesCreate_loop
    have h1 : SearchesBetween w (IssueCreate c J w).2 [] :=
      SearchesBetween.of_log (.Create J) _ rfl
    cases hr : IssueCreate c J w with
    | mk r w1 =>
      rw [hr] at h1
      cases r with
      | ok resp => exact h1
      | error err =>
        simp only
        split
        · split
          · exact h1
          · exact SearchesBetween.trans h1 (ih _ w1)
        · exact h1

theorem compareSyncIssuesCreate_after_searches {σ : Type} (c : JiraClient σ) (s : Server)
    (githubIssue : GithubIssue) (repoName : GoString) (respJiraIssue : JiraIssue)
    (w : World σ) :
    SearchesBetween w (compareSyncIssuesCreate_after c s githubIssue repoName respJiraIssue w)
      [] := by
  unfold compareSyncIssuesCreate_after
  simp only
  have h1 : SearchesBetween w
      (if githubIssue.State = lit "closed" then
        (transitionLoop c respJiraIssue.ID
          ((s.Config.repo repoName).transitions JiraTransitionDoneName) w).2
      else w) [] := by
    split
    · exact transitionLoop_searches c _ _ w
    · exact SearchesBetween.refl w
  generalize (if githubIssue.State = lit "closed" then
        (transitionLoop c respJiraIssue.ID
          ((s.Config.repo repoName).transitions JiraTransitionDoneName) w).2
      else w) = w1 at h1
  have h2 : SearchesBetween w
      (match labelIssueTypes s repoName githubIssue.Labels with
      | [] => w1
      | first :: _ =>
        (IssueUpdate c
          { JiraIssue.zero with
            Key := respJiraIssue.Key
            Fields := { IssueFields.zero with TypeName := first } } w1).2) [] := by
    split
    · exact h1
    · exact SearchesBetween.trans h1 (IssueUpdate_searches c _ w1)
  generalize (match labelIssueTypes s repoName githubIssue.Labels with
      | [] => w1
      | first :: _ =>
        (IssueUpdate c
          { JiraIssue.zero with
            Key := respJiraIssue.Key
            Fields := { IssueFields.zero with TypeName := first } } w1).2) = w2 at h2
  split
  · exact SearchesBetween.trans h2 (IssueUpdate_searches c _ w2)
  · exact h2

theorem compareSyncIssuesCreate_searches {σ : Type} (c : JiraClient σ) (s : Server) (fuel : Nat)
    (githubIssue : GithubIssue) (repoName : GoString) (w : World σ) :
    SearchesBetween w (compareSyncIssuesCreate c s fuel githubIssue repoName w).2 [] := by
  unfold compareSyncIssuesCreate
  simp only
  have h1 := compareSyncIssuesCreate_loop_searches c fuel
    (jiraIssueOpenFormat s githubIssue.ID repoName githubIssue.Title githubIssue.Body
      (extractGithubIssueOptions s githubIssue)) w
  split
  · rename_i resp w1 h
    rw [h] at h1
    exact SearchesBetween.trans h1 (compareSyncIssuesCreate_after_searches c s _ _ _ w1)
  · rename_i h
    rw [h] at h1
    exact h1

theorem findIssue_searches {σ : Type} (c : JiraClient σ) (s : Server) (projectKey : GoString)
    (issueID : Int) (w : World σ) :
    SearchesBetween w (findIssue c s projectKey issueID w).2
      [findIssueJQL s projectKey issueID] :=
  ⟨_, (findIssue_log c s projectKey issueID w).1, rfl⟩

theorem compareSyncIssues_createStep_searches {σ : Type} (c : JiraClient σ) (s : Server)
    (fuel : Nat) (repoName : GoString) (githubIssue : GithubIssue) (w : World σ) :
    SearchesBetween w (compareSyncIssues_createStep c s fuel repoName githubIssue w).2
      [findIssueJQL s (s.Config.repo repoName).JiraProjectKey githubIssue.ID] := by
  unfold compareSyncIssues_createStep
  have h1 := findIssue_searches c s (s.Config.repo repoName).JiraProjectKey githubIssue.ID w
  cases hf : findIssue c s (s.Config.repo repoName).JiraProjectKey githubIssue.ID w with
  | mk r w1 =>
    rw [hf] at h1
    cases r with
    | ok jiraIssue => exact h1
    | error err =>
      simp only
      split
      · have h2 := compareSyncIssuesCreate_searches c s fuel githubIssue repoName w1
        have h3 := SearchesBetween.trans h1 h2
        cases hcr : compareSyncIssuesCreate c s fuel githubIssue repoName w1 with
        | mk r2 w2 =>
          rw [hcr] at h3
          rcases r2 with _ | _ | _ <;> exact h3
      · exact h1

theorem compareSyncIssues_createPass_searches {σ : Type} (c : JiraClient σ) (s : Server)
    (fuel : Nat) (repoName : GoString) (issues : List GithubIssue) :
    ∀ w : World σ,
      (compareSyncIssues_createPass c s fuel repoName issues w).1 = some (.ret ()) →
      SearchesBetween w (compareSyncIssues_createPass c s fuel repoName issues w).2
        (issues.map (fun githubIssue =>
          findIssueJQL s (s.Config.repo repoName).JiraProjectKey githubIssue.ID)) := by
  induction issues with
  | nil =>
    intro w _
    exact SearchesBetween.refl w
  | cons gi rest ih =>
    intro w
    unfold compareSyncIssues_createPass
    have h1 := compareSyncIssues_createStep_searches c s fuel repoName gi w
    cases hs : compareSyncIssues_createStep c s fuel repoName gi w with
    | mk r w1 =>
      rw [hs] at h1
      rcases r with _ | v | _
      · intro h
        cases h
      · intro h
        exact SearchesBetween.trans h1 (ih w1 h)
      · intro h
        cases h

theorem compareSyncIssuesCreate_loop_first {σ : Type} (c : JiraClient σ) (n : Nat)
    (J : JiraIssue) (w : World σ) :
    ∃ e l, (compareSyncIssuesCreate_loop c (n + 1) J w).2.log = w.log ++ (.Create J, e) :: l := by
  unfold compareSyncIssuesCreate_loop
  have h1 : (IssueCreate c J w).2.log = w.log ++ [(.Create J, errOf (c.Create J w.tracker).1)] :=
    rfl
  cases hr : IssueCreate c J w with
  | mk r w1 =>
    rw [hr] at h1
    simp only at h1
    cases r with
    | ok resp => exact ⟨_, [], h1⟩
    | error err =>
      simp only
      split
      · split
        · exact ⟨_, [], h1⟩
        · obtain ⟨l, hl, _⟩ := compareSyncIssuesCreate_loop_searches c n
            { J with Fields := { J.Fields with Assignee := none } } w1
          exact ⟨_, l, by rw [hl, h1, List.append_assoc]; rfl⟩
      · exact ⟨_, [], h1⟩

theorem compareSyncIssuesCreate_first {σ : Type} (c : JiraClient σ) (s : Server) (n : Nat)
    (githubIssue : GithubIssue) (repoName : GoString) (w : World σ) :
    ∃ e l, (compareSyncIssuesCreate c s (n + 1) githubIssue repoName w).2.log =
      w.log ++ (.Create (jiraIssueOpenFormat s githubIssue.ID repoName githubIssue.Title
        githubIssue.Body (extractGithubIssueOptions s githubIssue)), e) :: l := by
  obtain ⟨e, l, h1⟩ := compareSyncIssuesCreate_loop_first c n
    (jiraIssueOpenFormat s githubIssue.ID repoName githubIssue.Title githubIssue.Body
      (extractGithubIssueOptions s githubIssue)) w
  unfold compareSyncIssuesCreate
  simp only
  split
  · rename_i resp w1 h
    rw [h] at h1
    obtain ⟨l2, hl2, _⟩ := compareSyncIssuesCreate_after_searches c s githubIssue repoName resp w1
    exact ⟨e, l ++ l2, by rw [hl2, h1]; simp⟩
  · rename_i h
    rw [h] at h1
    exact ⟨e, l, h1⟩

theorem compareSyncComments_total {σ : Type} (c : JiraClient σ) (g : GithubClient) (s : Server)
    (fuel : Nat) (jiraIssue : JiraIssue) (githubIssue : GithubIssue) (repoName : GoString)
    (w : World σ)
    (hcomments : ∀ owner repo number,
      (getGithubIssueComments g s fuel owner repo number).isSome = true) :
    (compareSyncComments c g s fuel jiraIssue githubIssue repoName w).1 ≠ none := by
  unfold compareSyncComments
  cases hg : GetComments c jiraIssue.ID w with
  | mk r w1 =>
    cases r with
    | error err => simp
    | ok jiraComments =>
      simp only
      split
      · simp
      · have h := hcomments (s.Config.repo repoName).GithubOwner repoName githubIssue.Number
        cases hl : getGithubIssueComments g s fuel (s.Config.repo repoName).GithubOwner repoName
            githubIssue.Number with
        | none =>
          rw [hl] at h
          cases h
        | some r2 =>
          cases r2 <;> simp

theorem compareSyncIssues_issue_total {σ : Type} (c : JiraClient σ) (g : GithubClient)
    (s : Server) (fuel : Nat) (repoName : GoString) (githubIssue : GithubIssue) (w : World σ)
    (hcomments : ∀ owner repo number,
      (getGithubIssueComments g s fuel owner repo number).isSome = true) :
    (compareSyncIssues_issue c g s fuel repoName githubIssue w).1 = some () := by
  unfold compareSyncIssues_issue
  cases hf : findIssue c s (s.Config.repo repoName).JiraProjectKey githubIssue.ID w with
  | mk r w1 =>
    cases r with
    | error err => rfl
    | ok jiraIssue =>
      simp only
      cases hu : compareSyncIssuesUpdate c s jiraIssue githubIssue repoName w1 with
      | mk r2 w2 =>
        cases r2 with
        | some err => rfl
        | none =>
          simp only
          have h := compareSyncComments_total c g s fuel jiraIssue githubIssue repoName w2
            hcomments
          cases hc : compareSyncComments c g s fuel jiraIssue githubIssue repoName w2 with
          | mk r3 w3 =>
            rw [hc] at h
            cases r3 with
            | none => exact absurd rfl h
            | some e => rfl

theorem compareSyncIssues_updatePass_total {σ : Type} (c : JiraClient σ) (g : GithubClient)
    (s : Server) (fuel : Nat) (repoName : GoString) (issues : List GithubIssue)
    (hcomments : ∀ owner repo number,
      (getGithubIssueComments g s fuel owner repo number).isSome = true) :
    ∀ w : World σ, (compareSyncIssues_updatePass c g s fuel repoName issues w).1 = some () := by
  induction issues with
  | nil =>
    intro w
    rfl
  | cons gi rest ih =>
    intro w
    unfold compareSyncIssues_updatePass
    have h := compareSyncIssues_issue_total c g s fuel repoName gi w hcomments
    cases hi : compareSyncIssues_issue c g s fuel repoName gi w with
    | mk r w1 =>
      rw [hi] at h
      simp only at h
      subst h
      exact ih w1

theorem compareSyncIssues_repo_total {σ : Type} (c : JiraClient σ) (g : GithubClient)
    (s : Server) (n : Nat) (repoName : GoString) (issues : List GithubIssue) (w : World σ)
    (hc : RejectsAssigneeOnlyWhenSet c)
    (hcomments : ∀ owner repo number,
      (getGithubIssueComments g s (n + 2) owner repo number).isSome = true) :
    (compareSyncIssues_repo c g s (n + 2) repoName issues w).1 = some (.ret ()) := by
  unfold compareSyncIssues_repo
  have h1 := (compareSyncIssues_createPass_total c s n repoName issues w).2 hc
  cases hp : compareSyncIssues_createPass c s (n + 2) repoName issues w with
  | mk r w1 =>
    rw [hp] at h1
    simp only at h1
    subst h1
    simp only
    have h2 := compareSyncIssues_updatePass_total c g s (n + 2) repoName issues hcomments w1
    cases hu : compareSyncIssues_updatePass c g s (n + 2) repoName issues w1 with
    | mk r2 w2 =>
      rw [hu] at h2
      simp only at h2
      subst h2
      rfl

theorem compareSyncIssues_repos_total {σ : Type} (c : JiraClient σ) (g : GithubClient)
    (s : Server) (n : Nat) (repoNames : List GoString)
    (hc : RejectsAssigneeOnlyWhenSet c)
    (hcomments : ∀ owner repo number,
      (getGithubIssueComments g s (n + 2) owner repo number).isSome = true) :
    (∀ repoName ∈ repoNames,
      (getGithubIssuesByRepo g s (n + 2) (s.Config.repo repoName).GithubOwner repoName).isSome =
        true) →
    ∀ (errReturn : Option GoError) (w : World σ),
      (compareSyncIssues_repos c g s (n + 2) repoNames errReturn w).1 =
        some (.ret (lastListingError g s (n + 2) repoNames errReturn)) := by
  induction repoNames with
  | nil =>
    intro _ errReturn w
    rfl
  | cons r rest ih =>
    intro hlist errReturn w
    have hr := hlist r (List.mem_cons_self r rest)
    have hrest := ih (fun x hx => hlist x (List.mem_cons_of_mem r hx))
    unfold compareSyncIssues_repos lastListingError
    cases hl : getGithubIssuesByRepo g s (n + 2) (s.Config.repo r).GithubOwner r with
    | none =>
      rw [hl] at hr
      cases hr
    | some res =>
      cases res with
      | error err => exact hrest (some err) w
      | ok allGithubIssues =>
        simp only
        have h1 := compareSyncIssues_repo_total c g s n r allGithubIssues w hc hcomments
        cases hp : compareSyncIssues_repo c g s (n + 2) r allGithubIssues w with
        | mk o w1 =>
          rw [hp] at h1
          simp only at h1
          subst h1
          exact hrest errReturn w1

theorem memTracker_rejectsAssigneeOnlyWhenSet (K : GoString)
    (workflow : GoString → Option GoString) :
    RejectsAssigneeOnlyWhenSet (memTracker K workflow) := by
  intro J t err hJ h
  simp [memTracker, hJ] at h

/-! ## Lemmas on the bulk update -/

theorem compareSyncIssuesUpdate_ok {σ : Type} (c : JiraClient σ) (s : Server)
    (jiraIssue : JiraIssue) (githubIssue : GithubIssue) (repoName : GoString) (w w1 : World σ)
    (resp : JiraIssue)
    (hu : IssueUpdate c (jiraIssueUpdateFormat s jiraIssue.ID jiraIssue.Key githubIssue.Title
      githubIssue.Body (extractGithubIssueOptions s githubIssue)) w = (.ok resp, w1)) :
    compareSyncIssuesUpdate c s jiraIssue githubIssue repoName w =
      (none,
        (IssueUpdate c (componentsUpdate jiraIssue (bulkComponents s repoName githubIssue))
          (categoryStep c jiraIssue (toUpdateIssueTypeName s repoName jiraIssue githubIssue)
            (transitionLoop c jiraIssue.ID (statusTransitions s repoName jiraIssue githubIssue)
              (IssueUpdateAssignee c jiraIssue.ID (bulkAssignee s githubIssue) w1).2).2)).2) := by
  unfold compareSyncIssuesUpdate
  simp only
  rw [hu]
  simp only
  have h3 : ∀ w2 : World σ,
      (if githubIssue.State = lit "closed" then
        if jiraIssue.Fields.StatusCategoryName ≠ JiraStatusDoneName then
          (transitionLoop c jiraIssue.ID
            ((s.Config.repo repoName).transitions JiraTransitionDoneName) w2).2
        else w2
      else if githubIssue.State = lit "open" then
        if jiraIssue.Fields.StatusCategoryName = JiraStatusDoneName then
          (transitionLoop c jiraIssue.ID
            ((s.Config.repo repoName).transitions JiraTransitionTodoName) w2).2
        else w2
      else w2) =
      (transitionLoop c jiraIssue.ID (statusTransitions s repoName jiraIssue githubIssue)
        w2).2 := by
    intro w2
    unfold statusTransitions
    split_ifs <;> rfl
  have h4 : (match labelIssueTypes s repoName githubIssue.Labels with
      | first :: _ =>
        if (labelIssueTypes s repoName githubIssue.Labels).any
            (fun name => decide (name = jiraIssue.Fields.TypeName)) then []
        else first
      | [] => (s.Config.repo repoName).JiraIssueType) =
      toUpdateIssueTypeName s repoName jiraIssue githubIssue := by
    unfold toUpdateIssueTypeName
    cases labelIssueTypes s repoName githubIssue.Labels <;> rfl
  rw [h3, h4]
  rfl

theorem transitionLoop_calls {σ : Type} (c : JiraClient σ) (ticketID : GoString)
    (ids : List GoString) (w : World σ) :
    ∃ T, (transitionLoop c ticketID ids w).2.log = w.log ++ T ∧
      ∀ x ∈ T, ∃ t, x.1 = JiraCall.DoTransition ticketID t := by
  rcases transitionLoop_spec c ticketID ids w with ⟨_, h⟩ | ⟨pre, t, post, e, _, _, h⟩
  · refine ⟨_, h, ?_⟩
    intro x hx
    obtain ⟨t, _, rfl⟩ := List.mem_map.mp hx
    exact ⟨t, rfl⟩
  · refine ⟨pre.map (fun t => (JiraCall.DoTransition ticketID t, none)) ++
      [(JiraCall.DoTransition ticketID t, some e)], by rw [h, List.append_assoc], ?_⟩
    intro x hx
    rcases List.mem_append.mp hx with hx | hx
    · obtain ⟨t2, _, rfl⟩ := List.mem_map.mp hx
      exact ⟨t2, rfl⟩
    · simp only [List.mem_singleton] at hx
      subst hx
      exact ⟨t, rfl⟩

theorem categoryStep_log {σ : Type} (c : JiraClient σ) (jiraIssue : JiraIssue) (name : GoString)
    (w : World σ) :
    ∃ Cat, (categoryStep c jiraIssue name w).log = w.log ++ Cat ∧
      Cat.map Prod.fst =
        (if name = [] then [] else [JiraCall.Update (categoryUpdate jiraIssue name)]) := by
  unfold categoryStep
  by_cases h : name = []
  · exact ⟨[], by simp [h], by simp [h]⟩
  · refine ⟨[(.Update (categoryUpdate jiraIssue name),
      errOf (c.Update (categoryUpdate jiraIssue name) w.tracker).1)], ?_, by simp [h]⟩
    simp only [ne_eq, h, not_false_eq_true, if_true]
    rfl

theorem compareSyncIssuesUpdate_log {σ : Type} (c : JiraClient σ) (s : Server)
    (jiraIssue : JiraIssue) (githubIssue : GithubIssue) (repoName : GoString) (w w1 : World σ)
    (resp : JiraIssue)
    (hu : IssueUpdate c (jiraIssueUpdateFormat s jiraIssue.ID jiraIssue.Key githubIssue.Title
      githubIssue.Body (extractGithubIssueOptions s githubIssue)) w = (.ok resp, w1)) :
    ∃ eA T Cat eC,
      (compareSyncIssuesUpdate c s jiraIssue githubIssue repoName w).2.log =
        w.log ++
          [(.Update (jiraIssueUpdateFormat s jiraIssue.ID jiraIssue.Key githubIssue.Title
              githubIssue.Body (extractGithubIssueOptions s githubIssue)), none),
            (.UpdateAssignee jiraIssue.ID (bulkAssignee s githubIssue), eA)] ++ T ++ Cat ++
          [(.Update (componentsUpdate jiraIssue (bulkComponents s repoName githubIssue)), eC)] ∧
      (∀ x ∈ T, ∃ t, x.1 = JiraCall.DoTransition jiraIssue.ID t) ∧
      Cat.map Prod.fst =
        (if toUpdateIssueTypeName s repoName jiraIssue githubIssue = [] then []
          else [JiraCall.Update (categoryUpdate jiraIssue
            (toUpdateIssueTypeName s repoName jiraIssue githubIssue))]) := by
  have hw1 : w1.log = w.log ++
      [(.Update (jiraIssueUpdateFormat s jiraIssue.ID jiraIssue.Key githubIssue.Title
        githubIssue.Body (extractGithubIssueOptions s githubIssue)), none)] := by
    have h2 := congrArg (fun r => r.2.log) hu
    have h3 := congrArg (fun r => errOf r.1) hu
    simp only [IssueUpdate] at h2 h3
    rw [← h2, h3]
    rfl
  obtain ⟨T, hT, hT2⟩ := transitionLoop_calls c jiraIssue.ID
    (statusTransitions s repoName jiraIssue githubIssue)
    (IssueUpdateAssignee c jiraIssue.ID (bulkAssignee s githubIssue) w1).2
  obtain ⟨Cat, hC, hC2⟩ := categoryStep_log c jiraIssue
    (toUpdateIssueTypeName s repoName jiraIssue githubIssue)
    (transitionLoop c jiraIssue.ID (statusTransitions s repoName jiraIssue githubIssue)
      (IssueUpdateAssignee c jiraIssue.ID (bulkAssignee s githubIssue) w1).2).2
  refine ⟨(c.UpdateAssignee jiraIssue.ID (bulkAssignee s githubIssue) w1.tracker).1, T, Cat,
    errOf (c.Update (componentsUpdate jiraIssue (bulkComponents s repoName githubIssue))
      (categoryStep c jiraIssue (toUpdateIssueTypeName s repoName jiraIssue githubIssue)
        (transitionLoop c jiraIssue.ID (statusTransitions s repoName jiraIssue githubIssue)
          (IssueUpdateAssignee c jiraIssue.ID (bulkAssignee s githubIssue)
            w1).2).2).tracker).1,
    ?_, hT2, hC2⟩
  rw [compareSyncIssuesUpdate_ok c s jiraIssue githubIssue repoName w w1 resp hu]
  simp only [IssueUpdate]
  rw [hC, hT]
  simp only [IssueUpdateAssignee, hw1, List.append_assoc, List.cons_append, List.nil_append]

theorem getGithubIssuesByRepo_first (g : GithubClient) (s : Server) (n : Nat)
    (owner repoName : GoString) :
    (∀ err, g.ListByRepo owner repoName
        ⟨s.Config.GithubIssueSince, lit "all", lit "created", lit "asc", ⟨1, 100⟩⟩ = .error err →
      getGithubIssuesByRepo g s (n + 1) owner repoName = some (.error err)) ∧
      (∀ resp, g.ListByRepo owner repoName
          ⟨s.Config.GithubIssueSince, lit "all", lit "created", lit "asc", ⟨1, 100⟩⟩ = .ok resp →
        resp.NextPage = 0 →
        getGithubIssuesByRepo g s (n + 1) owner repoName =
          some (.ok (resp.items.filter (fun i => !i.IsPullRequest)))) := by
  constructor
  · intro err h
    unfold getGithubIssuesByRepo getGithubIssuesByRepo_loop
    simp only
    rw [h]
  · intro resp h h0
    unfold getGithubIssuesByRepo getGithubIssuesByRepo_loop
    simp only
    rw [h]
    simp [h0]

/-! ## Lemmas on the lookups of a whole pass -/

theorem find?_eq_head?_filter {α : Type} (p : α → Bool) (l : List α) :
    (l.filter p).head? = l.find? p := by
  induction l with
  | nil => rfl
  | cons a l ih =>
    by_cases h : p a = true
    · simp [List.filter_cons, List.find?_cons, h]
    · simp only [Bool.not_eq_true] at h
      simp [List.filter_cons, List.find?_cons, h, ih]

theorem memTracker_findIssue (K : GoString) (workflow : GoString → Option GoString) (s : Server)
    (hK : mapGet s.Config.FieldIDs .gitHubID = some K) (p : GoString) (n : Int) (T : Tracker)
    (l : List (JiraCall × Option GoError)) :
    findIssue (memTracker K workflow) s p n ⟨T, l⟩ =
      (match T.issues.find? (correlated K p n) with
        | none => .error (errorsNew "Issue not exists")
        | some J => .ok J,
        ⟨T, l ++ [(.Search (findIssueJQL s p n), none)]⟩) := by
  have hf : T.issues.filter (fun i => decide (issueJQL K i = some (correlationJQL K p n))) =
      T.issues.filter (correlated K p n) := by
    apply List.filter_congr
    intro x _
    exact issueJQL_eq_iff K p n x
  unfold findIssue IssueSearch
  rw [findIssueJQL_eq s K hK]
  simp only [memTracker, hf, errOf]
  rw [← find?_eq_head?_filter]
  cases T.issues.filter (correlated K p n) <;> rfl

@[simp]
theorem Tracker.modify_users (T : Tracker) (id : GoString) (f : IssueFields → IssueFields) :
    (T.modify id f).users = T.users := rfl

@[simp]
theorem Tracker.modify_next (T : Tracker) (id : GoString) (f : IssueFields → IssueFields) :
    (T.modify id f).next = T.next := rfl

@[simp]
theorem Tracker.modify_comments (T : Tracker) (id : GoString)
    (f : IssueFields → IssueFields) : (T.modify id f).comments = T.comments := rfl

theorem Tracker.modify_modify (T : Tracker) (id : GoString) (f g : IssueFields → IssueFields) :
    (T.modify id f).modify id g = T.modify id (fun F => g (f F)) := by
  unfold Tracker.modify
  simp only [List.map_map]
  congr 1
  apply List.map_congr_left
  intro i _
  by_cases h : i.ID = id
  · simp [h]
  · simp [h]

theorem Tracker.modify_id (T : Tracker) (id : GoString) : T.modify id (fun F => F) = T := by
  unfold Tracker.modify
  have : T.issues.map (fun i => if i.ID = id then { i with Fields := i.Fields } else i) =
      T.issues := by
    conv_rhs => rw [← List.map_id T.issues]
    apply List.map_congr_left
    intro i _
    split <;> rfl
  rw [this]

theorem Holds.of_modify {T : Tracker} {id key : GoString} (h : Holds T id key)
    (f : IssueFields → IssueFields) : Holds (T.modify id f) id key := by
  obtain ⟨⟨x, hx, hxid⟩, hk⟩ := h
  constructor
  · refine ⟨{ x with Fields := f x.Fields }, ?_, hxid⟩
    unfold Tracker.modify
    simp only [List.mem_map]
    exact ⟨x, hx, by simp [hxid]⟩
  · intro y hy
    unfold Tracker.modify at hy
    simp only [List.mem_map] at hy
    obtain ⟨z, hz, rfl⟩ := hy
    have := hk z hz
    split <;> exact this

theorem Holds.any_id {T : Tracker} {id key : GoString} (h : Holds T id key) :
    T.issues.any (fun i => decide (i.ID = id)) = true := by
  obtain ⟨⟨x, hx, hxid⟩, _⟩ := h
  simp only [List.any_eq_true, decide_eq_true_eq]
  exact ⟨x, hx, hxid⟩

theorem Holds.any_key {T : Tracker} {id key : GoString} (h : Holds T id key) :
    T.issues.any (fun i => decide (i.Key = key)) = true := by
  obtain ⟨⟨x, hx, hxid⟩, hk⟩ := h
  simp only [List.any_eq_true, decide_eq_true_eq]
  exact ⟨x, hx, (hk x hx).mpr hxid⟩

theorem memTracker_Update (K : GoString) (workflow : GoString → Option GoString) {T : Tracker}
    {id key : GoString} (h : Holds T id key) (payload : JiraIssue) (hp : payload.Key = key) :
    (memTracker K workflow).Update payload T =
      (.ok payload, T.modify id (applyUpdate payload.Fields)) := by
  have hany := h.any_key
  simp only [memTracker, hp, hany, if_true]
  congr 1
  unfold Tracker.modify
  congr 1
  apply List.map_congr_left
  intro i hi
  have := h.2 i hi
  by_cases hk : i.Key = key
  · simp [hk, this.mp hk]
  · have hid : ¬ i.ID = id := fun e => hk (this.mpr e)
    simp [hk, hid]

theorem memTracker_DoTransition (K : GoString) (workflow : GoString → Option GoString)
    {T : Tracker} {id key : GoString} (h : Holds T id key) (t : GoString) :
    (memTracker K workflow).DoTransition id t T =
      match workflow t with
      | none => (some (errorsNew "transition is not valid"), T)
      | some category =>
        (none, T.modify id (fun F => { F with StatusCategoryName := category })) := by
  have hany := h.any_id
  simp only [memTracker]
  cases workflow t with
  | none => rfl
  | some category =>
    simp only [hany, if_true]
    rfl

theorem memTracker_UpdateAssignee (K : GoString) (workflow : GoString → Option GoString)
    {T : Tracker} {id key : GoString} (h : Holds T id key) (a : Option JiraUser) :
    ((memTracker K workflow).UpdateAssignee id a T).2 =
      T.modify id (assigneeEffect T.users a) := by
  have hany := h.any_id
  simp only [memTracker, hany, if_true]
  cases a with
  | none => rfl
  | some u =>
    simp only
    by_cases h1 : u.Name = []
    · simp only [h1, if_true]
      unfold Tracker.modify assigneeEffect
      simp [h1]
    · by_cases h2 : u.Name ∈ T.users
      · simp only [h1, h2, if_false, if_true]
        unfold Tracker.modify assigneeEffect
        simp [h1, h2]
      · simp only [h1, h2, if_false]
        have : assigneeEffect T.users (some u) = fun F => F := by
          funext F
          simp [assigneeEffect, h1, h2]
        rw [this, Tracker.modify_id]

theorem memTracker_transitionLoop (K : GoString) (workflow : GoString → Option GoString)
    (id key : GoString) (ids : List GoString) :
    ∀ w : World Tracker, Holds w.tracker id key →
      (transitionLoop (memTracker K workflow) id ids w).2.tracker =
        w.tracker.modify id (statusAfter workflow ids) := by
  induction ids with
  | nil =>
    intro w _
    simp only [transitionLoop]
    exact (Tracker.modify_id _ _).symm
  | cons t rest ih =>
    intro w h
    unfold transitionLoop IssueDoTransition
    rw [memTracker_DoTransition K workflow h t]
    cases hw : workflow t with
    | none =>
      simp only
      have : statusAfter workflow (t :: rest) = fun F => F := by
        funext F
        simp [statusAfter, hw]
      rw [this, Tracker.modify_id]
    | some category =>
      simp only
      rw [ih _ (h.of_modify _), Tracker.modify_modify]
      congr 1
      funext F
      simp [statusAfter, hw]

theorem memTracker_IssueUpdate (K : GoString) (workflow : GoString → Option GoString)
    {id key : GoString} (payload : JiraIssue) (w : World Tracker) (h : Holds w.tracker id key)
    (hp : payload.Key = key) :
    IssueUpdate (memTracker K workflow) payload w =
      (.ok payload,
        ⟨w.tracker.modify id (applyUpdate payload.Fields), w.log ++ [(.Update payload, none)]⟩) := by
  unfold IssueUpdate
  rw [memTracker_Update K workflow h payload hp]
  rfl

theorem memTracker_compareSyncIssuesUpdate (K : GoString) (workflow : GoString → Option GoString)
    (s : Server) (J : JiraIssue) (githubIssue : GithubIssue) (repoName : GoString)
    (w : World Tracker) (h : Holds w.tracker J.ID J.Key) :
    (compareSyncIssuesUpdate (memTracker K workflow) s J githubIssue repoName w).1 = none ∧
      (compareSyncIssuesUpdate (memTracker K workflow) s J githubIssue repoName w).2.tracker =
        w.tracker.modify J.ID (bulkFields s repoName w.tracker.users workflow J githubIssue) := by
  have hu : IssueUpdate (memTracker K workflow)
      (jiraIssueUpdateFormat s J.ID J.Key githubIssue.Title githubIssue.Body
        (extractGithubIssueOptions s githubIssue)) w =
      (.ok (jiraIssueUpdateFormat s J.ID J.Key githubIssue.Title githubIssue.Body
        (extractGithubIssueOptions s githubIssue)),
        ⟨w.tracker.modify J.ID (applyUpdate (jiraIssueUpdateFormat s J.ID J.Key githubIssue.Title
          githubIssue.Body (extractGithubIssueOptions s githubIssue)).Fields),
          w.log ++ [(.Update (jiraIssueUpdateFormat s J.ID J.Key githubIssue.Title githubIssue.Body
            (extractGithubIssueOptions s githubIssue)), none)]⟩) := by
    exact memTracker_IssueUpdate K workflow _ w h rfl
  rw [compareSyncIssuesUpdate_ok _ s J githubIssue repoName w _ _ hu]
  refine ⟨rfl, ?_⟩
  have h1 := h.of_modify (applyUpdate (jiraIssueUpdateFormat s J.ID J.Key githubIssue.Title
    githubIssue.Body (extractGithubIssueOptions s githubIssue)).Fields)
  -- the assignee push
  have e2 : (IssueUpdateAssignee (memTracker K workflow) J.ID (bulkAssignee s githubIssue)
      ⟨w.tracker.modify J.ID (applyUpdate (jiraIssueUpdateFormat s J.ID J.Key githubIssue.Title
          githubIssue.Body (extractGithubIssueOptions s githubIssue)).Fields),
        w.log ++ [(.Update (jiraIssueUpdateFormat s J.ID J.Key githubIssue.Title githubIssue.Body
          (extractGithubIssueOptions s githubIssue)), none)]⟩).2.tracker =
      (w.tracker.modify J.ID (applyUpdate (jiraIssueUpdateFormat s J.ID J.Key githubIssue.Title
        githubIssue.Body (extractGithubIssueOptions s githubIssue)).Fields)).modify J.ID
        (assigneeEffect w.tracker.users (bulkAssignee s githubIssue)) := by
    unfold IssueUpdateAssignee
    simp only
    rw [memTracker_UpdateAssignee K workflow h1]
    rfl
  generalize hw2 : (IssueUpdateAssignee (memTracker K workflow) J.ID (bulkAssignee s githubIssue)
      ⟨w.tracker.modify J.ID (applyUpdate (jiraIssueUpdateFormat s J.ID J.Key githubIssue.Title
          githubIssue.Body (extractGithubIssueOptions s githubIssue)).Fields),
        w.log ++ [(.Update (jiraIssueUpdateFormat s J.ID J.Key githubIssue.Title githubIssue.Body
          (extractGithubIssueOptions s githubIssue)), none)]⟩).2 = w2 at e2 ⊢
  have h2 : Holds w2.tracker J.ID J.Key := by
    rw [e2]
    exact h1.of_modify _
  -- the transitions
  have e3 := memTracker_transitionLoop K workflow J.ID J.Key
    (statusTransitions s repoName J githubIssue) w2 h2
  generalize hw3 : (transitionLoop (memTracker K workflow) J.ID
    (statusTransitions s repoName J githubIssue) w2).2 = w3 at e3 ⊢
  have h3 : Holds w3.tracker J.ID J.Key := by
    rw [e3]
    exact h2.of_modify _
  -- the category
  have e4 : (categoryStep (memTracker K workflow) J
      (toUpdateIssueTypeName s repoName J githubIssue) w3).tracker =
      w3.tracker.modify J.ID (categoryEffect (toUpdateIssueTypeName s repoName J githubIssue)) := by
    unfold categoryStep
    by_cases hn : toUpdateIssueTypeName s repoName J githubIssue = []
    · have : categoryEffect (toUpdateIssueTypeName s repoName J githubIssue) = fun F => F := by
        funext F
        simp [categoryEffect, hn]
      rw [this, Tracker.modify_id]
      simp [hn]
    · have : categoryEffect (toUpdateIssueTypeName s repoName J githubIssue) =
          applyUpdate (categoryUpdate J (toUpdateIssueTypeName s repoName J githubIssue)).Fields := by
        funext F
        simp [categoryEffect, hn, categoryUpdate]
      rw [this]
      simp only [ne_eq, hn, not_false_eq_true, if_true]
      rw [memTracker_IssueUpdate K workflow
        (categoryUpdate J (toUpdateIssueTypeName s repoName J githubIssue)) w3 h3 rfl]
  generalize hw4 : categoryStep (memTracker K workflow) J
    (toUpdateIssueTypeName s repoName J githubIssue) w3 = w4 at e4 ⊢
  have h4 : Holds w4.tracker J.ID J.Key := by
    rw [e4]
    exact h3.of_modify _
  rw [memTracker_IssueUpdate K workflow
    (componentsUpdate J (bulkComponents s repoName githubIssue)) w4 h4 rfl]
  simp only
  rw [e4, e3, e2]
  simp only [Tracker.modify_modify]
  rfl

theorem statusAfter_eq (workflow : GoString → Option GoString) (ids : List GoString) :
    ∀ F : IssueFields, statusAfter workflow ids F =
      { F with StatusCategoryName := statusName workflow ids F.StatusCategoryName } := by
  induction ids with
  | nil =>
    intro F
    rfl
  | cons t rest ih =>
    intro F
    unfold statusAfter statusName
    cases workflow t with
    | none => rfl
    | some category =>
      simp only
      rw [ih]

theorem statusName_idem (workflow : GoString → Option GoString) (ids : List GoString)
    (st : GoString) :
    statusName workflow ids (statusName workflow ids st) = statusName workflow ids st := by
  cases ids with
  | nil => rfl
  | cons t rest =>
    cases hw : workflow t with
    | none => simp [statusName, hw]
    | some category => simp [statusName, hw]

theorem assigneeEffect_settled (users : List GoString) (a : Option JiraUser)
    (F G : IssueFields) (h : G.Assignee = (assigneeEffect users a F).Assignee) :
    (assigneeEffect users a G).Assignee = G.Assignee := by
  cases a with
  | none =>
    simp only [assigneeEffect] at h ⊢
    exact h.symm
  | some u =>
    simp only [assigneeEffect] at h ⊢
    by_cases h1 : u.Name = []
    · simp only [h1, if_true] at h ⊢
      exact h.symm
    · by_cases h2 : u.Name ∈ users
      · simp only [h1, h2, if_false, if_true] at h ⊢
        exact h.symm
      · simp only [h1, h2, if_false]

theorem bulkFields_eq (s : Server) (repoName : GoString) (users : List GoString)
    (workflow : GoString → Option GoString) (J : JiraIssue) (githubIssue : GithubIssue)
    (F : IssueFields) :
    bulkFields s repoName users workflow J githubIssue F =
      { F with
        Summary := if githubIssue.Title = [] then F.Summary else githubIssue.Title
        Description :=
          if jiraIssueBodyFormat s githubIssue.Body (extractGithubIssueOptions s githubIssue) = []
          then F.Description
          else jiraIssueBodyFormat s githubIssue.Body (extractGithubIssueOptions s githubIssue)
        Assignee := (assigneeEffect users (bulkAssignee s githubIssue) F).Assignee
        StatusCategoryName :=
          statusName workflow (statusTransitions s repoName J githubIssue) F.StatusCategoryName
        TypeName :=
          if toUpdateIssueTypeName s repoName J githubIssue = [] then F.TypeName
          else toUpdateIssueTypeName s repoName J githubIssue
        Components :=
          if bulkComponents s repoName githubIssue = [] then F.Components
          else bulkComponents s repoName githubIssue } := by
  unfold bulkFields
  rw [statusAfter_eq]
  have hA : ∀ G : IssueFields, assigneeEffect users (bulkAssignee s githubIssue) G =
      { G with Assignee := (assigneeEffect users (bulkAssignee s githubIssue) G).Assignee } := by
    intro G
    unfold assigneeEffect
    cases bulkAssignee s githubIssue with
    | none => rfl
    | some u =>
      simp only
      split_ifs <;> rfl
  rw [hA]
  have hAF : (assigneeEffect users (bulkAssignee s githubIssue)
      (applyUpdate (jiraIssueUpdateFormat s J.ID J.Key githubIssue.Title githubIssue.Body
        (extractGithubIssueOptions s githubIssue)).Fields F)).Assignee =
      (assigneeEffect users (bulkAssignee s githubIssue) F).Assignee := by
    unfold assigneeEffect
    cases bulkAssignee s githubIssue with
    | none => rfl
    | some u =>
      simp only
      split_ifs <;> rfl
  rw [hAF]
  unfold categoryEffect
  by_cases hn : toUpdateIssueTypeName s repoName J githubIssue = []
  · simp [hn, applyUpdate, jiraIssueUpdateFormat, IssueFields.zero]
  · simp [hn, applyUpdate, jiraIssueUpdateFormat, IssueFields.zero]

theorem bulkFields_settled (s : Server) (repoName : GoString) (users : List GoString)
    (workflow : GoString → Option GoString) (J : JiraIssue) (githubIssue : GithubIssue) :
    bulkFields s repoName users workflow
        { J with Fields := bulkFields s repoName users workflow J githubIssue J.Fields }
        githubIssue (bulkFields s repoName users workflow J githubIssue J.Fields) =
      bulkFields s repoName users workflow J githubIssue J.Fields := by
  rw [bulkFields_eq s repoName users workflow
    { J with Fields := bulkFields s repoName users workflow J githubIssue J.Fields }]
  generalize hF : bulkFields s repoName users workflow J githubIssue J.Fields = F'
  rw [bulkFields_eq] at hF
  have hS : F'.Summary = if githubIssue.Title = [] then J.Fields.Summary else githubIssue.Title := by
    rw [← hF]
  have hD : F'.Description =
      if jiraIssueBodyFormat s githubIssue.Body (extractGithubIssueOptions s githubIssue) = []
      then J.Fields.Description
      else jiraIssueBodyFormat s githubIssue.Body (extractGithubIssueOptions s githubIssue) := by
    rw [← hF]
  have hA : F'.Assignee = (assigneeEffect users (bulkAssignee s githubIssue) J.Fields).Assignee := by
    rw [← hF]
  have hSt : F'.StatusCategoryName =
      statusName workflow (statusTransitions s repoName J githubIssue)
        J.Fields.StatusCategoryName := by
    rw [← hF]
  have hT : F'.TypeName =
      if toUpdateIssueTypeName s repoName J githubIssue = [] then J.Fields.TypeName
      else toUpdateIssueTypeName s repoName J githubIssue := by
    rw [← hF]
  have hC : F'.Components =
      if bulkComponents s repoName githubIssue = [] then J.Fields.Components
      else bulkComponents s repoName githubIssue := by
    rw [← hF]
  have g1 : (if githubIssue.Title = [] then F'.Summary else githubIssue.Title) = F'.Summary := by
    rw [hS]
    split_ifs <;> rfl
  have g2 : (if jiraIssueBodyFormat s githubIssue.Body (extractGithubIssueOptions s githubIssue) = []
      then F'.Description
      else jiraIssueBodyFormat s githubIssue.Body (extractGithubIssueOptions s githubIssue)) =
      F'.Description := by
    rw [hD]
    split_ifs <;> rfl
  have g3 : (assigneeEffect users (bulkAssignee s githubIssue) F').Assignee = F'.Assignee := by
    exact assigneeEffect_settled users _ J.Fields F' hA
  have g4 : statusName workflow
      (statusTransitions s repoName { J with Fields := F' } githubIssue)
      F'.StatusCategoryName = F'.StatusCategoryName := by
    unfold statusTransitions at hSt ⊢
    simp only
    by_cases hc : githubIssue.State = lit "closed"
    · simp only [hc, if_true] at hSt ⊢
      by_cases hd : J.Fields.StatusCategoryName = JiraStatusDoneName
      · simp only [hd, ne_eq, not_true_eq_false, if_false, statusName] at hSt
        simp [hSt, statusName]
      · simp only [ne_eq, hd, not_false_eq_true, if_true] at hSt
        by_cases hd2 : F'.StatusCategoryName = JiraStatusDoneName
        · simp [hd2, statusName]
        · simp only [ne_eq, hd2, not_false_eq_true, if_true]
          rw [hSt, statusName_idem]
    · simp only [hc, if_false] at hSt ⊢
      by_cases ho : githubIssue.State = lit "open"
      · simp only [ho, if_true] at hSt ⊢
        by_cases hd : J.Fields.StatusCategoryName = JiraStatusDoneName
        · simp only [hd, if_true] at hSt
          by_cases hd2 : F'.StatusCategoryName = JiraStatusDoneName
          · simp only [hd2, if_true]
            rw [← hd2, hSt, statusName_idem]
          · simp [hd2, statusName]
        · simp only [hd, if_false, statusName] at hSt
          simp [hSt, hd, statusName]
      · simp [ho, statusName]
  have g5 : (if toUpdateIssueTypeName s repoName { J with Fields := F' } githubIssue = []
      then F'.TypeName
      else toUpdateIssueTypeName s repoName { J with Fields := F' } githubIssue) = F'.TypeName := by
    unfold toUpdateIssueTypeName at hT ⊢
    simp only
    cases hl : labelIssueTypes s repoName githubIssue.Labels with
    | nil =>
      simp only [hl] at hT ⊢
      rw [hT]
      split_ifs <;> rfl
    | cons first rest =>
      simp only [hl] at hT ⊢
      by_cases hm : (first :: rest).any (fun name => decide (name = J.Fields.TypeName)) = true
      · simp only [hm, if_true] at hT
        rw [hT]
        simp [hm]
      · simp only [hm] at hT
        by_cases hf : first = []
        · simp only [hf, if_true] at hT
          rw [hT, hf]
          split_ifs <;> rfl
        · simp only [Bool.false_eq_true, if_false, hf] at hT
          have : (first :: rest).any (fun name => decide (name = F'.TypeName)) = true := by
            rw [hT]
            simp
          simp [this]
  have g6 : (if bulkComponents s repoName githubIssue = [] then F'.Components
      else bulkComponents s repoName githubIssue) = F'.Components := by
    rw [hC]
    split_ifs <;> rfl
  simp only [g1, g2, g3, g4, g5, g6]

/-! ## Lemmas on the effect of the comment synchronisation on the tracker held in memory -/

theorem find?_congr_mem {α : Type} (p q : α → Bool) (l : List α)
    (h : ∀ x ∈ l, p x = q x) : l.find? p = l.find? q := by
  induction l with
  | nil => rfl
  | cons a l ih =>
    rw [List.find?_cons, List.find?_cons, h a (List.mem_cons_self a l),
      ih (fun x hx => h x (List.mem_cons_of_mem a hx))]

theorem carriesID_mirror (s : Server) (gc : GithubIssueComment) (h0 : 0 ≤ gc.ID)
    (h63 : gc.ID < 2 ^ 63) (c : JiraComment) (hc : c.Body = mirrorBody s gc) (m : Int) :
    carriesID m c = decide (m = gc.ID) :=
  carriesID_format s.markdown gc.Body (extractGithubIssueCommentOptions s gc) gc.ID h0 h63 rfl c
    hc m

theorem carriesID_unique (a n : Int) (c : JiraComment) (h : carriesID a c = true) :
    carriesID n c = decide (n = a) := by
  unfold carriesID at h ⊢
  cases hf : jCommentIDRegex_FindStringSubmatch c.Body with
  | none => simp [hf] at h
  | some m =>
    simp only [hf, decide_eq_true_eq] at h ⊢
    rw [h]

theorem setBody_ID (cid B : GoString) (c : JiraComment) : (setBody cid B c).ID = c.ID := by
  unfold setBody
  split <;> rfl

theorem eq_of_nodup_ID {C : List JiraComment} (hnd : (C.map (fun c => c.ID)).Nodup)
    {x y : JiraComment} (hx : x ∈ C) (hy : y ∈ C) (h : x.ID = y.ID) : x = y :=
  List.inj_on_of_nodup_map hnd hx hy h

theorem carriesID_setBody {C : List JiraComment} (hnd : (C.map (fun c => c.ID)).Nodup)
    (a : Int) (M : JiraComment) (hM : C.find? (carriesID a) = some M) (B : GoString)
    (hB : ∀ c : JiraComment, c.Body = B → ∀ m, carriesID m c = decide (m = a)) (n : Int) :
    ∀ c ∈ C, carriesID n (setBody M.ID B c) = carriesID n c := by
  intro c hc
  unfold setBody
  by_cases h : c.ID = M.ID
  · have hcM : c = M := eq_of_nodup_ID hnd hc (List.mem_of_find?_eq_some hM) h
    simp only [h, if_true]
    rw [hB _ rfl n, hcM, carriesID_unique a n M (List.find?_some hM)]
  · simp [h]

theorem find?_setBody {C : List JiraComment} (hnd : (C.map (fun c => c.ID)).Nodup)
    (a : Int) (M : JiraComment) (hM : C.find? (carriesID a) = some M) (B : GoString)
    (hB : ∀ c : JiraComment, c.Body = B → ∀ m, carriesID m c = decide (m = a)) (n : Int) :
    (C.map (setBody M.ID B)).find? (carriesID n) =
      (C.find? (carriesID n)).map (setBody M.ID B) := by
  rw [List.find?_map]
  congr 1
  apply find?_congr_mem
  intro c hc
  exact carriesID_setBody hnd a M hM B hB n c hc

theorem SyncedC_update (s : Server) (gc : GithubIssueComment) (h0 : 0 ≤ gc.ID)
    (h63 : gc.ID < 2 ^ 63) {C : List JiraComment} (hnd : (C.map (fun c => c.ID)).Nodup)
    (M : JiraComment) (hM : C.find? (carriesID gc.ID) = some M) :
    SyncedC s gc (C.map (setBody M.ID (mirrorBody s gc))) ∧
      (∀ gd : GithubIssueComment, gd.ID ≠ gc.ID → SyncedC s gd C →
        SyncedC s gd (C.map (setBody M.ID (mirrorBody s gc)))) ∧
      (∀ n, ((C.map (setBody M.ID (mirrorBody s gc))).find? (carriesID n)).map (fun c => c.ID) =
        (C.find? (carriesID n)).map (fun c => c.ID)) := by
  have hB : ∀ c : JiraComment, c.Body = mirrorBody s gc → ∀ m, carriesID m c = decide (m = gc.ID) :=
    fun c hc m => carriesID_mirror s gc h0 h63 c hc m
  have hfind := find?_setBody hnd gc.ID M hM (mirrorBody s gc) hB
  refine ⟨?_, ?_, ?_⟩
  · refine ⟨setBody M.ID (mirrorBody s gc) M, ?_, ?_⟩
    · rw [hfind, hM]
      rfl
    · intro x hx hID
      obtain ⟨c, hc, rfl⟩ := List.mem_map.mp hx
      rw [setBody_ID, setBody_ID] at hID
      simp [setBody, hID]
  · intro gd hne ⟨Md, hMd, hu⟩
    have hMdC : Md ∈ C := List.mem_of_find?_eq_some hMd
    have hneID : Md.ID ≠ M.ID := by
      intro e
      have hEq : Md = M := eq_of_nodup_ID hnd hMdC (List.mem_of_find?_eq_some hM) e
      have h1 : carriesID gd.ID M = true := by
        rw [← hEq]
        exact List.find?_some hMd
      rw [carriesID_unique gc.ID gd.ID M (List.find?_some hM)] at h1
      exact hne (of_decide_eq_true h1)
    refine ⟨Md, ?_, ?_⟩
    · rw [hfind, hMd]
      simp [setBody, hneID]
    · intro x hx hID
      obtain ⟨c, hc, rfl⟩ := List.mem_map.mp hx
      rw [setBody_ID] at hID
      have hcne : c.ID ≠ M.ID := fun e => hneID (hID ▸ e)
      simp only [setBody, hcne, if_false]
      exact hu c hc hID
  · intro n
    rw [hfind, Option.map_map]
    congr 1
    funext c
    exact setBody_ID _ _ c

theorem SyncedC_add (s : Server) (gc : GithubIssueComment) (h0 : 0 ≤ gc.ID)
    (h63 : gc.ID < 2 ^ 63) {C : List JiraComment} (N : JiraComment)
    (hN : N.Body = mirrorBody s gc) (hfresh : ∀ c ∈ C, c.ID ≠ N.ID)
    (hnone : C.find? (carriesID gc.ID) = none) :
    SyncedC s gc (C ++ [N]) ∧
      (∀ gd : GithubIssueComment, SyncedC s gd C → SyncedC s gd (C ++ [N])) ∧
      (∀ n, n ≠ gc.ID → (C ++ [N]).find? (carriesID n) = C.find? (carriesID n)) := by
  have hcar : ∀ m, carriesID m N = decide (m = gc.ID) :=
    fun m => carriesID_mirror s gc h0 h63 N hN m
  refine ⟨?_, ?_, ?_⟩
  · refine ⟨N, ?_, ?_⟩
    · rw [List.find?_append, hnone]
      simp [List.find?_cons, hcar]
    · intro x hx hID
      rcases List.mem_append.mp hx with hx | hx
      · exact absurd hID (hfresh x hx)
      · rw [List.mem_singleton.mp hx]
        exact hN
  · intro gd ⟨Md, hMd, hu⟩
    refine ⟨Md, ?_, ?_⟩
    · rw [List.find?_append, hMd]
      rfl
    · intro x hx hID
      rcases List.mem_append.mp hx with hx | hx
      · exact hu x hx hID
      · rw [List.mem_singleton.mp hx] at hID
        exact absurd hID.symm (hfresh Md (List.mem_of_find?_eq_some hMd))
  · intro n hn
    rw [List.find?_append]
    have : [N].find? (carriesID n) = none := by
      simp [List.find?_cons, hcar, hn]
    rw [this]
    cases C.find? (carriesID n) <;> rfl

theorem memTracker_GetComments (K : GoString) (workflow : GoString → Option GoString)
    (id : GoString) (w : World Tracker) :
    GetComments (memTracker K workflow) id w =
      (.ok (w.tracker.commentsOf id), ⟨w.tracker, w.log ++ [(.GetComments id, none)]⟩) := rfl

theorem memTracker_UpdateComment (K : GoString) (workflow : GoString → Option GoString)
    (id : GoString) (comment : JiraComment) (T : Tracker) :
    ((memTracker K workflow).UpdateComment id comment T).2 =
      T.updComment id comment.ID comment.Body := by
  simp only [memTracker]
  split
  · rfl
  · rename_i h
    unfold Tracker.updComment
    have : T.comments.map (fun x =>
        if x.1 = id ∧ x.2.ID = comment.ID then (x.1, { x.2 with Body := comment.Body }) else x) =
        T.comments := by
      conv_rhs => rw [← List.map_id T.comments]
      apply List.map_congr_left
      intro x hx
      have hx2 : ¬ (x.1 = id ∧ x.2.ID = comment.ID) := by
        intro hc
        apply h
        simp only [List.any_eq_true, decide_eq_true_eq]
        exact ⟨x, hx, hc⟩
      simp [hx2]
    rw [this]

theorem memTracker_AddComment (K : GoString) (workflow : GoString → Option GoString)
    (id : GoString) (comment : JiraComment) (T : Tracker)
    (h : T.issues.any (fun i => decide (i.ID = id)) = true) :
    (memTracker K workflow).AddComment id comment T = (none, T.addComment id comment) := by
  simp only [memTracker, h, if_true]
  rfl

theorem memTracker_DeleteComment (K : GoString) (workflow : GoString → Option GoString)
    (id cid : GoString) (T : Tracker) :
    ((memTracker K workflow).DeleteComment id cid T).2 = T.delComments id [cid] := by
  simp only [memTracker]
  split
  · unfold Tracker.delComments
    simp only
    congr 1
    apply List.filter_congr
    intro x _
    simp
  · rename_i h
    unfold Tracker.delComments
    have : T.comments.filter (fun x => !(decide (x.1 = id) && decide (x.2.ID ∈ [cid]))) =
        T.comments := by
      rw [List.filter_eq_self]
      intro x hx
      have hx2 : ¬ (x.1 = id ∧ x.2.ID = cid) := by
        intro hc
        apply h
        simp only [List.any_eq_true, decide_eq_true_eq]
        exact ⟨x, hx, hc⟩
      simp only [List.mem_singleton, Bool.not_eq_true', Bool.and_eq_false_imp,
        decide_eq_true_eq, decide_eq_false_iff_not]
      intro h1 h2
      exact hx2 ⟨h1, h2⟩
    rw [this]

theorem commentsOf_updComment_same (T : Tracker) (id cid B : GoString) :
    (T.updComment id cid B).commentsOf id = (T.commentsOf id).map (setBody cid B) := by
  unfold Tracker.updComment Tracker.commentsOf
  simp only
  induction T.comments with
  | nil => rfl
  | cons x rest ih =>
    simp only [List.map_cons, List.filter_cons]
    by_cases h1 : x.1 = id
    · by_cases h2 : x.2.ID = cid
      · simp [h1, h2, setBody, ih]
      · simp [h1, h2, setBody, ih]
    · simp [h1, ih]

theorem commentsOf_updComment_other (T : Tracker) (id cid B id2 : GoString) (h : id2 ≠ id) :
    (T.updComment id cid B).commentsOf id2 = T.commentsOf id2 := by
  unfold Tracker.updComment Tracker.commentsOf
  simp only
  induction T.comments with
  | nil => rfl
  | cons x rest ih =>
    simp only [List.map_cons, List.filter_cons]
    by_cases h1 : x.1 = id
    · have h3 : ¬ x.1 = id2 := fun e => h (e ▸ h1)
      by_cases h2 : x.2.ID = cid
      · simp [h1, h2, ih, Ne.symm h]
      · simp [h1, h2, ih, Ne.symm h]
    · simp only [h1, false_and, if_false]
      split
      · rw [List.map_cons, List.map_cons, ih]
      · exact ih

theorem commentsOf_addComment_same (T : Tracker) (id : GoString) (comment : JiraComment) :
    (T.addComment id comment).commentsOf id =
      T.commentsOf id ++ [{ comment with ID := formatNat T.next }] := by
  unfold Tracker.addComment Tracker.commentsOf
  simp [List.filter_append]

theorem commentsOf_addComment_other (T : Tracker) (id : GoString) (comment : JiraComment)
    (id2 : GoString) (h : id2 ≠ id) :
    (T.addComment id comment).commentsOf id2 = T.commentsOf id2 := by
  unfold Tracker.addComment Tracker.commentsOf
  simp [List.filter_append, Ne.symm h]

theorem commentsOf_delComments_other (T : Tracker) (id : GoString) (cids : List GoString)
    (id2 : GoString) (h : id2 ≠ id) :
    (T.delComments id cids).commentsOf id2 = T.commentsOf id2 := by
  unfold Tracker.delComments Tracker.commentsOf
  simp only [List.filter_filter]
  congr 1
  apply List.filter_congr
  intro x _
  by_cases h1 : x.1 = id2
  · have : ¬ x.1 = id := fun e => h (h1 ▸ e)
    simp [h1, h]
  · simp [h1]

theorem commentsOf_delComments_same (T : Tracker) (id : GoString) (cids : List GoString) :
    (T.delComments id cids).commentsOf id =
      (T.commentsOf id).filter (fun c => !decide (c.ID ∈ cids)) := by
  unfold Tracker.delComments Tracker.commentsOf
  simp only [List.filter_filter, List.filter_map]
  congr 1
  apply List.filter_congr
  intro x _
  by_cases h1 : x.1 = id
  · simp [h1]
  · simp [h1]

theorem delComments_delComments (T : Tracker) (id : GoString) (a b : List GoString) :
    (T.delComments id a).delComments id b = T.delComments id (a ++ b) := by
  unfold Tracker.delComments
  simp only [List.filter_filter]
  congr 1
  apply List.filter_congr
  intro x _
  by_cases h1 : x.1 = id
  · by_cases h2 : x.2.ID ∈ a
    · simp [h1, h2]
    · simp [h1, h2]
  · simp [h1]

theorem key_suffix_inj (p q : GoString) (a b : Nat)
    (h : p ++ lit "-" ++ formatNat a = q ++ lit "-" ++ formatNat b) : a = b := by
  have hl : lit "-" = [45] := by decide
  rw [hl, List.append_assoc, List.append_assoc] at h
  have hd : ∀ n, ∀ x ∈ formatNat n, isDigit x = true := by
    intro n x hx
    exact List.all_eq_true.mp (formatNat_all_isDigit n) x hx
  exact formatNat_injective a b
    (append_sep_inj isDigit p q (formatNat a) (formatNat b) 45 (by decide) (hd a) (hd b) h).2

theorem WellFormed.wf_modify {T : Tracker} (h : WellFormed T) (id : GoString)
    (f : IssueFields → IssueFields) : WellFormed (T.modify id f) := by
  have hID : (T.modify id f).issues.map (fun i => i.ID) = T.issues.map (fun i => i.ID) := by
    unfold Tracker.modify
    simp only [List.map_map]
    apply List.map_congr_left
    intro i _
    simp only [Function.comp]
    split <;> rfl
  have hKey : (T.modify id f).issues.map (fun i => i.Key) = T.issues.map (fun i => i.Key) := by
    unfold Tracker.modify
    simp only [List.map_map]
    apply List.map_congr_left
    intro i _
    simp only [Function.comp]
    split <;> rfl
  have hmem : ∀ i ∈ (T.modify id f).issues, ∃ j ∈ T.issues, j.ID = i.ID ∧ j.Key = i.Key := by
    intro i hi
    unfold Tracker.modify at hi
    obtain ⟨j, hj, rfl⟩ := List.mem_map.mp hi
    refine ⟨j, hj, ?_, ?_⟩ <;> split <;> rfl
  refine ⟨by rw [hID]; exact h.ids, by rw [hKey]; exact h.keys, h.commentIDs, ?_, ?_,
    h.freshComment⟩
  · intro i hi n hn
    obtain ⟨j, hj, h1, _⟩ := hmem i hi
    rw [← h1]
    exact h.freshID j hj n hn
  · intro i hi p n hn
    obtain ⟨j, hj, _, h2⟩ := hmem i hi
    rw [← h2]
    exact h.freshKey j hj p n hn

theorem WellFormed.updComment {T : Tracker} (h : WellFormed T) (id cid B : GoString) :
    WellFormed (T.updComment id cid B) := by
  have hP : (T.updComment id cid B).comments.map (fun x => (x.1, x.2.ID)) =
      T.comments.map (fun x => (x.1, x.2.ID)) := by
    unfold Tracker.updComment
    simp only [List.map_map]
    apply List.map_congr_left
    intro x _
    simp only [Function.comp]
    split <;> rfl
  refine ⟨h.ids, h.keys, by rw [hP]; exact h.commentIDs, h.freshID, h.freshKey, ?_⟩
  intro x hx n hn
  unfold Tracker.updComment at hx
  obtain ⟨y, hy, rfl⟩ := List.mem_map.mp hx
  have := h.freshComment y hy n hn
  split <;> exact this

theorem WellFormed.addComment {T : Tracker} (h : WellFormed T) (id : GoString)
    (comment : JiraComment) : WellFormed (T.addComment id comment) := by
  refine ⟨h.ids, h.keys, ?_, ?_, ?_, ?_⟩
  · unfold Tracker.addComment
    simp only [List.map_append, List.map_cons, List.map_nil]
    rw [List.nodup_append]
    refine ⟨h.commentIDs, List.nodup_singleton _, ?_⟩
    intro a ha hb
    rw [List.mem_singleton] at hb
    obtain ⟨x, hx, rfl⟩ := List.mem_map.mp ha
    have := h.freshComment x hx T.next (Nat.le_refl _)
    simp only [Prod.mk.injEq] at hb
    exact this hb.2
  · intro i hi n hn
    exact h.freshID i hi n (Nat.le_of_succ_le hn)
  · intro i hi p n hn
    exact h.freshKey i hi p n (Nat.le_of_succ_le hn)
  · intro x hx n hn
    unfold Tracker.addComment at hx hn
    simp only at hx hn
    rcases List.mem_append.mp hx with hx | hx
    · exact h.freshComment x hx n (Nat.le_of_succ_le hn)
    · rw [List.mem_singleton.mp hx]
      simp only
      intro e
      have := formatNat_injective _ _ e
      omega

theorem WellFormed.delComments {T : Tracker} (h : WellFormed T) (id : GoString)
    (cids : List GoString) : WellFormed (T.delComments id cids) := by
  refine ⟨h.ids, h.keys, ?_, h.freshID, h.freshKey, ?_⟩
  · unfold Tracker.delComments
    exact h.commentIDs.sublist (List.Sublist.map _ (List.filter_sublist _))
  · intro x hx n hn
    unfold Tracker.delComments at hx
    exact h.freshComment x (List.mem_of_mem_filter hx) n hn

theorem WellFormed.nodup_commentsOf {T : Tracker} (h : WellFormed T) (id : GoString) :
    ((T.commentsOf id).map (fun c => c.ID)).Nodup := by
  have h1 : ((T.comments.filter (fun x => decide (x.1 = id))).map
      (fun x => (x.1, x.2.ID))).Nodup :=
    h.commentIDs.sublist (List.Sublist.map _ (List.filter_sublist _))
  have h2 : (T.comments.filter (fun x => decide (x.1 = id))).map (fun x => (x.1, x.2.ID)) =
      ((T.commentsOf id).map (fun c => c.ID)).map (fun cid => (id, cid)) := by
    unfold Tracker.commentsOf
    simp only [List.map_map]
    apply List.map_congr_left
    intro x hx
    have := (List.mem_filter.mp hx).2
    simp only [decide_eq_true_eq] at this
    simp [this]
  rw [h2] at h1
  exact List.Nodup.of_map _ h1

theorem WellFormed.fresh_commentsOf {T : Tracker} (h : WellFormed T) (id : GoString) :
    ∀ c ∈ T.commentsOf id, ∀ n, T.next ≤ n → c.ID ≠ formatNat n := by
  intro c hc n hn
  unfold Tracker.commentsOf at hc
  obtain ⟨x, hx, rfl⟩ := List.mem_map.mp hc
  exact h.freshComment x (List.mem_of_mem_filter hx) n hn

theorem commentSyncCall_eq (s : Server) (J : JiraIssue) (C0 : List JiraComment)
    (gc : GithubIssueComment) :
    commentSyncCall s J C0 gc =
      match C0.find? (carriesID gc.ID) with
      | some M => .UpdateComment J.ID { M with Body := mirrorBody s gc }
      | none => .AddComment J.ID { JiraComment.zero with Body := mirrorBody s gc } := by
  unfold commentSyncCall
  rw [doFindComment_eq_find]
  cases C0.find? (carriesID gc.ID) <;> rfl

theorem sync_establishes (K : GoString) (workflow : GoString → Option GoString) (s : Server)
    (J : JiraIssue) (C0 : List JiraComment) :
    ∀ (todo done : List GithubIssueComment) (err : Option GoError) (w : World Tracker),
      WellFormed w.tracker →
      w.tracker.issues.any (fun i => decide (i.ID = J.ID)) = true →
      (∀ gc ∈ todo, 0 ≤ gc.ID ∧ gc.ID < 2 ^ 63) →
      (todo.map (fun gc => gc.ID)).Nodup →
      (∀ gc ∈ todo, ∀ gd ∈ done, gd.ID ≠ gc.ID) →
      (∀ gd ∈ done, SyncedC s gd (w.tracker.commentsOf J.ID)) →
      (∀ gc ∈ todo, (C0.find? (carriesID gc.ID)).map (fun c => c.ID) =
        ((w.tracker.commentsOf J.ID).find? (carriesID gc.ID)).map (fun c => c.ID)) →
      WellFormed (performCalls (memTracker K workflow)
          (todo.map (commentSyncCall s J C0)) err w).2.tracker ∧
        (performCalls (memTracker K workflow)
          (todo.map (commentSyncCall s J C0)) err w).2.tracker.issues = w.tracker.issues ∧
        (performCalls (memTracker K workflow)
          (todo.map (commentSyncCall s J C0)) err w).2.tracker.users = w.tracker.users ∧
        w.tracker.next ≤ (performCalls (memTracker K workflow)
          (todo.map (commentSyncCall s J C0)) err w).2.tracker.next ∧
        (∀ id2, id2 ≠ J.ID →
          (performCalls (memTracker K workflow)
            (todo.map (commentSyncCall s J C0)) err w).2.tracker.commentsOf id2 =
            w.tracker.commentsOf id2) ∧
        ∀ gd, gd ∈ done ∨ gd ∈ todo →
          SyncedC s gd ((performCalls (memTracker K workflow)
            (todo.map (commentSyncCall s J C0)) err w).2.tracker.commentsOf J.ID) := by
  intro todo
  induction todo with
  | nil =>
    intro done err w hwf _ _ _ _ hdone _
    refine ⟨hwf, rfl, rfl, Nat.le_refl _, fun _ _ => rfl, ?_⟩
    intro gd hgd
    rcases hgd with hgd | hgd
    · exact hdone gd hgd
    · cases hgd
  | cons gc rest ih =>
    intro done err w hwf hany hrange hnd hsep hdone hagree
    have hr := hrange gc (List.mem_cons_self _ _)
    have hnd2 : (rest.map (fun gc => gc.ID)).Nodup := (List.nodup_cons.mp hnd).2
    have hgc_notin : ∀ gr ∈ rest, gr.ID ≠ gc.ID := by
      intro gr hgr e
      apply (List.nodup_cons.mp hnd).1
      have hm := List.mem_map_of_mem (fun g : GithubIssueComment => g.ID) hgr
      simp only [e] at hm
      exact hm
    have hag := hagree gc (List.mem_cons_self _ _)
    have hndC := hwf.nodup_commentsOf J.ID
    simp only [List.map_cons, performCalls]
    rw [commentSyncCall_eq]
    cases h0 : C0.find? (carriesID gc.ID) with
    | some M =>
      rw [h0] at hag
      cases hc : (w.tracker.commentsOf J.ID).find? (carriesID gc.ID) with
      | none =>
        rw [hc] at hag
        cases hag
      | some M2 =>
        rw [hc] at hag
        simp only [Option.map_some', Option.some.injEq] at hag
        simp only [performCall]
        have hT : ((memTracker K workflow).UpdateComment J.ID
            { M with Body := mirrorBody s gc } w.tracker).2 =
            w.tracker.updComment J.ID M2.ID (mirrorBody s gc) := by
          rw [memTracker_UpdateComment]
          simp only
          rw [hag]
        obtain ⟨hs1, hs2, hs3⟩ := SyncedC_update s gc hr.1 hr.2 hndC M2 hc
        have hres := ih (gc :: done)
          ((memTracker K workflow).UpdateComment J.ID { M with Body := mirrorBody s gc }
            w.tracker).1
          ⟨((memTracker K workflow).UpdateComment J.ID { M with Body := mirrorBody s gc }
            w.tracker).2,
            w.log ++ [(.UpdateComment J.ID { M with Body := mirrorBody s gc },
              ((memTracker K workflow).UpdateComment J.ID { M with Body := mirrorBody s gc }
                w.tracker).1)]⟩
          (by simp only [hT]; exact hwf.updComment _ _ _)
          (by simp only [hT]; exact hany)
          (fun g hg => hrange g (List.mem_cons_of_mem _ hg))
          hnd2
          (by
            intro gr hgr gd hgd
            rcases List.mem_cons.mp hgd with e | hgd
            · rw [e]
              exact (hgc_notin gr hgr).symm
            · exact hsep gr (List.mem_cons_of_mem _ hgr) gd hgd)
          (by
            simp only [hT, commentsOf_updComment_same]
            intro gd hgd
            rcases List.mem_cons.mp hgd with e | hgd
            · rw [e]
              exact hs1
            · exact hs2 gd (hsep gc (List.mem_cons_self _ _) gd hgd) (hdone gd hgd))
          (by
            simp only [hT, commentsOf_updComment_same]
            intro gr hgr
            rw [hs3]
            exact hagree gr (List.mem_cons_of_mem _ hgr))
        simp only [hT] at hres ⊢
        obtain ⟨r1, r2, r3, r4, r5, r6⟩ := hres
        refine ⟨r1, r2, r3, r4, ?_, ?_⟩
        · intro id2 hid2
          rw [r5 id2 hid2, commentsOf_updComment_other _ _ _ _ _ hid2]
        · intro gd hgd
          apply r6
          rcases hgd with hgd | hgd
          · exact Or.inl (List.mem_cons_of_mem _ hgd)
          · rcases List.mem_cons.mp hgd with e | hgd
            · exact Or.inl (e ▸ List.mem_cons_self _ _)
            · exact Or.inr hgd
    | none =>
      rw [h0] at hag
      have hc : (w.tracker.commentsOf J.ID).find? (carriesID gc.ID) = none := by
        cases hc : (w.tracker.commentsOf J.ID).find? (carriesID gc.ID) with
        | none => rfl
        | some M2 =>
          rw [hc] at hag
          cases hag
      simp only [performCall]
      rw [memTracker_AddComment K workflow J.ID _ w.tracker hany]
      simp only
      have hfresh : ∀ c ∈ w.tracker.commentsOf J.ID,
          c.ID ≠ ({ JiraComment.zero with Body := mirrorBody s gc, ID := formatNat w.tracker.next } :
            JiraComment).ID :=
        fun c hcm => hwf.fresh_commentsOf J.ID c hcm _ (Nat.le_refl _)
      obtain ⟨hs1, hs2, hs3⟩ := SyncedC_add s gc hr.1 hr.2
        ({ JiraComment.zero with Body := mirrorBody s gc, ID := formatNat w.tracker.next } :
          JiraComment) rfl hfresh hc
      have hres := ih (gc :: done) none
        ⟨w.tracker.addComment J.ID { JiraComment.zero with Body := mirrorBody s gc },
          w.log ++ [(.AddComment J.ID { JiraComment.zero with Body := mirrorBody s gc }, none)]⟩
        (hwf.addComment _ _)
        hany
        (fun g hg => hrange g (List.mem_cons_of_mem _ hg))
        hnd2
        (by
          intro gr hgr gd hgd
          rcases List.mem_cons.mp hgd with e | hgd
          · rw [e]
            exact (hgc_notin gr hgr).symm
          · exact hsep gr (List.mem_cons_of_mem _ hgr) gd hgd)
        (by
          simp only [commentsOf_addComment_same]
          intro gd hgd
          rcases List.mem_cons.mp hgd with e | hgd
          · rw [e]
            exact hs1
          · exact hs2 gd (hdone gd hgd))
        (by
          simp only [commentsOf_addComment_same]
          intro gr hgr
          rw [hs3 gr.ID (hgc_notin gr hgr)]
          exact hagree gr (List.mem_cons_of_mem _ hgr))
      obtain ⟨r1, r2, r3, r4, r5, r6⟩ := hres
      refine ⟨r1, r2, r3, ?_, ?_, ?_⟩
      · exact Nat.le_trans (Nat.le_succ _) r4
      · intro id2 hid2
        rw [r5 id2 hid2, commentsOf_addComment_other _ _ _ _ hid2]
      · intro gd hgd
        apply r6
        rcases hgd with hgd | hgd
        · exact Or.inl (List.mem_cons_of_mem _ hgd)
        · rcases List.mem_cons.mp hgd with e | hgd
          · exact Or.inl (e ▸ List.mem_cons_self _ _)
          · exact Or.inr hgd

theorem NothingCreated.append {l : List (JiraCall × Option GoError)} (h : NothingCreated l)
    (call : JiraCall) (e : Option GoError)
    (h1 : ∀ issue, call = .Create issue → e ≠ none)
    (h2 : ∀ id comment, call ≠ .AddComment id comment) :
    NothingCreated (l ++ [(call, e)]) := by
  intro x hx
  rcases List.mem_append.mp hx with hx | hx
  · exact h x hx
  · rw [List.mem_singleton.mp hx]
    exact ⟨h1, h2⟩

theorem delete_run (K : GoString) (workflow : GoString → Option GoString) (id : GoString) :
    ∀ (D : List JiraComment) (err : Option GoError) (w : World Tracker),
      (performCalls (memTracker K workflow)
        (D.map (fun t => JiraCall.DeleteComment id t.ID)) err w).2.tracker =
        w.tracker.delComments id (D.map (fun t => t.ID)) ∧
      (NothingCreated w.log → NothingCreated (performCalls (memTracker K workflow)
        (D.map (fun t => JiraCall.DeleteComment id t.ID)) err w).2.log) := by
  intro D
  induction D with
  | nil =>
    intro err w
    refine ⟨?_, fun h => h⟩
    simp only [List.map_nil, performCalls]
    unfold Tracker.delComments
    simp
  | cons d rest ih =>
    intro err w
    simp only [List.map_cons, performCalls, performCall]
    obtain ⟨h1, h2⟩ := ih ((memTracker K workflow).DeleteComment id d.ID w.tracker).1
      ⟨((memTracker K workflow).DeleteComment id d.ID w.tracker).2,
        w.log ++ [(.DeleteComment id d.ID,
          ((memTracker K workflow).DeleteComment id d.ID w.tracker).1)]⟩
    constructor
    · rw [h1]
      simp only
      rw [memTracker_DeleteComment, delComments_delComments]
      rfl
    · intro h
      apply h2
      exact h.append _ _ (fun _ e => by cases e) (fun _ _ e => by cases e)

theorem sync_noop (K : GoString) (workflow : GoString → Option GoString) (s : Server)
    (J : JiraIssue) (T : Tracker) :
    ∀ (L : List GithubIssueComment) (err : Option GoError)
      (l : List (JiraCall × Option GoError)),
      (∀ gc ∈ L, SyncedC s gc (T.commentsOf J.ID)) →
      (performCalls (memTracker K workflow)
        (L.map (commentSyncCall s J (T.commentsOf J.ID))) err ⟨T, l⟩).2.tracker = T ∧
      (NothingCreated l → NothingCreated (performCalls (memTracker K workflow)
        (L.map (commentSyncCall s J (T.commentsOf J.ID))) err ⟨T, l⟩).2.log) := by
  intro L
  induction L with
  | nil =>
    intro err l _
    exact ⟨rfl, fun h => h⟩
  | cons gc rest ih =>
    intro err l hs
    obtain ⟨M, hM, hu⟩ := hs gc (List.mem_cons_self _ _)
    simp only [List.map_cons, performCalls]
    rw [commentSyncCall_eq, hM]
    simp only [performCall]
    have hT : ((memTracker K workflow).UpdateComment J.ID
        { M with Body := mirrorBody s gc } T).2 = T := by
      rw [memTracker_UpdateComment]
      unfold Tracker.updComment
      have : T.comments.map (fun x =>
          if x.1 = J.ID ∧ x.2.ID = M.ID then (x.1, { x.2 with Body := mirrorBody s gc }) else x) =
          T.comments := by
        conv_rhs => rw [← List.map_id T.comments]
        apply List.map_congr_left
        intro x hx
        by_cases hc : x.1 = J.ID ∧ x.2.ID = M.ID
        · have hmem : x.2 ∈ T.commentsOf J.ID := by
            unfold Tracker.commentsOf
            exact List.mem_map_of_mem _ (List.mem_filter.mpr ⟨hx, by simp [hc.1]⟩)
          have hb := hu x.2 hmem hc.2
          simp only [hc, and_self, if_true, id]
          rw [← hb, ← hc.1, ← hc.2]
        · simp [hc]
      simp only
      rw [this]
    rw [hT]
    obtain ⟨h1, h2⟩ := ih ((memTracker K workflow).UpdateComment J.ID
        { M with Body := mirrorBody s gc } T).1
      (l ++ [(.UpdateComment J.ID { M with Body := mirrorBody s gc },
        ((memTracker K workflow).UpdateComment J.ID { M with Body := mirrorBody s gc } T).1)])
      (fun g hg => hs g (List.mem_cons_of_mem _ hg))
    refine ⟨h1, fun h => h2 ?_⟩
    exact h.append _ _ (fun _ e => by cases e) (fun _ _ e => by cases e)

theorem memTracker_comments_establish (K : GoString) (workflow : GoString → Option GoString)
    (s : Server) (g : GithubClient) (fuel : Nat) (J : JiraIssue) (githubIssue : GithubIssue)
    (repoName : GoString) (w : World Tracker) (hwf : WellFormed w.tracker)
    (hany : w.tracker.issues.any (fun i => decide (i.ID = J.ID)) = true)
    (hsrc : SourceComments s g fuel) :
    WellFormed (compareSyncComments (memTracker K workflow) g s fuel J githubIssue repoName
        w).2.tracker ∧
      (compareSyncComments (memTracker K workflow) g s fuel J githubIssue repoName
        w).2.tracker.issues = w.tracker.issues ∧
      (compareSyncComments (memTracker K workflow) g s fuel J githubIssue repoName
        w).2.tracker.users = w.tracker.users ∧
      w.tracker.next ≤ (compareSyncComments (memTracker K workflow) g s fuel J githubIssue
        repoName w).2.tracker.next ∧
      (∀ id2, id2 ≠ J.ID →
        (compareSyncComments (memTracker K workflow) g s fuel J githubIssue repoName
          w).2.tracker.commentsOf id2 = w.tracker.commentsOf id2) ∧
      CommentsSettled s g fuel repoName githubIssue
        ((compareSyncComments (memTracker K workflow) g s fuel J githubIssue repoName
          w).2.tracker.commentsOf J.ID) := by
  unfold compareSyncComments CommentsSettled
  rw [memTracker_GetComments]
  simp only
  by_cases hz : githubIssue.Comments = 0
  · simp only [hz, if_true]
    rw [compareSyncComments_delete_run]
    have hrun := (delete_run K workflow J.ID
      ((w.tracker.commentsOf J.ID).filter (fun t => jCommentIDRegex_MatchString t.Body)) none
      ⟨w.tracker, w.log ++ [(.GetComments J.ID, none)]⟩).1
    simp only [hrun]
    refine ⟨hwf.delComments _ _, rfl, rfl, Nat.le_refl _, ?_, ?_⟩
    · intro id2 hid2
      exact commentsOf_delComments_other _ _ _ _ hid2
    · rw [commentsOf_delComments_same, List.filter_filter]
      rw [List.filter_eq_nil_iff]
      intro x hx
      simp only [Bool.and_eq_true, Bool.not_eq_true', decide_eq_false_iff_not, not_and,
        Bool.not_eq_false]
      intro htok hnot
      exfalso
      apply hnot
      exact List.mem_map_of_mem (fun t : JiraComment => t.ID)
        (List.mem_filter.mpr ⟨hx, htok⟩)
  · simp only [hz, if_false]
    cases hl : getGithubIssueComments g s fuel (s.Config.repo repoName).GithubOwner repoName
        githubIssue.Number with
    | none => exact ⟨hwf, rfl, rfl, Nat.le_refl _, fun _ _ => rfl, trivial⟩
    | some res =>
      cases res with
      | error err => exact ⟨hwf, rfl, rfl, Nat.le_refl _, fun _ _ => rfl, trivial⟩
      | ok L =>
        simp only
        rw [compareSyncComments_sync_run]
        obtain ⟨hnd, hrange⟩ := hsrc _ _ _ L hl
        obtain ⟨r1, r2, r3, r4, r5, r6⟩ := sync_establishes K workflow s J
          (w.tracker.commentsOf J.ID) L [] none
          ⟨w.tracker, w.log ++ [(.GetComments J.ID, none)]⟩ hwf hany hrange hnd
          (fun _ _ _ h => by cases h) (fun _ h => by cases h) (fun _ _ => rfl)
        exact ⟨r1, r2, r3, r4, r5, fun gc hgc => r6 gc (Or.inr hgc)⟩

theorem memTracker_comments_noop (K : GoString) (workflow : GoString → Option GoString)
    (s : Server) (g : GithubClient) (fuel : Nat) (J : JiraIssue) (githubIssue : GithubIssue)
    (repoName : GoString) (w : World Tracker)
    (hs : CommentsSettled s g fuel repoName githubIssue (w.tracker.commentsOf J.ID)) :
    (compareSyncComments (memTracker K workflow) g s fuel J githubIssue repoName
        w).2.tracker = w.tracker ∧
      (NothingCreated w.log →
        NothingCreated (compareSyncComments (memTracker K workflow) g s fuel J githubIssue
          repoName w).2.log) := by
  have hlog : NothingCreated w.log → NothingCreated (w.log ++ [(.GetComments J.ID, none)]) :=
    fun h => h.append _ _ (fun _ e => by cases e) (fun _ _ e => by cases e)
  unfold compareSyncComments
  unfold CommentsSettled at hs
  rw [memTracker_GetComments]
  simp only
  by_cases hz : githubIssue.Comments = 0
  · simp only [hz, if_true] at hs ⊢
    rw [compareSyncComments_delete_run, hs]
    exact ⟨rfl, hlog⟩
  · simp only [hz, if_false] at hs ⊢
    cases hl : getGithubIssueComments g s fuel (s.Config.repo repoName).GithubOwner repoName
        githubIssue.Number with
    | none => exact ⟨rfl, hlog⟩
    | some res =>
      cases res with
      | error err => exact ⟨rfl, hlog⟩
      | ok L =>
        rw [hl] at hs
        simp only at hs ⊢
        rw [compareSyncComments_sync_run]
        obtain ⟨h1, h2⟩ := sync_noop K workflow s J w.tracker L none
          (w.log ++ [(.GetComments J.ID, none)]) hs
        exact ⟨h1, fun h => h2 (hlog h)⟩

/-! ## Lemmas on the effect of a whole pass on the tracker held in memory -/

theorem KeepsIdent.comp {f g : IssueFields → IssueFields} (hf : KeepsIdent f)
    (hg : KeepsIdent g) : KeepsIdent (fun F => g (f F)) := by
  intro F
  exact ⟨((hg (f F)).1).trans (hf F).1, ((hg (f F)).2).trans (hf F).2⟩

theorem KeepsIdent.id : KeepsIdent (fun F => F) := fun _ => ⟨rfl, rfl⟩

theorem KeepsIdent.applyUpdate (payload : IssueFields) (hp : payload.ProjectKey = [])
    (hu : payload.Unknowns = []) : KeepsIdent (applyUpdate payload) := by
  intro F
  simp [SyncGithubJira.applyUpdate, hp, hu]

theorem KeepsIdent.statusAfter (workflow : GoString → Option GoString) (ids : List GoString) :
    KeepsIdent (statusAfter workflow ids) := by
  intro F
  rw [statusAfter_eq]
  exact ⟨rfl, rfl⟩

theorem KeepsIdent.bulkFields (s : Server) (repoName : GoString) (users : List GoString)
    (workflow : GoString → Option GoString) (J : JiraIssue) (githubIssue : GithubIssue) :
    KeepsIdent (bulkFields s repoName users workflow J githubIssue) := by
  intro F
  rw [bulkFields_eq]
  exact ⟨rfl, rfl⟩

theorem find?_modify (K p : GoString) (n : Int) (T : Tracker) (id : GoString)
    (f : IssueFields → IssueFields) (hf : KeepsIdent f) :
    (T.modify id f).issues.find? (correlated K p n) =
      (T.issues.find? (correlated K p n)).map
        (fun i => if i.ID = id then { i with Fields := f i.Fields } else i) := by
  unfold Tracker.modify
  simp only
  rw [List.find?_map]
  congr 1
  apply find?_congr_mem
  intro i _
  simp only [Function.comp]
  split
  · exact correlated_of_fields K p n i _ (hf i.Fields).1 (hf i.Fields).2
  · rfl

theorem WellFormed.holds {T : Tracker} (h : WellFormed T) {J : JiraIssue} (hJ : J ∈ T.issues) :
    Holds T J.ID J.Key := by
  refine ⟨⟨J, hJ, rfl⟩, ?_⟩
  intro x hx
  constructor
  · intro e
    rw [List.inj_on_of_nodup_map h.keys hx hJ e]
  · intro e
    rw [List.inj_on_of_nodup_map h.ids hx hJ e]

theorem Tracker.modify_fix {T : Tracker} (h : WellFormed T) {J : JiraIssue} (hJ : J ∈ T.issues)
    (f : IssueFields → IssueFields) (hf : f J.Fields = J.Fields) : T.modify J.ID f = T := by
  unfold Tracker.modify
  have : T.issues.map (fun i => if i.ID = J.ID then { i with Fields := f i.Fields } else i) =
      T.issues := by
    conv_rhs => rw [← List.map_id T.issues]
    apply List.map_congr_left
    intro i hi
    by_cases e : i.ID = J.ID
    · have : i = J := List.inj_on_of_nodup_map h.ids hi hJ e
      rw [this]
      simp [hf]
    · simp [e]
  rw [this]

theorem correlated_unique (K p q : GoString) (n m : Int) (i : JiraIssue)
    (h1 : correlated K p n i = true) (h2 : correlated K q m i = true) : p = q ∧ n = m := by
  unfold correlated at h1 h2
  simp only [Bool.and_eq_true, decide_eq_true_eq] at h1 h2
  refine ⟨h1.1.symm.trans h2.1, ?_⟩
  have := h1.2.symm.trans h2.2
  simp only [Option.some.injEq, FieldValue.int.injEq] at this
  exact this

theorem Quiet.quiet_refl {σ : Type} (w : World σ) : Quiet w w :=
  ⟨[], by simp, fun _ h => by cases h⟩

theorem Quiet.quiet_trans {σ : Type} {w w1 w2 : World σ} (h1 : Quiet w w1) (h2 : Quiet w1 w2) :
    Quiet w w2 := by
  obtain ⟨l1, e1, q1⟩ := h1
  obtain ⟨l2, e2, q2⟩ := h2
  refine ⟨l1 ++ l2, by rw [e2, e1, List.append_assoc], ?_⟩
  intro x hx
  rcases List.mem_append.mp hx with hx | hx
  · exact q1 x hx
  · exact q2 x hx

theorem Quiet.of_call {σ : Type} {w w2 : World σ} (call : JiraCall) (e : Option GoError)
    (h : w2.log = w.log ++ [(call, e)]) (h1 : ∀ issue, call ≠ .Create issue)
    (h2 : ∀ id comment, call ≠ .AddComment id comment) : Quiet w w2 :=
  ⟨[(call, e)], h, fun x hx => by rw [List.mem_singleton.mp hx]; exact ⟨h1, h2⟩⟩

theorem Quiet.nothingCreated {σ : Type} {w w2 : World σ} (h : Quiet w w2)
    (hw : NothingCreated w.log) : NothingCreated w2.log := by
  obtain ⟨l, e, q⟩ := h
  rw [e]
  intro x hx
  rcases List.mem_append.mp hx with hx | hx
  · exact hw x hx
  · exact ⟨fun issue hi => absurd hi ((q x hx).1 issue), (q x hx).2⟩

theorem transitionLoop_quiet {σ : Type} (c : JiraClient σ) (ticketID : GoString)
    (ids : List GoString) : ∀ w : World σ, Quiet w (transitionLoop c ticketID ids w).2 := by
  induction ids with
  | nil =>
    intro w
    exact Quiet.quiet_refl w
  | cons t rest ih =>
    intro w
    unfold transitionLoop
    have h1 : Quiet w (IssueDoTransition c ticketID t w).2 :=
      Quiet.of_call (.DoTransition ticketID t) _ rfl (fun _ e => by cases e)
        (fun _ _ e => by cases e)
    cases hr : IssueDoTransition c ticketID t w with
    | mk r w1 =>
      rw [hr] at h1
      cases r with
      | some err => exact h1
      | none => exact Quiet.quiet_trans h1 (ih w1)

theorem IssueUpdate_quiet {σ : Type} (c : JiraClient σ) (issue : JiraIssue) (w : World σ) :
    Quiet w (IssueUpdate c issue w).2 :=
  Quiet.of_call (.Update issue) _ rfl (fun _ e => by cases e) (fun _ _ e => by cases e)

theorem findIssue_quiet {σ : Type} (c : JiraClient σ) (s : Server) (projectKey : GoString)
    (issueID : Int) (w : World σ) : Quiet w (findIssue c s projectKey issueID w).2 :=
  Quiet.of_call (.Search (findIssueJQL s projectKey issueID)) _
    (findIssue_log c s projectKey issueID w).1 (fun _ e => by cases e) (fun _ _ e => by cases e)

theorem compareSyncIssuesUpdate_quiet {σ : Type} (c : JiraClient σ) (s : Server)
    (jiraIssue : JiraIssue) (githubIssue : GithubIssue) (repoName : GoString) (w : World σ) :
    Quiet w (compareSyncIssuesUpdate c s jiraIssue githubIssue repoName w).2 := by
  have h1 := IssueUpdate_quiet c (jiraIssueUpdateFormat s jiraIssue.ID jiraIssue.Key
    githubIssue.Title githubIssue.Body (extractGithubIssueOptions s githubIssue)) w
  cases hu : IssueUpdate c (jiraIssueUpdateFormat s jiraIssue.ID jiraIssue.Key
      githubIssue.Title githubIssue.Body (extractGithubIssueOptions s githubIssue)) w with
  | mk r w1 =>
    rw [hu] at h1
    cases r with
    | error err =>
      unfold compareSyncIssuesUpdate
      simp only
      rw [hu]
      exact h1
    | ok resp =>
      rw [compareSyncIssuesUpdate_ok c s jiraIssue githubIssue repoName w w1 resp hu]
      have hA : Quiet w1
          (IssueUpdateAssignee c jiraIssue.ID (bulkAssignee s githubIssue) w1).2 :=
        Quiet.of_call (.UpdateAssignee jiraIssue.ID _) _ rfl (fun _ e => by cases e)
          (fun _ _ e => by cases e)
      have hT := transitionLoop_quiet c jiraIssue.ID
        (statusTransitions s repoName jiraIssue githubIssue)
        (IssueUpdateAssignee c jiraIssue.ID (bulkAssignee s githubIssue) w1).2
      have hC : ∀ w2 : World σ, Quiet w2
          (categoryStep c jiraIssue (toUpdateIssueTypeName s repoName jiraIssue githubIssue)
            w2) := by
        intro w2
        unfold categoryStep
        split
        · exact IssueUpdate_quiet c _ w2
        · exact Quiet.quiet_refl w2
      exact Quiet.quiet_trans h1 (Quiet.quiet_trans hA (Quiet.quiet_trans hT
        (Quiet.quiet_trans (hC _) (IssueUpdate_quiet c _ _))))

theorem OthersKept.kept_refl (K p : GoString) (n : Int) (T : Tracker) : OthersKept K p n T T :=
  ⟨rfl, fun _ _ _ => ⟨rfl, fun _ _ => rfl⟩⟩

theorem OthersKept.settled {K p : GoString} {n : Int} {T T2 : Tracker}
    (h : OthersKept K p n T T2) (workflow : GoString → Option GoString) (s : Server)
    (g : GithubClient) (fuel : Nat) (repoName : GoString) (githubIssue : GithubIssue)
    (hne : ¬ ((s.Config.repo repoName).JiraProjectKey = p ∧ githubIssue.ID = n))
    (hs : Settled K workflow s g fuel repoName githubIssue T) :
    Settled K workflow s g fuel repoName githubIssue T2 := by
  unfold Settled at hs ⊢
  obtain ⟨h1, h2⟩ := h.2 _ _ hne
  rw [h1, h.1]
  cases hf : T.issues.find? (correlated K (s.Config.repo repoName).JiraProjectKey
      githubIssue.ID) with
  | none =>
    rw [hf] at hs
    exact hs
  | some J =>
    rw [hf] at hs
    simp only at hs ⊢
    rw [h2 J hf]
    exact hs

theorem OthersKept.ready {K p : GoString} {n : Int} {T T2 : Tracker}
    (h : OthersKept K p n T T2) (s : Server) (repoName : GoString) (githubIssue : GithubIssue)
    (hne : ¬ ((s.Config.repo repoName).JiraProjectKey = p ∧ githubIssue.ID = n))
    (hs : Ready K s repoName githubIssue T) : Ready K s repoName githubIssue T2 := by
  unfold Ready at hs ⊢
  rw [(h.2 _ _ hne).1, h.1]
  exact hs

theorem memTracker_issue_establish (K : GoString) (workflow : GoString → Option GoString)
    (s : Server) (hK : mapGet s.Config.FieldIDs .gitHubID = some K) (g : GithubClient)
    (fuel : Nat) (repoName : GoString) (githubIssue : GithubIssue) (w : World Tracker)
    (hwf : WellFormed w.tracker) (hsrc : SourceComments s g fuel)
    (hready : Ready K s repoName githubIssue w.tracker) :
    WellFormed (compareSyncIssues_issue (memTracker K workflow) g s fuel repoName githubIssue
        w).2.tracker ∧
      Settled K workflow s g fuel repoName githubIssue
        (compareSyncIssues_issue (memTracker K workflow) g s fuel repoName githubIssue
          w).2.tracker ∧
      OthersKept K (s.Config.repo repoName).JiraProjectKey githubIssue.ID w.tracker
        (compareSyncIssues_issue (memTracker K workflow) g s fuel repoName githubIssue
          w).2.tracker := by
  unfold compareSyncIssues_issue
  rw [show w = ⟨w.tracker, w.log⟩ from rfl, memTracker_findIssue K workflow s hK]
  cases hf : w.tracker.issues.find? (correlated K (s.Config.repo repoName).JiraProjectKey
      githubIssue.ID) with
  | none =>
    simp only
    refine ⟨hwf, ?_, OthersKept.kept_refl _ _ _ _⟩
    unfold Settled
    rw [hf]
    rcases hready with h | h
    · rw [hf] at h
      cases h
    · exact h
  | some J =>
    simp only
    have hJ : J ∈ w.tracker.issues := List.mem_of_find?_eq_some hf
    have hcor : correlated K (s.Config.repo repoName).JiraProjectKey githubIssue.ID J = true :=
      List.find?_some hf
    have hH : Holds w.tracker J.ID J.Key := hwf.holds hJ
    obtain ⟨hu1, hu2⟩ := memTracker_compareSyncIssuesUpdate K workflow s J githubIssue repoName
      ⟨w.tracker, w.log ++ [(.Search (findIssueJQL s (s.Config.repo repoName).JiraProjectKey
        githubIssue.ID), none)]⟩ hH
    cases hU : compareSyncIssuesUpdate (memTracker K workflow) s J githubIssue repoName
        ⟨w.tracker, w.log ++ [(.Search (findIssueJQL s (s.Config.repo repoName).JiraProjectKey
          githubIssue.ID), none)]⟩ with
    | mk r w2 =>
      rw [hU] at hu1 hu2
      simp only at hu1 hu2
      subst hu1
      simp only
      have hwf2 : WellFormed w2.tracker := by
        rw [hu2]
        exact hwf.wf_modify _ _
      have hany2 : w2.tracker.issues.any (fun i => decide (i.ID = J.ID)) = true := by
        rw [hu2]
        exact (hH.of_modify _).any_id
      obtain ⟨c1, c2, c3, c4, c5, c6⟩ := memTracker_comments_establish K workflow s g fuel J
        githubIssue repoName w2 hwf2 hany2 hsrc
      have hfind : ∀ q m,
          (compareSyncComments (memTracker K workflow) g s fuel J githubIssue repoName
            w2).2.tracker.issues.find? (correlated K q m) =
          (w.tracker.issues.find? (correlated K q m)).map (fun i =>
            if i.ID = J.ID then
              { i with
                Fields := (bulkFields s repoName w.tracker.users workflow J githubIssue i.Fields) }
            else i) := by
        intro q m
        rw [c2, hu2]
        exact find?_modify K q m w.tracker J.ID _ (KeepsIdent.bulkFields _ _ _ _ _ _)
      have hgoal : WellFormed (compareSyncComments (memTracker K workflow) g s fuel J githubIssue
            repoName w2).2.tracker ∧
          Settled K workflow s g fuel repoName githubIssue
            (compareSyncComments (memTracker K workflow) g s fuel J githubIssue repoName
              w2).2.tracker ∧
          OthersKept K (s.Config.repo repoName).JiraProjectKey githubIssue.ID w.tracker
            (compareSyncComments (memTracker K workflow) g s fuel J githubIssue repoName
              w2).2.tracker := by
        refine ⟨c1, ?_, ?_⟩
        · unfold Settled
          rw [hfind, hf]
          simp only [Option.map_some', if_true]
          rw [c3, hu2]
          exact ⟨bulkFields_settled s repoName w.tracker.users workflow J githubIssue, c6⟩
        · refine ⟨by rw [c3, hu2]; rfl, ?_⟩
          intro q m hne
          have hother : ∀ J2, w.tracker.issues.find? (correlated K q m) = some J2 →
              J2.ID ≠ J.ID := by
            intro J2 h2 e
            have hJ2 : J2 ∈ w.tracker.issues := List.mem_of_find?_eq_some h2
            have hEq : J2 = J := List.inj_on_of_nodup_map hwf.ids hJ2 hJ e
            have hc2 : correlated K q m J = true := by
              rw [← hEq]
              exact List.find?_some h2
            exact hne (correlated_unique K q _ m _ J hc2 hcor)
          constructor
          · rw [hfind]
            cases h2 : w.tracker.issues.find? (correlated K q m) with
            | none => rfl
            | some J2 =>
              simp only [Option.map_some', hother J2 h2, if_false]
          · intro J2 h2
            rw [c5 J2.ID (hother J2 h2), hu2]
            rfl
      cases hC : compareSyncComments (memTracker K workflow) g s fuel J githubIssue repoName
          w2 with
      | mk r3 w3 =>
        rw [hC] at hgoal
        cases r3 <;> exact hgoal

theorem memTracker_issue_noop (K : GoString) (workflow : GoString → Option GoString)
    (s : Server) (hK : mapGet s.Config.FieldIDs .gitHubID = some K) (g : GithubClient)
    (fuel : Nat) (repoName : GoString) (githubIssue : GithubIssue) (w : World Tracker)
    (hwf : WellFormed w.tracker)
    (hs : Settled K workflow s g fuel repoName githubIssue w.tracker) :
    (compareSyncIssues_issue (memTracker K workflow) g s fuel repoName githubIssue
        w).2.tracker = w.tracker ∧
      (NothingCreated w.log →
        NothingCreated (compareSyncIssues_issue (memTracker K workflow) g s fuel repoName
          githubIssue w).2.log) := by
  have hq1 := findIssue_quiet (memTracker K workflow) s (s.Config.repo repoName).JiraProjectKey
    githubIssue.ID w
  unfold compareSyncIssues_issue
  unfold Settled at hs
  have hfi := memTracker_findIssue K workflow s hK (s.Config.repo repoName).JiraProjectKey
    githubIssue.ID w.tracker w.log
  rw [show (⟨w.tracker, w.log⟩ : World Tracker) = w from rfl] at hfi
  rw [hfi] at hq1 ⊢
  cases hf : w.tracker.issues.find? (correlated K (s.Config.repo repoName).JiraProjectKey
      githubIssue.ID) with
  | none =>
    rw [hf] at hq1
    exact ⟨rfl, fun h => hq1.nothingCreated h⟩
  | some J =>
    rw [hf] at hs
    simp only at hs ⊢
    have hJ : J ∈ w.tracker.issues := List.mem_of_find?_eq_some hf
    have hH : Holds w.tracker J.ID J.Key := hwf.holds hJ
    obtain ⟨hu1, hu2⟩ := memTracker_compareSyncIssuesUpdate K workflow s J githubIssue repoName
      ⟨w.tracker, w.log ++ [(.Search (findIssueJQL s (s.Config.repo repoName).JiraProjectKey
        githubIssue.ID), none)]⟩ hH
    have hq2 := compareSyncIssuesUpdate_quiet (memTracker K workflow) s J githubIssue repoName
      ⟨w.tracker, w.log ++ [(.Search (findIssueJQL s (s.Config.repo repoName).JiraProjectKey
        githubIssue.ID), none)]⟩
    cases hU : compareSyncIssuesUpdate (memTracker K workflow) s J githubIssue repoName
        ⟨w.tracker, w.log ++ [(.Search (findIssueJQL s (s.Config.repo repoName).JiraProjectKey
          githubIssue.ID), none)]⟩ with
    | mk r w2 =>
      rw [hU] at hu1 hu2 hq2
      simp only at hu1 hu2
      subst hu1
      simp only
      have hT2 : w2.tracker = w.tracker := by
        rw [hu2]
        exact Tracker.modify_fix hwf hJ _ hs.1
      have hcs : CommentsSettled s g fuel repoName githubIssue (w2.tracker.commentsOf J.ID) := by
        rw [hT2]
        exact hs.2
      obtain ⟨n1, n2⟩ := memTracker_comments_noop K workflow s g fuel J githubIssue repoName w2
        hcs
      have hgoal : (compareSyncComments (memTracker K workflow) g s fuel J githubIssue repoName
            w2).2.tracker = w.tracker ∧
          (NothingCreated w.log →
            NothingCreated (compareSyncComments (memTracker K workflow) g s fuel J githubIssue
              repoName w2).2.log) :=
        ⟨n1.trans hT2, fun h => n2 ((Quiet.quiet_trans hq1 hq2).nothingCreated h)⟩
      cases hC : compareSyncComments (memTracker K workflow) g s fuel J githubIssue repoName
          w2 with
      | mk r3 w3 =>
        rw [hC] at hgoal
        cases r3 <;> exact hgoal

theorem memTracker_Create_ok (K : GoString) (workflow : GoString → Option GoString)
    (payload : JiraIssue) (T : Tracker)
    (h : ∀ u, payload.Fields.Assignee = some u → u.Name ∈ T.users) :
    (memTracker K workflow).Create payload T =
      (.ok ⟨formatNat T.next, payload.Fields.ProjectKey ++ lit "-" ++ formatNat T.next,
        IssueFields.zero⟩, T.created payload) := by
  simp only [memTracker, Tracker.created, Tracker.newIssue]
  split
  · rename_i u ha
    simp only [h u ha, if_true]
  · rfl

theorem memTracker_Create_error (K : GoString) (workflow : GoString → Option GoString)
    (payload : JiraIssue) (T : Tracker) (u : JiraUser) (ha : payload.Fields.Assignee = some u)
    (h : u.Name ∉ T.users) :
    (memTracker K workflow).Create payload T = (.error (assigneeError u.Name), T) := by
  simp only [memTracker, ha, h, if_false]

theorem WellFormed.wf_created {T : Tracker} (h : WellFormed T) (payload : JiraIssue) :
    WellFormed (T.created payload) := by
  refine ⟨?_, ?_, h.commentIDs, ?_, ?_, ?_⟩
  · unfold Tracker.created Tracker.newIssue
    simp only [List.map_append, List.map_cons, List.map_nil]
    rw [List.nodup_append]
    refine ⟨h.ids, List.nodup_singleton _, ?_⟩
    intro a ha hb
    rw [List.mem_singleton] at hb
    obtain ⟨i, hi, rfl⟩ := List.mem_map.mp ha
    exact h.freshID i hi T.next (Nat.le_refl _) hb
  · unfold Tracker.created Tracker.newIssue
    simp only [List.map_append, List.map_cons, List.map_nil]
    rw [List.nodup_append]
    refine ⟨h.keys, List.nodup_singleton _, ?_⟩
    intro a ha hb
    rw [List.mem_singleton] at hb
    obtain ⟨i, hi, rfl⟩ := List.mem_map.mp ha
    exact h.freshKey i hi _ T.next (Nat.le_refl _) hb
  · intro i hi n hn
    unfold Tracker.created at hi hn
    simp only at hi hn
    rcases List.mem_append.mp hi with hi | hi
    · exact h.freshID i hi n (Nat.le_of_succ_le hn)
    · rw [List.mem_singleton.mp hi]
      intro e
      have := formatNat_injective _ _ e
      omega
  · intro i hi p n hn
    unfold Tracker.created at hi hn
    simp only at hi hn
    rcases List.mem_append.mp hi with hi | hi
    · exact h.freshKey i hi p n (Nat.le_of_succ_le hn)
    · rw [List.mem_singleton.mp hi]
      intro e
      have := key_suffix_inj _ _ _ _ e
      omega
  · intro x hx n hn
    exact h.freshComment x hx n (Nat.le_of_succ_le hn)

theorem Holds.of_created {T : Tracker} (h : WellFormed T) (payload : JiraIssue) :
    Holds (T.created payload) (formatNat T.next)
      (payload.Fields.ProjectKey ++ lit "-" ++ formatNat T.next) := by
  have hmem : T.newIssue payload ∈ (T.created payload).issues := by
    unfold Tracker.created
    simp
  have := (h.wf_created payload).holds hmem
  exact this

theorem compareSyncIssuesCreate_after_eq {σ : Type} (c : JiraClient σ) (s : Server)
    (githubIssue : GithubIssue) (repoName : GoString) (resp : JiraIssue) (w : World σ) :
    compareSyncIssuesCreate_after c s githubIssue repoName resp w =
      (fun w2 : World σ =>
        if (labelComponents s repoName githubIssue.Labels).length ≠ 0 then
          (IssueUpdate c (componentsUpdate resp (labelComponents s repoName githubIssue.Labels))
            w2).2
        else w2)
      ((fun w1 : World σ =>
        match labelIssueTypes s repoName githubIssue.Labels with
        | [] => w1
        | first :: _ => (IssueUpdate c (categoryUpdate resp first) w1).2)
      (if githubIssue.State = lit "closed" then
        (transitionLoop c resp.ID ((s.Config.repo repoName).transitions JiraTransitionDoneName)
          w).2
      else w)) := rfl

theorem memTracker_after (K : GoString) (workflow : GoString → Option GoString) (s : Server)
    (githubIssue : GithubIssue) (repoName : GoString) (resp : JiraIssue) (w : World Tracker)
    (h : Holds w.tracker resp.ID resp.Key) :
    ∃ f, KeepsIdent f ∧
      (compareSyncIssuesCreate_after (memTracker K workflow) s githubIssue repoName resp
        w).tracker = w.tracker.modify resp.ID f := by
  rw [compareSyncIssuesCreate_after_eq]
  -- the transitions
  have e1 : ∃ f1, KeepsIdent f1 ∧
      (if githubIssue.State = lit "closed" then
        (transitionLoop (memTracker K workflow) resp.ID
          ((s.Config.repo repoName).transitions JiraTransitionDoneName) w).2
        else w).tracker = w.tracker.modify resp.ID f1 := by
    by_cases hc : githubIssue.State = lit "closed"
    · refine ⟨_, KeepsIdent.statusAfter workflow
        ((s.Config.repo repoName).transitions JiraTransitionDoneName), ?_⟩
      rw [if_pos hc]
      exact memTracker_transitionLoop K workflow resp.ID resp.Key _ w h
    · refine ⟨_, KeepsIdent.id, ?_⟩
      rw [if_neg hc, Tracker.modify_id]
  obtain ⟨f1, k1, t1⟩ := e1
  generalize (if githubIssue.State = lit "closed" then
      (transitionLoop (memTracker K workflow) resp.ID
        ((s.Config.repo repoName).transitions JiraTransitionDoneName) w).2 else w) = w1 at t1 ⊢
  have H1 : Holds w1.tracker resp.ID resp.Key := by
    rw [t1]
    exact h.of_modify _
  -- the category
  have e2 : ∃ f2, KeepsIdent f2 ∧
      ((fun w1 : World Tracker =>
        match labelIssueTypes s repoName githubIssue.Labels with
        | [] => w1
        | first :: _ => (IssueUpdate (memTracker K workflow) (categoryUpdate resp first) w1).2)
        w1).tracker = w1.tracker.modify resp.ID f2 := by
    cases labelIssueTypes s repoName githubIssue.Labels with
    | nil =>
      refine ⟨_, KeepsIdent.id, ?_⟩
      simp only
      rw [Tracker.modify_id]
    | cons first rest =>
      refine ⟨_, KeepsIdent.applyUpdate (categoryUpdate resp first).Fields rfl rfl, ?_⟩
      exact congrArg (fun r => r.2.tracker)
        (memTracker_IssueUpdate K workflow (categoryUpdate resp first) w1 H1 rfl)
  obtain ⟨f2, k2, t2⟩ := e2
  generalize ((fun w1 : World Tracker =>
      match labelIssueTypes s repoName githubIssue.Labels with
      | [] => w1
      | first :: _ => (IssueUpdate (memTracker K workflow) (categoryUpdate resp first) w1).2)
      w1) = w2 at t2 ⊢
  have H2 : Holds w2.tracker resp.ID resp.Key := by
    rw [t2]
    exact H1.of_modify _
  by_cases hl : (labelComponents s repoName githubIssue.Labels).length ≠ 0
  · refine ⟨fun F => applyUpdate
      (componentsUpdate resp (labelComponents s repoName githubIssue.Labels)).Fields
      (f2 (f1 F)), ?_, ?_⟩
    · exact (k1.comp k2).comp (KeepsIdent.applyUpdate _ rfl rfl)
    · simp only [hl, ne_eq, not_false_eq_true, if_true]
      rw [memTracker_IssueUpdate K workflow
        (componentsUpdate resp (labelComponents s repoName githubIssue.Labels)) w2 H2 rfl]
      simp only
      rw [t2, t1, Tracker.modify_modify, Tracker.modify_modify]
  · refine ⟨fun F => f2 (f1 F), k1.comp k2, ?_⟩
    simp only [hl, if_false]
    rw [t2, t1, Tracker.modify_modify]

theorem memTracker_create_loop_ok (K : GoString) (workflow : GoString → Option GoString)
    (n : Nat) (payload : JiraIssue) (w : World Tracker)
    (h : ¬ ∃ u, payload.Fields.Assignee = some u ∧ u.Name ∉ w.tracker.users ∧
      reAssigneeError_MatchString (assigneeError u.Name).msg = false) :
    ∃ payload2 w1,
      compareSyncIssuesCreate_loop (memTracker K workflow) (n + 2) payload w =
        (some (.ret (.ok ⟨formatNat w.tracker.next,
          payload2.Fields.ProjectKey ++ lit "-" ++ formatNat w.tracker.next, IssueFields.zero⟩)),
          w1) ∧
      w1.tracker = w.tracker.created payload2 ∧
      payload2.Fields.ProjectKey = payload.Fields.ProjectKey ∧
      payload2.Fields.Unknowns = payload.Fields.Unknowns := by
  by_cases hok : ∀ u, payload.Fields.Assignee = some u → u.Name ∈ w.tracker.users
  · refine ⟨payload, ⟨w.tracker.created payload, w.log ++ [(.Create payload, none)]⟩, ?_, rfl,
      rfl, rfl⟩
    unfold compareSyncIssuesCreate_loop IssueCreate
    rw [memTracker_Create_ok K workflow payload w.tracker hok]
    rfl
  · simp only [not_forall] at hok
    obtain ⟨u, ha, hu⟩ := hok
    have hm : reAssigneeError_MatchString (assigneeError u.Name).msg = true := by
      cases hm : reAssigneeError_MatchString (assigneeError u.Name).msg with
      | true => rfl
      | false => exact absurd ⟨u, ha, hu, hm⟩ h
    refine ⟨{ payload with Fields := { payload.Fields with Assignee := none } },
      ⟨w.tracker.created { payload with Fields := { payload.Fields with Assignee := none } },
        (w.log ++ [(.Create payload, some (assigneeError u.Name))]) ++
          [(.Create { payload with Fields := { payload.Fields with Assignee := none } }, none)]⟩,
      ?_, rfl, rfl, rfl⟩
    unfold compareSyncIssuesCreate_loop IssueCreate
    rw [memTracker_Create_error K workflow payload w.tracker u ha hu]
    simp only [hm, if_true, ha]
    unfold compareSyncIssuesCreate_loop IssueCreate
    rw [memTracker_Create_ok K workflow _ _ (fun v hv => by cases hv)]
    rfl

theorem memTracker_create_loop_rejected (K : GoString) (workflow : GoString → Option GoString)
    (n : Nat) (payload : JiraIssue) (w : World Tracker) (u : JiraUser)
    (ha : payload.Fields.Assignee = some u) (hu : u.Name ∉ w.tracker.users)
    (hm : reAssigneeError_MatchString (assigneeError u.Name).msg = false) :
    compareSyncIssuesCreate_loop (memTracker K workflow) (n + 1) payload w =
      (some (.ret (.error (assigneeError u.Name))),
        ⟨w.tracker, w.log ++ [(.Create payload, some (assigneeError u.Name))]⟩) := by
  unfold compareSyncIssuesCreate_loop IssueCreate
  rw [memTracker_Create_error K workflow payload w.tracker u ha hu]
  simp only [hm]
  rfl

theorem find?_created_self (K p : GoString) (n : Int) (T : Tracker) (payload : JiraIssue)
    (hp : payload.Fields.ProjectKey = p)
    (hu : mapGet payload.Fields.Unknowns (correlationField K) = some (.int n))
    (hnone : T.issues.find? (correlated K p n) = none) :
    (T.created payload).issues.find? (correlated K p n) = some (T.newIssue payload) := by
  unfold Tracker.created
  simp only
  rw [List.find?_append, hnone]
  have : correlated K p n (T.newIssue payload) = true := by
    unfold correlated Tracker.newIssue
    simp [hp, hu]
  simp [List.find?_cons, this]

theorem find?_created_other (K p q : GoString) (n m : Int) (T : Tracker) (payload : JiraIssue)
    (hp : payload.Fields.ProjectKey = p)
    (hu : mapGet payload.Fields.Unknowns (correlationField K) = some (.int n))
    (hne : ¬ (q = p ∧ m = n)) :
    (T.created payload).issues.find? (correlated K q m) = T.issues.find? (correlated K q m) := by
  unfold Tracker.created
  simp only
  rw [List.find?_append]
  have h1 : correlated K p n (T.newIssue payload) = true := by
    unfold correlated Tracker.newIssue
    simp [hp, hu]
  have h2 : correlated K q m (T.newIssue payload) = false := by
    cases h : correlated K q m (T.newIssue payload) with
    | false => rfl
    | true => exact absurd (correlated_unique K q p m n _ h h1) hne
  simp only [List.find?_cons, h2, List.find?_nil]
  cases T.issues.find? (correlated K q m) <;> rfl

theorem memTracker_createStep_establish (K : GoString) (workflow : GoString → Option GoString)
    (s : Server) (hK : mapGet s.Config.FieldIDs .gitHubID = some K)
    (hURL : mapGet s.Config.FieldIDs .gitHubURL ≠ some K) (n : Nat) (repoName : GoString)
    (githubIssue : GithubIssue) (w : World Tracker) (hwf : WellFormed w.tracker) :
    WellFormed (compareSyncIssues_createStep (memTracker K workflow) s (n + 2) repoName
        githubIssue w).2.tracker ∧
      Ready K s repoName githubIssue
        (compareSyncIssues_createStep (memTracker K workflow) s (n + 2) repoName githubIssue
          w).2.tracker ∧
      OthersKept K (s.Config.repo repoName).JiraProjectKey githubIssue.ID w.tracker
        (compareSyncIssues_createStep (memTracker K workflow) s (n + 2) repoName githubIssue
          w).2.tracker := by
  unfold compareSyncIssues_createStep
  rw [show w = ⟨w.tracker, w.log⟩ from rfl, memTracker_findIssue K workflow s hK]
  cases hf : w.tracker.issues.find? (correlated K (s.Config.repo repoName).JiraProjectKey
      githubIssue.ID) with
  | some J =>
    simp only
    refine ⟨hwf, ?_, OthersKept.kept_refl _ _ _ _⟩
    left
    rw [hf]
    rfl
  | none =>
    have hmsg : (errorsNew "Issue not exists").msg = lit "Issue not exists" := rfl
    simp only [hmsg, if_true]
    unfold compareSyncIssuesCreate
    simp only
    by_cases hrej : ∃ u, (jiraIssueOpenFormat s githubIssue.ID repoName githubIssue.Title
        githubIssue.Body (extractGithubIssueOptions s githubIssue)).Fields.Assignee = some u ∧
        u.Name ∉ w.tracker.users ∧ reAssigneeError_MatchString (assigneeError u.Name).msg = false
    · obtain ⟨u, ha, hu, hm⟩ := hrej
      have hl : compareSyncIssuesCreate_loop (memTracker K workflow) (n + 2)
          (jiraIssueOpenFormat s githubIssue.ID repoName githubIssue.Title githubIssue.Body
            (extractGithubIssueOptions s githubIssue))
          ⟨w.tracker, w.log ++ [(.Search (findIssueJQL s (s.Config.repo repoName).JiraProjectKey
            githubIssue.ID), none)]⟩ = _ :=
        memTracker_create_loop_rejected K workflow (n + 1) _
          ⟨w.tracker, w.log ++ [(.Search (findIssueJQL s (s.Config.repo repoName).JiraProjectKey
            githubIssue.ID), none)]⟩ u ha hu hm
      rw [hl]
      simp only
      refine ⟨hwf, ?_, OthersKept.kept_refl _ _ _ _⟩
      right
      exact ⟨u, ha, hu, hm⟩
    · obtain ⟨payload2, w1, hloop, hw1, hp, hun⟩ := memTracker_create_loop_ok K workflow n
        (jiraIssueOpenFormat s githubIssue.ID repoName githubIssue.Title githubIssue.Body
          (extractGithubIssueOptions s githubIssue))
        ⟨w.tracker, w.log ++ [(.Search (findIssueJQL s (s.Config.repo repoName).JiraProjectKey
          githubIssue.ID), none)]⟩ hrej
      rw [hloop]
      simp only at hw1 ⊢
      have hH : Holds w1.tracker (formatNat w.tracker.next)
          (payload2.Fields.ProjectKey ++ lit "-" ++ formatNat w.tracker.next) := by
        rw [hw1]
        exact Holds.of_created hwf payload2
      obtain ⟨f, kf, hafter⟩ := memTracker_after K workflow s githubIssue repoName
        ⟨formatNat w.tracker.next,
          payload2.Fields.ProjectKey ++ lit "-" ++ formatNat w.tracker.next, IssueFields.zero⟩
        w1 hH
      rw [hafter, hw1]
      have hp2 : payload2.Fields.ProjectKey = (s.Config.repo repoName).JiraProjectKey := by
        rw [hp]
        exact jiraIssueOpenFormat_project s _ _ _ _ _
      have hu2 : mapGet payload2.Fields.Unknowns (correlationField K) =
          some (.int githubIssue.ID) := by
        rw [hun]
        exact jiraIssueOpenFormat_correlation_int s K hK hURL _ _ _ _ _
      refine ⟨(hwf.wf_created payload2).wf_modify _ _, ?_, ?_, ?_⟩
      · left
        rw [find?_modify K _ _ _ _ f kf, find?_created_self K _ _ _ _ hp2 hu2 hf]
        rfl
      · rfl
      · intro q m hne
        constructor
        · rw [find?_modify K _ _ _ _ f kf, find?_created_other K _ q _ m _ _ hp2 hu2 hne]
          cases h2 : w.tracker.issues.find? (correlated K q m) with
          | none => rfl
          | some J2 =>
            have hJ2 : J2 ∈ w.tracker.issues := List.mem_of_find?_eq_some h2
            have hid : J2.ID ≠ formatNat w.tracker.next :=
              hwf.freshID J2 hJ2 _ (Nat.le_refl _)
            simp only [Option.map_some', hid, if_false]
        · intro J2 _
          rfl

theorem memTracker_createStep_noop (K : GoString) (workflow : GoString → Option GoString)
    (s : Server) (hK : mapGet s.Config.FieldIDs .gitHubID = some K) (g : GithubClient)
    (fuel n : Nat) (repoName : GoString) (githubIssue : GithubIssue) (w : World Tracker)
    (hs : Settled K workflow s g fuel repoName githubIssue w.tracker) :
    (compareSyncIssues_createStep (memTracker K workflow) s (n + 1) repoName githubIssue
        w).1 = some (.ret ()) ∧
      (compareSyncIssues_createStep (memTracker K workflow) s (n + 1) repoName githubIssue
        w).2.tracker = w.tracker ∧
      (NothingCreated w.log →
        NothingCreated (compareSyncIssues_createStep (memTracker K workflow) s (n + 1) repoName
          githubIssue w).2.log) := by
  have hlog : NothingCreated w.log →
      NothingCreated (w.log ++ [(.Search (findIssueJQL s (s.Config.repo repoName).JiraProjectKey
        githubIssue.ID), none)]) :=
    fun h => h.append _ _ (fun _ e => by cases e) (fun _ _ e => by cases e)
  unfold compareSyncIssues_createStep
  unfold Settled at hs
  rw [show w = ⟨w.tracker, w.log⟩ from rfl, memTracker_findIssue K workflow s hK]
  cases hf : w.tracker.issues.find? (correlated K (s.Config.repo repoName).JiraProjectKey
      githubIssue.ID) with
  | some J => exact ⟨rfl, rfl, hlog⟩
  | none =>
    rw [hf] at hs
    obtain ⟨u, ha, hu, hm⟩ := hs
    have hmsg : (errorsNew "Issue not exists").msg = lit "Issue not exists" := rfl
    simp only [hmsg, if_true]
    unfold compareSyncIssuesCreate
    simp only
    have hl : compareSyncIssuesCreate_loop (memTracker K workflow) (n + 1)
        (jiraIssueOpenFormat s githubIssue.ID repoName githubIssue.Title githubIssue.Body
          (extractGithubIssueOptions s githubIssue))
        ⟨w.tracker, w.log ++ [(.Search (findIssueJQL s (s.Config.repo repoName).JiraProjectKey
          githubIssue.ID), none)]⟩ = _ :=
      memTracker_create_loop_rejected K workflow n _
        ⟨w.tracker, w.log ++ [(.Search (findIssueJQL s (s.Config.repo repoName).JiraProjectKey
          githubIssue.ID), none)]⟩ u ha hu hm
    rw [hl]
    refine ⟨rfl, rfl, fun h => ?_⟩
    exact (hlog h).append _ _ (fun _ _ => by simp) (fun _ _ e => by cases e)

theorem jobKey_ne {s : Server} {a b : GoString × GithubIssue} (h : jobKey s a ≠ jobKey s b) :
    ¬ ((s.Config.repo a.1).JiraProjectKey = (s.Config.repo b.1).JiraProjectKey ∧
      a.2.ID = b.2.ID) := by
  intro e
  apply h
  unfold jobKey
  rw [e.1, e.2]

theorem memTracker_createPass_establish (K : GoString) (workflow : GoString → Option GoString)
    (s : Server) (hK : mapGet s.Config.FieldIDs .gitHubID = some K)
    (hURL : mapGet s.Config.FieldIDs .gitHubURL ≠ some K) (g : GithubClient) (fuel n : Nat)
    (repoName : GoString) :
    ∀ (L : List GithubIssue) (w : World Tracker) (D : List (GoString × GithubIssue))
      (R : List GithubIssue),
      WellFormed w.tracker →
      (∀ job ∈ D, Settled K workflow s g fuel job.1 job.2 w.tracker) →
      (∀ gi ∈ R, Ready K s repoName gi w.tracker) →
      (∀ gi ∈ L, ∀ job ∈ D, jobKey s job ≠ jobKey s (repoName, gi)) →
      (∀ gi ∈ L, ∀ gr ∈ R, jobKey s (repoName, gr) ≠ jobKey s (repoName, gi)) →
      (L.map (fun gi => jobKey s (repoName, gi))).Nodup →
      WellFormed (compareSyncIssues_createPass (memTracker K workflow) s (n + 2) repoName L
          w).2.tracker ∧
        (∀ job ∈ D, Settled K workflow s g fuel job.1 job.2
          (compareSyncIssues_createPass (memTracker K workflow) s (n + 2) repoName L
            w).2.tracker) ∧
        (∀ gi, gi ∈ R ∨ gi ∈ L → Ready K s repoName gi
          (compareSyncIssues_createPass (memTracker K workflow) s (n + 2) repoName L
            w).2.tracker) := by
  intro L
  induction L with
  | nil =>
    intro w D R hwf hD hR _ _ _
    refine ⟨hwf, hD, ?_⟩
    intro gi hgi
    rcases hgi with hgi | hgi
    · exact hR gi hgi
    · cases hgi
  | cons gi rest ih =>
    intro w D R hwf hD hR hLD hLR hnd
    have hnd1 : jobKey s (repoName, gi) ∉ rest.map (fun gi => jobKey s (repoName, gi)) :=
      (List.nodup_cons.mp hnd).1
    have hnd2 := (List.nodup_cons.mp hnd).2
    obtain ⟨e1, e2, e3⟩ := memTracker_createStep_establish K workflow s hK hURL n repoName gi w
      hwf
    have htot := (compareSyncIssues_createStep_total (memTracker K workflow) s n repoName gi
      w).2 (memTracker_rejectsAssigneeOnlyWhenSet K workflow)
    unfold compareSyncIssues_createPass
    cases hst : compareSyncIssues_createStep (memTracker K workflow) s (n + 2) repoName gi w with
    | mk r w1 =>
      rw [hst] at e1 e2 e3 htot
      simp only at e1 e2 e3 htot
      subst htot
      simp only
      obtain ⟨r1, r2, r3⟩ := ih w1 D (gi :: R) e1
        (fun job hjob => e3.settled workflow s g fuel job.1 job.2
          (jobKey_ne (hLD gi (List.mem_cons_self _ _) job hjob)) (hD job hjob))
        (by
          intro gr hgr
          rcases List.mem_cons.mp hgr with e | hgr
          · rw [e]
            exact e2
          · exact e3.ready s repoName gr
              (jobKey_ne (a := (repoName, gr)) (b := (repoName, gi))
                (hLR gi (List.mem_cons_self _ _) gr hgr)) (hR gr hgr))
        (fun g2 hg2 job hjob => hLD g2 (List.mem_cons_of_mem _ hg2) job hjob)
        (by
          intro g2 hg2 gr hgr
          rcases List.mem_cons.mp hgr with e | hgr
          · rw [e]
            intro hk
            apply hnd1
            rw [hk]
            exact List.mem_map_of_mem (fun gi => jobKey s (repoName, gi)) hg2
          · exact hLR g2 (List.mem_cons_of_mem _ hg2) gr hgr)
        hnd2
      refine ⟨r1, r2, ?_⟩
      intro g2 hg2
      apply r3
      rcases hg2 with h | h
      · exact Or.inl (List.mem_cons_of_mem _ h)
      · rcases List.mem_cons.mp h with e | h
        · exact Or.inl (e ▸ List.mem_cons_self _ _)
        · exact Or.inr h

theorem memTracker_updatePass_establish (K : GoString) (workflow : GoString → Option GoString)
    (s : Server) (hK : mapGet s.Config.FieldIDs .gitHubID = some K) (g : GithubClient)
    (fuel : Nat) (hsrc : SourceComments s g fuel)
    (hcomments : ∀ owner repo number,
      (getGithubIssueComments g s fuel owner repo number).isSome = true)
    (repoName : GoString) :
    ∀ (L : List GithubIssue) (w : World Tracker) (D : List (GoString × GithubIssue)),
      WellFormed w.tracker →
      (∀ job ∈ D, Settled K workflow s g fuel job.1 job.2 w.tracker) →
      (∀ gi ∈ L, Ready K s repoName gi w.tracker) →
      (∀ gi ∈ L, ∀ job ∈ D, jobKey s job ≠ jobKey s (repoName, gi)) →
      (L.map (fun gi => jobKey s (repoName, gi))).Nodup →
      WellFormed (compareSyncIssues_updatePass (memTracker K workflow) g s fuel repoName L
          w).2.tracker ∧
        (∀ job ∈ D, Settled K workflow s g fuel job.1 job.2
          (compareSyncIssues_updatePass (memTracker K workflow) g s fuel repoName L
            w).2.tracker) ∧
        (∀ gi ∈ L, Settled K workflow s g fuel repoName gi
          (compareSyncIssues_updatePass (memTracker K workflow) g s fuel repoName L
            w).2.tracker) := by
  intro L
  induction L with
  | nil =>
    intro w D hwf hD _ _ _
    exact ⟨hwf, hD, fun _ h => by cases h⟩
  | cons gi rest ih =>
    intro w D hwf hD hR hLD hnd
    have hnd1 : jobKey s (repoName, gi) ∉ rest.map (fun gi => jobKey s (repoName, gi)) :=
      (List.nodup_cons.mp hnd).1
    have hnd2 := (List.nodup_cons.mp hnd).2
    obtain ⟨e1, e2, e3⟩ := memTracker_issue_establish K workflow s hK g fuel repoName gi w hwf
      hsrc (hR gi (List.mem_cons_self _ _))
    have htot := compareSyncIssues_issue_total (memTracker K workflow) g s fuel repoName gi w
      hcomments
    unfold compareSyncIssues_updatePass
    cases hst : compareSyncIssues_issue (memTracker K workflow) g s fuel repoName gi w with
    | mk r w1 =>
      rw [hst] at e1 e2 e3 htot
      simp only at e1 e2 e3 htot
      subst htot
      simp only
      have hrest_ne : ∀ g2 ∈ rest, jobKey s (repoName, g2) ≠ jobKey s (repoName, gi) := by
        intro g2 hg2 hk
        apply hnd1
        rw [← hk]
        exact List.mem_map_of_mem (fun gi => jobKey s (repoName, gi)) hg2
      obtain ⟨r1, r2, r3⟩ := ih w1 ((repoName, gi) :: D) e1
        (by
          intro job hjob
          rcases List.mem_cons.mp hjob with e | hjob
          · rw [e]
            exact e2
          · exact e3.settled workflow s g fuel job.1 job.2
              (jobKey_ne (hLD gi (List.mem_cons_self _ _) job hjob)) (hD job hjob))
        (fun g2 hg2 => e3.ready s repoName g2
          (jobKey_ne (a := (repoName, g2)) (b := (repoName, gi)) (hrest_ne g2 hg2))
          (hR g2 (List.mem_cons_of_mem _ hg2)))
        (by
          intro g2 hg2 job hjob
          rcases List.mem_cons.mp hjob with e | hjob
          · rw [e]
            exact (hrest_ne g2 hg2).symm
          · exact hLD g2 (List.mem_cons_of_mem _ hg2) job hjob)
        hnd2
      refine ⟨r1, fun job hjob => r2 job (List.mem_cons_of_mem _ hjob), ?_⟩
      intro g2 hg2
      rcases List.mem_cons.mp hg2 with e | hg2
      · rw [e]
        exact r2 (repoName, gi) (List.mem_cons_self _ _)
      · exact r3 g2 hg2

theorem memTracker_repo_establish (K : GoString) (workflow : GoString → Option GoString)
    (s : Server) (hK : mapGet s.Config.FieldIDs .gitHubID = some K)
    (hURL : mapGet s.Config.FieldIDs .gitHubURL ≠ some K) (g : GithubClient) (n : Nat)
    (hsrc : SourceComments s g (n + 2))
    (hcomments : ∀ owner repo number,
      (getGithubIssueComments g s (n + 2) owner repo number).isSome = true)
    (repoName : GoString) (L : List GithubIssue) (w : World Tracker)
    (D : List (GoString × GithubIssue)) (hwf : WellFormed w.tracker)
    (hD : ∀ job ∈ D, Settled K workflow s g (n + 2) job.1 job.2 w.tracker)
    (hLD : ∀ gi ∈ L, ∀ job ∈ D, jobKey s job ≠ jobKey s (repoName, gi))
    (hnd : (L.map (fun gi => jobKey s (repoName, gi))).Nodup) :
    WellFormed (compareSyncIssues_repo (memTracker K workflow) g s (n + 2) repoName L
        w).2.tracker ∧
      (∀ job ∈ D, Settled K workflow s g (n + 2) job.1 job.2
        (compareSyncIssues_repo (memTracker K workflow) g s (n + 2) repoName L w).2.tracker) ∧
      (∀ gi ∈ L, Settled K workflow s g (n + 2) repoName gi
        (compareSyncIssues_repo (memTracker K workflow) g s (n + 2) repoName L w).2.tracker) := by
  obtain ⟨c1, c2, c3⟩ := memTracker_createPass_establish K workflow s hK hURL g (n + 2) n
    repoName L w D [] hwf hD (fun _ h => by cases h) hLD (fun _ _ _ h => by cases h) hnd
  have ctot := (compareSyncIssues_createPass_total (memTracker K workflow) s n repoName L w).2
    (memTracker_rejectsAssigneeOnlyWhenSet K workflow)
  unfold compareSyncIssues_repo
  cases hc : compareSyncIssues_createPass (memTracker K workflow) s (n + 2) repoName L w with
  | mk r w1 =>
    rw [hc] at c1 c2 c3 ctot
    simp only at c1 c2 c3 ctot
    subst ctot
    simp only
    obtain ⟨u1, u2, u3⟩ := memTracker_updatePass_establish K workflow s hK g (n + 2) hsrc
      hcomments repoName L w1 D c1 c2 (fun gi hgi => c3 gi (Or.inr hgi)) hLD hnd
    have utot := compareSyncIssues_updatePass_total (memTracker K workflow) g s (n + 2) repoName
      L hcomments w1
    cases hu : compareSyncIssues_updatePass (memTracker K workflow) g s (n + 2) repoName L
        w1 with
    | mk r2 w2 =>
      rw [hu] at u1 u2 u3 utot
      simp only at u1 u2 u3 utot
      subst utot
      exact ⟨u1, u2, u3⟩

theorem memTracker_repos_establish (K : GoString) (workflow : GoString → Option GoString)
    (s : Server) (hK : mapGet s.Config.FieldIDs .gitHubID = some K)
    (hURL : mapGet s.Config.FieldIDs .gitHubURL ≠ some K) (g : GithubClient) (n : Nat)
    (hsrc : SourceComments s g (n + 2))
    (hcomments : ∀ owner repo number,
      (getGithubIssueComments g s (n + 2) owner repo number).isSome = true) :
    ∀ (repoNames : List GoString) (errReturn : Option GoError) (w : World Tracker)
      (D : List (GoString × GithubIssue)),
      WellFormed w.tracker →
      (∀ job ∈ D, Settled K workflow s g (n + 2) job.1 job.2 w.tracker) →
      ((passJobs g s (n + 2) repoNames).map (jobKey s)).Nodup →
      (∀ job ∈ passJobs g s (n + 2) repoNames, ∀ d ∈ D, jobKey s d ≠ jobKey s job) →
      (∀ repoName ∈ repoNames,
        (getGithubIssuesByRepo g s (n + 2) (s.Config.repo repoName).GithubOwner
          repoName).isSome = true) →
      WellFormed (compareSyncIssues_repos (memTracker K workflow) g s (n + 2) repoNames
          errReturn w).2.tracker ∧
        ∀ job, job ∈ D ∨ job ∈ passJobs g s (n + 2) repoNames →
          Settled K workflow s g (n + 2) job.1 job.2
            (compareSyncIssues_repos (memTracker K workflow) g s (n + 2) repoNames
              errReturn w).2.tracker := by
  intro repoNames
  induction repoNames with
  | nil =>
    intro errReturn w D hwf hD _ _ _
    refine ⟨hwf, ?_⟩
    intro job hjob
    rcases hjob with h | h
    · exact hD job h
    · cases h
  | cons r rest ih =>
    intro errReturn w D hwf hD hnd hsep hlist
    have hl := hlist r (List.mem_cons_self _ _)
    have hlist2 : ∀ repoName ∈ rest,
        (getGithubIssuesByRepo g s (n + 2) (s.Config.repo repoName).GithubOwner
          repoName).isSome = true :=
      fun x hx => hlist x (List.mem_cons_of_mem _ hx)
    unfold compareSyncIssues_repos
    unfold passJobs at hnd hsep ⊢
    cases hg : getGithubIssuesByRepo g s (n + 2) (s.Config.repo r).GithubOwner r with
    | none =>
      rw [hg] at hl
      cases hl
    | some res =>
      cases res with
      | error err =>
        rw [hg] at hnd hsep
        simp only [List.nil_append] at hnd hsep ⊢
        exact ih (some err) w D hwf hD hnd hsep hlist2
      | ok L =>
        rw [hg] at hnd hsep
        simp only at hnd hsep ⊢
        rw [List.map_append, List.nodup_append] at hnd
        obtain ⟨hndL, hndR, hdisj⟩ := hnd
        have hndL2 : (L.map (fun gi => jobKey s (r, gi))).Nodup := by
          rw [List.map_map] at hndL
          exact hndL
        obtain ⟨p1, p2, p3⟩ := memTracker_repo_establish K workflow s hK hURL g n hsrc hcomments
          r L w D hwf hD
          (fun gi hgi job hjob => hsep (r, gi)
            (List.mem_append_left _ (List.mem_map_of_mem (fun gi => (r, gi)) hgi)) job hjob)
          hndL2
        have ptot := compareSyncIssues_repo_total (memTracker K workflow) g s n r L w
          (memTracker_rejectsAssigneeOnlyWhenSet K workflow) hcomments
        cases hr : compareSyncIssues_repo (memTracker K workflow) g s (n + 2) r L w with
        | mk o w1 =>
          rw [hr] at p1 p2 p3 ptot
          simp only at p1 p2 p3 ptot
          subst ptot
          simp only
          obtain ⟨q1, q2⟩ := ih errReturn w1 (L.map (fun gi => (r, gi)) ++ D) p1
            (by
              intro job hjob
              rcases List.mem_append.mp hjob with h | h
              · obtain ⟨gi, hgi, rfl⟩ := List.mem_map.mp h
                exact p3 gi hgi
              · exact p2 job h)
            hndR
            (by
              intro job hjob d hd
              rcases List.mem_append.mp hd with h | h
              · intro e
                exact hdisj (List.mem_map_of_mem (jobKey s) h)
                  (e ▸ List.mem_map_of_mem (jobKey s) hjob)
              · exact hsep job (List.mem_append_right _ hjob) d h)
            hlist2
          refine ⟨q1, ?_⟩
          intro job hjob
          apply q2
          rcases hjob with h | h
          · exact Or.inl (List.mem_append_right _ h)
          · rcases List.mem_append.mp h with h | h
            · exact Or.inl (List.mem_append_left _ h)
            · exact Or.inr h

theorem memTracker_createPass_noop (K : GoString) (workflow : GoString → Option GoString)
    (s : Server) (hK : mapGet s.Config.FieldIDs .gitHubID = some K) (g : GithubClient)
    (fuel n : Nat) (repoName : GoString) (T : Tracker) :
    ∀ (L : List GithubIssue) (l : List (JiraCall × Option GoError)),
      (∀ gi ∈ L, Settled K workflow s g fuel repoName gi T) →
      (compareSyncIssues_createPass (memTracker K workflow) s (n + 1) repoName L ⟨T, l⟩).1 =
          some (.ret ()) ∧
        (compareSyncIssues_createPass (memTracker K workflow) s (n + 1) repoName L
          ⟨T, l⟩).2.tracker = T ∧
        (NothingCreated l →
          NothingCreated (compareSyncIssues_createPass (memTracker K workflow) s (n + 1)
            repoName L ⟨T, l⟩).2.log) := by
  intro L
  induction L with
  | nil =>
    intro l _
    exact ⟨rfl, rfl, fun h => h⟩
  | cons gi rest ih =>
    intro l hs
    obtain ⟨e1, e2, e3⟩ := memTracker_createStep_noop K workflow s hK g fuel n repoName gi
      ⟨T, l⟩ (hs gi (List.mem_cons_self _ _))
    unfold compareSyncIssues_createPass
    cases hst : compareSyncIssues_createStep (memTracker K workflow) s (n + 1) repoName gi
        ⟨T, l⟩ with
    | mk r w1 =>
      rw [hst] at e1 e2 e3
      simp only at e1 e2 e3
      subst e1
      simp only
      obtain ⟨r1, r2, r3⟩ := ih w1.log (fun g2 hg2 => hs g2 (List.mem_cons_of_mem _ hg2))
      have hw1 : w1 = ⟨T, w1.log⟩ := by
        cases w1
        simp only at e2
        rw [e2]
      rw [hw1]
      exact ⟨r1, r2, fun h => r3 (e3 h)⟩

theorem memTracker_updatePass_noop (K : GoString) (workflow : GoString → Option GoString)
    (s : Server) (hK : mapGet s.Config.FieldIDs .gitHubID = some K) (g : GithubClient)
    (fuel : Nat)
    (hcomments : ∀ owner repo number,
      (getGithubIssueComments g s fuel owner repo number).isSome = true)
    (repoName : GoString) (T : Tracker) (hwf : WellFormed T) :
    ∀ (L : List GithubIssue) (l : List (JiraCall × Option GoError)),
      (∀ gi ∈ L, Settled K workflow s g fuel repoName gi T) →
      (compareSyncIssues_updatePass (memTracker K workflow) g s fuel repoName L
          ⟨T, l⟩).2.tracker = T ∧
        (NothingCreated l →
          NothingCreated (compareSyncIssues_updatePass (memTracker K workflow) g s fuel
            repoName L ⟨T, l⟩).2.log) := by
  intro L
  induction L with
  | nil =>
    intro l _
    exact ⟨rfl, fun h => h⟩
  | cons gi rest ih =>
    intro l hs
    obtain ⟨e2, e3⟩ := memTracker_issue_noop K workflow s hK g fuel repoName gi ⟨T, l⟩ hwf
      (hs gi (List.mem_cons_self _ _))
    have e1 := compareSyncIssues_issue_total (memTracker K workflow) g s fuel repoName gi
      ⟨T, l⟩ hcomments
    unfold compareSyncIssues_updatePass
    cases hst : compareSyncIssues_issue (memTracker K workflow) g s fuel repoName gi
        ⟨T, l⟩ with
    | mk r w1 =>
      rw [hst] at e1 e2 e3
      simp only at e1 e2 e3
      subst e1
      simp only
      obtain ⟨r2, r3⟩ := ih w1.log (fun g2 hg2 => hs g2 (List.mem_cons_of_mem _ hg2))
      have hw1 : w1 = ⟨T, w1.log⟩ := by
        cases w1
        simp only at e2
        rw [e2]
      rw [hw1]
      exact ⟨r2, fun h => r3 (e3 h)⟩

theorem memTracker_repos_noop (K : GoString) (workflow : GoString → Option GoString)
    (s : Server) (hK : mapGet s.Config.FieldIDs .gitHubID = some K) (g : GithubClient)
    (n : Nat)
    (hcomments : ∀ owner repo number,
      (getGithubIssueComments g s (n + 2) owner repo number).isSome = true)
    (T : Tracker) (hwf : WellFormed T) :
    ∀ (repoNames : List GoString) (errReturn : Option GoError)
      (l : List (JiraCall × Option GoError)),
      (∀ job ∈ passJobs g s (n + 2) repoNames,
        Settled K workflow s g (n + 2) job.1 job.2 T) →
      (∀ repoName ∈ repoNames,
        (getGithubIssuesByRepo g s (n + 2) (s.Config.repo repoName).GithubOwner
          repoName).isSome = true) →
      (compareSyncIssues_repos (memTracker K workflow) g s (n + 2) repoNames errReturn
          ⟨T, l⟩).2.tracker = T ∧
        (NothingCreated l →
          NothingCreated (compareSyncIssues_repos (memTracker K workflow) g s (n + 2)
            repoNames errReturn ⟨T, l⟩).2.log) := by
  intro repoNames
  induction repoNames with
  | nil =>
    intro errReturn l _ _
    exact ⟨rfl, fun h => h⟩
  | cons r rest ih =>
    intro errReturn l hs hlist
    have hl := hlist r (List.mem_cons_self _ _)
    have hlist2 : ∀ repoName ∈ rest,
        (getGithubIssuesByRepo g s (n + 2) (s.Config.repo repoName).GithubOwner
          repoName).isSome = true :=
      fun x hx => hlist x (List.mem_cons_of_mem _ hx)
    unfold compareSyncIssues_repos
    unfold passJobs at hs
    cases hg : getGithubIssuesByRepo g s (n + 2) (s.Config.repo r).GithubOwner r with
    | none =>
      rw [hg] at hl
      cases hl
    | some res =>
      cases res with
      | error err =>
        rw [hg] at hs
        simp only [List.nil_append] at hs ⊢
        exact ih (some err) l hs hlist2
      | ok L =>
        rw [hg] at hs
        simp only at hs ⊢
        have hsL : ∀ gi ∈ L, Settled K workflow s g (n + 2) r gi T :=
          fun gi hgi => hs (r, gi)
            (List.mem_append_left _ (List.mem_map_of_mem (fun gi => (r, gi)) hgi))
        obtain ⟨c1, c2, c3⟩ := memTracker_createPass_noop K workflow s hK g (n + 2) (n + 1) r T
          L l hsL
        unfold compareSyncIssues_repo
        cases hc : compareSyncIssues_createPass (memTracker K workflow) s (n + 2) r L
            ⟨T, l⟩ with
        | mk o w1 =>
          rw [hc] at c1 c2 c3
          simp only at c1 c2 c3
          subst c1
          simp only
          have hw1 : w1 = ⟨T, w1.log⟩ := by
            cases w1
            simp only at c2
            rw [c2]
          obtain ⟨u2, u3⟩ := memTracker_updatePass_noop K workflow s hK g (n + 2) hcomments r T
            hwf L w1.log hsL
          have utot := compareSyncIssues_updatePass_total (memTracker K workflow) g s (n + 2) r
            L hcomments ⟨T, w1.log⟩
          rw [hw1]
          cases hu : compareSyncIssues_updatePass (memTracker K workflow) g s (n + 2) r L
              ⟨T, w1.log⟩ with
          | mk o2 w2 =>
            rw [hu] at u2 u3 utot
            simp only at u2 u3 utot
            subst utot
            simp only
            have hw2 : w2 = ⟨T, w2.log⟩ := by
              cases w2
              simp only at u2
              rw [u2]
            obtain ⟨q1, q2⟩ := ih errReturn w2.log
              (fun job hjob => hs job (List.mem_append_right _ hjob)) hlist2
            rw [hw2]
            exact ⟨q1, fun h => q2 (u3 (c3 h))⟩

theorem readLastSyncTime_eq (s : Server) (k : Clock) (f : SyncFile) :
    ∃ x, readLastSyncTime s k f =
      { s with Config := { s.Config with GithubIssueSince := x } } := by
  unfold readLastSyncTime
  split
  · split
    · exact ⟨s.Config.GithubIssueSince, rfl⟩
    · split
      · exact ⟨s.Config.GithubIssueSince, rfl⟩
      · exact ⟨_, rfl⟩
  · exact ⟨s.Config.GithubIssueSince, rfl⟩

theorem Settled_window (K : GoString) (workflow : GoString → Option GoString) (s : Server)
    (g : GithubClient) (fuel : Nat) (x1 x2 : Int) (repoName : GoString)
    (githubIssue : GithubIssue) (T : Tracker)
    (hsub : ∀ owner repo number L2,
      getGithubIssueComments g { s with Config := { s.Config with GithubIssueSince := x2 } }
        fuel owner repo number = some (.ok L2) →
      ∃ L1, getGithubIssueComments g { s with Config := { s.Config with GithubIssueSince := x1 } }
          fuel owner repo number = some (.ok L1) ∧ ∀ gc ∈ L2, gc ∈ L1)
    (h : Settled K workflow { s with Config := { s.Config with GithubIssueSince := x1 } } g fuel
      repoName githubIssue T) :
    Settled K workflow { s with Config := { s.Config with GithubIssueSince := x2 } } g fuel
      repoName githubIssue T := by
  unfold Settled at h ⊢
  cases hf : T.issues.find? (correlated K (s.Config.repo repoName).JiraProjectKey
      githubIssue.ID) with
  | none =>
    have hf1 : T.issues.find? (correlated K
        (({ s with Config := { s.Config with GithubIssueSince := x1 } } : Server).Config.repo
          repoName).JiraProjectKey githubIssue.ID) = none := hf
    have hf2 : T.issues.find? (correlated K
        (({ s with Config := { s.Config with GithubIssueSince := x2 } } : Server).Config.repo
          repoName).JiraProjectKey githubIssue.ID) = none := hf
    rw [hf1] at h
    rw [hf2]
    exact h
  | some J =>
    have hf1 : T.issues.find? (correlated K
        (({ s with Config := { s.Config with GithubIssueSince := x1 } } : Server).Config.repo
          repoName).JiraProjectKey githubIssue.ID) = some J := hf
    have hf2 : T.issues.find? (correlated K
        (({ s with Config := { s.Config with GithubIssueSince := x2 } } : Server).Config.repo
          repoName).JiraProjectKey githubIssue.ID) = some J := hf
    rw [hf1] at h
    rw [hf2]
    refine ⟨h.1, ?_⟩
    have hc := h.2
    unfold CommentsSettled at hc ⊢
    by_cases hz : githubIssue.Comments = 0
    · simp only [hz, if_true] at hc ⊢
      exact hc
    · simp only [hz, if_false] at hc ⊢
      cases h2 : getGithubIssueComments g
          { s with Config := { s.Config with GithubIssueSince := x2 } } fuel
          (({ s with Config := { s.Config with GithubIssueSince := x2 } } : Server).Config.repo
            repoName).GithubOwner repoName githubIssue.Number with
      | none => trivial
      | some res =>
        cases res with
        | error e => trivial
        | ok L2 =>
          obtain ⟨L1, h1, hmem⟩ := hsub _ _ _ L2 h2
          have h1b : getGithubIssueComments g
              { s with Config := { s.Config with GithubIssueSince := x1 } } fuel
              (({ s with Config := { s.Config with GithubIssueSince := x1 } } :
                Server).Config.repo repoName).GithubOwner repoName githubIssue.Number =
              some (.ok L1) := h1
          rw [h1b] at hc
          intro gc hgc
          exact hc gc (hmem gc hgc)

theorem passJobs_window (g : GithubClient) (s : Server) (fuel : Nat) (x1 x2 : Int) :
    ∀ repoNames : List GoString,
      (∀ repoName ∈ repoNames, ∀ L2,
        getGithubIssuesByRepo g { s with Config := { s.Config with GithubIssueSince := x2 } }
          fuel (s.Config.repo repoName).GithubOwner repoName = some (.ok L2) →
        ∃ L1, getGithubIssuesByRepo g
            { s with Config := { s.Config with GithubIssueSince := x1 } }
            fuel (s.Config.repo repoName).GithubOwner repoName = some (.ok L1) ∧
          ∀ gi ∈ L2, gi ∈ L1) →
      ∀ job ∈ passJobs g { s with Config := { s.Config with GithubIssueSince := x2 } } fuel
          repoNames,
        job ∈ passJobs g { s with Config := { s.Config with GithubIssueSince := x1 } } fuel
          repoNames := by
  intro repoNames
  induction repoNames with
  | nil =>
    intro _ job hjob
    cases hjob
  | cons r rest ih =>
    intro h job hjob
    unfold passJobs at hjob ⊢
    rcases List.mem_append.mp hjob with hj | hj
    · apply List.mem_append_left
      cases h2 : getGithubIssuesByRepo g
          { s with Config := { s.Config with GithubIssueSince := x2 } } fuel
          (s.Config.repo r).GithubOwner r with
      | none =>
        have h2b : getGithubIssuesByRepo g
            { s with Config := { s.Config with GithubIssueSince := x2 } } fuel
            (({ s with Config := { s.Config with GithubIssueSince := x2 } } :
              Server).Config.repo r).GithubOwner r = none := h2
        rw [h2b] at hj
        cases hj
      | some res =>
        have h2b : getGithubIssuesByRepo g
            { s with Config := { s.Config with GithubIssueSince := x2 } } fuel
            (({ s with Config := { s.Config with GithubIssueSince := x2 } } :
              Server).Config.repo r).GithubOwner r = some res := h2
        rw [h2b] at hj
        cases res with
        | error e => cases hj
        | ok L2 =>
          obtain ⟨L1, h1, hmem⟩ := h r (List.mem_cons_self _ _) L2 h2
          have h1b : getGithubIssuesByRepo g
              { s with Config := { s.Config with GithubIssueSince := x1 } } fuel
              (({ s with Config := { s.Config with GithubIssueSince := x1 } } :
                Server).Config.repo r).GithubOwner r = some (.ok L1) := h1
          rw [h1b]
          simp only at hj ⊢
          obtain ⟨gi, hgi, rfl⟩ := List.mem_map.mp hj
          exact List.mem_map_of_mem _ (hmem gi hgi)
    · exact List.mem_append_right _
        (ih (fun x hx => h x (List.mem_cons_of_mem _ hx)) job hj)

theorem emptyTracker_wellFormed : WellFormed emptyTracker :=
  ⟨List.nodup_nil, List.nodup_nil, List.nodup_nil,
    fun _ h => absurd h (List.not_mem_nil _),
    fun _ h => absurd h (List.not_mem_nil _),
    fun _ h => absurd h (List.not_mem_nil _)⟩

theorem sampleCommentedGithub_wellFormed : SourceWellFormed sampleCommentedGithub
    (readLastSyncTime sampleStoreServer sampleClock sampleFile) 2 [lit "tidb"] :=
  ⟨fun r hr => by rw [List.mem_singleton.mp hr]; rfl,
    fun _ _ _ => rfl,
    List.nodup_singleton _,
    fun _ _ _ L h => by
      have e : L = [sampleComment, sampleSecondComment] := by
        have h1 : some (Except.ok [sampleComment, sampleSecondComment]) =
            some (Except.ok (ε := GoError) L) := h
        injection h1 with h2
        injection h2 with h3
        exact h3.symm
      subst e
      refine ⟨by decide, ?_⟩
      intro gc hgc
      rcases List.mem_cons.mp hgc with e | hgc
      · subst e; decide
      · rw [List.mem_singleton.mp hgc]; decide⟩

theorem sampleCommentedGithub_unchanged : SourceUnchanged sampleCommentedGithub
    (readLastSyncTime sampleStoreServer sampleClock sampleFile)
    (readLastSyncTime sampleStoreServer sampleLaterClock
      (writeLastSyncTime sampleClock sampleFile))
    2 [lit "tidb"] :=
  ⟨fun r hr => by rw [List.mem_singleton.mp hr]; rfl,
    fun _ _ _ => rfl,
    fun r hr L h => by
      rw [List.mem_singleton.mp hr] at h ⊢
      exact ⟨L, h, fun _ h => h⟩,
    fun _ _ _ L h => ⟨L, h, fun _ h => h⟩⟩

/-! ## Theorems -/

/-- C2. Truncation: `shrinkString s n` is `s` when `len(s) <= n`; otherwise it is the first
`n` bytes of `s` followed by the fixed notice, of length exactly `n + len(notice)`. -/
theorem shrinkString_spec (s : GoString) (n : Nat) :
    shrinkNotice =
        lit "\n\nNotice: The entered text is too long. It exceeds the allowed limit of 30,000 characters." ∧
      (s.length ≤ n → shrinkString s n = s) ∧
      (n < s.length →
        shrinkString s n = s.take n ++ shrinkNotice ∧
          (shrinkString s n).take n = s.take n ∧
          (shrinkString s n).drop n = shrinkNotice ∧
          (shrinkString s n).length = n + shrinkNotice.length) := by
  refine ⟨rfl, ?_, ?_⟩
  · intro h
    simp [shrinkString, Nat.not_lt.mpr h]
  · intro h
    have hlen : (s.take n).length = n := by
      simp [List.length_take, Nat.min_eq_left (Nat.le_of_lt h)]
    have hs : shrinkString s n = s.take n ++ shrinkNotice := by
      simp [shrinkString, h]
    refine ⟨hs, ?_, ?_, ?_⟩
    · rw [hs, List.take_append_of_le_length (by omega)]
      simp [List.take_take]
    · rw [hs, List.drop_append_of_le_length (by omega)]
      simp [List.drop_take]
    · rw [hs, List.length_append, hlen]

/-- Witness of C2 on a four-byte text cut at two bytes and on a text under the maximum. -/
theorem shrinkString_spec_witness :
    shrinkString (lit "ab") 2 = lit "ab" ∧
      shrinkString (lit "abcd") 2 = lit "ab" ++ shrinkNotice ∧
      (shrinkString (lit "abcd") 2).length = 2 + shrinkNotice.length := by
  have h := shrinkString_spec (lit "abcd") 2
  have h2 := (shrinkString_spec (lit "ab") 2).2.1 (by decide)
  have h3 := h.2.2 (by decide)
  exact ⟨h2, h3.1, h3.2.2.2⟩

/-- C1. Comment correlation round-trip: a target comment whose body is
`jiraIssueCommentFormat(body, options)` with `githubIssueCommentID = FormatInt(n)`, for a
non-negative `int64` identifier `n`, is found by `doFindComment` when queried with `n`
(alone, and in any list that contains it a comment is found), and is never the comment
found when the query is an identifier `m` different from `n`. -/
theorem comment_roundtrip (markdown : Converter) (body : GoString)
    (options : githubIssueCommentOptions) (n : Int) (h0 : 0 ≤ n) (h63 : n < 2 ^ 63)
    (hid : options.githubIssueCommentID = FormatInt n) (c : JiraComment)
    (hc : c.Body = jiraIssueCommentFormat markdown body options) :
    doFindComment [c] n = (c, true) ∧
      (∀ cs, c ∈ cs → (doFindComment cs n).2 = true) ∧
      (∀ pre post, (∀ x ∈ pre, carriesID n x = false) →
        doFindComment (pre ++ c :: post) n = (c, true)) ∧
      (∀ m, m ≠ n → doFindComment [c] m = (JiraComment.zero, false)) ∧
      (∀ cs m, m ≠ n → doFindComment cs m ≠ (c, true)) := by
  have hcar := carriesID_format markdown body options n h0 h63 hid c hc
  have hn : carriesID n c = true := by simp [hcar]
  refine ⟨?_, ?_, ?_, ?_, ?_⟩
  · rw [doFindComment_eq_find]
    simp [List.find?_cons, hn]
  · intro cs hmem
    rw [doFindComment_eq_find]
    cases hf : cs.find? (carriesID n) with
    | some x => rfl
    | none =>
      have := List.find?_eq_none.mp hf c hmem
      simp [hn] at this
  · intro pre post hpre
    rw [doFindComment_eq_find]
    have : (pre ++ c :: post).find? (carriesID n) = some c := by
      induction pre with
      | nil => simp [List.find?_cons, hn]
      | cons x pre ih =>
        have hx : carriesID n x = false := hpre x (List.mem_cons_self _ _)
        simp only [List.cons_append, List.find?_cons, hx]
        exact ih (fun y hy => hpre y (List.mem_cons_of_mem _ hy))
    rw [this]
  · intro m hm
    rw [doFindComment_eq_find]
    have : carriesID m c = false := by simp [hcar, hm]
    simp [List.find?_cons, this]
  · intro cs m hm hfound
    rw [doFindComment_eq_find] at hfound
    cases hf : cs.find? (carriesID m) with
    | none =>
      rw [hf] at hfound
      simp at hfound
    | some x =>
      rw [hf] at hfound
      simp only [Prod.mk.injEq, and_true] at hfound
      have hx := List.find?_some hf
      rw [hfound, hcar] at hx
      simp [hm] at hx

/-- Witness of C1: the comment formatted for source comment `7` (converter the identity). -/
theorem comment_roundtrip_witness :
    doFindComment
        [⟨lit "10001", jiraIssueCommentFormat (fun b => .ok b) (lit "hello")
            ⟨lit "7", lit "https://github.com/o/r/issues/1#issuecomment-7", lit "octocat",
              lit "https://github.com/octocat", lit "", lit "10:00 AM, January 2 2020"⟩,
          lit "sync"⟩] 7 =
      (⟨lit "10001", jiraIssueCommentFormat (fun b => .ok b) (lit "hello")
            ⟨lit "7", lit "https://github.com/o/r/issues/1#issuecomment-7", lit "octocat",
              lit "https://github.com/octocat", lit "", lit "10:00 AM, January 2 2020"⟩,
          lit "sync"⟩, true) :=
  (comment_roundtrip (fun b => .ok b) (lit "hello")
    ⟨lit "7", lit "https://github.com/o/r/issues/1#issuecomment-7", lit "octocat",
      lit "https://github.com/octocat", lit "", lit "10:00 AM, January 2 2020"⟩ 7
    (by decide) (by decide) (by decide) _ rfl).1

/-- C3, evaluation at the failing input. The target comment's token has the digit string
`9223372036854775808`, which denotes `2^63`; `strconv.ParseInt` reads it as
`2^63 - 1 = 9223372036854775807` with a range error that `doFindComment` discards, so a
query for the identifier `9223372036854775807` finds this comment although its digits
denote a different number. -/
theorem doFindComment_out_of_range :
    jCommentIDRegex_FindStringSubmatch
        (lit "Comment [(ID 9223372036854775808)|u] from GitHub user [a|b] at t\n\n----\n\nx\n") =
        some (lit "9223372036854775808") ∧
      digitsValue (lit "9223372036854775808") = 2 ^ 63 ∧
      ParseInt (lit "9223372036854775808") = (9223372036854775807, true) ∧
      doFindComment
          [⟨lit "1",
            lit "Comment [(ID 9223372036854775808)|u] from GitHub user [a|b] at t\n\n----\n\nx\n",
            lit "sync"⟩] 9223372036854775807 =
        (⟨lit "1",
            lit "Comment [(ID 9223372036854775808)|u] from GitHub user [a|b] at t\n\n----\n\nx\n",
            lit "sync"⟩, true) := by
  refine ⟨by decide, by decide, by decide, by decide⟩

/-! ### The correlation index -/

/-- The number of `Create` calls of the retry loop is not bounded: as long as the tracker
answers with an error matching `reAssigneeError`, the loop of `handleIssueEventOpen` calls
`Create` again (here from an issue whose assignee is already cleared). -/
theorem handleIssueEventOpen_loop_replicate (n : Nat) (e : GoError)
    (he : reAssigneeError_MatchString e.msg = true) (jiraIssue : JiraIssue)
    (hj : jiraIssue.Fields.Assignee = none)
    (w : World (List JiraResp)) (rest : List JiraResp)
    (hw : w.tracker = List.replicate n (JiraResp.fail e) ++ rest) :
    (handleIssueEventOpen_loop scripted n jiraIssue w).1 = none ∧
      (handleIssueEventOpen_loop scripted n jiraIssue w).2.tracker = rest ∧
      (handleIssueEventOpen_loop scripted n jiraIssue w).2.log =
        w.log ++ List.replicate n (JiraCall.Create jiraIssue, some e) := by
  induction n generalizing w with
  | zero =>
    simp only [List.replicate_zero, List.nil_append] at hw
    simp [handleIssueEventOpen_loop, hw]
  | succ n ih =>
    have hcreate : IssueCreate scripted jiraIssue w =
        (.error e, ⟨List.replicate n (JiraResp.fail e) ++ rest,
          w.log ++ [(.Create jiraIssue, some e)]⟩) := by
      simp [IssueCreate, scripted, hw, List.replicate_succ, JiraResp.asIssue, errOf]
    have hclear : ({ jiraIssue with Fields := { jiraIssue.Fields with Assignee := none } } :
        JiraIssue) = jiraIssue := by
      cases jiraIssue with
      | mk id key fields =>
        cases fields
        simp only at hj
        subst hj
        rfl
    unfold handleIssueEventOpen_loop
    rw [hcreate]
    simp only [he, if_true, hclear]
    obtain ⟨h1, h2, h3⟩ := ih
      ⟨List.replicate n (JiraResp.fail e) ++ rest, w.log ++ [(.Create jiraIssue, some e)]⟩ rfl
    refine ⟨h1, h2, ?_⟩
    rw [h3]
    simp [List.replicate_succ]

/-- C5, evaluation at the failing input. The tracker rejects the first `Create` and the
retry with an error matching `reAssigneeError`, then accepts.  `handleIssueEventOpen`
issues three `Create` calls (the second and third without assignee) and returns no error,
where the claim allows two calls and has the retry's failure returned;
`compareSyncIssuesCreate`, on the same two rejections, panics on the nil assignee when it
writes the warning for the second retry. -/
theorem create_retry_not_bounded :
    reAssigneeError_MatchString sampleAssigneeError.msg = true ∧
      (handleIssueEventOpen scripted sampleServer 3 sampleEvent
        (scriptWorld [.fail sampleAssigneeError, .fail sampleAssigneeError,
          .issue sampleJiraIssue])).1 = some none ∧
      (handleIssueEventOpen scripted sampleServer 3 sampleEvent
        (scriptWorld [.fail sampleAssigneeError, .fail sampleAssigneeError,
          .issue sampleJiraIssue])).2.log =
        [(.Create (jiraIssueOpenFormat sampleServer 42 (lit "tidb") (lit "T") (lit "B")
            (extractGithubIssueOptions sampleServer sampleIssue)), some sampleAssigneeError),
          (.Create { (jiraIssueOpenFormat sampleServer 42 (lit "tidb") (lit "T") (lit "B")
            (extractGithubIssueOptions sampleServer sampleIssue)) with
              Fields := { (jiraIssueOpenFormat sampleServer 42 (lit "tidb") (lit "T") (lit "B")
                (extractGithubIssueOptions sampleServer sampleIssue)).Fields with
                  Assignee := none } }, some sampleAssigneeError),
          (.Create { (jiraIssueOpenFormat sampleServer 42 (lit "tidb") (lit "T") (lit "B")
            (extractGithubIssueOptions sampleServer sampleIssue)) with
              Fields := { (jiraIssueOpenFormat sampleServer 42 (lit "tidb") (lit "T") (lit "B")
                (extractGithubIssueOptions sampleServer sampleIssue)).Fields with
                  Assignee := none } }, none)] ∧
      (jiraIssueOpenFormat sampleServer 42 (lit "tidb") (lit "T") (lit "B")
        (extractGithubIssueOptions sampleServer sampleIssue)).Fields.Assignee =
        some ⟨lit "alice.j"⟩ ∧
      (compareSyncIssuesCreate scripted sampleServer 3 sampleIssue (lit "tidb")
        (scriptWorld [.fail sampleAssigneeError, .fail sampleAssigneeError,
          .issue sampleJiraIssue])).1 = some .panic ∧
      (compareSyncIssuesCreate scripted sampleServer 3 sampleIssue (lit "tidb")
        (scriptWorld [.fail sampleAssigneeError, .fail sampleAssigneeError,
          .issue sampleJiraIssue])).2.log.length = 2 := by
  refine ⟨by decide, ?_, ?_, ?_, ?_, ?_⟩
  · rfl
  · rfl
  · rfl
  · rfl
  · rfl

/-! ### Incremental handlers -/

/-- C8. For every incremental handler other than issue opened: when resolving the target
issue fails with an error `e` (the not-found error or any other), the handler returns `e`
and ends in the world `findIssue` left, whose log has gained the search call and nothing
else: no mutating call is issued, in particular no create. -/
theorem lookup_failure_aborts {σ : Type} (c : JiraClient σ) (s : Server) (issuetypeFirst : Bool)
    (i : IssuesEvent) (ic : IssueCommentEvent) (w : World σ) :
    (∀ e, (findIssue c s (s.Config.repo i.RepoName).JiraProjectKey i.Issue.ID w).1 = .error e →
        handleIssueEventClosed c s i w =
          (some e, (findIssue c s (s.Config.repo i.RepoName).JiraProjectKey i.Issue.ID w).2) ∧
        handleIssueEventReopen c s i w =
          (some e, (findIssue c s (s.Config.repo i.RepoName).JiraProjectKey i.Issue.ID w).2) ∧
        handleIssueEventEdit c s i w =
          (.error e, (findIssue c s (s.Config.repo i.RepoName).JiraProjectKey i.Issue.ID w).2) ∧
        handleIssueEventAssign c s i w =
          (some e, (findIssue c s (s.Config.repo i.RepoName).JiraProjectKey i.Issue.ID w).2) ∧
        handleIssueEventUnassign c s i w =
          (.ret (some e),
            (findIssue c s (s.Config.repo i.RepoName).JiraProjectKey i.Issue.ID w).2) ∧
        handleIssueEventLabel c s issuetypeFirst i w =
          (some e, (findIssue c s (s.Config.repo i.RepoName).JiraProjectKey i.Issue.ID w).2) ∧
        handleIssueEventUnlabel c s issuetypeFirst i w =
          (some e, (findIssue c s (s.Config.repo i.RepoName).JiraProjectKey i.Issue.ID w).2)) ∧
      (∀ e, (findIssue c s (s.Config.repo ic.RepoName).JiraProjectKey ic.Issue.ID w).1 = .error e →
        handleIssueCommentCreate c s ic w =
          (some e, (findIssue c s (s.Config.repo ic.RepoName).JiraProjectKey ic.Issue.ID w).2) ∧
        handleIssueCommentEdit c s ic w =
          (some e, (findIssue c s (s.Config.repo ic.RepoName).JiraProjectKey ic.Issue.ID w).2) ∧
        handleIssueCommentDelete c s ic w =
          (some e, (findIssue c s (s.Config.repo ic.RepoName).JiraProjectKey ic.Issue.ID w).2)) ∧
      (∀ projectKey issueID,
        (∃ r, (findIssue c s projectKey issueID w).2.log =
          w.log ++ [(.Search (findIssueJQL s projectKey issueID), r)]) ∧
        ∀ x ∈ (findIssue c s projectKey issueID w).2.log.drop w.log.length,
          x.1.isMutating = false) := by
  refine ⟨?_, ?_, ?_⟩
  · intro e h
    have heq := findIssue_eq_of_error c s _ _ w e h
    refine ⟨?_, ?_, ?_, ?_, ?_, ?_, ?_⟩
    · unfold handleIssueEventClosed
      simp only
      rw [heq]
    · unfold handleIssueEventReopen
      simp only
      rw [heq]
    · unfold handleIssueEventEdit
      simp only
      rw [heq]
    · unfold handleIssueEventAssign
      simp only
      rw [heq]
    · unfold handleIssueEventUnassign
      simp only
      rw [heq]
    · unfold handleIssueEventLabel
      simp only
      rw [heq]
    · unfold handleIssueEventUnlabel
      simp only
      rw [heq]
  · intro e h
    have heq := findIssue_eq_of_error c s _ _ w e h
    refine ⟨?_, ?_, ?_⟩
    · unfold handleIssueCommentCreate
      simp only
      rw [heq]
    · unfold handleIssueCommentEdit
      simp only
      rw [heq]
    · unfold handleIssueCommentDelete
      simp only
      rw [heq]
  · intro projectKey issueID
    have hlog := (findIssue_log c s projectKey issueID w).1
    refine ⟨⟨_, hlog⟩, ?_⟩
    intro x hx
    rw [hlog, List.drop_left] at hx
    simp only [List.mem_singleton] at hx
    rw [hx]
    rfl

/-- Witness of C8: the search finds nothing (first part) or fails (comment handlers). -/
theorem lookup_failure_aborts_witness :
    (handleIssueEventClosed scripted sampleServer sampleEvent (scriptWorld [.issues []])).1 =
        some (errorsNew "Issue not exists") ∧
      (handleIssueEventClosed scripted sampleServer sampleEvent
        (scriptWorld [.issues []])).2.log =
        [(.Search (findIssueJQL sampleServer (lit "TIDB") 42), none)] ∧
      (handleIssueCommentCreate scripted sampleServer sampleCommentEvent
        (scriptWorld [.fail ⟨lit "connection refused"⟩])).1 = some ⟨lit "connection refused"⟩ :=
  ⟨congrArg Prod.fst
      ((lookup_failure_aborts scripted sampleServer true sampleEvent sampleCommentEvent
        (scriptWorld [.issues []])).1 (errorsNew "Issue not exists") rfl).1,
    rfl,
    congrArg Prod.fst
      ((lookup_failure_aborts scripted sampleServer true sampleEvent sampleCommentEvent
        (scriptWorld [.fail ⟨lit "connection refused"⟩])).2.1 ⟨lit "connection refused"⟩ rfl).1⟩

/-- For a target issue that has an assignee, `handleIssueEventUnassign` behaves as
specified: one `UpdateAssignee` call with an empty user, whose error (if any) it returns,
when the login is mapped to the current assignee's name; no call and no error when the
login is unmapped or mapped to another name. -/
theorem handleIssueEventUnassign_assigned {σ : Type} (c : JiraClient σ) (s : Server)
    (i : IssuesEvent) (w w1 : World σ) (jiraIssue : JiraIssue) (current : JiraUser)
    (h : findIssue c s (s.Config.repo i.RepoName).JiraProjectKey i.Issue.ID w =
      (.ok jiraIssue, w1))
    (hcur : jiraIssue.Fields.Assignee = some current) :
    (mapGet s.Config.AssigneeMap i.Assignee.Login = some current.Name →
        (handleIssueEventUnassign c s i w).1 =
          .ret (c.UpdateAssignee jiraIssue.ID (some ⟨[]⟩) w1.tracker).1 ∧
        (handleIssueEventUnassign c s i w).2.log =
          w1.log ++ [(.UpdateAssignee jiraIssue.ID (some ⟨[]⟩),
            (c.UpdateAssignee jiraIssue.ID (some ⟨[]⟩) w1.tracker).1)]) ∧
      (mapGet s.Config.AssigneeMap i.Assignee.Login ≠ some current.Name →
        handleIssueEventUnassign c s i w = (.ret none, w1)) := by
  constructor
  · intro hm
    unfold handleIssueEventUnassign
    simp only
    rw [h]
    simp only [hm, hcur, ne_eq, not_true_eq_false, if_false]
    cases hr : (c.UpdateAssignee jiraIssue.ID (some ⟨[]⟩) w1.tracker).1 with
    | none => simp [IssueUpdateAssignee, hr]
    | some e => simp [IssueUpdateAssignee, hr]
  · intro hm
    unfold handleIssueEventUnassign
    simp only
    rw [h]
    cases hg : mapGet s.Config.AssigneeMap i.Assignee.Login with
    | none => rfl
    | some name =>
      have hne : name ≠ current.Name := by
        intro hh
        rw [hg, hh] at hm
        exact hm rfl
      simp [hcur, hne]

/-- C10, evaluation at the failing input. The source login `alice` is mapped and the
resolved target issue has no assignee: `handleIssueEventUnassign` panics on the nil
assignee pointer instead of returning no error. -/
theorem handleIssueEventUnassign_nil_assignee :
    mapGet sampleServer.Config.AssigneeMap sampleEvent.Assignee.Login = some (lit "alice.j") ∧
      sampleJiraIssue.Fields.Assignee = none ∧
      (findIssue scripted sampleServer (lit "TIDB") 42
        (scriptWorld [.issues [sampleJiraIssue]])).1 = .ok sampleJiraIssue ∧
      (handleIssueEventUnassign scripted sampleServer sampleEvent
        (scriptWorld [.issues [sampleJiraIssue]])).1 = .panic ∧
      (handleIssueEventUnassign scripted sampleServer sampleEvent
        (scriptWorld [.issues [sampleJiraIssue]])).2.log =
        [(.Search (findIssueJQL sampleServer (lit "TIDB") 42), none)] :=
  ⟨rfl, rfl, rfl, rfl, rfl⟩

/-! ### Correlation uniqueness -/

/-- C6 (as amended). Over any tracker that holds a collection of issues (`IssueCollection`)
in which at most one issue exists per (project key, source issue identifier): every
incremental handler other than issue opened, and every step of the creation pass of the
reconciliation, leaves such a collection.  Issue opened creates a target issue without
looking one up: it keeps the invariant when the source issue has no target issue yet, and
the issue it then creates is the one `findIssue` returns.  Likewise the issue that
`compareSyncIssuesCreate` returns, created when the source issue had no target issue, is
the one `findIssue` returns afterwards, and the only one correlated. -/
theorem correlation_uniqueness {σ : Type} (c : JiraClient σ) (K : GoString)
    (issuesOf : σ → List JiraIssue) (h : IssueCollection c K issuesOf) (s : Server)
    (hK : mapGet s.Config.FieldIDs .gitHubID = some K)
    (hURL : mapGet s.Config.FieldIDs .gitHubURL ≠ some K) (fuel : Nat) (issuetypeFirst : Bool)
    (i : IssuesEvent) (ic : IssueCommentEvent) (repoName : GoString) (g : GithubIssue)
    (w : World σ) (hinv : AtMostOnePerKey K (issuesOf w.tracker)) :
    (AtMostOnePerKey K (issuesOf (handleIssueEventClosed c s i w).2.tracker) ∧
        AtMostOnePerKey K (issuesOf (handleIssueEventReopen c s i w).2.tracker) ∧
        AtMostOnePerKey K (issuesOf (handleIssueEventEdit c s i w).2.tracker) ∧
        AtMostOnePerKey K (issuesOf (handleIssueEventAssign c s i w).2.tracker) ∧
        AtMostOnePerKey K (issuesOf (handleIssueEventUnassign c s i w).2.tracker) ∧
        AtMostOnePerKey K (issuesOf (handleIssueEventLabel c s issuetypeFirst i w).2.tracker) ∧
        AtMostOnePerKey K (issuesOf (handleIssueEventUnlabel c s issuetypeFirst i w).2.tracker) ∧
        AtMostOnePerKey K (issuesOf (handleIssueCommentCreate c s ic w).2.tracker) ∧
        AtMostOnePerKey K (issuesOf (handleIssueCommentEdit c s ic w).2.tracker) ∧
        AtMostOnePerKey K (issuesOf (handleIssueCommentDelete c s ic w).2.tracker)) ∧
      AtMostOnePerKey K (issuesOf (compareSyncIssues_createStep c s fuel repoName g w).2.tracker) ∧
      ((issuesOf w.tracker).filter
            (correlated K (s.Config.repo i.RepoName).JiraProjectKey i.Issue.ID) = [] →
        AtMostOnePerKey K (issuesOf (handleIssueEventOpen c s fuel i w).2.tracker) ∧
        ((handleIssueEventOpen c s fuel i w).1 = some none →
          ∃ stored, issuesOf (handleIssueEventOpen c s fuel i w).2.tracker =
              issuesOf w.tracker ++ [stored] ∧
            (findIssue c s (s.Config.repo i.RepoName).JiraProjectKey i.Issue.ID
              (handleIssueEventOpen c s fuel i w).2).1 = .ok stored)) ∧
      (∀ resp,
        (issuesOf w.tracker).filter
            (correlated K (s.Config.repo repoName).JiraProjectKey g.ID) = [] →
        (compareSyncIssuesCreate c s fuel g repoName w).1 = some (.ret (.ok resp)) →
        ∃ x, (findIssue c s (s.Config.repo repoName).JiraProjectKey g.ID
              (compareSyncIssuesCreate c s fuel g repoName w).2).1 = .ok x ∧
          x.ID = resp.ID ∧ x.Key = resp.Key ∧
          (issuesOf (compareSyncIssuesCreate c s fuel g repoName w).2.tracker).filter
            (correlated K (s.Config.repo repoName).JiraProjectKey g.ID) = [x]) := by
  have hkeep : ∀ w2 : World σ, keysOf K issuesOf w2 = keysOf K issuesOf w →
      AtMostOnePerKey K (issuesOf w2.tracker) :=
    fun w2 hk => AtMostOnePerKey_of_keysOf K issuesOf w w2 hk hinv
  refine ⟨⟨?_, ?_, ?_, ?_, ?_, ?_, ?_, ?_, ?_, ?_⟩, ?_, ?_, ?_⟩
  · exact hkeep _ (handleIssueEventClosed_keys h s i w)
  · exact hkeep _ (handleIssueEventReopen_keys h s i w)
  · exact hkeep _ (handleIssueEventEdit_keys h s i w)
  · exact hkeep _ (handleIssueEventAssign_keys h s i w)
  · exact hkeep _ (handleIssueEventUnassign_keys h s i w)
  · exact hkeep _ (handleIssueEventLabel_keys h s issuetypeFirst i w)
  · exact hkeep _ (handleIssueEventUnlabel_keys h s issuetypeFirst i w)
  · exact hkeep _ (handleIssueCommentCreate_keys h s ic w)
  · exact hkeep _ (handleIssueCommentEdit_keys h s ic w)
  · exact hkeep _ (handleIssueCommentDelete_keys h s ic w)
  · -- a step of the creation pass
    rw [createStep_snd]
    have hfi := findIssue_issues h s (s.Config.repo repoName).JiraProjectKey g.ID w
    have hfk := findIssue_keys h s (s.Config.repo repoName).JiraProjectKey g.ID w
    have hres := findIssue_of_filter h s hK (s.Config.repo repoName).JiraProjectKey g.ID w
    cases hr : (findIssue c s (s.Config.repo repoName).JiraProjectKey g.ID w).1 with
    | ok x => exact hkeep _ hfk
    | error err =>
      simp only
      split
      · have hempty : (issuesOf w.tracker).filter
            (correlated K (s.Config.repo repoName).JiraProjectKey g.ID) = [] := by
          rw [hr] at hres
          cases hfl : (issuesOf w.tracker).filter
              (correlated K (s.Config.repo repoName).JiraProjectKey g.ID) with
          | nil => rfl
          | cons a l =>
            rw [hfl] at hres
            simp at hres
        rcases compareSyncIssuesCreate_collection h s fuel g repoName
            (findIssue c s (s.Config.repo repoName).JiraProjectKey g.ID w).2 with
          ⟨resp, stored, _, h2, _, _, h5, h6⟩ | ⟨_, h2⟩
        · apply AtMostOnePerKey_of_keys K _ _ h2
          rw [hfi]
          apply AtMostOnePerKey_append K _ _ hinv
          intro p n hc
          have hcor := jiraIssueOpenFormat_correlation s K hK g.ID repoName g.Title g.Body
            (extractGithubIssueOptions s g)
          rw [← h6] at hcor
          obtain ⟨hp, hn⟩ := correlated_stored K _ g.ID _ stored
            (h5.trans (jiraIssueOpenFormat_project s g.ID repoName g.Title g.Body _)) hcor p n hc
          rw [hp, hn]
          exact hempty
        · exact hkeep _ (h2.trans hfk)
      · exact hkeep _ hfk
  · -- issue opened, no target issue yet
    intro hempty
    have hcorInt := jiraIssueOpenFormat_correlation_int s K hK hURL i.Issue.ID i.RepoName
      i.Issue.Title i.Issue.Body (extractGithubIssueOptions s i.Issue)
    have hproj := jiraIssueOpenFormat_project s i.Issue.ID i.RepoName i.Issue.Title i.Issue.Body
      (extractGithubIssueOptions s i.Issue)
    unfold handleIssueEventOpen
    simp only
    rcases handleIssueEventOpen_loop_collection h fuel
        (jiraIssueOpenFormat s i.Issue.ID i.RepoName i.Issue.Title i.Issue.Body
          (extractGithubIssueOptions s i.Issue)) w with
      ⟨h1, stored, h2, h3, h4⟩ | ⟨h1, h2⟩
    · have hstored : correlated K (s.Config.repo i.RepoName).JiraProjectKey i.Issue.ID stored =
          true := by
        simp [correlated, h3, h4, hproj, hcorInt]
      constructor
      · rw [h2]
        apply AtMostOnePerKey_append K _ _ hinv
        intro p n hc
        obtain ⟨hp, hn⟩ := correlated_stored K _ i.Issue.ID [] stored (h3.trans hproj)
          (Or.inl (by rw [h4]; exact hcorInt)) p n hc
        rw [hp, hn]
        exact hempty
      · intro _
        refine ⟨stored, h2, ?_⟩
        rw [findIssue_of_filter h s hK, h2, List.filter_append, hempty]
        simp [List.filter_cons, hstored]
    · constructor
      · rw [h2]
        exact hinv
      · intro hh
        exact absurd hh h1
  · -- the issue compareSyncIssuesCreate returns
    intro resp hempty hret
    have hcorInt := jiraIssueOpenFormat_correlation_int s K hK hURL g.ID repoName
      g.Title g.Body (extractGithubIssueOptions s g)
    have hproj := jiraIssueOpenFormat_project s g.ID repoName g.Title g.Body
      (extractGithubIssueOptions s g)
    rcases compareSyncIssuesCreate_collection h s fuel g repoName w with
      ⟨resp2, stored, h1, h2, h3, h4, h5, h6⟩ | ⟨h1, _⟩
    · rw [hret] at h1
      simp only [Option.some.injEq, Outcome.ret.injEq, Except.ok.injEq] at h1
      subst h1
      have hstored : correlated K (s.Config.repo repoName).JiraProjectKey g.ID stored = true := by
        simp [correlated, h5, h6, hproj, hcorInt]
      have hfm := filter_map_ident K (s.Config.repo repoName).JiraProjectKey g.ID
        (issuesOf w.tracker ++ [stored])
        (issuesOf (compareSyncIssuesCreate c s fuel g repoName w).2.tracker) h2
      rw [List.filter_append, hempty] at hfm
      simp only [List.nil_append, List.filter_cons, hstored, if_true, List.filter_nil,
        List.map_cons, List.map_nil] at hfm
      cases hfl : (issuesOf (compareSyncIssuesCreate c s fuel g repoName w).2.tracker).filter
          (correlated K (s.Config.repo repoName).JiraProjectKey g.ID) with
      | nil =>
        rw [hfl] at hfm
        simp at hfm
      | cons x l =>
        rw [hfl] at hfm
        simp only [List.map_cons, List.cons.injEq, List.map_eq_nil_iff] at hfm
        obtain ⟨hx, hl⟩ := hfm
        subst hl
        refine ⟨x, ?_, ?_, ?_, rfl⟩
        · rw [findIssue_of_filter h s hK, hfl]
        · have := congrArg Prod.fst hx
          simp only [ident] at this
          rw [this, h3]
        · have := congrArg (fun t => t.2.1) hx
          simp only [ident] at this
          rw [this, h4]
    · exact absurd hret (h1 resp)

/-- Witness of C6: the creation pass on an empty tracker, for `sampleIssue`. -/
theorem correlation_uniqueness_witness :
    AtMostOnePerKey (lit "10109")
        (compareSyncIssues_createStep (memTracker (lit "10109") sampleWorkflow) sampleServer 3
          (lit "tidb") sampleIssue ⟨emptyTracker, []⟩).2.tracker.issues ∧
      ∃ x, (findIssue (memTracker (lit "10109") sampleWorkflow) sampleServer (lit "TIDB") 42
            (compareSyncIssuesCreate (memTracker (lit "10109") sampleWorkflow) sampleServer 3
              sampleIssue (lit "tidb") ⟨emptyTracker, []⟩).2).1 = .ok x ∧
        x.ID = lit "10001" ∧ x.Key = lit "TIDB-10001" ∧
        ((compareSyncIssuesCreate (memTracker (lit "10109") sampleWorkflow) sampleServer 3
            sampleIssue (lit "tidb") ⟨emptyTracker, []⟩).2.tracker.issues).filter
          (correlated (lit "10109") (lit "TIDB") 42) = [x] :=
  have hw := correlation_uniqueness (memTracker (lit "10109") sampleWorkflow) (lit "10109")
    Tracker.issues (memTracker_collection (lit "10109") sampleWorkflow) sampleServer rfl
    (by decide) 3 true sampleEvent sampleCommentEvent (lit "tidb") sampleIssue
    ⟨emptyTracker, []⟩ (fun _ _ => Nat.zero_le _)
  ⟨hw.2.1, hw.2.2.2 ⟨lit "10001", lit "TIDB-10001", IssueFields.zero⟩ rfl rfl⟩

/-- C6, counterexample to the claim as stated. The tracker holds one target issue for
source issue `42` of project `TIDB`, so the invariant holds.  Handling an issue-opened
event for that source issue creates a second target issue with the same project key and
source identifier: the invariant no longer holds, and `findIssue` returns the older issue
`10001`, not the issue `10002` just created. -/
theorem opened_breaks_uniqueness :
    AtMostOnePerKey (lit "10109") syncedTracker.issues ∧
      (handleIssueEventOpen (memTracker (lit "10109") sampleWorkflow) sampleServer 3
        sampleEvent ⟨syncedTracker, []⟩).1 = some none ∧
      ((handleIssueEventOpen (memTracker (lit "10109") sampleWorkflow) sampleServer 3
        sampleEvent ⟨syncedTracker, []⟩).2.tracker.issues.map (fun i => i.ID)) =
        [lit "10001", lit "10002"] ∧
      ¬ AtMostOnePerKey (lit "10109")
        (handleIssueEventOpen (memTracker (lit "10109") sampleWorkflow) sampleServer 3
          sampleEvent ⟨syncedTracker, []⟩).2.tracker.issues ∧
      ((findIssue (memTracker (lit "10109") sampleWorkflow) sampleServer (lit "TIDB") 42
        (handleIssueEventOpen (memTracker (lit "10109") sampleWorkflow) sampleServer 3
          sampleEvent ⟨syncedTracker, []⟩).2).1.toOption.map (fun i => i.ID)) =
        some (lit "10001") := by
  refine ⟨?_, rfl, rfl, ?_, rfl⟩
  · intro p n
    exact le_trans (List.length_filter_le _ _) (by decide)
  · intro hcon
    have h2 := hcon (lit "TIDB") 42
    have hlen : ((handleIssueEventOpen (memTracker (lit "10109") sampleWorkflow) sampleServer 3
        sampleEvent ⟨syncedTracker, []⟩).2.tracker.issues.filter
          (correlated (lit "10109") (lit "TIDB") 42)).length = 2 := rfl
    rw [hlen] at h2
    exact absurd h2 (by decide)

/-! ### Formatting -/

/-- C16. Layout of the formatted texts.  With `T(body)` the converted body truncated to
`30000` (the raw body, truncated, when the converter fails): `jiraIssueBodyFormat` is
`T(body)`, the separator, the attribution `Create issue [(#<number>)|<issue link>] from
GitHub user [<login>|<user link>]`, then ` (<name>)` exactly when the user name is
non-empty, then ` at <time>`; `jiraIssueCommentFormat` is the attribution
`Comment [(ID <id>)|<comment link>] from GitHub user [<login>|<user link>]`, the optional
` (<name>)`, ` at <time>`, the same separator, `T(body)` and a final newline. -/
theorem formatted_text_layout (s : Server) (markdown : Converter) (body : GoString)
    (o : githubIssueOptions) (oc : githubIssueCommentOptions) :
    jiraIssueBodyFormat s body o =
        (jiraMarkdownTransform s.markdown body).1 ++ lit "\n\n----\n\n" ++
          (lit "Create issue [(#" ++ o.githubIssueNumber ++ lit ")|" ++ o.githubIssueLink ++
            lit "] from GitHub user [" ++ o.githubIssueUserLogin ++ lit "|" ++
            o.githubIssueUserLink ++ lit "]") ++
          (if o.githubIssueUserName = [] then [] else lit " (" ++ o.githubIssueUserName ++ lit ")") ++
          lit " at " ++ o.githubIssueTime ∧
      jiraIssueCommentFormat markdown body oc =
        (lit "Comment [(ID " ++ oc.githubIssueCommentID ++ lit ")|" ++ oc.githubIssueCommentLink ++
            lit "] from GitHub user [" ++ oc.githubIssueCommentUserLogin ++ lit "|" ++
            oc.githubIssueCommentUserLink ++ lit "]") ++
          (if oc.githubIssueCommentUserName = [] then []
            else lit " (" ++ oc.githubIssueCommentUserName ++ lit ")") ++
          lit " at " ++ oc.githubIssueCommentTime ++ lit "\n\n----\n\n" ++
          (jiraMarkdownTransform markdown body).1 ++ lit "\n" ∧
      (jiraMarkdownTransform markdown body).1 =
        shrinkString (match markdown body with
          | .ok converted => converted
          | .error _ => body) 30000 := by
  have hsep : lit "\n" ++ (lit "\n----\n" ++ lit "\n") = lit "\n\n----\n\n" := by decide
  have hsep2 : ∀ x : GoString, lit "\n" ++ (lit "\n----\n" ++ (lit "\n" ++ x)) =
      lit "\n\n----\n\n" ++ x := by
    intro x
    rw [← List.append_assoc (lit "\n----\n"), ← List.append_assoc (lit "\n"), hsep]
  refine ⟨?_, ?_, ?_⟩
  · unfold jiraIssueBodyFormat
    by_cases hn : o.githubIssueUserName = []
    · simp [hn, List.append_assoc, hsep2]
    · have hlen : o.githubIssueUserName.length > 0 := List.length_pos.mpr hn
      simp [hn, hlen, List.append_assoc, hsep2]
  · unfold jiraIssueCommentFormat
    by_cases hn : oc.githubIssueCommentUserName = []
    · simp [hn, List.append_assoc, hsep2]
    · have hlen : oc.githubIssueCommentUserName.length > 0 := List.length_pos.mpr hn
      simp [hn, hlen, List.append_assoc, hsep2]
  · unfold jiraMarkdownTransform
    cases markdown body <;> rfl

/-- The projection of a source issue, field by field, for every configuration: the
custom fields are listed for each way the fields `GitHub ID` and `GitHub URL` resolve. -/
theorem jiraIssueOpenFormat_fields (s : Server) (githubIssueID : Int)
    (repoName title body : GoString) (options : githubIssueOptions) :
    (jiraIssueOpenFormat s githubIssueID repoName title body options).Fields.TypeName =
        (s.Config.repo repoName).JiraIssueType ∧
      (jiraIssueOpenFormat s githubIssueID repoName title body options).Fields.ProjectKey =
        (s.Config.repo repoName).JiraProjectKey ∧
      (jiraIssueOpenFormat s githubIssueID repoName title body options).Fields.Components =
        (s.Config.repo repoName).JiraComponents.map JiraComponent.mk ∧
      (jiraIssueOpenFormat s githubIssueID repoName title body options).Fields.FixVersions =
        (mapGet s.Config.FixVersions (s.Config.repo repoName).JiraProjectKey).getD [] ∧
      (jiraIssueOpenFormat s githubIssueID repoName title body options).Fields.AffectsVersions =
        (mapGet s.Config.AffectsVersions (s.Config.repo repoName).JiraProjectKey).getD [] ∧
      (jiraIssueOpenFormat s githubIssueID repoName title body options).Fields.Labels =
        [lit "github"] ∧
      (jiraIssueOpenFormat s githubIssueID repoName title body options).Fields.Assignee =
        (mapGet s.Config.AssigneeMap options.githubIssueAssigneeLogin).map JiraUser.mk ∧
      (jiraIssueOpenFormat s githubIssueID repoName title body options).Fields.Summary = title ∧
      (jiraIssueOpenFormat s githubIssueID repoName title body options).Fields.Description =
        jiraIssueBodyFormat s body options ∧
      (jiraIssueOpenFormat s githubIssueID repoName title body options).Fields.Unknowns =
        match mapGet s.Config.FieldIDs .gitHubID,
          (if (s.Config.repo repoName).JiraProjectKey = lit "TIKV" then
            mapGet s.Config.FieldIDs .gitHubURL else none) with
        | none, none => []
        | some a, none => [(lit "customfield_" ++ a, .int githubIssueID)]
        | none, some u => [(lit "customfield_" ++ u, .str options.githubIssueLink)]
        | some a, some u =>
          if a = u then [(lit "customfield_" ++ a, .str options.githubIssueLink)]
          else [(lit "customfield_" ++ a, .int githubIssueID),
            (lit "customfield_" ++ u, .str options.githubIssueLink)] := by
  have hassignee : (match mapGet s.Config.AssigneeMap options.githubIssueAssigneeLogin with
      | some name => some (JiraUser.mk name)
      | none => none) =
      (mapGet s.Config.AssigneeMap options.githubIssueAssigneeLogin).map JiraUser.mk := by
    cases mapGet s.Config.AssigneeMap options.githubIssueAssigneeLogin <;> rfl
  unfold jiraIssueOpenFormat Config.getFieldID
  by_cases hT : (s.Config.repo repoName).JiraProjectKey = lit "TIKV"
  · cases hID : mapGet s.Config.FieldIDs .gitHubID with
    | none =>
      cases hURL : mapGet s.Config.FieldIDs .gitHubURL with
      | none => simp [hT, hassignee]
      | some u => simp [hT, hassignee, mapSet]
    | some a =>
      cases hURL : mapGet s.Config.FieldIDs .gitHubURL with
      | none => simp [hT, hassignee, mapSet]
      | some u =>
        by_cases hau : a = u
        · simp [hT, hassignee, mapSet, hau]
        · simp [hT, hassignee, mapSet, hau]
  · cases hID : mapGet s.Config.FieldIDs .gitHubID with
    | none => simp [hT, hassignee]
    | some a => simp [hT, hassignee, mapSet]

/-- C14. `jiraIssueOpenFormat` is total and, for every source issue and repository name,
with the `GitHub ID` field resolved and the `GitHub URL` field not resolved to the same
identifier, gives: category = the repository's default category; project = its project
key; components = its default component list in order; fix and affects versions = the
lists mapped to the project key; labels = exactly `["github"]`; assignee = the
`AssigneeMap` entry of the source assignee login, unset when there is none; summary = the
source title; description = `jiraIssueBodyFormat`; the field
`customfield_<GitHub ID field id>` = the source issue identifier; and the field
`customfield_<GitHub URL field id>` is present, holding the source issue link, exactly in
project `TIKV` with a resolved `GitHub URL` field: there are no other custom fields. -/
theorem jiraIssueOpenFormat_projection (s : Server) (githubIssueID : Int)
    (repoName title body : GoString) (options : githubIssueOptions) (K : GoString)
    (hK : mapGet s.Config.FieldIDs .gitHubID = some K)
    (hURL : mapGet s.Config.FieldIDs .gitHubURL ≠ some K) :
    (jiraIssueOpenFormat s githubIssueID repoName title body options).Fields.TypeName =
        (s.Config.repo repoName).JiraIssueType ∧
      (jiraIssueOpenFormat s githubIssueID repoName title body options).Fields.ProjectKey =
        (s.Config.repo repoName).JiraProjectKey ∧
      (jiraIssueOpenFormat s githubIssueID repoName title body options).Fields.Components =
        (s.Config.repo repoName).JiraComponents.map JiraComponent.mk ∧
      (jiraIssueOpenFormat s githubIssueID repoName title body options).Fields.FixVersions =
        (mapGet s.Config.FixVersions (s.Config.repo repoName).JiraProjectKey).getD [] ∧
      (jiraIssueOpenFormat s githubIssueID repoName title body options).Fields.AffectsVersions =
        (mapGet s.Config.AffectsVersions (s.Config.repo repoName).JiraProjectKey).getD [] ∧
      (jiraIssueOpenFormat s githubIssueID repoName title body options).Fields.Labels =
        [lit "github"] ∧
      (jiraIssueOpenFormat s githubIssueID repoName title body options).Fields.Assignee =
        (mapGet s.Config.AssigneeMap options.githubIssueAssigneeLogin).map JiraUser.mk ∧
      (jiraIssueOpenFormat s githubIssueID repoName title body options).Fields.Summary = title ∧
      (jiraIssueOpenFormat s githubIssueID repoName title body options).Fields.Description =
        jiraIssueBodyFormat s body options ∧
      mapGet (jiraIssueOpenFormat s githubIssueID repoName title body options).Fields.Unknowns
        (lit "customfield_" ++ K) = some (.int githubIssueID) ∧
      (∀ u, (s.Config.repo repoName).JiraProjectKey = lit "TIKV" →
        mapGet s.Config.FieldIDs .gitHubURL = some u →
        (jiraIssueOpenFormat s githubIssueID repoName title body options).Fields.Unknowns =
          [(lit "customfield_" ++ K, .int githubIssueID),
            (lit "customfield_" ++ u, .str options.githubIssueLink)]) ∧
      ((s.Config.repo repoName).JiraProjectKey ≠ lit "TIKV" ∨
          mapGet s.Config.FieldIDs .gitHubURL = none →
        (jiraIssueOpenFormat s githubIssueID repoName title body options).Fields.Unknowns =
          [(lit "customfield_" ++ K, .int githubIssueID)]) := by
  obtain ⟨h1, h2, h3, h4, h5, h6, h7, h8, h9, h10⟩ :=
    jiraIssueOpenFormat_fields s githubIssueID repoName title body options
  refine ⟨h1, h2, h3, h4, h5, h6, h7, h8, h9,
    jiraIssueOpenFormat_correlation_int s K hK hURL githubIssueID repoName title body options,
    ?_, ?_⟩
  · intro u hT hu
    have hne : ¬ K = u := fun h => hURL (by rw [hu, h])
    rw [h10, hK, if_pos hT, hu]
    simp only [hne, if_false]
  · intro h
    rw [h10, hK]
    rcases h with hT | hu
    · rw [if_neg hT]
    · rw [hu]
      split_ifs <;> rfl

/-- Witness of C14: the projection of `sampleIssue` in project `TIKV`, with both custom
fields, and in project `TIDB`, with the correlation field alone. -/
theorem jiraIssueOpenFormat_projection_witness :
    (jiraIssueOpenFormat sampleTikvServer 42 (lit "tikv") (lit "T") (lit "B")
        (extractGithubIssueOptions sampleTikvServer sampleIssue)).Fields =
      { IssueFields.zero with
        TypeName := lit "Task"
        ProjectKey := lit "TIKV"
        Components := [⟨lit "general"⟩]
        FixVersions := [lit "4.0"]
        AffectsVersions := [lit "3.0"]
        Labels := [lit "github"]
        Assignee := some ⟨lit "alice.j"⟩
        Summary := lit "T"
        Description := jiraIssueBodyFormat sampleTikvServer (lit "B")
          (extractGithubIssueOptions sampleTikvServer sampleIssue)
        Unknowns := [(lit "customfield_10109", .int 42),
          (lit "customfield_10110", .str (lit "https://github.com/pingcap/tidb/issues/7"))] } ∧
      (jiraIssueOpenFormat sampleTikvServer 42 (lit "tikv") (lit "T") (lit "B")
          (extractGithubIssueOptions sampleTikvServer sampleIssue)).Fields.Unknowns =
        [(lit "customfield_" ++ lit "10109", .int 42),
          (lit "customfield_" ++ lit "10110",
            .str (extractGithubIssueOptions sampleTikvServer sampleIssue).githubIssueLink)] ∧
      (jiraIssueOpenFormat sampleServer 42 (lit "tidb") (lit "T") (lit "B")
          (extractGithubIssueOptions sampleServer sampleIssue)).Fields.Unknowns =
        [(lit "customfield_" ++ lit "10109", .int 42)] :=
  ⟨by decide,
    (jiraIssueOpenFormat_projection sampleTikvServer 42 (lit "tikv") (lit "T") (lit "B")
      (extractGithubIssueOptions sampleTikvServer sampleIssue) (lit "10109") (by decide)
      (by decide)).2.2.2.2.2.2.2.2.2.2.1 (lit "10110") (by decide) (by decide),
    (jiraIssueOpenFormat_projection sampleServer 42 (lit "tidb") (lit "T") (lit "B")
      (extractGithubIssueOptions sampleServer sampleIssue) (lit "10109") (by decide)
      (by decide)).2.2.2.2.2.2.2.2.2.2.2 (Or.inl (by decide))⟩

/-! ### Label rules -/

/-- C11. With the target issue resolved, `handleIssueEventLabel` runs both label rules, in
the order the map iteration yields them, each whatever the outcome of the other.  The
category rule issues no call when the label is absent from `IssueTypeLabelMap` or the
issue already has the mapped category, and otherwise exactly one update setting the mapped
category.  The component rule issues no call when the label is absent from
`ComponentLabelMap` or the issue already has a component of the mapped name, and otherwise
exactly one update for the mapped component.  The handler returns an error if and only if
at least one rule's update failed. -/
theorem label_rules {σ : Type} (c : JiraClient σ) (s : Server) (i : IssuesEvent)
    (w w1 : World σ) (jiraIssue : JiraIssue)
    (h : findIssue c s (s.Config.repo i.RepoName).JiraProjectKey i.Issue.ID w =
      (.ok jiraIssue, w1)) :
    (∀ w2, (mapGet (s.Config.repo i.RepoName).IssueTypeLabelMap i.Label.Name = none ∨
          mapGet (s.Config.repo i.RepoName).IssueTypeLabelMap i.Label.Name =
            some jiraIssue.Fields.TypeName) →
        updateIssuetypeByLabel c s i jiraIssue w2 = (none, w2)) ∧
      (∀ w2 category,
        mapGet (s.Config.repo i.RepoName).IssueTypeLabelMap i.Label.Name = some category →
        jiraIssue.Fields.TypeName ≠ category →
        updateIssuetypeByLabel c s i jiraIssue w2 =
          oneUpdate c (rulePayload jiraIssue { IssueFields.zero with TypeName := category }) w2) ∧
      (∀ w2, (mapGet (s.Config.repo i.RepoName).ComponentLabelMap i.Label.Name = none ∨
          ∃ name, mapGet (s.Config.repo i.RepoName).ComponentLabelMap i.Label.Name = some name ∧
            ∃ v ∈ jiraIssue.Fields.Components, v.Name = name) →
        updateComponentByLabel c s i jiraIssue w2 = (none, w2)) ∧
      (∀ w2 name,
        mapGet (s.Config.repo i.RepoName).ComponentLabelMap i.Label.Name = some name →
        (∀ v ∈ jiraIssue.Fields.Components, v.Name ≠ name) →
        updateComponentByLabel c s i jiraIssue w2 =
          oneUpdate c (rulePayload jiraIssue { IssueFields.zero with Components := [⟨name⟩] })
            w2) ∧
      handleIssueEventLabel c s true i w =
        (lastError (updateIssuetypeByLabel c s i jiraIssue w1).1
            (updateComponentByLabel c s i jiraIssue
              (updateIssuetypeByLabel c s i jiraIssue w1).2).1,
          (updateComponentByLabel c s i jiraIssue
            (updateIssuetypeByLabel c s i jiraIssue w1).2).2) ∧
      handleIssueEventLabel c s false i w =
        (lastError (updateComponentByLabel c s i jiraIssue w1).1
            (updateIssuetypeByLabel c s i jiraIssue
              (updateComponentByLabel c s i jiraIssue w1).2).1,
          (updateIssuetypeByLabel c s i jiraIssue
            (updateComponentByLabel c s i jiraIssue w1).2).2) ∧
      ((handleIssueEventLabel c s true i w).1 ≠ none ↔
        ((updateIssuetypeByLabel c s i jiraIssue w1).1 ≠ none ∨
          (updateComponentByLabel c s i jiraIssue
            (updateIssuetypeByLabel c s i jiraIssue w1).2).1 ≠ none)) ∧
      ((handleIssueEventLabel c s false i w).1 ≠ none ↔
        ((updateComponentByLabel c s i jiraIssue w1).1 ≠ none ∨
          (updateIssuetypeByLabel c s i jiraIssue
            (updateComponentByLabel c s i jiraIssue w1).2).1 ≠ none)) := by
  have hT : handleIssueEventLabel c s true i w =
      runEventFuncs c s i jiraIssue [updateIssuetypeByLabel, updateComponentByLabel] none w1 := by
    unfold handleIssueEventLabel
    simp only
    rw [h]
    rfl
  have hF : handleIssueEventLabel c s false i w =
      runEventFuncs c s i jiraIssue [updateComponentByLabel, updateIssuetypeByLabel] none w1 := by
    unfold handleIssueEventLabel
    simp only
    rw [h]
    rfl
  refine ⟨?_, ?_, ?_, ?_, ?_, ?_, ?_, ?_⟩
  · intro w2 hc
    unfold updateIssuetypeByLabel
    rcases hc with hc | hc
    · simp [hc]
    · simp [hc]
  · intro w2 category hm hne
    unfold updateIssuetypeByLabel
    simp only [hm, hne, if_false]
    exact IssueUpdate_oneUpdate c _ w2
  · intro w2 hc
    unfold updateComponentByLabel
    rcases hc with hc | ⟨name, hm, v, hv, hvn⟩
    · simp [hc]
    · have : jiraIssue.Fields.Components.any (fun v => decide (v.Name = name)) = true :=
        List.any_eq_true.mpr ⟨v, hv, by simp [hvn]⟩
      simp [hm, this]
  · intro w2 name hm hall
    have : jiraIssue.Fields.Components.any (fun v => decide (v.Name = name)) = false := by
      rw [List.any_eq_false]
      intro v hv
      simp [hall v hv]
    unfold updateComponentByLabel
    simp only [hm, this, Bool.false_eq_true, if_false]
    exact IssueUpdate_oneUpdate c _ w2
  · rw [hT, runEventFuncs_two]
  · rw [hF, runEventFuncs_two]
  · rw [hT, runEventFuncs_two]
    exact lastError_ne_none _ _
  · rw [hF, runEventFuncs_two]
    exact lastError_ne_none _ _

/-- Witness of C11: label `bug` on the resolved `Task` issue; the category update fails,
the component rule has no mapping for the label. -/
theorem label_rules_witness :
    (handleIssueEventLabel scripted sampleServer true sampleEvent
        (scriptWorld [.issues [sampleJiraIssue], .fail ⟨lit "bad request"⟩])).1 ≠ none ∧
      (handleIssueEventLabel scripted sampleServer true sampleEvent
        (scriptWorld [.issues [sampleJiraIssue], .fail ⟨lit "bad request"⟩])).2.log =
        [(.Search (findIssueJQL sampleServer (lit "TIDB") 42), none),
          (.Update (rulePayload sampleJiraIssue { IssueFields.zero with TypeName := lit "Bug" }),
            some ⟨lit "bad request"⟩)] :=
  ⟨((label_rules scripted sampleServer sampleEvent
      (scriptWorld [.issues [sampleJiraIssue], .fail ⟨lit "bad request"⟩]) _ sampleJiraIssue
      rfl).2.2.2.2.2.2.1).mpr (Or.inl (by decide)), rfl⟩

/-- C12. With the target issue resolved, the unlabeled rules: the category rule issues one
update, to the repository's default category, if and only if the label is in
`IssueTypeLabelMap` and the issue's current category equals the mapped one; the component
rule issues one update if and only if the label is in `ComponentLabelMap` and the issue
has a component of the mapped name, and the set it pushes is the issue's current
components without that name, in their original order, or the single component `general`
when that leaves none.  Otherwise a rule issues no call.  `handleIssueEventUnlabel` runs
both rules, in the order of the map iteration. -/
theorem unlabel_rules {σ : Type} (c : JiraClient σ) (s : Server) (i : IssuesEvent)
    (w w1 : World σ) (jiraIssue : JiraIssue)
    (h : findIssue c s (s.Config.repo i.RepoName).JiraProjectKey i.Issue.ID w =
      (.ok jiraIssue, w1)) :
    (∀ w2,
        mapGet (s.Config.repo i.RepoName).IssueTypeLabelMap i.Label.Name =
          some jiraIssue.Fields.TypeName →
        resetIssuetypeByUnlabel c s i jiraIssue w2 =
          oneUpdate c (rulePayload jiraIssue
            { IssueFields.zero with TypeName := (s.Config.repo i.RepoName).JiraIssueType }) w2) ∧
      (∀ w2,
        mapGet (s.Config.repo i.RepoName).IssueTypeLabelMap i.Label.Name ≠
          some jiraIssue.Fields.TypeName →
        resetIssuetypeByUnlabel c s i jiraIssue w2 = (none, w2)) ∧
      (∀ w2 name,
        mapGet (s.Config.repo i.RepoName).ComponentLabelMap i.Label.Name = some name →
        (∃ v ∈ jiraIssue.Fields.Components, v.Name = name) →
        resetComponentByUnlabel c s i jiraIssue w2 =
          oneUpdate c (rulePayload jiraIssue
            { IssueFields.zero with
              Components :=
                if jiraIssue.Fields.Components.filter (fun v => decide (v.Name ≠ name)) = [] then
                  [⟨lit "general"⟩]
                else jiraIssue.Fields.Components.filter (fun v => decide (v.Name ≠ name)) }) w2) ∧
      (∀ w2,
        (mapGet (s.Config.repo i.RepoName).ComponentLabelMap i.Label.Name = none ∨
          ∃ name, mapGet (s.Config.repo i.RepoName).ComponentLabelMap i.Label.Name = some name ∧
            ∀ v ∈ jiraIssue.Fields.Components, v.Name ≠ name) →
        resetComponentByUnlabel c s i jiraIssue w2 = (none, w2)) ∧
      handleIssueEventUnlabel c s true i w =
        (lastError (resetIssuetypeByUnlabel c s i jiraIssue w1).1
            (resetComponentByUnlabel c s i jiraIssue
              (resetIssuetypeByUnlabel c s i jiraIssue w1).2).1,
          (resetComponentByUnlabel c s i jiraIssue
            (resetIssuetypeByUnlabel c s i jiraIssue w1).2).2) ∧
      handleIssueEventUnlabel c s false i w =
        (lastError (resetComponentByUnlabel c s i jiraIssue w1).1
            (resetIssuetypeByUnlabel c s i jiraIssue
              (resetComponentByUnlabel c s i jiraIssue w1).2).1,
          (resetIssuetypeByUnlabel c s i jiraIssue
            (resetComponentByUnlabel c s i jiraIssue w1).2).2) := by
  refine ⟨?_, ?_, ?_, ?_, ?_, ?_⟩
  · intro w2 hm
    unfold resetIssuetypeByUnlabel
    simp only [hm, ne_eq, not_true_eq_false, if_false]
    exact IssueUpdate_oneUpdate c _ w2
  · intro w2 hm
    unfold resetIssuetypeByUnlabel
    cases hg : mapGet (s.Config.repo i.RepoName).IssueTypeLabelMap i.Label.Name with
    | none => simp [hg]
    | some category =>
      have hne : jiraIssue.Fields.TypeName ≠ category := by
        intro hh
        rw [hg, hh] at hm
        exact hm rfl
      simp [hg, hne]
  · intro w2 name hm hex
    obtain ⟨v, hv, hvn⟩ := hex
    have hany : jiraIssue.Fields.Components.any (fun v => decide (v.Name = name)) = true :=
      List.any_eq_true.mpr ⟨v, hv, by simp [hvn]⟩
    have hfilter : jiraIssue.Fields.Components.filter (fun v => !decide (v.Name = name)) =
        jiraIssue.Fields.Components.filter (fun v => decide (v.Name ≠ name)) := by
      apply List.filter_congr
      intro x _
      simp
    have hcomp :
        (if (jiraIssue.Fields.Components.filter (fun v => !decide (v.Name = name))).length = 0 then
          jiraIssue.Fields.Components.filter (fun v => !decide (v.Name = name)) ++
            [(⟨lit "general"⟩ : JiraComponent)]
        else jiraIssue.Fields.Components.filter (fun v => !decide (v.Name = name))) =
        (if jiraIssue.Fields.Components.filter (fun v => decide (v.Name ≠ name)) = [] then
          [(⟨lit "general"⟩ : JiraComponent)]
        else jiraIssue.Fields.Components.filter (fun v => decide (v.Name ≠ name))) := by
      rw [hfilter]
      by_cases he : jiraIssue.Fields.Components.filter (fun v => decide (v.Name ≠ name)) = []
      · rw [he]
        rfl
      · have hl : (jiraIssue.Fields.Components.filter
            (fun v => decide (v.Name ≠ name))).length ≠ 0 :=
          fun hh => he (List.length_eq_zero.mp hh)
        rw [if_neg hl, if_neg he]
    unfold resetComponentByUnlabel
    simp only [hm, hany, Bool.not_true, Bool.false_eq_true, if_false]
    rw [hcomp]
    exact IssueUpdate_oneUpdate c _ w2
  · intro w2 hc
    unfold resetComponentByUnlabel
    rcases hc with hc | ⟨name, hm, hall⟩
    · simp [hc]
    · have : jiraIssue.Fields.Components.any (fun v => decide (v.Name = name)) = false := by
        rw [List.any_eq_false]
        intro v hv
        simp [hall v hv]
      simp [hm, this]
  · unfold handleIssueEventUnlabel
    simp only
    rw [h]
    exact runEventFuncs_two c s i jiraIssue _ _ w1
  · unfold handleIssueEventUnlabel
    simp only
    rw [h]
    exact runEventFuncs_two c s i jiraIssue _ _ w1

/-- Witness of C12: label `bug` removed from a `Bug` issue, label `docs` removed from an
issue with the components `documentation` and `general`. -/
theorem unlabel_rules_witness :
    resetIssuetypeByUnlabel scripted sampleServer sampleEvent sampleLabeledIssue
        (scriptWorld [.issue sampleLabeledIssue]) =
      oneUpdate scripted
        (rulePayload sampleLabeledIssue { IssueFields.zero with TypeName := lit "Task" })
        (scriptWorld [.issue sampleLabeledIssue]) ∧
    resetComponentByUnlabel scripted sampleServer sampleDocsEvent sampleLabeledIssue
        (scriptWorld [.issue sampleLabeledIssue]) =
      oneUpdate scripted
        (rulePayload sampleLabeledIssue { IssueFields.zero with Components := [⟨lit "general"⟩] })
        (scriptWorld [.issue sampleLabeledIssue]) :=
  ⟨(unlabel_rules scripted sampleServer sampleEvent
      (scriptWorld [.issues [sampleLabeledIssue]]) _ sampleLabeledIssue rfl).1
      (scriptWorld [.issue sampleLabeledIssue]) rfl,
    (unlabel_rules scripted sampleServer sampleDocsEvent
      (scriptWorld [.issues [sampleLabeledIssue]]) _ sampleLabeledIssue rfl).2.2.1
      (scriptWorld [.issue sampleLabeledIssue]) (lit "documentation") rfl
      ⟨⟨lit "documentation"⟩, by decide, rfl⟩⟩


/-- C13 (as stated, refuted). The labeled handler followed by the unlabeled handler for the
same label does not return the target issue to its pre-label state: an issue of category
`Story`, labeled `bug` (mapped to `Bug`) and then unlabeled, ends with the repository's
default category `Task`; an issue with the components `documentation` and `general`,
labeled `docs` (mapped to `documentation`) and then unlabeled, ends with `general` alone,
although removing the label's component does not leave the set empty. -/
theorem unlabel_does_not_restore :
    sampleStoryIssue.Fields.TypeName = lit "Story" ∧
      ((handleIssueEventUnlabel (memTracker (lit "10109") sampleWorkflow) sampleServer true
        sampleEvent
        (handleIssueEventLabel (memTracker (lit "10109") sampleWorkflow) sampleServer true
          sampleEvent ⟨⟨[sampleStoryIssue], [], [], 10002⟩, []⟩).2).2.tracker.issues.map
        (fun x => x.Fields.TypeName)) = [lit "Task"] ∧
      sampleStoryIssue.Fields.Components = [⟨lit "documentation"⟩, ⟨lit "general"⟩] ∧
      ((handleIssueEventUnlabel (memTracker (lit "10109") sampleWorkflow) sampleServer true
        sampleDocsEvent
        (handleIssueEventLabel (memTracker (lit "10109") sampleWorkflow) sampleServer true
          sampleDocsEvent ⟨⟨[sampleStoryIssue], [], [], 10002⟩, []⟩).2).2.tracker.issues.map
        (fun x => x.Fields.Components)) = [[⟨lit "general"⟩]] :=
  ⟨rfl, rfl, rfl, rfl⟩

/-- C13 (as amended). On a tracker that holds the one target issue `X` of the source issue
and on which every update takes effect, the labeled handler followed by the unlabeled
handler for the same label, whatever the order in which each of them runs its two rules,
leaves one target issue, of the same identifier and key, whose category is the
repository's default category when the label is mapped to a category (not the pre-label
category) and the pre-label category when it is not, and whose components are, when the
label is mapped to a component: the pre-label components without that component when the
issue had it before the label and others remain, the single component `general` in every
other case; and the pre-label components when the label is mapped to no component.  The
category names of the configuration are taken non-empty. -/
theorem label_then_unlabel (K : GoString) (workflow : GoString → Option GoString) (s : Server)
    (hK : mapGet s.Config.FieldIDs .gitHubID = some K) (o1 o2 : Bool) (i : IssuesEvent)
    (X : JiraIssue)
    (hX : correlated K (s.Config.repo i.RepoName).JiraProjectKey i.Issue.ID X = true)
    (hD : (s.Config.repo i.RepoName).JiraIssueType ≠ [])
    (hC : mapGet (s.Config.repo i.RepoName).IssueTypeLabelMap i.Label.Name ≠ some [])
    (cm : List (GoString × JiraComment)) (us : List GoString) (nx : Nat)
    (log : List (JiraCall × Option GoError)) :
    ∃ X2 : JiraIssue,
      (handleIssueEventUnlabel (memTracker K workflow) s o2 i
        (handleIssueEventLabel (memTracker K workflow) s o1 i
          ⟨⟨[X], cm, us, nx⟩, log⟩).2).2.tracker = ⟨[X2], cm, us, nx⟩ ∧
      X2.ID = X.ID ∧ X2.Key = X.Key ∧
      X2.Fields.TypeName =
        (match mapGet (s.Config.repo i.RepoName).IssueTypeLabelMap i.Label.Name with
        | none => X.Fields.TypeName
        | some _ => (s.Config.repo i.RepoName).JiraIssueType) ∧
      X2.Fields.Components =
        (match mapGet (s.Config.repo i.RepoName).ComponentLabelMap i.Label.Name with
        | none => X.Fields.Components
        | some name =>
          if X.Fields.Components.any (fun v => decide (v.Name = name)) ∧
              X.Fields.Components.filter (fun v => decide (v.Name ≠ name)) ≠ [] then
            X.Fields.Components.filter (fun v => decide (v.Name ≠ name))
          else [⟨lit "general"⟩]) := by
  have h1 := handleIssueEventLabel_single K workflow s hK o1 i X hX cm us nx log
  obtain ⟨l1, l2, l3, l4, l5, l6⟩ := labelEffect_fields s o1 i X
  have hY : correlated K (s.Config.repo i.RepoName).JiraProjectKey i.Issue.ID
      (labelEffect s o1 i X) = true := by
    rw [correlated_of_fields _ _ _ X _ l3 l4]
    exact hX
  generalize (handleIssueEventLabel (memTracker K workflow) s o1 i
    ⟨⟨[X], cm, us, nx⟩, log⟩).2 = w1 at h1
  cases w1 with
  | mk t1 log1 =>
    simp only at h1
    subst h1
    have h2 := handleIssueEventUnlabel_single K workflow s hK o2 i _ hY cm us nx log1
    obtain ⟨u1, u2, _, _, u5, u6⟩ := unlabelEffect_fields s o2 i (labelEffect s o1 i X)
    refine ⟨unlabelEffect s o2 i (labelEffect s o1 i X), h2, u1.trans l1, u2.trans l2, ?_, ?_⟩
    · rw [u5, l5]
      cases hm : mapGet (s.Config.repo i.RepoName).IssueTypeLabelMap i.Label.Name with
      | none => rfl
      | some category =>
        have hc : category ≠ [] := fun e => hC (by rw [hm, e])
        simp [hc, hD]
    · rw [u6, l6]
      cases hm : mapGet (s.Config.repo i.RepoName).ComponentLabelMap i.Label.Name with
      | none => rfl
      | some name =>
        by_cases hx : X.Fields.Components.any (fun v => decide (v.Name = name)) = true
        · by_cases hf : X.Fields.Components.filter (fun v => decide (v.Name ≠ name)) = []
          · simp only [hx, hf, if_true, ne_eq, not_true_eq_false, and_false, if_false]
          · simp only [hx, hf, if_true, ne_eq, not_false_eq_true, and_true, if_false]
        · simp [hx]

/-- C13, witness: the issue of category `Story` with the components `documentation` and
`general`, labeled `bug` and then unlabeled. -/
theorem label_then_unlabel_witness :
    ∃ X2 : JiraIssue,
      (handleIssueEventUnlabel (memTracker (lit "10109") sampleWorkflow) sampleServer true
        sampleEvent
        (handleIssueEventLabel (memTracker (lit "10109") sampleWorkflow) sampleServer true
          sampleEvent ⟨⟨[sampleStoryIssue], [], [], 10002⟩, []⟩).2).2.tracker =
        ⟨[X2], [], [], 10002⟩ ∧
      X2.Fields.TypeName = lit "Task" ∧
      X2.Fields.Components = [⟨lit "documentation"⟩, ⟨lit "general"⟩] := by
  obtain ⟨X2, h, _, _, ht, hc⟩ :=
    label_then_unlabel (lit "10109") sampleWorkflow sampleServer rfl true true sampleEvent
      sampleStoryIssue (by decide) (by decide) (by decide) [] [] 10002 []
  exact ⟨X2, h, ht, hc⟩


/-! ### The scenario of a new issue -/

/-- C15 (as stated, refuted). The source issue with identifier `42`, title `T`, body `B`
and the label `bug`, which the repository maps to the category `Bug`: the issue-opened
handler succeeds on an empty tracker and the target issue it creates has the repository's
default category `Task`, not `Bug` (its correlation field is `42`). -/
theorem issue_opened_category_not_from_label :
    sampleEvent.Issue.Labels = [⟨lit "bug"⟩] ∧
      mapGet (sampleServer.Config.repo sampleEvent.RepoName).IssueTypeLabelMap (lit "bug") =
        some (lit "Bug") ∧
      (handleIssueEventOpen (memTracker (lit "10109") sampleWorkflow) sampleServer 3 sampleEvent
        ⟨emptyTracker, []⟩).1 = some none ∧
      (handleIssueEventOpen (memTracker (lit "10109") sampleWorkflow) sampleServer 3 sampleEvent
        ⟨emptyTracker, []⟩).2.tracker.issues.map
          (fun x => (x.Fields.TypeName, mapGet x.Fields.Unknowns (lit "customfield_10109"))) =
        [(lit "Task", some (.int 42))] :=
  ⟨rfl, rfl, rfl, rfl⟩

/-- C15 (as amended). Handling the issue-opened event issues creation calls only, and the
issue of every one of them has the repository's default category, whatever the labels of
the source issue, the source issue's identifier in the correlation field (when the
`GitHub ID` field is resolved and the `GitHub URL` field is not the same field), and the
description `jiraIssueBodyFormat` of the source body: the converted body followed by the
attribution footer.  When the handler reports success, its last creation call was
accepted; when the tracker accepts the first creation call, the handler reports success
after that one call, for every positive fuel. -/
theorem issue_opened_scenario {σ : Type} (c : JiraClient σ) (s : Server) (K : GoString)
    (hK : mapGet s.Config.FieldIDs .gitHubID = some K)
    (hURL : mapGet s.Config.FieldIDs .gitHubURL ≠ some K) (fuel : Nat) (i : IssuesEvent)
    (w : World σ) :
    (∃ l, (handleIssueEventOpen c s fuel i w).2.log = w.log ++ l ∧
        (∀ e ∈ l, ∃ J, e.1 = JiraCall.Create J ∧
          J.Fields.TypeName = (s.Config.repo i.RepoName).JiraIssueType ∧
          mapGet J.Fields.Unknowns (correlationField K) = some (.int i.Issue.ID) ∧
          J.Fields.Description =
            jiraIssueBodyFormat s i.Issue.Body (extractGithubIssueOptions s i.Issue)) ∧
        ((handleIssueEventOpen c s fuel i w).1 = some none →
          ∃ l0 J, l = l0 ++ [(JiraCall.Create J, none)])) ∧
      (∀ stored,
        (c.Create (jiraIssueOpenFormat s i.Issue.ID i.RepoName i.Issue.Title i.Issue.Body
          (extractGithubIssueOptions s i.Issue)) w.tracker).1 = .ok stored →
        handleIssueEventOpen c s (fuel + 1) i w =
          (some none,
            ⟨(c.Create (jiraIssueOpenFormat s i.Issue.ID i.RepoName i.Issue.Title i.Issue.Body
                (extractGithubIssueOptions s i.Issue)) w.tracker).2,
              w.log ++ [(.Create (jiraIssueOpenFormat s i.Issue.ID i.RepoName i.Issue.Title
                i.Issue.Body (extractGithubIssueOptions s i.Issue)), none)]⟩)) := by
  have ht := jiraIssueOpenFormat_type s i.Issue.ID i.RepoName i.Issue.Title i.Issue.Body
    (extractGithubIssueOptions s i.Issue)
  have hd := jiraIssueOpenFormat_description s i.Issue.ID i.RepoName i.Issue.Title i.Issue.Body
    (extractGithubIssueOptions s i.Issue)
  have hc := jiraIssueOpenFormat_correlation_int s K hK hURL i.Issue.ID i.RepoName i.Issue.Title
    i.Issue.Body (extractGithubIssueOptions s i.Issue)
  constructor
  · obtain ⟨l, h1, h2, h3⟩ := handleIssueEventOpen_loop_calls c fuel
      (jiraIssueOpenFormat s i.Issue.ID i.RepoName i.Issue.Title i.Issue.Body
        (extractGithubIssueOptions s i.Issue)) w
    refine ⟨l, h1, ?_, h3⟩
    intro e he
    rcases h2 e he with h | h
    · exact ⟨_, h, ht, hc, hd⟩
    · exact ⟨_, h, ht, hc, hd⟩
  · intro stored h
    exact handleIssueEventOpen_loop_accept c fuel _ w stored h

/-- C15, witness: the source issue `42` with the label `bug`, on an empty tracker. -/
theorem issue_opened_scenario_witness :
    (handleIssueEventOpen (memTracker (lit "10109") sampleWorkflow) sampleServer 3 sampleEvent
        ⟨emptyTracker, []⟩).1 = some none ∧
      (handleIssueEventOpen (memTracker (lit "10109") sampleWorkflow) sampleServer 3 sampleEvent
        ⟨emptyTracker, []⟩).2.log =
        [(.Create (jiraIssueOpenFormat sampleServer 42 (lit "tidb") (lit "T") (lit "B")
          (extractGithubIssueOptions sampleServer sampleIssue)), none)] := by
  have h := (issue_opened_scenario (memTracker (lit "10109") sampleWorkflow) sampleServer
    (lit "10109") rfl (by decide) 2 sampleEvent ⟨emptyTracker, []⟩).2 _ rfl
  exact ⟨congrArg Prod.fst h, congrArg (fun r => r.2.log) h⟩


/-! ### Comment synchronisation of the reconciliation -/

/-- C18. Comment deletion with zero remaining source comments: when the source issue's
comment count is `0` and the listing of the target comments returned `jiraComments`,
`compareSyncComments` returns, and the calls it makes after that listing are exactly one
delete call for every target comment whose body matches the token pattern, in the order of
the list and whatever the outcome of the earlier deletes: no delete for a comment without
the token, no add, no update.  A body matches exactly when it is `Comment [(ID `, a
non-empty run of digits, `)|` and any remainder.  Each of these deletes is made on the
tracker, in the state the call before it left: the state after the function, the outcomes
in the log and the value returned (the outcome of the last delete, no error when there is
none) are those of that run of calls. -/
theorem comments_deleted_without_source_comments {σ : Type} (c : JiraClient σ) (g : GithubClient)
    (s : Server) (fuel : Nat) (jiraIssue : JiraIssue) (githubIssue : GithubIssue)
    (repoName : GoString) (w w1 : World σ) (jiraComments : List JiraComment)
    (hz : githubIssue.Comments = 0)
    (hg : GetComments c jiraIssue.ID w = (.ok jiraComments, w1)) :
    (compareSyncComments c g s fuel jiraIssue githubIssue repoName w).1 ≠ none ∧
      (compareSyncComments c g s fuel jiraIssue githubIssue repoName w).2.log.map Prod.fst =
        w.log.map Prod.fst ++ JiraCall.GetComments jiraIssue.ID ::
          (jiraComments.filter (fun t => jCommentIDRegex_MatchString t.Body)).map
            (fun t => JiraCall.DeleteComment jiraIssue.ID t.ID) ∧
      (∀ body, jCommentIDRegex_MatchString body = true ↔
        ∃ ds rest, ds ≠ [] ∧ ds.all isDigit = true ∧
          body = lit "Comment [(ID " ++ (ds ++ (lit ")|" ++ rest))) ∧
      compareSyncComments c g s fuel jiraIssue githubIssue repoName w =
        (some (performCalls c
            ((jiraComments.filter (fun t => jCommentIDRegex_MatchString t.Body)).map
              (fun t => JiraCall.DeleteComment jiraIssue.ID t.ID)) none w1).1,
          (performCalls c
            ((jiraComments.filter (fun t => jCommentIDRegex_MatchString t.Body)).map
              (fun t => JiraCall.DeleteComment jiraIssue.ID t.ID)) none w1).2) := by
  have hw1 : w1.log.map Prod.fst = w.log.map Prod.fst ++ [JiraCall.GetComments jiraIssue.ID] := by
    have h2 := congrArg (fun r => r.2.log.map Prod.fst) hg
    simp only [GetComments, List.map_append, List.map_cons, List.map_nil] at h2
    exact h2.symm
  refine ⟨?_, ?_, ?_, ?_⟩
  · unfold compareSyncComments
    rw [hg]
    simp [hz]
  · unfold compareSyncComments
    rw [hg]
    simp only [hz, if_true]
    rw [compareSyncComments_delete_log, hw1]
    simp
  · intro body
    constructor
    · intro h
      unfold jCommentIDRegex_MatchString at h
      cases hf : jCommentIDRegex_FindStringSubmatch body with
      | none => simp [hf] at h
      | some ds =>
        obtain ⟨h1, h2, rest, h3⟩ := FindStringSubmatch_eq_some body ds hf
        exact ⟨ds, rest, h1, h2, h3⟩
    · rintro ⟨ds, rest, h1, h2, h3⟩
      unfold jCommentIDRegex_MatchString
      rw [h3, FindStringSubmatch_token ds rest h1 h2]
      rfl
  · unfold compareSyncComments
    rw [hg]
    simp only [hz, if_true]
    rw [compareSyncComments_delete_run]

/-- C18, witness: a mirrored comment, a comment written in the tracker and a mirrored
comment of another source comment.  On the scripted tracker the first delete fails, the
second is still issued, and the comment without a token is not touched.  On the tracker
held in memory both mirrors are gone after the pass and the comment written in the tracker
is still there. -/
theorem comments_deleted_without_source_comments_witness :
    (compareSyncComments scripted sampleGithub sampleServer 1 sampleJiraIssue sampleIssue
        (lit "tidb")
        (scriptWorld [.comments [sampleSyncedComment, sampleManualComment, sampleOrphanComment],
          .fail ⟨lit "forbidden"⟩, .done])).2.log.map Prod.fst =
      [.GetComments (lit "10001"), .DeleteComment (lit "10001") (lit "20001"),
        .DeleteComment (lit "10001") (lit "20003")] ∧
      compareSyncComments scripted sampleGithub sampleServer 1 sampleJiraIssue sampleIssue
        (lit "tidb")
        (scriptWorld [.comments [sampleSyncedComment, sampleManualComment, sampleOrphanComment],
          .fail ⟨lit "forbidden"⟩, .done]) =
      (some none,
        ⟨[], [(.GetComments (lit "10001"), none),
          (.DeleteComment (lit "10001") (lit "20001"), some ⟨lit "forbidden"⟩),
          (.DeleteComment (lit "10001") (lit "20003"), none)]⟩) ∧
      compareSyncComments (memTracker (lit "10109") sampleWorkflow) sampleGithub sampleServer 1
        sampleJiraIssue sampleIssue (lit "tidb") ⟨commentedTracker, []⟩ =
      (some none,
        ⟨{ commentedTracker with comments := [(lit "10001", sampleManualComment)] },
          [(.GetComments (lit "10001"), none),
            (.DeleteComment (lit "10001") (lit "20001"), none),
            (.DeleteComment (lit "10001") (lit "20003"), none)]⟩) :=
  ⟨(comments_deleted_without_source_comments scripted sampleGithub sampleServer 1
      sampleJiraIssue sampleIssue (lit "tidb")
      (scriptWorld [.comments [sampleSyncedComment, sampleManualComment, sampleOrphanComment],
        .fail ⟨lit "forbidden"⟩, .done]) _ _ rfl rfl).2.1,
    (comments_deleted_without_source_comments scripted sampleGithub sampleServer 1
      sampleJiraIssue sampleIssue (lit "tidb")
      (scriptWorld [.comments [sampleSyncedComment, sampleManualComment, sampleOrphanComment],
        .fail ⟨lit "forbidden"⟩, .done]) _ _ rfl rfl).2.2.2,
    (comments_deleted_without_source_comments (memTracker (lit "10109") sampleWorkflow)
      sampleGithub sampleServer 1 sampleJiraIssue sampleIssue (lit "tidb")
      ⟨commentedTracker, []⟩ _ _ rfl rfl).2.2.2⟩

/-- C19. When the source issue's comment count is not `0`, the listing of the target
comments returned `jiraComments` and the listing of the source comments returned
`githubComments`, `compareSyncComments` returns, and the calls it makes after the first
listing are exactly one call for every source comment, in the order of the list and
whatever the outcome of the earlier calls: the update of the comment `doFindComment`
finds for its identifier in `jiraComments`, with the body recomputed by
`jiraIssueCommentFormat`, when there is one, else the addition of a new comment with that
body.  None of the calls is a delete.  Each of these calls is made on the tracker, in the
state the call before it left, also after a call that failed: the state after the
function, the outcomes in the log and the value returned (the outcome of the last call, no
error when there is none) are those of that run of calls. -/
theorem comments_synced_with_source_comments {σ : Type} (c : JiraClient σ) (g : GithubClient)
    (s : Server) (fuel : Nat) (jiraIssue : JiraIssue) (githubIssue : GithubIssue)
    (repoName : GoString) (w w1 : World σ) (jiraComments : List JiraComment)
    (githubComments : List GithubIssueComment)
    (hnz : githubIssue.Comments ≠ 0)
    (hg : GetComments c jiraIssue.ID w = (.ok jiraComments, w1))
    (hl : getGithubIssueComments g s fuel (s.Config.repo repoName).GithubOwner repoName
      githubIssue.Number = some (.ok githubComments)) :
    (compareSyncComments c g s fuel jiraIssue githubIssue repoName w).1 ≠ none ∧
      (compareSyncComments c g s fuel jiraIssue githubIssue repoName w).2.log.map Prod.fst =
        w.log.map Prod.fst ++ JiraCall.GetComments jiraIssue.ID ::
          githubComments.map (fun githubComment =>
            match doFindComment jiraComments githubComment.ID with
            | (result, true) =>
              JiraCall.UpdateComment jiraIssue.ID
                { result with
                  Body := jiraIssueCommentFormat s.markdown githubComment.Body
                    (extractGithubIssueCommentOptions s githubComment) }
            | (_, false) =>
              JiraCall.AddComment jiraIssue.ID
                { JiraComment.zero with
                  Body := jiraIssueCommentFormat s.markdown githubComment.Body
                    (extractGithubIssueCommentOptions s githubComment) }) ∧
      (∀ e ∈ (compareSyncComments c g s fuel jiraIssue githubIssue repoName w).2.log.drop
          w.log.length, ∀ a b, e.1 ≠ JiraCall.DeleteComment a b) ∧
      compareSyncComments c g s fuel jiraIssue githubIssue repoName w =
        (some (performCalls c (githubComments.map (commentSyncCall s jiraIssue jiraComments))
            none w1).1,
          (performCalls c (githubComments.map (commentSyncCall s jiraIssue jiraComments))
            none w1).2) := by
  have hw1 : w1.log.map Prod.fst = w.log.map Prod.fst ++ [JiraCall.GetComments jiraIssue.ID] := by
    have h2 := congrArg (fun r => r.2.log.map Prod.fst) hg
    simp only [GetComments, List.map_append, List.map_cons, List.map_nil] at h2
    exact h2.symm
  have hlog : (compareSyncComments c g s fuel jiraIssue githubIssue repoName w).2.log.map
      Prod.fst = w.log.map Prod.fst ++ JiraCall.GetComments jiraIssue.ID ::
        githubComments.map (commentSyncCall s jiraIssue jiraComments) := by
    unfold compareSyncComments
    rw [hg]
    simp only [hnz, if_false, hl]
    rw [compareSyncComments_sync_log, hw1]
    simp
  refine ⟨?_, hlog, ?_, ?_⟩
  · unfold compareSyncComments
    rw [hg]
    simp [hnz, hl]
  · intro e he a b hab
    have hmem : e.1 ∈ ((compareSyncComments c g s fuel jiraIssue githubIssue repoName w).2.log.map
        Prod.fst).drop (w.log.map Prod.fst).length := by
      rw [← List.map_drop, List.length_map]
      exact List.mem_map_of_mem _ he
    rw [hlog, List.drop_left] at hmem
    rcases List.mem_cons.mp hmem with h | h
    · rw [hab] at h
      cases h
    · obtain ⟨gc, _, hgc⟩ := List.mem_map.mp h
      rw [hab] at hgc
      unfold commentSyncCall at hgc
      split at hgc <;> cases hgc
  · unfold compareSyncComments
    rw [hg]
    simp only [hnz, if_false, hl]
    rw [compareSyncComments_sync_run]

/-- C19, witness: the source issue has the comments `7` and `8`; the target issue holds a
mirror of `7`, a comment written in the tracker and the mirror of a source comment `9`.
On the scripted tracker the update of the mirror of `7` fails, the comment `8` is still
added, and the mirror of `9` is left in place.  On the tracker held in memory the stale
mirror of `7` has the recomputed body after the pass, the comment `8` has a new mirror, and
the two other comments are as before. -/
theorem comments_synced_with_source_comments_witness :
    (compareSyncComments scripted sampleGithub sampleServer 1 sampleJiraIssue
        { sampleIssue with Comments := 2 } (lit "tidb")
        (scriptWorld [.comments [sampleSyncedComment, sampleManualComment, sampleOrphanComment],
          .fail ⟨lit "forbidden"⟩, .done])).2.log.map Prod.fst =
      [.GetComments (lit "10001"), .UpdateComment (lit "10001") sampleSyncedComment,
        .AddComment (lit "10001")
          { JiraComment.zero with
            Body := jiraIssueCommentFormat sampleServer.markdown sampleSecondComment.Body
              (extractGithubIssueCommentOptions sampleServer sampleSecondComment) }] ∧
      compareSyncComments scripted sampleGithub sampleServer 1 sampleJiraIssue
        { sampleIssue with Comments := 2 } (lit "tidb")
        (scriptWorld [.comments [sampleSyncedComment, sampleManualComment, sampleOrphanComment],
          .fail ⟨lit "forbidden"⟩, .done]) =
      (some none,
        ⟨[], [(.GetComments (lit "10001"), none),
          (.UpdateComment (lit "10001") sampleSyncedComment, some ⟨lit "forbidden"⟩),
          (.AddComment (lit "10001")
            { JiraComment.zero with
              Body := jiraIssueCommentFormat sampleServer.markdown sampleSecondComment.Body
                (extractGithubIssueCommentOptions sampleServer sampleSecondComment) }, none)]⟩) ∧
      compareSyncComments (memTracker (lit "10109") sampleWorkflow) sampleGithub sampleServer 1
        sampleJiraIssue { sampleIssue with Comments := 2 } (lit "tidb")
        ⟨commentedTracker, []⟩ =
      (some none,
        ⟨{ commentedTracker with
            comments :=
              [(lit "10001", sampleSyncedComment), (lit "10001", sampleManualComment),
                (lit "10001", sampleOrphanComment),
                (lit "10001",
                  { JiraComment.zero with
                    ID := lit "20004"
                    Body := jiraIssueCommentFormat sampleServer.markdown sampleSecondComment.Body
                      (extractGithubIssueCommentOptions sampleServer sampleSecondComment) })]
            next := 20005 },
          [(.GetComments (lit "10001"), none),
            (.UpdateComment (lit "10001") sampleSyncedComment, none),
            (.AddComment (lit "10001")
              { JiraComment.zero with
                Body := jiraIssueCommentFormat sampleServer.markdown sampleSecondComment.Body
                  (extractGithubIssueCommentOptions sampleServer sampleSecondComment) }, none)]⟩) :=
  ⟨(comments_synced_with_source_comments scripted sampleGithub sampleServer 1 sampleJiraIssue
      { sampleIssue with Comments := 2 } (lit "tidb")
      (scriptWorld [.comments [sampleSyncedComment, sampleManualComment, sampleOrphanComment],
        .fail ⟨lit "forbidden"⟩, .done]) _ _ _ (by decide) rfl rfl).2.1,
    (comments_synced_with_source_comments scripted sampleGithub sampleServer 1 sampleJiraIssue
      { sampleIssue with Comments := 2 } (lit "tidb")
      (scriptWorld [.comments [sampleSyncedComment, sampleManualComment, sampleOrphanComment],
        .fail ⟨lit "forbidden"⟩, .done]) _ _ _ (by decide) rfl rfl).2.2.2,
    (comments_synced_with_source_comments (memTracker (lit "10109") sampleWorkflow) sampleGithub
      sampleServer 1 sampleJiraIssue { sampleIssue with Comments := 2 } (lit "tidb")
      ⟨commentedTracker, []⟩ _ _ _ (by decide) rfl rfl).2.2.2⟩


/-! ### The creation pass of the reconciliation -/

/-- C17, evaluation at the failing input. Two source issues are listed; the first has an
assignee without entry in `AssigneeMap`, so its projection has no assignee.  Its lookup
finds nothing, and the tracker answers the creation with an error matching
`reAssigneeError`: the creation panics on the warning of the retry, the creation pass and
the whole reconciliation pass end with that panic, and the second issue is never looked
up, although the tracker had answers left for it. -/
theorem creation_pass_panic_skips_rest :
    (jiraIssueOpenFormat sampleServer 42 (lit "tidb") (lit "T") (lit "B")
        (extractGithubIssueOptions sampleServer sampleUnmappedIssue)).Fields.Assignee = none ∧
      compareSyncIssues_createPass scripted sampleServer 3 (lit "tidb")
        [sampleUnmappedIssue, { sampleIssue with ID := 43, Number := 8 }]
        (scriptWorld [.issues [], .fail sampleDefaultAssigneeError, .issues [],
          .issue sampleJiraIssue]) =
        (some .panic,
          ⟨[.issues [], .issue sampleJiraIssue],
            [(.Search (findIssueJQL sampleServer (lit "TIDB") 42), none),
              (.Create (jiraIssueOpenFormat sampleServer 42 (lit "tidb") (lit "T") (lit "B")
                (extractGithubIssueOptions sampleServer sampleUnmappedIssue)),
                some sampleDefaultAssigneeError)]⟩) ∧
      (compareSyncIssues scripted sampleTwoIssueGithub sampleClock sampleServer 3 [lit "tidb"]
        (scriptWorld [.issues [], .fail sampleDefaultAssigneeError, .issues [],
          .issue sampleJiraIssue]) sampleFile).1 = some .panic ∧
      (compareSyncIssues scripted sampleTwoIssueGithub sampleClock sampleServer 3 [lit "tidb"]
        (scriptWorld [.issues [], .fail sampleDefaultAssigneeError, .issues [],
          .issue sampleJiraIssue]) sampleFile).2.1.log =
        [(.Search (findIssueJQL sampleServer (lit "TIDB") 42), none),
          (.Create (jiraIssueOpenFormat sampleServer 42 (lit "tidb") (lit "T") (lit "B")
            (extractGithubIssueOptions sampleServer sampleUnmappedIssue)),
            some sampleDefaultAssigneeError)] :=
  ⟨rfl, rfl, rfl, rfl⟩

/-- The steps of the creation pass, which handles the listed source issues one after the
other in list order.  For the first issue of the list: when its lookup finds the target
issue, or fails with an error whose message is not `Issue not exists`, no creation is
attempted and the pass goes on with the rest from the state after the lookup; when the
lookup's error has the message `Issue not exists`, the creation is attempted, its first
call being the creation of the projected issue, and when it returns, an issue or an error,
the pass goes on with the rest from the state after it.  With fuel `2` or more the pass
ends; when it ends by returning, its lookups are those of the listed issues, one each, in
list order. -/
theorem creation_pass_in_order {σ : Type} (c : JiraClient σ) (s : Server) (fuel : Nat)
    (repoName : GoString) (githubIssue : GithubIssue) (rest issues : List GithubIssue)
    (w : World σ) :
    (∀ jiraIssue w1,
        findIssue c s (s.Config.repo repoName).JiraProjectKey githubIssue.ID w =
          (.ok jiraIssue, w1) →
        compareSyncIssues_createPass c s fuel repoName (githubIssue :: rest) w =
          compareSyncIssues_createPass c s fuel repoName rest w1) ∧
      (∀ err w1,
        findIssue c s (s.Config.repo repoName).JiraProjectKey githubIssue.ID w =
          (.error err, w1) →
        err.msg ≠ lit "Issue not exists" →
        compareSyncIssues_createPass c s fuel repoName (githubIssue :: rest) w =
          compareSyncIssues_createPass c s fuel repoName rest w1) ∧
      (∀ err w1,
        findIssue c s (s.Config.repo repoName).JiraProjectKey githubIssue.ID w =
          (.error err, w1) →
        err.msg = lit "Issue not exists" →
        (0 < fuel →
          ∃ e l, (compareSyncIssuesCreate c s fuel githubIssue repoName w1).2.log =
            w1.log ++ (.Create (jiraIssueOpenFormat s githubIssue.ID repoName githubIssue.Title
              githubIssue.Body (extractGithubIssueOptions s githubIssue)), e) :: l) ∧
        (∀ r w2, compareSyncIssuesCreate c s fuel githubIssue repoName w1 = (some (.ret r), w2) →
          compareSyncIssues_createPass c s fuel repoName (githubIssue :: rest) w =
            compareSyncIssues_createPass c s fuel repoName rest w2)) ∧
      (2 ≤ fuel → (compareSyncIssues_createPass c s fuel repoName issues w).1 ≠ none) ∧
      ((compareSyncIssues_createPass c s fuel repoName issues w).1 = some (.ret ()) →
        searchesOf ((compareSyncIssues_createPass c s fuel repoName issues w).2.log.drop
          w.log.length) =
          issues.map (fun githubIssue =>
            findIssueJQL s (s.Config.repo repoName).JiraProjectKey githubIssue.ID)) := by
  refine ⟨?_, ?_, ?_, ?_, ?_⟩
  · intro jiraIssue w1 h
    rw [compareSyncIssues_createPass, compareSyncIssues_createStep, h]
  · intro err w1 h hm
    rw [compareSyncIssues_createPass, compareSyncIssues_createStep, h]
    simp only [hm, if_false]
  · intro err w1 h hm
    constructor
    · intro hf
      obtain ⟨n, rfl⟩ := Nat.exists_eq_succ_of_ne_zero (Nat.pos_iff_ne_zero.mp hf)
      exact compareSyncIssuesCreate_first c s n githubIssue repoName w1
    · intro r w2 hc
      rw [compareSyncIssues_createPass, compareSyncIssues_createStep, h]
      simp only [hm, if_true, hc]
  · intro hf
    obtain ⟨n, rfl⟩ := Nat.exists_eq_add_of_le hf
    rw [Nat.add_comm]
    exact (compareSyncIssues_createPass_total c s n repoName issues w).1
  · intro h
    obtain ⟨l, hl, hs⟩ := compareSyncIssues_createPass_searches c s fuel repoName issues w h
    rw [hl, List.drop_left]
    exact hs

/-- Two source issues on an empty tracker: both lookups find nothing, both target issues
are created, in list order. -/
theorem creation_pass_in_order_witness :
    searchesOf ((compareSyncIssues_createPass (memTracker (lit "10109") sampleWorkflow)
        sampleServer 2 (lit "tidb") [sampleIssue, { sampleIssue with ID := 43 }]
        ⟨emptyTracker, []⟩).2.log.drop 0) =
        [findIssueJQL sampleServer (lit "TIDB") 42, findIssueJQL sampleServer (lit "TIDB") 43] ∧
      (compareSyncIssues_createPass (memTracker (lit "10109") sampleWorkflow)
        sampleServer 2 (lit "tidb") [sampleIssue, { sampleIssue with ID := 43 }]
        ⟨emptyTracker, []⟩).2.tracker.issues.map
          (fun x => mapGet x.Fields.Unknowns (lit "customfield_10109")) =
        [some (.int 42), some (.int 43)] :=
  ⟨(creation_pass_in_order (memTracker (lit "10109") sampleWorkflow) sampleServer 2 (lit "tidb")
      sampleIssue [] [sampleIssue, { sampleIssue with ID := 43 }] ⟨emptyTracker, []⟩).2.2.2.2 rfl,
    rfl⟩


/-! ### The return value of a reconciliation pass -/

/-- C26. `shrinkString` is idempotent for a fixed maximum: shrinking a shrunk text with the
same maximum changes nothing, although a truncated result is itself longer than the
maximum (it is the first `n` bytes followed by the notice, and shrinking it again cuts it
at `n` and appends the notice again). -/
theorem shrinkString_idempotent (s : GoString) (n : Nat) :
    shrinkString (shrinkString s n) n = shrinkString s n ∧
      (n < s.length → n < (shrinkString s n).length) := by
  by_cases h : n < s.length
  · have hlen : (s.take n).length = n := by
      simp [List.length_take, Nat.min_eq_left (Nat.le_of_lt h)]
    have hs : shrinkString s n = s.take n ++ shrinkNotice := by
      simp [shrinkString, h]
    have hpos : 0 < shrinkNotice.length := by decide
    have hlong : n < (s.take n ++ shrinkNotice).length := by
      rw [List.length_append, hlen]
      omega
    refine ⟨?_, fun _ => by rw [hs]; exact hlong⟩
    rw [hs]
    unfold shrinkString
    rw [if_pos hlong, List.take_append_of_le_length (by omega), List.take_take, Nat.min_self]
  · refine ⟨?_, fun h2 => absurd h2 h⟩
    have hs : shrinkString s n = s := by simp [shrinkString, h]
    rw [hs, hs]

/-- C23. With the converter a function from a text to a converted text or a failure:
`jiraMarkdownTransform` returns the converted text shrunk to `30000` and no error when
the converter succeeds, and the raw body shrunk to `30000` with the converter's error
when it fails.  In both cases the formatters are built from the returned text: the issue
body is that text followed by a footer that does not depend on the body, the comment body
is a header that does not depend on the body, followed by that text and a newline; the
error is dropped. -/
theorem jiraMarkdownTransform_fallback (s : Server) (markdown : Converter) (body : GoString)
    (o : githubIssueOptions) (oc : githubIssueCommentOptions) :
    (∀ converted, markdown body = .ok converted →
        jiraMarkdownTransform markdown body = (shrinkString converted 30000, none)) ∧
      (∀ err, markdown body = .error err →
        jiraMarkdownTransform markdown body = (shrinkString body 30000, some err)) ∧
      (∃ footer, ∀ b, jiraIssueBodyFormat s b o = (jiraMarkdownTransform s.markdown b).1 ++ footer) ∧
      (∃ header, ∀ b, jiraIssueCommentFormat markdown b oc =
        header ++ (jiraMarkdownTransform markdown b).1 ++ lit "\n") ∧
      (∀ err, s.markdown body = .error err →
        ∃ footer, jiraIssueBodyFormat s body o = shrinkString body 30000 ++ footer) ∧
      (∀ err, markdown body = .error err →
        ∃ header, jiraIssueCommentFormat markdown body oc =
          header ++ shrinkString body 30000 ++ lit "\n") := by
  have hbody : ∃ footer, ∀ b,
      jiraIssueBodyFormat s b o = (jiraMarkdownTransform s.markdown b).1 ++ footer := by
    refine ⟨lit "\n" ++ lit "\n----\n" ++ lit "\n" ++
      (if o.githubIssueUserName.length > 0 then
        lit "Create issue [(#" ++ o.githubIssueNumber ++ lit ")|" ++ o.githubIssueLink ++
          lit "] from GitHub user [" ++ o.githubIssueUserLogin ++ lit "|" ++
          o.githubIssueUserLink ++ lit "]" ++ lit " (" ++ o.githubIssueUserName ++ lit ")"
      else
        lit "Create issue [(#" ++ o.githubIssueNumber ++ lit ")|" ++ o.githubIssueLink ++
          lit "] from GitHub user [" ++ o.githubIssueUserLogin ++ lit "|" ++
          o.githubIssueUserLink ++ lit "]") ++ lit " at " ++ o.githubIssueTime, fun b => ?_⟩
    unfold jiraIssueBodyFormat
    simp only [List.append_assoc]
  have hcomment : ∃ header, ∀ b, jiraIssueCommentFormat markdown b oc =
      header ++ (jiraMarkdownTransform markdown b).1 ++ lit "\n" := by
    refine ⟨(if oc.githubIssueCommentUserName.length > 0 then
        lit "Comment [(ID " ++ oc.githubIssueCommentID ++ lit ")|" ++
          oc.githubIssueCommentLink ++ lit "] from GitHub user [" ++
          oc.githubIssueCommentUserLogin ++ lit "|" ++ oc.githubIssueCommentUserLink ++
          lit "]" ++ lit " (" ++ oc.githubIssueCommentUserName ++ lit ")"
      else
        lit "Comment [(ID " ++ oc.githubIssueCommentID ++ lit ")|" ++
          oc.githubIssueCommentLink ++ lit "] from GitHub user [" ++
          oc.githubIssueCommentUserLogin ++ lit "|" ++ oc.githubIssueCommentUserLink ++
          lit "]") ++ lit " at " ++ oc.githubIssueCommentTime ++ lit "\n" ++ lit "\n----\n" ++
        lit "\n", fun b => ?_⟩
    unfold jiraIssueCommentFormat
    simp only [List.append_assoc]
  refine ⟨?_, ?_, hbody, hcomment, ?_, ?_⟩
  · intro converted h
    simp [jiraMarkdownTransform, h]
  · intro err h
    simp [jiraMarkdownTransform, h]
  · intro err h
    obtain ⟨footer, hf⟩ := hbody
    refine ⟨footer, ?_⟩
    rw [hf body]
    simp [jiraMarkdownTransform, h]
  · intro err h
    obtain ⟨header, hh⟩ := hcomment
    refine ⟨header, ?_⟩
    rw [hh body]
    simp [jiraMarkdownTransform, h]

/-- C23, witness: a converter that fails on every text; the issue body is the raw body
followed by the footer. -/
theorem jiraMarkdownTransform_fallback_witness :
    jiraMarkdownTransform (fun _ => .error ⟨lit "exit status 1"⟩) (lit "B") =
        (lit "B", some ⟨lit "exit status 1"⟩) ∧
      jiraIssueBodyFormat { sampleServer with markdown := fun _ => .error ⟨lit "exit status 1"⟩ }
        (lit "B") (extractGithubIssueOptions sampleServer sampleIssue) =
        lit "B\n\n----\n\nCreate issue [(#7)|https://github.com/pingcap/tidb/issues/7] from GitHub user [bob|https://github.com/bob] at 10:00 AM, January 2 2020" :=
  ⟨(jiraMarkdownTransform_fallback sampleServer (fun _ => .error ⟨lit "exit status 1"⟩) (lit "B")
      (extractGithubIssueOptions sampleServer sampleIssue)
      (extractGithubIssueCommentOptions sampleServer sampleComment)).2.1 _ rfl,
    by decide⟩


/-! ### The absent assignee -/

/-- C27, evaluation at the failing input. The tracker holds the target issue of the source
issue, without assignee; the unassigned event names the login `alice`, which is mapped.
`handleIssueEventUnassign` resolves the issue and panics on its nil assignee pointer; the
only call made is the lookup. -/
theorem unassign_absent_assignee_panics :
    syncedTracker.issues.map (fun x => (x.ID, x.Fields.Assignee)) = [(lit "10001", none)] ∧
      mapGet sampleServer.Config.AssigneeMap sampleEvent.Assignee.Login = some (lit "alice.j") ∧
      (findIssue (memTracker (lit "10109") sampleWorkflow) sampleServer (lit "TIDB") 42
        ⟨syncedTracker, []⟩).1.toOption.map (fun x => (x.ID, x.Fields.Assignee)) =
        some (lit "10001", none) ∧
      handleIssueEventUnassign (memTracker (lit "10109") sampleWorkflow) sampleServer sampleEvent
        ⟨syncedTracker, []⟩ =
        (.panic, ⟨syncedTracker, [(.Search (findIssueJQL sampleServer (lit "TIDB") 42), none)]⟩) :=
  ⟨rfl, rfl, rfl, rfl⟩

/-- C28, evaluation at the failing inputs. First input: the source assignee `carol` is not
in `AssigneeMap`, so the projected issue has no assignee, and the tracker answers the
creation with an error matching `reAssigneeError`: `compareSyncIssuesCreate` panics when it
writes the warning of the retry, after one creation call.  Second input: the assignee is
mapped and the tracker answers the creation and the retry with such an error: the function
panics on the assignee it has cleared, after two creation calls. -/
theorem compareSyncIssuesCreate_absent_assignee_panics :
    (jiraIssueOpenFormat sampleServer 42 (lit "tidb") (lit "T") (lit "B")
        (extractGithubIssueOptions sampleServer sampleUnmappedIssue)).Fields.Assignee = none ∧
      reAssigneeError_MatchString sampleDefaultAssigneeError.msg = true ∧
      reAssigneeError_MatchString sampleAssigneeError.msg = true ∧
      compareSyncIssuesCreate scripted sampleServer 3 sampleUnmappedIssue (lit "tidb")
        (scriptWorld [.fail sampleDefaultAssigneeError, .issue sampleJiraIssue]) =
        (some .panic,
          ⟨[.issue sampleJiraIssue],
            [(.Create (jiraIssueOpenFormat sampleServer 42 (lit "tidb") (lit "T") (lit "B")
              (extractGithubIssueOptions sampleServer sampleUnmappedIssue)),
              some sampleDefaultAssigneeError)]⟩) ∧
      compareSyncIssuesCreate scripted sampleServer 3 sampleIssue (lit "tidb")
        (scriptWorld [.fail sampleAssigneeError, .fail sampleAssigneeError,
          .issue sampleJiraIssue]) =
        (some .panic,
          ⟨[.issue sampleJiraIssue],
            [(.Create (jiraIssueOpenFormat sampleServer 42 (lit "tidb") (lit "T") (lit "B")
                (extractGithubIssueOptions sampleServer sampleIssue)), some sampleAssigneeError),
              (.Create (withoutAssignee (jiraIssueOpenFormat sampleServer 42 (lit "tidb")
                (lit "T") (lit "B") (extractGithubIssueOptions sampleServer sampleIssue))),
                some sampleAssigneeError)]⟩) :=
  ⟨rfl, by decide, by decide, rfl, rfl⟩


/-! ### The bulk update of a target issue -/

/-- C29. `compareSyncIssuesUpdate` returns an error exactly when its first call, the update
of title and description, fails: it then returns that error and makes no other call.  When
that update succeeds it returns no error, and its calls are, whatever their outcomes: the
assignee push; the transitions of the status sync, which end at the first one that fails;
the category update, present or not by the labels and the current category alone; and,
last and always, the component update. -/
theorem bulk_update_return {σ : Type} (c : JiraClient σ) (s : Server) (jiraIssue : JiraIssue)
    (githubIssue : GithubIssue) (repoName : GoString) (w : World σ) :
    ((compareSyncIssuesUpdate c s jiraIssue githubIssue repoName w).1 ≠ none ↔
        ∃ err, (c.Update (jiraIssueUpdateFormat s jiraIssue.ID jiraIssue.Key githubIssue.Title
          githubIssue.Body (extractGithubIssueOptions s githubIssue)) w.tracker).1 =
          .error err) ∧
      (∀ err, (c.Update (jiraIssueUpdateFormat s jiraIssue.ID jiraIssue.Key githubIssue.Title
          githubIssue.Body (extractGithubIssueOptions s githubIssue)) w.tracker).1 =
          .error err →
        (compareSyncIssuesUpdate c s jiraIssue githubIssue repoName w).1 = some err ∧
        (compareSyncIssuesUpdate c s jiraIssue githubIssue repoName w).2.log =
          w.log ++ [(.Update (jiraIssueUpdateFormat s jiraIssue.ID jiraIssue.Key
            githubIssue.Title githubIssue.Body (extractGithubIssueOptions s githubIssue)),
            some err)]) ∧
      (∀ resp, (c.Update (jiraIssueUpdateFormat s jiraIssue.ID jiraIssue.Key githubIssue.Title
          githubIssue.Body (extractGithubIssueOptions s githubIssue)) w.tracker).1 =
          .ok resp →
        (compareSyncIssuesUpdate c s jiraIssue githubIssue repoName w).1 = none ∧
        ∃ eA T Cat eC,
          (compareSyncIssuesUpdate c s jiraIssue githubIssue repoName w).2.log =
            w.log ++
              [(.Update (jiraIssueUpdateFormat s jiraIssue.ID jiraIssue.Key githubIssue.Title
                  githubIssue.Body (extractGithubIssueOptions s githubIssue)), none),
                (.UpdateAssignee jiraIssue.ID (bulkAssignee s githubIssue), eA)] ++ T ++ Cat ++
              [(.Update (componentsUpdate jiraIssue (bulkComponents s repoName githubIssue)),
                eC)] ∧
          (∀ x ∈ T, ∃ t, x.1 = JiraCall.DoTransition jiraIssue.ID t) ∧
          Cat.map Prod.fst =
            (if toUpdateIssueTypeName s repoName jiraIssue githubIssue = [] then []
              else [JiraCall.Update (categoryUpdate jiraIssue
                (toUpdateIssueTypeName s repoName jiraIssue githubIssue))])) := by
  have herr : ∀ err, (c.Update (jiraIssueUpdateFormat s jiraIssue.ID jiraIssue.Key
      githubIssue.Title githubIssue.Body (extractGithubIssueOptions s githubIssue))
      w.tracker).1 = .error err →
      (compareSyncIssuesUpdate c s jiraIssue githubIssue repoName w).1 = some err ∧
      (compareSyncIssuesUpdate c s jiraIssue githubIssue repoName w).2.log =
        w.log ++ [(.Update (jiraIssueUpdateFormat s jiraIssue.ID jiraIssue.Key
          githubIssue.Title githubIssue.Body (extractGithubIssueOptions s githubIssue)),
          some err)] := by
    intro err h
    unfold compareSyncIssuesUpdate
    simp [IssueUpdate, h, errOf]
  have hok : ∀ resp, (c.Update (jiraIssueUpdateFormat s jiraIssue.ID jiraIssue.Key
      githubIssue.Title githubIssue.Body (extractGithubIssueOptions s githubIssue))
      w.tracker).1 = .ok resp →
      IssueUpdate c (jiraIssueUpdateFormat s jiraIssue.ID jiraIssue.Key githubIssue.Title
        githubIssue.Body (extractGithubIssueOptions s githubIssue)) w =
        (.ok resp, (IssueUpdate c (jiraIssueUpdateFormat s jiraIssue.ID jiraIssue.Key
          githubIssue.Title githubIssue.Body (extractGithubIssueOptions s githubIssue)) w).2) := by
    intro resp h
    simp only [IssueUpdate, h]
  refine ⟨?_, herr, ?_⟩
  · constructor
    · intro hne
      cases h : (c.Update (jiraIssueUpdateFormat s jiraIssue.ID jiraIssue.Key githubIssue.Title
          githubIssue.Body (extractGithubIssueOptions s githubIssue)) w.tracker).1 with
      | error err => exact ⟨err, rfl⟩
      | ok resp =>
        rw [compareSyncIssuesUpdate_ok c s jiraIssue githubIssue repoName w _ resp
          (hok resp h)] at hne
        exact absurd rfl hne
    · rintro ⟨err, h⟩
      rw [(herr err h).1]
      simp
  · intro resp h
    refine ⟨?_, compareSyncIssuesUpdate_log c s jiraIssue githubIssue repoName w _ resp
      (hok resp h)⟩
    rw [compareSyncIssuesUpdate_ok c s jiraIssue githubIssue repoName w _ resp (hok resp h)]

/-- C29, witness: the first update succeeds, then the assignee push, the first transition,
the category update and the component update all fail: every one of them is still issued
(the second transition is not, the status sync having ended), and no error is returned. -/
theorem bulk_update_return_witness :
    compareSyncIssuesUpdate scripted sampleServer sampleJiraIssue sampleClosedIssue (lit "tidb")
        (scriptWorld [.issue sampleJiraIssue, .fail ⟨lit "e1"⟩, .fail ⟨lit "e2"⟩,
          .fail ⟨lit "e3"⟩, .fail ⟨lit "e4"⟩]) =
      (none,
        ⟨[],
          [(.Update (jiraIssueUpdateFormat sampleServer (lit "10001") (lit "TIDB-1") (lit "T")
              (lit "B") (extractGithubIssueOptions sampleServer sampleClosedIssue)), none),
            (.UpdateAssignee (lit "10001") (some ⟨lit "alice.j"⟩), some ⟨lit "e1"⟩),
            (.DoTransition (lit "10001") (lit "21"), some ⟨lit "e2"⟩),
            (.Update (categoryUpdate sampleJiraIssue (lit "Bug")), some ⟨lit "e3"⟩),
            (.Update (componentsUpdate sampleJiraIssue [⟨lit "general"⟩]),
              some ⟨lit "e4"⟩)]⟩) ∧
      (compareSyncIssuesUpdate scripted sampleServer sampleJiraIssue sampleClosedIssue
        (lit "tidb") (scriptWorld [.fail ⟨lit "forbidden"⟩, .done])).1 =
        some ⟨lit "forbidden"⟩ :=
  ⟨rfl,
    ((bulk_update_return scripted sampleServer sampleJiraIssue sampleClosedIssue (lit "tidb")
      (scriptWorld [.fail ⟨lit "forbidden"⟩, .done])).2.1 ⟨lit "forbidden"⟩ rfl).1⟩


/-- C21 (as stated, refuted). A pass over the repository `tikv`, whose issues cannot be
listed, returns the error of the listing; the watermark file, which held `1577000000`,
holds the time of the end of the pass afterwards. -/
theorem watermark_written_after_failed_pass :
    (compareSyncIssues scripted sampleGithub sampleClock sampleTwoRepoServer 2 [lit "tikv"]
        (scriptWorld []) sampleStoredFile).1 = some (.ret (some ⟨lit "404 Not Found"⟩)) ∧
      sampleStoredFile.content = .ok (lit "1577000000") ∧
      (compareSyncIssues scripted sampleGithub sampleClock sampleTwoRepoServer 2 [lit "tikv"]
        (scriptWorld []) sampleStoredFile).2.2.content = .ok (lit "1577959200") :=
  ⟨rfl, rfl, rfl⟩

/-- C21 (as amended). The watermark is the time at which the last pass ended, successful
or not: whenever `compareSyncIssues` returns, with an error or without, it has written the
current time to the watermark file as its last step; when the write succeeds the file
holds that time, and a next pass that reads the file starts its query window one day
before it.  The pass does return when the fuel is `2` or more, every listing ends within
it, and the tracker rejects an assignee only on a creation that has one. -/
theorem watermark_written {σ : Type} (c : JiraClient σ) (g : GithubClient) (k : Clock)
    (s : Server) (fuel : Nat) (repoNames : List GoString) (w : World σ) (f : SyncFile) :
    (∀ e, (compareSyncIssues c g k s fuel repoNames w f).1 = some (.ret e) →
        (compareSyncIssues c g k s fuel repoNames w f).2.2 = (WriteFile (k.Format k.Now) f).2 ∧
        (f.writeError = none →
          (compareSyncIssues c g k s fuel repoNames w f).2.2.content = .ok (k.Format k.Now)) ∧
        (f.writeError = none →
          ∀ (s2 : Server) (k2 : Clock) (t : Int), s2.Config.UseLastSyncTimeFile = true →
            k2.Parse (k.Format k.Now) = .ok t →
            (readLastSyncTime s2 k2
              (compareSyncIssues c g k s fuel repoNames w f).2.2).Config.GithubIssueSince =
              k2.AddDate t 0 0 (-1))) ∧
      (2 ≤ fuel → RejectsAssigneeOnlyWhenSet c →
        (∀ repoName ∈ repoNames,
          (getGithubIssuesByRepo g (readLastSyncTime s k f) fuel
            ((readLastSyncTime s k f).Config.repo repoName).GithubOwner repoName).isSome = true) →
        (∀ owner repo number,
          (getGithubIssueComments g (readLastSyncTime s k f) fuel owner repo number).isSome =
            true) →
        (compareSyncIssues c g k s fuel repoNames w f).2.2 = (WriteFile (k.Format k.Now) f).2) := by
  have hret : ∀ e, (compareSyncIssues c g k s fuel repoNames w f).1 = some (.ret e) →
      (compareSyncIssues c g k s fuel repoNames w f).2.2 = (WriteFile (k.Format k.Now) f).2 := by
    intro e h
    unfold compareSyncIssues at h ⊢
    simp only at h ⊢
    cases hr : compareSyncIssues_repos c g (readLastSyncTime s k f) fuel repoNames none w with
    | mk o w1 =>
      rw [hr] at h
      rcases o with _ | v | _
      · cases h
      · rfl
      · cases h
  constructor
  · intro e h
    refine ⟨hret e h, ?_, ?_⟩
    · intro hw
      rw [hret e h]
      simp [WriteFile, hw]
    · intro hw s2 k2 t hflag hparse
      rw [hret e h]
      simp [readLastSyncTime, ReadFile, WriteFile, hw, hflag, hparse]
  · intro hf hc hlist hcomments
    obtain ⟨n, rfl⟩ := Nat.exists_eq_add_of_le hf
    rw [Nat.add_comm] at hlist hcomments hret ⊢
    have h1 := compareSyncIssues_repos_total c g (readLastSyncTime s k f) n repoNames hc
      hcomments hlist none w
    apply hret (lastListingError g (readLastSyncTime s k f) (n + 2) repoNames none)
    unfold compareSyncIssues
    simp only
    cases hr : compareSyncIssues_repos c g (readLastSyncTime s k f) (n + 2) repoNames none w with
    | mk o w1 =>
      rw [hr] at h1
      simp only at h1
      subst h1
      rfl

/-- C21, witness: the failed pass over `tikv`, and a pass over `tidb` that returns no error:
both leave the time of their end in the file. -/
theorem watermark_written_witness :
    (compareSyncIssues scripted sampleGithub sampleClock sampleTwoRepoServer 2 [lit "tikv"]
        (scriptWorld []) sampleStoredFile).2.2.content = .ok (sampleClock.Format sampleClock.Now) ∧
      (compareSyncIssues (memTracker (lit "10109") sampleWorkflow) sampleGithub sampleClock
        sampleTwoRepoServer 2 [lit "tidb"] ⟨emptyTracker, []⟩ sampleStoredFile).2.2 =
        (WriteFile (sampleClock.Format sampleClock.Now) sampleStoredFile).2 :=
  ⟨((watermark_written scripted sampleGithub sampleClock sampleTwoRepoServer 2 [lit "tikv"]
      (scriptWorld []) sampleStoredFile).1 _ rfl).2.1 rfl,
    (watermark_written (memTracker (lit "10109") sampleWorkflow) sampleGithub sampleClock
      sampleTwoRepoServer 2 [lit "tidb"] ⟨emptyTracker, []⟩ sampleStoredFile).2 (by decide)
      (memTracker_rejectsAssigneeOnlyWhenSet _ _) (by decide) (fun _ _ _ => rfl)⟩


/-- C22 (as stated, refuted). First: with the configuration of `NewConfig`, in which
`use-lastsynctimefile` is off, the watermark file is present and parses, and
`readLastSyncTime` leaves the lower bound at three months before now, not at the stored
time minus one day.  Second: the option is on, the file is absent and the configuration
sets the lower bound `1500000000`; the bound stays `1500000000`, which is not three months
before now. -/
theorem watermark_file_not_read :
    (NewConfig sampleClock).UseLastSyncTimeFile = false ∧
      ReadFile sampleStoredFile = .ok (lit "1577000000") ∧
      sampleClock.Parse (lit "1577000000") = .ok 1577000000 ∧
      (readLastSyncTime { sampleServer with Config := NewConfig sampleClock } sampleClock
        sampleStoredFile).Config.GithubIssueSince = sampleClock.AddDate sampleClock.Now 0 (-3) 0 ∧
      sampleClock.AddDate sampleClock.Now 0 (-3) 0 ≠ sampleClock.AddDate 1577000000 0 0 (-1) ∧
      (readLastSyncTime
        { sampleServer with
          Config :=
            { sampleServer.Config with
              UseLastSyncTimeFile := true
              GithubIssueSince := 1500000000 } } sampleClock
        sampleFile).Config.GithubIssueSince = 1500000000 ∧
      (1500000000 : Int) ≠ sampleClock.AddDate sampleClock.Now 0 (-3) 0 :=
  ⟨rfl, rfl, rfl, rfl, by decide, rfl, by decide⟩

/-- C22 (as amended). Watermark read: when `use-lastsynctimefile` is on and the watermark
file is read and parses as an RFC 3339 time, `readLastSyncTime` sets the lower bound
`GithubIssueSince` to that time minus one day and changes nothing else; in every other
case (the option is off, the file cannot be read, its content does not parse) it changes
nothing, so the pass does not fail and the bound keeps its configured value, which
`NewConfig` initialises to three months before the start of the program, the option being
off.  `compareSyncIssues` starts with this read, and the bound is the `Since` of the first
page request of every listing of the pass. -/
theorem watermark_read (s : Server) (k : Clock) (f : SyncFile) :
    (∀ b t, s.Config.UseLastSyncTimeFile = true → ReadFile f = .ok b → k.Parse b = .ok t →
        readLastSyncTime s k f =
          { s with Config := { s.Config with GithubIssueSince := k.AddDate t 0 0 (-1) } }) ∧
      (s.Config.UseLastSyncTimeFile = false → readLastSyncTime s k f = s) ∧
      (∀ err, ReadFile f = .error err → readLastSyncTime s k f = s) ∧
      (∀ b err, ReadFile f = .ok b → k.Parse b = .error err → readLastSyncTime s k f = s) ∧
      ((NewConfig k).GithubIssueSince = k.AddDate k.Now 0 (-3) 0 ∧
        (NewConfig k).UseLastSyncTimeFile = false) ∧
      (∀ (g : GithubClient) (n : Nat) (owner repoName : GoString),
        (∀ err, g.ListByRepo owner repoName
            ⟨(readLastSyncTime s k f).Config.GithubIssueSince, lit "all", lit "created",
              lit "asc", ⟨1, 100⟩⟩ = .error err →
          getGithubIssuesByRepo g (readLastSyncTime s k f) (n + 1) owner repoName =
            some (.error err)) ∧
        (∀ resp, g.ListByRepo owner repoName
            ⟨(readLastSyncTime s k f).Config.GithubIssueSince, lit "all", lit "created",
              lit "asc", ⟨1, 100⟩⟩ = .ok resp →
          resp.NextPage = 0 →
          getGithubIssuesByRepo g (readLastSyncTime s k f) (n + 1) owner repoName =
            some (.ok (resp.items.filter (fun i => !i.IsPullRequest))))) ∧
      (∀ (σ : Type) (c : JiraClient σ) (g : GithubClient) (fuel : Nat)
          (repoNames : List GoString) (w : World σ),
        (compareSyncIssues c g k s fuel repoNames w f).1 =
          (compareSyncIssues_repos c g (readLastSyncTime s k f) fuel repoNames none w).1) := by
  refine ⟨?_, ?_, ?_, ?_, ⟨rfl, rfl⟩, ?_, ?_⟩
  · intro b t hflag hread hparse
    simp [readLastSyncTime, hflag, hread, hparse]
  · intro hflag
    simp [readLastSyncTime, hflag]
  · intro err hread
    unfold readLastSyncTime
    split
    · rw [hread]
    · rfl
  · intro b err hread hparse
    unfold readLastSyncTime
    split
    · rw [hread]
      simp only [hparse]
    · rfl
  · intro g n owner repoName
    exact getGithubIssuesByRepo_first g (readLastSyncTime s k f) n owner repoName
  · intro σ c g fuel repoNames w
    unfold compareSyncIssues
    simp only
    cases hr : compareSyncIssues_repos c g (readLastSyncTime s k f) fuel repoNames none w with
    | mk o w1 =>
      rcases o with _ | v | _ <;> rfl

/-- C22, witness: the option is on and the file holds `1577000000`; the lower bound becomes
that time minus one day. -/
theorem watermark_read_witness :
    (readLastSyncTime
        { sampleServer with Config := { sampleServer.Config with UseLastSyncTimeFile := true } }
        sampleClock sampleStoredFile).Config.GithubIssueSince = 1577000000 - 86400 ∧
      readLastSyncTime sampleServer sampleClock sampleStoredFile = sampleServer :=
  ⟨congrArg (fun x => x.Config.GithubIssueSince)
      ((watermark_read
        { sampleServer with Config := { sampleServer.Config with UseLastSyncTimeFile := true } }
        sampleClock sampleStoredFile).1 (lit "1577000000") 1577000000 rfl rfl rfl),
    (watermark_read sampleServer sampleClock sampleStoredFile).2.1 rfl⟩

/-- A creation that the tracker rejects for an assignee whose name holds a line break is
not retried, the rejection not being matched by the assignee pattern; the issue is then
missing after every pass, and the next pass makes the creation call again, to the same
rejection.  The tracker stays as it was. -/
theorem second_pass_repeats_rejected_creation :
    (compareSyncIssues (memTracker (lit "10109") sampleWorkflow) sampleCommentedGithub
        sampleClock sampleLineBreakServer 2 [lit "tidb"] ⟨emptyTracker, []⟩ sampleFile).1 =
        some (.ret none) ∧
      (compareSyncIssues (memTracker (lit "10109") sampleWorkflow) sampleCommentedGithub
        sampleClock sampleLineBreakServer 2 [lit "tidb"] ⟨emptyTracker, []⟩
        sampleFile).2.1.tracker = emptyTracker ∧
      (compareSyncIssues (memTracker (lit "10109") sampleWorkflow) sampleCommentedGithub
        sampleLaterClock sampleLineBreakServer 2 [lit "tidb"] ⟨emptyTracker, []⟩
        (writeLastSyncTime sampleClock sampleFile)).2.1.tracker = emptyTracker ∧
      (compareSyncIssues (memTracker (lit "10109") sampleWorkflow) sampleCommentedGithub
        sampleLaterClock sampleLineBreakServer 2 [lit "tidb"] ⟨emptyTracker, []⟩
        (writeLastSyncTime sampleClock sampleFile)).2.1.log.filterMap
          (fun x => match x.1 with
            | .Create _ => some x.2
            | _ => none) =
        [some (assigneeError (lit "alice\nj"))] :=
  ⟨rfl, rfl, rfl, rfl⟩

/-- C7. Idempotence of reconciliation, on the tracker held in memory and with the issues
of a pass handled one after the other.  The field `GitHub ID` is resolved and is not the
field `GitHub URL`, the state `T` of the tracker is well formed, the source is well formed
for the first pass (its listings end, no two listed issues are looked up under the same
project key and identifier, the comments of a listing have distinct identifiers) and it
has not changed for the second pass, whose query window may start elsewhere.  Then the
first pass returns and writes the watermark; the second pass, run with the clock `k2` on
the tracker and the watermark file the first one left, returns as well and leaves the
tracker equal to what the first pass left: the same issues with the same fields, the same
comments with the same bodies.  Its log has no addition of a comment, and every creation
of an issue in it was rejected by the tracker: the second pass creates no issue and no
comment. -/
theorem reconciliation_idempotent (K : GoString) (workflow : GoString → Option GoString)
    (g : GithubClient) (k k2 : Clock) (s : Server) (fuel : Nat) (repoNames : List GoString)
    (T : Tracker) (f : SyncFile)
    (hK : mapGet s.Config.FieldIDs .gitHubID = some K)
    (hURL : mapGet s.Config.FieldIDs .gitHubURL ≠ some K)
    (hfuel : 2 ≤ fuel)
    (hT : WellFormed T)
    (hsrc : SourceWellFormed g (readLastSyncTime s k f) fuel repoNames)
    (hsame : SourceUnchanged g (readLastSyncTime s k f)
      (readLastSyncTime s k2 (writeLastSyncTime k f)) fuel repoNames) :
    (∃ e, (compareSyncIssues (memTracker K workflow) g k s fuel repoNames ⟨T, []⟩ f).1 =
        some (.ret e)) ∧
      (compareSyncIssues (memTracker K workflow) g k s fuel repoNames ⟨T, []⟩ f).2.2 =
        writeLastSyncTime k f ∧
      (∃ e, (compareSyncIssues (memTracker K workflow) g k2 s fuel repoNames
        ⟨(compareSyncIssues (memTracker K workflow) g k s fuel repoNames ⟨T, []⟩ f).2.1.tracker,
          []⟩
        (compareSyncIssues (memTracker K workflow) g k s fuel repoNames ⟨T, []⟩ f).2.2).1 =
        some (.ret e)) ∧
      (compareSyncIssues (memTracker K workflow) g k2 s fuel repoNames
        ⟨(compareSyncIssues (memTracker K workflow) g k s fuel repoNames ⟨T, []⟩ f).2.1.tracker,
          []⟩
        (compareSyncIssues (memTracker K workflow) g k s fuel repoNames ⟨T, []⟩
          f).2.2).2.1.tracker =
        (compareSyncIssues (memTracker K workflow) g k s fuel repoNames ⟨T, []⟩
          f).2.1.tracker ∧
      NothingCreated (compareSyncIssues (memTracker K workflow) g k2 s fuel repoNames
        ⟨(compareSyncIssues (memTracker K workflow) g k s fuel repoNames ⟨T, []⟩ f).2.1.tracker,
          []⟩
        (compareSyncIssues (memTracker K workflow) g k s fuel repoNames ⟨T, []⟩
          f).2.2).2.1.log := by
  obtain ⟨n, rfl⟩ := Nat.exists_eq_add_of_le hfuel
  rw [Nat.add_comm] at hsrc hsame ⊢
  obtain ⟨x1, hs1⟩ := readLastSyncTime_eq s k f
  obtain ⟨x2, hs2⟩ := readLastSyncTime_eq s k2 (writeLastSyncTime k f)
  rw [hs1] at hsrc hsame
  rw [hs2] at hsame
  -- the first pass
  have hK1 : mapGet ({ s with Config := { s.Config with GithubIssueSince := x1 } } :
      Server).Config.FieldIDs .gitHubID = some K := hK
  have hURL1 : mapGet ({ s with Config := { s.Config with GithubIssueSince := x1 } } :
      Server).Config.FieldIDs .gitHubURL ≠ some K := hURL
  have hK2 : mapGet ({ s with Config := { s.Config with GithubIssueSince := x2 } } :
      Server).Config.FieldIDs .gitHubID = some K := hK
  have htot1 := compareSyncIssues_repos_total (memTracker K workflow) g
    { s with Config := { s.Config with GithubIssueSince := x1 } } n repoNames
    (memTracker_rejectsAssigneeOnlyWhenSet K workflow) hsrc.commentsEnd hsrc.issuesEnd none
    ⟨T, []⟩
  obtain ⟨hwf1, hset1⟩ := memTracker_repos_establish K workflow
    { s with Config := { s.Config with GithubIssueSince := x1 } } hK1 hURL1 g n hsrc.comments
    hsrc.commentsEnd repoNames none ⟨T, []⟩ [] hT (fun _ h => by cases h) hsrc.distinct
    (fun _ _ _ h => by cases h) hsrc.issuesEnd
  have hfirst : compareSyncIssues (memTracker K workflow) g k s (n + 2) repoNames ⟨T, []⟩ f =
      (some (.ret (lastListingError g
          { s with Config := { s.Config with GithubIssueSince := x1 } } (n + 2) repoNames none)),
        (compareSyncIssues_repos (memTracker K workflow) g
          { s with Config := { s.Config with GithubIssueSince := x1 } } (n + 2) repoNames none
          ⟨T, []⟩).2,
        writeLastSyncTime k f) := by
    unfold compareSyncIssues
    simp only
    rw [hs1]
    cases hr : compareSyncIssues_repos (memTracker K workflow) g
        { s with Config := { s.Config with GithubIssueSince := x1 } } (n + 2) repoNames none
        ⟨T, []⟩ with
    | mk o w1 =>
      rw [hr] at htot1
      simp only at htot1
      subst htot1
      rfl
  rw [hfirst]
  simp only
  generalize hT1 : (compareSyncIssues_repos (memTracker K workflow) g
    { s with Config := { s.Config with GithubIssueSince := x1 } } (n + 2) repoNames none
    ⟨T, []⟩).2.tracker = T1 at hwf1 hset1 ⊢
  -- the second pass
  have hset2 : ∀ job ∈ passJobs g { s with Config := { s.Config with GithubIssueSince := x2 } }
      (n + 2) repoNames,
      Settled K workflow { s with Config := { s.Config with GithubIssueSince := x2 } } g (n + 2)
        job.1 job.2 T1 := by
    intro job hjob
    have hmem := passJobs_window g s (n + 2) x1 x2 repoNames hsame.issues job hjob
    exact Settled_window K workflow s g (n + 2) x1 x2 job.1 job.2 T1 hsame.comments
      (hset1 job (Or.inr hmem))
  have htot2 := compareSyncIssues_repos_total (memTracker K workflow) g
    { s with Config := { s.Config with GithubIssueSince := x2 } } n repoNames
    (memTracker_rejectsAssigneeOnlyWhenSet K workflow) hsame.commentsEnd hsame.issuesEnd none
    ⟨T1, []⟩
  obtain ⟨hno1, hno2⟩ := memTracker_repos_noop K workflow
    { s with Config := { s.Config with GithubIssueSince := x2 } } hK2 g n hsame.commentsEnd
    T1 hwf1 repoNames none [] hset2 hsame.issuesEnd
  have hsecond : compareSyncIssues (memTracker K workflow) g k2 s (n + 2) repoNames ⟨T1, []⟩
      (writeLastSyncTime k f) =
      (some (.ret (lastListingError g
          { s with Config := { s.Config with GithubIssueSince := x2 } } (n + 2) repoNames none)),
        (compareSyncIssues_repos (memTracker K workflow) g
          { s with Config := { s.Config with GithubIssueSince := x2 } } (n + 2) repoNames none
          ⟨T1, []⟩).2,
        writeLastSyncTime k2 (writeLastSyncTime k f)) := by
    unfold compareSyncIssues
    simp only
    rw [hs2]
    cases hr : compareSyncIssues_repos (memTracker K workflow) g
        { s with Config := { s.Config with GithubIssueSince := x2 } } (n + 2) repoNames none
        ⟨T1, []⟩ with
    | mk o w1 =>
      rw [hr] at htot2
      simp only at htot2
      subst htot2
      rfl
  rw [hsecond]
  exact ⟨⟨_, rfl⟩, trivial, ⟨_, rfl⟩, hno1, hno2 (fun _ h => by cases h)⟩

/-- The idempotence of reconciliation on an empty tracker, for a source with one issue and
its two comments and a server that reads its query window from the watermark file: the
first pass creates the issue `TIDB-10001` and its two comments and writes the watermark,
from which the second pass, an hour later, starts its window one day before the first
pass; the second pass leaves the tracker as it is and creates nothing. -/
theorem reconciliation_idempotent_witness :
    (compareSyncIssues (memTracker (lit "10109") sampleWorkflow) sampleCommentedGithub
        sampleClock sampleStoreServer 2 [lit "tidb"] ⟨emptyTracker, []⟩
        sampleFile).2.1.tracker.issues.map (fun i => i.Key) = [lit "TIDB-10001"] ∧
      (compareSyncIssues (memTracker (lit "10109") sampleWorkflow) sampleCommentedGithub
        sampleClock sampleStoreServer 2 [lit "tidb"] ⟨emptyTracker, []⟩
        sampleFile).2.1.tracker.comments.map (fun x => (x.1, x.2.ID)) =
        [(lit "10001", lit "10002"), (lit "10001", lit "10003")] ∧
      (compareSyncIssues (memTracker (lit "10109") sampleWorkflow) sampleCommentedGithub
        sampleClock sampleStoreServer 2 [lit "tidb"] ⟨emptyTracker, []⟩ sampleFile).2.2 =
        ⟨.ok (lit "1577959200"), none⟩ ∧
      (readLastSyncTime sampleStoreServer sampleLaterClock
        ⟨.ok (lit "1577959200"), none⟩).Config.GithubIssueSince = 1577872800 ∧
      (compareSyncIssues (memTracker (lit "10109") sampleWorkflow) sampleCommentedGithub
        sampleLaterClock sampleStoreServer 2 [lit "tidb"]
        ⟨(compareSyncIssues (memTracker (lit "10109") sampleWorkflow) sampleCommentedGithub
          sampleClock sampleStoreServer 2 [lit "tidb"] ⟨emptyTracker, []⟩
          sampleFile).2.1.tracker, []⟩
        (compareSyncIssues (memTracker (lit "10109") sampleWorkflow) sampleCommentedGithub
          sampleClock sampleStoreServer 2 [lit "tidb"] ⟨emptyTracker, []⟩
          sampleFile).2.2).2.1.tracker =
        (compareSyncIssues (memTracker (lit "10109") sampleWorkflow) sampleCommentedGithub
          sampleClock sampleStoreServer 2 [lit "tidb"] ⟨emptyTracker, []⟩
          sampleFile).2.1.tracker ∧
      NothingCreated (compareSyncIssues (memTracker (lit "10109") sampleWorkflow)
        sampleCommentedGithub sampleLaterClock sampleStoreServer 2 [lit "tidb"]
        ⟨(compareSyncIssues (memTracker (lit "10109") sampleWorkflow) sampleCommentedGithub
          sampleClock sampleStoreServer 2 [lit "tidb"] ⟨emptyTracker, []⟩
          sampleFile).2.1.tracker, []⟩
        (compareSyncIssues (memTracker (lit "10109") sampleWorkflow) sampleCommentedGithub
          sampleClock sampleStoreServer 2 [lit "tidb"] ⟨emptyTracker, []⟩
          sampleFile).2.2).2.1.log :=
  ⟨rfl, rfl, rfl, rfl,
    (reconciliation_idempotent (lit "10109") sampleWorkflow sampleCommentedGithub sampleClock
      sampleLaterClock sampleStoreServer 2 [lit "tidb"] emptyTracker sampleFile rfl (by decide) (by decide)
      emptyTracker_wellFormed sampleCommentedGithub_wellFormed sampleCommentedGithub_unchanged).2.2.2⟩

end SyncGithubJira
